import Mathlib

/-!
# Match action table configuration agent (`src/match.c`)

A shallow embedding of the command-line argument grammar and the typed
value codec of `match.c`, followed by the properties established for it.

Conventions of the embedding:

* C strings are `List Char`; a `char *` that may be `NULL` is an `Option`.
* `argv` is the list of the remaining tokens, the terminating `NULL` of the
  C vector being the end of the list.
* Unsigned machine integers are `Nat` reduced modulo `2 ^ width` where the
  C code truncates; `int` return codes are `Int`.
* Functions of libc (`strtoul`, `sscanf`, `strtok`) are modelled from the
  C standard for an LP64 little-endian Linux target.
* Functions of `matchlib` (the metadata repository, the netlink helpers)
  are not part of `match.c`; they are parameters of the embedding.
-/

set_option autoImplicit false

deriving instance DecidableEq for Except

namespace MatchCli

/-! ## Constants of `errno.h` and `limits.h` (Linux, LP64) -/

def ENOMEM : Int := 12
def EINVAL : Int := 22
def ERANGE : Int := 34
def ENOMSG : Int := 42
def EMSGSIZE : Int := 90

def ULONG_MAX : Nat := 2 ^ 64 - 1
def ULLONG_MAX : Nat := 2 ^ 64 - 1

/-! ## libc: numeric subject sequences -/

/-- The `isspace` of the C locale: space and the controls HT, LF, VT, FF, CR. -/
def isspace (c : Char) : Bool :=
  decide (c.toNat = 32) || (decide (9 ≤ c.toNat) && decide (c.toNat ≤ 13))

/-- Value of a character read as a digit in a base up to 36. -/
def digit_value (c : Char) : Option Nat :=
  if 48 ≤ c.toNat ∧ c.toNat ≤ 57 then some (c.toNat - 48)
  else if 97 ≤ c.toNat ∧ c.toNat ≤ 122 then some (c.toNat - 87)
  else if 65 ≤ c.toNat ∧ c.toNat ≤ 90 then some (c.toNat - 55)
  else none

/-- Whether the character is a digit of the given base. -/
def is_digit_in (base : Nat) (c : Char) : Bool :=
  match digit_value c with
  | some d => decide (d < base)
  | none => false

/-- The longest run of digits of `base` at the head of the input: the
accumulated (unbounded) value, the number of digits, and the rest. -/
def scan_digits (base : Nat) : List Char → Nat → Nat → Nat × Nat × List Char
  | [], acc, n => (acc, n, [])
  | c :: cs, acc, n =>
    match digit_value c with
    | some d =>
      if d < base then scan_digits base cs (acc * base + d) (n + 1)
      else (acc, n, c :: cs)
    | none => (acc, n, c :: cs)

/-- A converted subject sequence: sign, magnitude, unread rest. -/
structure subject where
  neg : Bool
  mag : Nat
  rest : List Char
deriving DecidableEq, Repr

/-- Skip leading white space. -/
def skip_space (s : List Char) : List Char := s.dropWhile isspace

/-- An optional `+` or `-`. -/
def take_sign : List Char → Bool × List Char
  | [] => (false, [])
  | c :: cs =>
    if c.toNat = 45 then (true, cs)
    else if c.toNat = 43 then (false, cs)
    else (false, c :: cs)

/-- The input after a leading `0x` or `0X` when a hexadecimal digit follows it. -/
def hex_lead : List Char → Option (List Char)
  | z :: x :: h :: cs =>
    if z.toNat = 48 ∧ (x.toNat = 120 ∨ x.toNat = 88) ∧ is_digit_in 16 h = true
    then some (h :: cs) else none
  | _ => none

/-- The base in force and the input at its first digit: base 0 selects 16
after `0x`, 8 after `0`, and 10 otherwise; base 16 may skip a `0x`. -/
def select_base (base : Nat) (s : List Char) : Nat × List Char :=
  if base = 0 ∨ base = 16 then
    match hex_lead s with
    | some r => (16, r)
    | none =>
      if base = 16 then (16, s)
      else
        match s with
        | [] => (10, s)
        | c :: _ => if c.toNat = 48 then (8, s) else (10, s)
  else (base, s)

/-- The subject sequence of the `strtol` family: white space, sign, base
marker, digits. `none` when no digit can be converted. -/
def parse_subject (base : Nat) (s : List Char) : Option subject :=
  match take_sign (skip_space s) with
  | (neg, s1) =>
    match select_base base s1 with
    | (b, s2) =>
      match scan_digits b s2 0 0 with
      | (acc, n, rest) => if n = 0 then none else some ⟨neg, acc, rest⟩

/-- What `strtoul` hands back: the value, `*endptr` and the `errno` it sets
(0 when it sets none). -/
structure strtoul_result where
  value : Nat
  end_p : List Char
  errno : Int
deriving DecidableEq, Repr

/-- The `strtoul` of libc with a 64-bit `unsigned long`: no conversion gives 0 with
`endptr = str`; a magnitude above `ULONG_MAX` gives `ULONG_MAX` and
`ERANGE`; a minus sign negates in the unsigned type. -/
def strtoul (str : List Char) (base : Nat) : strtoul_result :=
  match parse_subject base str with
  | none => ⟨0, str, 0⟩
  | some sub =>
    if sub.mag > ULONG_MAX then ⟨ULONG_MAX, sub.rest, ERANGE⟩
    else ⟨if sub.neg then (2 ^ 64 - sub.mag) % 2 ^ 64 else sub.mag, sub.rest, 0⟩

/-! ## Data model (`if_match.h`, as used by `match.c`) -/

/-- The attribute type of a field reference (`NET_MAT_FIELD_REF_ATTR_TYPE_*`). -/
inductive NET_MAT_FIELD_REF_ATTR_TYPE
  | UNSPEC | U8 | U16 | U32 | U64 | IN6
deriving DecidableEq, Repr

/-- The mask discipline of a match (`NET_MAT_MASK_TYPE_*`). -/
inductive NET_MAT_MASK_TYPE
  | UNSPEC | EXACT | LPM | MASK
deriving DecidableEq, Repr

/-- A header field of the pipeline model: the members `match.c` reads. -/
structure net_mat_field where
  name : String
  uid : Nat
  bitwidth : Nat
deriving DecidableEq, Repr

/-- An IPv6 address as its four 32-bit words `s6_addr32[0..3]`. -/
structure in6_addr where
  s6_addr32_0 : Nat
  s6_addr32_1 : Nat
  s6_addr32_2 : Nat
  s6_addr32_3 : Nat
deriving DecidableEq, Repr

/-- A match (`struct net_mat_field_ref`). The C union `v` is kept member by
member: `v.u8.value_u8` is `value_u8`, `v.in6.mask_in6` is `mask_in6`, and
so on; the members selected by `type` are the ones that carry meaning. -/
structure net_mat_field_ref where
  instance_id : Nat
  header : Nat
  field : Nat
  mask_type : NET_MAT_MASK_TYPE
  type : NET_MAT_FIELD_REF_ATTR_TYPE
  value_u8 : Nat
  mask_u8 : Nat
  value_u16 : Nat
  mask_u16 : Nat
  value_u32 : Nat
  mask_u32 : Nat
  value_u64 : Nat
  mask_u64 : Nat
  value_in6 : in6_addr
  mask_in6 : in6_addr
deriving DecidableEq, Repr

/-- The all-zero record left by `memset(matches, 0, ...)`. -/
def net_mat_field_ref.zero : net_mat_field_ref :=
  { instance_id := 0, header := 0, field := 0,
    mask_type := NET_MAT_MASK_TYPE.UNSPEC,
    type := NET_MAT_FIELD_REF_ATTR_TYPE.UNSPEC,
    value_u8 := 0, mask_u8 := 0, value_u16 := 0, mask_u16 := 0,
    value_u32 := 0, mask_u32 := 0, value_u64 := 0, mask_u64 := 0,
    value_in6 := ⟨0, 0, 0, 0⟩, mask_in6 := ⟨0, 0, 0, 0⟩ }

/-- The value member selected by the record's type, when it is a scalar type. -/
def net_mat_field_ref.value_of_type (m : net_mat_field_ref) : Option Nat :=
  match m.type with
  | .U8 => some m.value_u8
  | .U16 => some m.value_u16
  | .U32 => some m.value_u32
  | .U64 => some m.value_u64
  | _ => none

/-- The mask member selected by the record's type, when it is a scalar type. -/
def net_mat_field_ref.mask_of_type (m : net_mat_field_ref) : Option Nat :=
  match m.type with
  | .U8 => some m.mask_u8
  | .U16 => some m.mask_u16
  | .U32 => some m.mask_u32
  | .U64 => some m.mask_u64
  | _ => none

/-! ## Typed value codec -/

/-- The function `match_set_value_ll`: stores the low bits of `value` into the member
the source assigns in each case of the switch; `IN6` and any other type is
`-EINVAL`. -/
def match_set_value_ll (m : net_mat_field_ref) (value : Nat) : Int × net_mat_field_ref :=
  match m.type with
  | .U8 => (0, { m with mask_u8 := value % 2 ^ 8 })
  | .U16 => (0, { m with mask_u16 := value % 2 ^ 16 })
  | .U32 => (0, { m with mask_u32 := value % 2 ^ 32 })
  | .U64 => (0, { m with mask_u64 := value % 2 ^ 64 })
  | _ => (-EINVAL, m)

/-- The function `match_set_mask_ll`. -/
def match_set_mask_ll (m : net_mat_field_ref) (mask : Nat) : Int × net_mat_field_ref :=
  match m.type with
  | .U8 => (0, { m with mask_u8 := mask % 2 ^ 8 })
  | .U16 => (0, { m with mask_u16 := mask % 2 ^ 16 })
  | .U32 => (0, { m with mask_u32 := mask % 2 ^ 32 })
  | .U64 => (0, { m with mask_u64 := mask % 2 ^ 64 })
  | _ => (-EINVAL, m)

/-- The function `match_set_exact_mask`: `(__u32)-1` in the four words for `IN6`,
otherwise `match_set_mask_ll` with `ULLONG_MAX`. -/
def match_set_exact_mask (m : net_mat_field_ref) : Int × net_mat_field_ref :=
  if m.type = .IN6 then
    (0, { m with mask_in6 := ⟨2 ^ 32 - 1, 2 ^ 32 - 1, 2 ^ 32 - 1, 2 ^ 32 - 1⟩ })
  else match_set_mask_ll m ULLONG_MAX

/-- The function `field_get_attr_type`; a `NULL` field is `none`. -/
def field_get_attr_type (field : Option net_mat_field) : NET_MAT_FIELD_REF_ATTR_TYPE :=
  match field with
  | none => .UNSPEC
  | some f =>
    if f.bitwidth ≤ 8 then .U8
    else if f.bitwidth ≤ 16 then .U16
    else if f.bitwidth ≤ 32 then .U32
    else if f.bitwidth ≤ 64 then .U64
    else if f.bitwidth = 128 then .IN6
    else .UNSPEC

/-- The left shift of an `unsigned long long` by a run-time count, as the
64-bit shift instruction of the target computes it (x86-64 `shl`, AArch64
`lsl`): the count is taken modulo 64. For a count below 64 this is the
C value; for a count of 64 or more C leaves the result undefined. -/
def shl_ull (x n : Nat) : Nat := (x * 2 ^ (n % 64)) % 2 ^ 64

/-- The function `field_max_value`: `(1ULL << bitwidth) - 1` in `unsigned long long`
unless the field is `NULL` or wider than 64 bits. -/
def field_max_value (field : Option net_mat_field) : Nat :=
  match field with
  | none => 0
  | some f =>
    if f.bitwidth > 64 then 0
    else (shl_ull 1 f.bitwidth + (2 ^ 64 - 1)) % 2 ^ 64

/-- The function `parse_ull`: the return code and the value stored through `val_p`
(`*val_p` is assigned before `errno` is looked at). -/
def parse_ull (str : List Char) : Int × Nat :=
  let r := strtoul str 0
  if r.errno ≠ 0 then (-r.errno, r.value)
  else if str ≠ [] ∧ r.end_p = [] then (0, r.value)
  else (-EINVAL, r.value)

/-- The function `field_parse_value`: the value stored through `value_p` on success,
the negative return code otherwise (`*value_p` is then left alone). -/
def field_parse_value (field : net_mat_field) (str : List Char) : Except Int Nat :=
  let (err, value) := parse_ull str
  let value_max := field_max_value (some field)
  if err = -ERANGE ∨ (err = 0 ∧ ¬ value ≤ value_max) then .error (-ERANGE)
  else if err = 0 then .ok value
  else .error err

/-- The function `match_parse_value_as_number`. -/
def match_parse_value_as_number (m : net_mat_field_ref) (field : net_mat_field)
    (str : List Char) : Int × net_mat_field_ref :=
  match field_parse_value field str with
  | .error err => (err, m)
  | .ok value => match_set_value_ll m value

/-- The function `match_parse_mask_as_number`. -/
def match_parse_mask_as_number (m : net_mat_field_ref) (field : net_mat_field)
    (str : List Char) : Int × net_mat_field_ref :=
  match field_parse_value field str with
  | .error err => (err, m)
  | .ok mask => match_set_mask_ll m mask

/-! ## libc: `sscanf` conversions and `strtok` -/

/-- The return value `EOF` of `sscanf`. -/
def EOF : Int := -1

/-- One conversion directive of `sscanf`. -/
inductive scan_result
  | input_failure
  | matching_failure
  | converted (value : Nat) (rest : List Char)
deriving DecidableEq, Repr

/-- An unsigned integer directive (`%u`, `%x` and their `hh`, `h`, `ll`
forms): white space is skipped; the end of the input there is an input
failure; the subject is converted as by `strtoul` and stored in an object
of `bits` bits. -/
def scan_unsigned (base bits : Nat) (s : List Char) : scan_result :=
  if skip_space s = [] then .input_failure
  else
    match parse_subject base s with
    | none => .matching_failure
    | some sub =>
      let v := if sub.mag > ULONG_MAX then ULONG_MAX
               else if sub.neg then (2 ^ 64 - sub.mag) % 2 ^ 64 else sub.mag
      .converted (v % 2 ^ bits) sub.rest

/-- The call `sscanf(s, "%u", &x)` and its width variants (`%hhu`, `%hu`,
`%llu`): the return value and the value stored, if one was. -/
def sscanf_u (bits : Nat) (s : List Char) : Int × Option Nat :=
  match scan_unsigned 10 bits s with
  | .input_failure => (EOF, none)
  | .matching_failure => (0, none)
  | .converted v _ => (1, some v)

/-- The call `sscanf(s, "0x%x", &x)` and its width variants: the ordinary
characters `0` and `x` must match the input exactly, then a hexadecimal
conversion follows. -/
def sscanf_0x (bits : Nat) (s : List Char) : Int × Option Nat :=
  match s with
  | [] => (EOF, none)
  | c0 :: s1 =>
    if c0.toNat ≠ 48 then (0, none)
    else
      match s1 with
      | [] => (EOF, none)
      | c1 :: s2 =>
        if c1.toNat ≠ 120 then (0, none)
        else
          match scan_unsigned 16 bits s2 with
          | .input_failure => (EOF, none)
          | .matching_failure => (0, none)
          | .converted v _ => (1, some v)

/-- The call `sscanf(s, "%i", &vid)` with an `int` target: the subject is
converted as by `strtol` with base 0 (clamped to the range of `long`) and
stored in a 32-bit two-complement `int`. -/
def sscanf_i (s : List Char) : Int × Option Int :=
  if skip_space s = [] then (EOF, none)
  else
    match parse_subject 0 s with
    | none => (0, none)
    | some sub =>
      let l : Int :=
        if sub.neg then (if sub.mag > 2 ^ 63 then -(2 ^ 63 : Int) else -(sub.mag : Int))
        else (if sub.mag > 2 ^ 63 - 1 then (2 ^ 63 - 1 : Int) else (sub.mag : Int))
      (1, some (Int.bmod l (2 ^ 32)))

/-- The conversions of `sscanf(src, "%hhx:%hhx:%hhx:%hhx:%hhx:%hhx", ...)`:
`n + 1` directives `%hhx` remain, separated by the ordinary character `:`;
`done` holds the bytes converted so far, in the order of the directives. -/
def scan_hhx_colon : Nat → List Char → List Nat → Int × List Nat
  | n, s, done =>
    match scan_unsigned 16 8 s with
    | .input_failure => (if done = [] then EOF else (done.length : Int), done)
    | .matching_failure => ((done.length : Int), done)
    | .converted v rest =>
      match n with
      | 0 => ((done.length : Int) + 1, done ++ [v])
      | k + 1 =>
        match rest with
        | [] => ((done.length : Int) + 1, done ++ [v])
        | c :: rest1 =>
          if c.toNat = 58 then scan_hhx_colon k rest1 (done ++ [v])
          else ((done.length : Int) + 1, done ++ [v])

/-- One call of `strtok` with a single delimiter: the token and the position
saved for the next call; `none` when only delimiters are left. -/
def strtok (s : List Char) (delim : Char) : Option (List Char × List Char) :=
  match s.dropWhile (fun c => c == delim) with
  | [] => none
  | c :: cs =>
    some ((c :: cs).takeWhile (fun x => x != delim),
          ((c :: cs).dropWhile (fun x => x != delim)).drop 1)

/-- The tokens the successive calls `strtok(s, d)`, `strtok(NULL, d)`, ...
return until `NULL`; `cur` is the token being read. -/
def strtok_all (delim : Char) : List Char → List Char → List (List Char)
  | [], cur => if cur = [] then [] else [cur]
  | c :: cs, cur =>
    if c = delim then
      (if cur = [] then strtok_all delim cs [] else cur :: strtok_all delim cs [])
    else strtok_all delim cs (cur ++ [c])

/-! ## MAC addresses -/

/-- The store `memcpy(dst, tmp, ETH_ALEN)` on a little-endian target: the six
low bytes of the 64-bit `*dst` become `tmp[0..5]`, the two high bytes stay. -/
def memcpy_eth (dst : Nat) (tmp : List Nat) : Nat :=
  dst / 2 ^ 48 * 2 ^ 48 +
    (tmp.getD 0 0 + tmp.getD 1 0 * 2 ^ 8 + tmp.getD 2 0 * 2 ^ 16 +
      tmp.getD 3 0 * 2 ^ 24 + tmp.getD 4 0 * 2 ^ 32 + tmp.getD 5 0 * 2 ^ 40)

/-- The function `match_macaddr2u64`: the return code and the final `*dst`. In the branch
with a colon the six bytes are converted into `tmp[5]`, `tmp[4]`, ...,
`tmp[0]` in this order, so `tmp` is the reverse of the conversion order. -/
def match_macaddr2u64 (dst : Nat) (src : List Char) : Int × Nat :=
  if src.any (fun c => c.toNat = 58) then
    match scan_hhx_colon 5 src [] with
    | (err, bytes) =>
      if err ≠ 6 then (-EINVAL, dst)
      else (0, memcpy_eth dst bytes.reverse)
  else
    match sscanf_0x 64 src with
    | (1, some v) => if v > 0xffffffffffff then (-EINVAL, v) else (0, v)
    | _ =>
      match sscanf_u 64 src with
      | (1, some v) => if v > 0xffffffffffff then (-EINVAL, v) else (0, v)
      | _ => (-EINVAL, dst)

/-! ## Collaborators outside `match.c` -/

/-- A node of the header graph (`struct net_mat_hdr_node`): `hdrs` is the
zero-terminated array of header ids, `none` when the pointer is `NULL`. -/
structure net_mat_hdr_node where
  name : String
  uid : Nat
  hdrs : Option (List Nat)
deriving DecidableEq, Repr

/-- The type of an action argument (`NET_MAT_ACTION_ARG_TYPE_*`); `UNSPEC`
is the zero value that terminates an argument array. -/
inductive NET_MAT_ACTION_ARG_TYPE
  | UNSPEC | NULL | U8 | U16 | U32 | U64 | IN6 | VARIADIC | VAL_MAX
deriving DecidableEq, Repr

/-- An action argument (`struct net_mat_action_arg`), the union `v` kept
member by member. -/
structure net_mat_action_arg where
  name : Option String
  type : NET_MAT_ACTION_ARG_TYPE
  value_u8 : Nat
  value_u16 : Nat
  value_u32 : Nat
  value_u64 : Nat
  value_in6 : in6_addr
deriving DecidableEq, Repr

/-- A zeroed argument slot, as `calloc` leaves it. -/
def net_mat_action_arg.zero : net_mat_action_arg :=
  { name := none, type := .UNSPEC, value_u8 := 0, value_u16 := 0,
    value_u32 := 0, value_u64 := 0, value_in6 := ⟨0, 0, 0, 0⟩ }

/-- An action (`struct net_mat_action`): `args` is the argument array up to
its terminating `UNSPEC` entry, `none` when the pointer is `NULL`. -/
structure net_mat_action where
  uid : Nat
  name : Option String
  args : Option (List net_mat_action_arg)
deriving DecidableEq, Repr

/-- The type of a table attribute (`NET_MAT_NAMED_VALUE_TYPE_*`). -/
inductive NET_MAT_NAMED_VALUE_TYPE
  | UNSPEC | U8 | U16 | U32 | U64
deriving DecidableEq, Repr

/-- A table attribute (`struct net_mat_named_value`), the union `value`
kept member by member. -/
structure net_mat_named_value where
  name : Option String
  uid : Nat
  type : NET_MAT_NAMED_VALUE_TYPE
  write : Nat
  value_u8 : Nat
  value_u16 : Nat
  value_u32 : Nat
  value_u64 : Nat
deriving DecidableEq, Repr

/-- A zeroed attribute record. -/
def net_mat_named_value.zero : net_mat_named_value :=
  { name := none, uid := 0, type := .UNSPEC, write := 0,
    value_u8 := 0, value_u16 := 0, value_u32 := 0, value_u64 := 0 }

/-- A table (`struct net_mat_tbl`): the members `match.c` reads and writes. -/
structure net_mat_tbl where
  name : Option String
  uid : Nat
  source : Nat
  size : Nat
  matches_ : List net_mat_field_ref
  actions : List Nat
  attribs : Option (List net_mat_named_value)
deriving DecidableEq, Repr

/-- The VLAN part of a port (`port.vlan`). -/
structure net_mat_port_vlan where
  def_vlan : Nat
  def_priority : Nat
  drop_tagged : Nat
  drop_untagged : Nat
  vlan_membership_bitmask : List Nat
deriving DecidableEq, Repr

/-- The PCI address of a port (`port.pci`). -/
structure net_mat_port_pci where
  bus : Nat
  device : Nat
  function : Nat
deriving DecidableEq, Repr

/-- A port (`struct net_mat_port`): the members `match_set_port_send` and
`match_get_port_send` write. `pci` and `mac_addr` are written by
`match_get_port_send` only and are zero where they are not given. -/
structure net_mat_port where
  port_id : Nat
  speed : Nat
  max_frame_size : Nat
  state : Nat
  vlan : net_mat_port_vlan
  loopback : Nat
  learning : Nat
  update_dscp : Nat
  update_ttl : Nat
  mcast_flooding : Nat
  update_dmac : Nat
  update_smac : Nat
  update_vlan : Nat
  pci : net_mat_port_pci := ⟨0, 0, 0⟩
  mac_addr : Nat := 0
deriving DecidableEq, Repr

/-- What `match.c` takes from outside: the metadata repository and the
port query of `matchlib`, the address parsers of libc, and the constants
of `if_match.h` whose values the source does not show. Lookups that return
an id return 0 for "not found"; lookups that return a pointer return
`none` for `NULL`. -/
structure repository where
  find_header_node : List Char → Nat
  get_graph_node : Nat → Option net_mat_hdr_node
  find_field : List Char → Nat → Nat
  get_fields : Nat → Nat → Option net_mat_field
  find_action : String → Nat
  get_actions : Nat → Option net_mat_action
  get_tables : Nat → Option net_mat_tbl
  get_table_id : Option String → Nat
  gen_table_id : Nat
  table_names : Nat → Option String
  match_nl_get_ports : Nat → Option net_mat_port
  flag_state_str : Nat → String
  inet_aton : List Char → Option Nat
  inet_pton6 : List Char → Option in6_addr
  NET_MAT_PORT_ID_UNSPEC : Nat
  NET_MAT_PORT_T_DEF_PRI_UNSPEC : Nat
  NET_MAT_PORT_T_STATE_UP : Nat
  NET_MAT_PORT_T_STATE_DOWN : Nat
  NET_MAT_PORT_T_FLAG_ENABLED : Nat
  NET_MAT_PORT_T_FLAG_DISABLED : Nat

/-! ## Match clause -/

/-- The function `is_valid_keyword`: whether the token is string-equal to an entry of
the list. -/
def is_valid_keyword (tok : String) : List String → Bool
  | [] => false
  | k :: ks => if tok = k then true else is_valid_keyword tok ks

/-- The function `match_parse_value_specific`. `inet_aton` and `inet_pton` store only
on success; `match_macaddr2u64` may have stored when it fails. -/
def match_parse_value_specific (env : repository) (m : net_mat_field_ref)
    (str : List Char) : Int × net_mat_field_ref :=
  match m.type with
  | .U8 => (-EINVAL, m)
  | .U16 => (-EINVAL, m)
  | .U32 =>
    match env.inet_aton str with
    | none => (-EINVAL, m)
    | some a => (0, { m with value_u32 := a })
  | .U64 =>
    match match_macaddr2u64 m.value_u64 str with
    | (err, v) =>
      if err ≠ 0 then (-EINVAL, { m with value_u64 := v })
      else (0, { m with value_u64 := v })
  | .IN6 =>
    match env.inet_pton6 str with
    | none => (-EINVAL, m)
    | some a => (0, { m with value_in6 := a })
  | .UNSPEC => (-EINVAL, m)

/-- The function `match_parse_mask_specific`. -/
def match_parse_mask_specific (env : repository) (m : net_mat_field_ref)
    (str : List Char) : Int × net_mat_field_ref :=
  match m.type with
  | .U8 => (-EINVAL, m)
  | .U16 => (-EINVAL, m)
  | .U32 =>
    match env.inet_aton str with
    | none => (-EINVAL, m)
    | some a => (0, { m with mask_u32 := a })
  | .U64 =>
    match match_macaddr2u64 m.mask_u64 str with
    | (err, v) =>
      if err ≠ 0 then (-EINVAL, { m with mask_u64 := v })
      else (0, { m with mask_u64 := v })
  | .IN6 =>
    match env.inet_pton6 str with
    | none => (-EINVAL, m)
    | some a => (0, { m with mask_in6 := a })
  | .UNSPEC => (-EINVAL, m)

/-- The list `valid_keyword_list` of `rule_set_send`. -/
def rule_set_send_keywords : List String := ["match", "action", "prio", "handle", "table"]

/-- The resolution of `INSTANCE.FIELD` in `get_match_arg` (the two `strtok`
calls and the four lookups): the field and the record with `instance`,
`header` and `field` set, or the record as it is left when the function
returns `-EINVAL`. -/
def get_match_arg_resolve (env : repository) (strings : List Char) (m : net_mat_field_ref) :
    Except net_mat_field_ref (net_mat_field × net_mat_field_ref) :=
  match strtok strings '.' with
  | none => .error m
  | some (inst, saved) =>
    match strtok saved '.' with
    | none => .error m
    | some (s_fld, _) =>
      let m1 := { m with instance_id := env.find_header_node inst }
      if m1.instance_id = 0 then .error m1
      else
        match env.get_graph_node m1.instance_id with
        | none => .error m1
        | some hdr_node =>
          match hdr_node.hdrs with
          | none => .error m1
          | some hdrs =>
            let m2 := { m1 with header := hdrs.headD 0 }
            let m3 := { m2 with field := env.find_field s_fld m2.header }
            if m3.field = 0 then .error m3
            else
              match env.get_fields m3.header m3.field with
              | none => .error m3
              | some field => .ok (field, m3)

/-- The parse of the value token in `get_match_arg`: the type is derived,
the token is tried as a number, then in its type-specific form. The code
is 0, `-ERANGE` or `-EINVAL`. -/
def get_match_arg_parse_value (env : repository) (field : net_mat_field) (tok : List Char)
    (m : net_mat_field_ref) : Int × net_mat_field_ref :=
  match match_parse_value_as_number { m with type := field_get_attr_type (some field) }
      field tok with
  | (err, m1) =>
    if err = -ERANGE then (-ERANGE, m1)
    else if err ≠ 0 then
      match match_parse_value_specific env m1 tok with
      | (err2, m2) => if err2 ≠ 0 then (-EINVAL, m2) else (0, m2)
    else (0, m1)

/-- The parse of the mask token in `get_match_arg`: as a number, then in its
type-specific form. The code is 0, `-ERANGE` or `-EINVAL`. -/
def get_match_arg_parse_mask (env : repository) (field : net_mat_field) (tok : List Char)
    (m : net_mat_field_ref) : Int × net_mat_field_ref :=
  match match_parse_mask_as_number m field tok with
  | (err, m1) =>
    if err = -ERANGE then (-ERANGE, m1)
    else if err ≠ 0 then
      match match_parse_mask_specific env m1 tok with
      | (err2, m2) => if err2 ≠ 0 then (-EINVAL, m2) else (0, m2)
    else (0, m1)

/-- The mask step of `get_match_arg` (from its last `next_arg()` on): `argv`
is at the value token, `advance` already counts it. -/
def get_match_arg_mask (env : repository) (field : net_mat_field) (argv : List String)
    (advance : Int) (m : net_mat_field_ref) (valid_keyword_list : List String) :
    Int × net_mat_field_ref :=
  match argv.tail with
  | [] =>
    match match_set_exact_mask m with
    | (e, m1) => if e ≠ 0 then (-EINVAL, m1) else (advance, m1)
  | tok :: _ =>
    if is_valid_keyword tok valid_keyword_list then
      match match_set_exact_mask m with
      | (e, m1) => if e ≠ 0 then (-EINVAL, m1) else (advance, m1)
    else
      match get_match_arg_parse_mask env field tok.data m with
      | (err, m1) => if err ≠ 0 then (err, m1) else (advance + 1, m1)

/-- The value step of `get_match_arg` (from `if (!need_value)` on): `argv`
is at the last token consumed so far. -/
def get_match_arg_value (env : repository) (field : net_mat_field) (argv : List String)
    (advance : Int) (need_value : Bool) (m : net_mat_field_ref)
    (valid_keyword_list : List String) : Int × net_mat_field_ref :=
  if need_value = false then (advance, m)
  else
    match argv.tail with
    | [] => (-EINVAL, m)
    | tok :: rest =>
      match get_match_arg_parse_value env field tok.data m with
      | (err, m1) =>
        if err ≠ 0 then (err, m1)
        else get_match_arg_mask env field (tok :: rest) (advance + 1) m1 valid_keyword_list

/-- The mask-type step of `get_match_arg` (from `if (need_mask_type)` on):
`argv` is at the `INSTANCE.FIELD` token. -/
def get_match_arg_mask_type (env : repository) (field : net_mat_field) (argv : List String)
    (need_value need_mask_type : Bool) (m : net_mat_field_ref)
    (valid_keyword_list : List String) : Int × net_mat_field_ref :=
  if need_mask_type = true then
    match argv.tail with
    | [] => (-EINVAL, m)
    | tok :: rest =>
      if tok = "lpm" then
        get_match_arg_value env field (tok :: rest) 2 need_value
          { m with mask_type := .LPM } valid_keyword_list
      else if tok = "exact" then
        get_match_arg_value env field (tok :: rest) 2 need_value
          { m with mask_type := .EXACT } valid_keyword_list
      else if tok = "mask" then
        get_match_arg_value env field (tok :: rest) 2 need_value
          { m with mask_type := .MASK } valid_keyword_list
      else (-EINVAL, m)
  else get_match_arg_value env field argv 1 need_value m valid_keyword_list

/-- The function `get_match_arg`: `argv` is at the `match` keyword; the result is the
return value and the final `*match`. The keyword list is `[]` where the
caller passes `NULL` (it is then never looked at: `need_value` is false). -/
def get_match_arg (env : repository) (argv : List String) (need_value need_mask_type : Bool)
    (m : net_mat_field_ref) (valid_keyword_list : List String) : Int × net_mat_field_ref :=
  match argv.tail with
  | [] => (-EINVAL, m)
  | strings :: rest =>
    match get_match_arg_resolve env strings.data m with
    | .error m1 => (-EINVAL, m1)
    | .ok (field, m3) =>
      get_match_arg_mask_type env field (strings :: rest) need_value need_mask_type m3
        valid_keyword_list

/-! ## Action clause -/

/-- The result of a C function that may call `exit`: either it returns `ret`
leaving `out` in its output parameters, or the process exits. -/
inductive outcome (α : Type)
  | returned (ret : Int) (out : α)
  | exited (status : Int)
deriving DecidableEq, Repr

/-- The pair `err = sscanf(s, "0x%x", p); if (err != 1) err = sscanf(s, "%u", p);`
for a target of `bits` bits: the final `err` and the value stored, if any. -/
def sscanf_0x_or_u (bits : Nat) (s : List Char) : Int × Option Nat :=
  match sscanf_0x bits s with
  | (1, some v) => (1, some v)
  | _ => sscanf_u bits s

/-- The string `*argv` after `strtok(*argv, " ")` has cut it at the first
space that follows the token: leading spaces, then the token. -/
def strtok_cut (s : List Char) : List Char :=
  s.takeWhile (fun c => c == ' ') ++
    (s.dropWhile (fun c => c == ' ')).takeWhile (fun c => c != ' ')

/-- One pass of the `switch (type)` of `get_action_arg` on a token. -/
inductive arg_step
  | ret (code : Int) (slot : net_mat_action_arg)
  | exit (status : Int)
  | next (err : Int) (slot : net_mat_action_arg)
deriving DecidableEq, Repr

/-- The `switch (type)` of `get_action_arg`: `err` is the value the variable
holds on entry (the `NULL` and `VARIADIC` cases leave it as it is). -/
def parse_action_arg (env : repository) (type : NET_MAT_ACTION_ARG_TYPE) (tok : List Char)
    (err : Int) (slot : net_mat_action_arg) : arg_step :=
  match type with
  | .U8 =>
    match sscanf_0x_or_u 8 tok with
    | (e, some v) => .next e { slot with value_u8 := v }
    | (e, none) => .next e slot
  | .U16 =>
    match sscanf_0x_or_u 16 tok with
    | (e, some v) => .next e { slot with value_u16 := v }
    | (e, none) => .next e slot
  | .U32 =>
    match strtok tok ' ' with
    | none => .ret (-EINVAL) slot
    | some (has_dots, _) =>
      if has_dots.any (fun c => c.toNat = 46) then
        match env.inet_aton (strtok_cut tok) with
        | none => .ret (-EINVAL) slot
        | some a => .next 1 { slot with value_u32 := a }
      else
        match sscanf_0x_or_u 32 (strtok_cut tok) with
        | (e, some v) =>
          if e ≠ 1 then .ret (-EINVAL) { slot with value_u32 := v }
          else .next e { slot with value_u32 := v }
        | (e, none) => if e ≠ 1 then .ret (-EINVAL) slot else .next e slot
  | .U64 =>
    match match_macaddr2u64 slot.value_u64 tok with
    | (e, v) =>
      if e ≠ 0 then .ret (-EINVAL) { slot with value_u64 := v }
      else .next 1 { slot with value_u64 := v }
  | .IN6 =>
    match env.inet_pton6 tok with
    | none => .ret (-EINVAL) slot
    | some a => .next 1 { slot with value_in6 := a }
  | .NULL => .next err slot
  | .VARIADIC => .next err slot
  | .UNSPEC => .exit (-1)
  | .VAL_MAX => .exit (-1)

/-- The local variables of the argument loop of `get_action_arg`; `args` is
the run of slots of `action->args` filled so far. -/
structure action_arg_state where
  argv : List String
  type : NET_MAT_ACTION_ARG_TYPE
  name : Option String
  err : Int
  advance : Int
  args : List net_mat_action_arg
deriving DecidableEq, Repr

/-- The loop `for (i = 0; i < num_args; i++)` of `get_action_arg`; the first
numeric argument is `num_args - i`. -/
def get_action_arg_loop (env : repository) (a_args : List net_mat_action_arg)
    (reqs_args : Nat) (variadic : Bool) :
    Nat → Nat → action_arg_state → outcome action_arg_state
  | 0, _, st => .returned st.advance st
  | k + 1, i, st =>
    let decl := a_args.getD i net_mat_action_arg.zero
    let bind := decide (i < reqs_args) && decide (decl.type ≠ .VARIADIC)
    let type := if bind then decl.type else st.type
    let name := if bind then decl.name else st.name
    match st.argv with
    | [] =>
      if variadic then .returned (st.advance + 1) { st with type := type, name := name }
      else .returned (-EINVAL) { st with type := type, name := name }
    | tok :: rest =>
      let slot := { net_mat_action_arg.zero with type := type, name := name }
      match parse_action_arg env type tok.data st.err slot with
      | .ret code slot1 =>
        .returned code { st with type := type, name := name, args := st.args ++ [slot1] }
      | .exit status => .exited status
      | .next err slot1 =>
        if err ≠ 1 then
          .returned (-EINVAL)
            { st with type := type, name := name, err := err, args := st.args ++ [slot1] }
        else
          get_action_arg_loop env a_args reqs_args variadic k (i + 1)
            { argv := rest, type := type, name := name, err := err,
              advance := st.advance + 1, args := st.args ++ [slot1] }

/-- The pre-scan of `get_action_arg` for a variadic action: the number of
tokens before the next `action` token or the end, and the cursor where the
scan stops (the function then resets `argv` to `old`). -/
def count_variadic_args : List String → Nat × List String
  | [] => (0, [])
  | tok :: rest =>
    if tok ≠ "action" then
      match count_variadic_args rest with
      | (n, stop) => (n + 1, stop)
    else (0, tok :: rest)

/-- The function `get_action_arg`: `argv` is at the `action` keyword. The output is the
final `*action` together with the final value of the local cursor `argv`.
`calloc` is taken to succeed. -/
def get_action_arg (env : repository) (argv : List String) (need_args : Bool)
    (action : net_mat_action) : outcome (net_mat_action × List String) :=
  match argv.tail with
  | [] => .returned (-EINVAL) (action, [])
  | nm :: rest =>
    if env.find_action nm = 0 then .returned (-EINVAL) (action, nm :: rest)
    else
      match env.get_actions (env.find_action nm) with
      | none => .returned (-EINVAL) (action, nm :: rest)
      | some a =>
        let a_args := a.args.getD []
        let reqs_args := (a_args.takeWhile (fun x => decide (x.type ≠ .UNSPEC))).length
        let action1 :=
          { action with uid := a.uid, name := if a.name.isSome then a.name else action.name }
        if reqs_args = 0 ∨ need_args = false then .returned 1 (action1, nm :: rest)
        else
          let old := rest
          let variadic :=
            decide ((a_args.getD (reqs_args - 1) net_mat_action_arg.zero).type = .VARIADIC)
          let num_args := if variadic then (count_variadic_args rest).1 else reqs_args
          match get_action_arg_loop env a_args reqs_args variadic num_args 0
              { argv := old, type := .UNSPEC, name := none, err := 0, advance := 1,
                args := [] } with
          | .exited status => .exited status
          | .returned r st => .returned r ({ action1 with args := some st.args }, st.argv)

/-! ## Attribute clause -/

/-- The function `get_table_attribs`. -/
def get_table_attribs (env : repository) (table_id : Nat) : Option (List net_mat_named_value) :=
  match env.get_tables table_id with
  | none => none
  | some t => t.attribs

/-- The search loop of `get_attrib_arg`: the first entry, before the entry
with uid 0 that ends the array, whose name is the token. -/
def find_attrib : List net_mat_named_value → String → Option net_mat_named_value
  | [], _ => none
  | r :: rs, name =>
    if r.uid = 0 then none
    else if r.name = some name then some r
    else find_attrib rs name

/-- The function `get_attrib_arg`: `argv` is at the `attrib` keyword. -/
def get_attrib_arg (env : repository) (argv : List String) (table_uid : Nat)
    (value : net_mat_named_value) : Int × net_mat_named_value :=
  match argv.tail with
  | [] => (-EINVAL, value)
  | name :: rest =>
    match get_table_attribs env table_uid with
    | none => (-EINVAL, value)
    | some ref =>
      match find_attrib ref name with
      | none => (-EINVAL, value)
      | some r =>
        let value1 := { value with uid := r.uid, name := r.name }
        if r.write = 0 then (-EINVAL, value1)
        else
          match rest with
          | [] => (-EINVAL, value1)
          | tok :: _ =>
            match r.type with
            | .U8 =>
              match sscanf_0x_or_u 8 tok.data with
              | (1, some v) => (2, { value1 with type := .U8, value_u8 := v })
              | _ => (-EINVAL, { value1 with type := .U8 })
            | .U16 =>
              match sscanf_0x_or_u 16 tok.data with
              | (1, some v) => (2, { value1 with type := .U16, value_u16 := v })
              | _ => (-EINVAL, { value1 with type := .U16 })
            | .U32 =>
              match strtok tok.data ' ' with
              | none => (-EINVAL, { value1 with type := .U32 })
              | some (has_dots, _) =>
                if has_dots.any (fun c => c.toNat = 46) then
                  match env.inet_aton (strtok_cut tok.data) with
                  | none => (-EINVAL, { value1 with type := .U32 })
                  | some a => (2, { value1 with type := .U32, value_u32 := a })
                else
                  match sscanf_0x_or_u 32 (strtok_cut tok.data) with
                  | (1, some v) => (2, { value1 with type := .U32, value_u32 := v })
                  | _ => (-EINVAL, { value1 with type := .U32 })
            | .U64 =>
              match match_macaddr2u64 value1.value_u64 tok.data with
              | (e, v) =>
                if e ≠ 0 then (-EINVAL, { value1 with type := .U64, value_u64 := v })
                else (2, { value1 with type := .U64, value_u64 := v })
            | .UNSPEC => (-EINVAL, value1)

/-! ## Commands -/

/-- The command codes `match.c` names (`NET_MAT_TABLE_CMD_*`, `NET_MAT_PORT_CMD_*`). -/
inductive NET_MAT_CMD
  | GET_TABLES | GET_HEADERS | GET_ACTIONS | GET_HDR_GRAPH | GET_TABLE_GRAPH
  | GET_RULES | SET_RULES | DEL_RULES | UPDATE_RULES
  | CREATE_TABLE | DESTROY_TABLE | UPDATE_TABLE
  | GET_PORTS | GET_LPORT | GET_PHYS_PORT | SET_PORTS
deriving DecidableEq, Repr

/-- How the argument processing and validation of a send function ends:
it returns `code` before any message is allocated; the process exits; the
C behaviour is not defined; or validation passes and the function goes on
to open the socket, build the message from `record` and send it. -/
inductive send_result (α : Type)
  | returned (code : Int)
  | exited (status : Int)
  | undefined
  | build (record : α)
deriving DecidableEq, Repr

/-- Whether the command was rejected: the function returned a negative
code or exited before a message was allocated. -/
def send_result.rejected {α : Type} : send_result α → Bool
  | .returned code => decide (code < 0)
  | .exited _ => true
  | .undefined => false
  | .build _ => false

def MAX_MATCHES : Nat := 50
def MAX_ACTIONS : Nat := 50
def MAX_ATTRIBS : Nat := 50
def NET_MAT_MAXNAME : Nat := 120

/-! ### `set_port` -/

/-- The local variables of `match_set_port_send` in its argument loop. -/
structure set_port_state where
  port : net_mat_port
  port_be : Option net_mat_port
  have_vlans : Bool
deriving DecidableEq, Repr

/-- The record after `memset(&port, 0, sizeof(port))` and the two
assignments that follow it. -/
def set_port_init (env : repository) : set_port_state :=
  { port :=
      { port_id := env.NET_MAT_PORT_ID_UNSPEC, speed := 0, max_frame_size := 0, state := 0,
        vlan := { def_vlan := 0, def_priority := env.NET_MAT_PORT_T_DEF_PRI_UNSPEC,
                  drop_tagged := 0, drop_untagged := 0,
                  vlan_membership_bitmask := List.replicate 512 0 },
        loopback := 0, learning := 0, update_dscp := 0, update_ttl := 0,
        mcast_flooding := 0, update_dmac := 0, update_smac := 0, update_vlan := 0 },
    port_be := none,
    have_vlans := false }

/-- The two-way test every flag keyword of `match_set_port_send` makes on
its token: `flag_state_str(ENABLED)`, else `flag_state_str(DISABLED)`,
else no value. -/
def parse_flag_state (env : repository) (tok : String) : Option Nat :=
  if tok = env.flag_state_str env.NET_MAT_PORT_T_FLAG_ENABLED then
    some env.NET_MAT_PORT_T_FLAG_ENABLED
  else if tok = env.flag_state_str env.NET_MAT_PORT_T_FLAG_DISABLED then
    some env.NET_MAT_PORT_T_FLAG_DISABLED
  else none

/-- The loop `while (vlan)` of the `vlans` clause over the tokens `strtok`
yields, on the bitmap as it stands. -/
def set_port_vlans_loop : List (List Char) → List Nat → Except Int (List Nat)
  | [], bitmask => .ok bitmask
  | vlan :: more, bitmask =>
    match sscanf_i vlan with
    | (_, none) => .error (-EINVAL)
    | (err, some vid) =>
      if err < 1 ∨ vid > 4095 ∨ vid < 0 then .error (-EINVAL)
      else
        let slot := vid.toNat / 8
        let index := vid.toNat % 8
        set_port_vlans_loop more
          (bitmask.set slot (bitmask.getD slot 0 ||| (2 ^ index % 2 ^ 8)))

/-- The `vlans` clause on its value token: `strtok` finds no token
(`-EINVAL`), else the bitmap is zeroed and the loop runs. -/
def set_port_vlans (arg : List Char) : Except Int (List Nat) :=
  match strtok_all ',' arg [] with
  | [] => .error (-EINVAL)
  | vlan :: more => set_port_vlans_loop (vlan :: more) (List.replicate 512 0)

/-- The keywords of `match_set_port_send`. -/
def set_port_keywords : List String :=
  ["port", "speed", "max_frame_size", "state", "def_vlan", "drop_tagged", "drop_untagged",
   "def_priority", "vlans", "loopback", "learning", "update_dscp", "update_ttl",
   "mcast_flooding", "update_dmac", "update_smac", "update_vlan"]

/-- One clause `KEYWORD VALUE` of `match_set_port_send`, the value token
being present: the new state, or the code returned. -/
def set_port_clause (env : repository) (kw tok : String) (st : set_port_state) :
    send_result set_port_state :=
  if kw = "port" then
    match sscanf_u 32 tok.data with
    | (1, some v) =>
      match env.match_nl_get_ports v with
      | none => .returned (-EINVAL)
      | some pb => .build { st with port := { st.port with port_id := v }, port_be := some pb }
    | _ => .returned (-EINVAL)
  else if kw = "speed" then
    match sscanf_u 32 tok.data with
    | (1, some v) => .build { st with port := { st.port with speed := v } }
    | _ => .returned (-EINVAL)
  else if kw = "max_frame_size" then
    match sscanf_u 32 tok.data with
    | (1, some v) =>
      if v = 0 then .returned (-EINVAL)
      else .build { st with port := { st.port with max_frame_size := v } }
    | _ => .returned (-EINVAL)
  else if kw = "state" then
    if tok = "up" then
      .build { st with port := { st.port with state := env.NET_MAT_PORT_T_STATE_UP } }
    else if tok = "down" then
      .build { st with port := { st.port with state := env.NET_MAT_PORT_T_STATE_DOWN } }
    else .returned (-EINVAL)
  else if kw = "def_vlan" then
    match sscanf_u 32 tok.data with
    | (1, some v) =>
      if v < 1 ∨ v > 4095 then .returned (-EINVAL)
      else .build { st with port := { st.port with vlan := { st.port.vlan with def_vlan := v } } }
    | _ => .returned (-EINVAL)
  else if kw = "drop_tagged" then
    match parse_flag_state env tok with
    | some f =>
      .build { st with port := { st.port with vlan := { st.port.vlan with drop_tagged := f } } }
    | none => .returned (-EINVAL)
  else if kw = "drop_untagged" then
    match parse_flag_state env tok with
    | some f =>
      .build { st with port := { st.port with vlan := { st.port.vlan with drop_untagged := f } } }
    | none => .returned (-EINVAL)
  else if kw = "def_priority" then
    match sscanf_u 32 tok.data with
    | (1, some v) =>
      if v > 7 then .returned (-EINVAL)
      else
        .build { st with port := { st.port with vlan := { st.port.vlan with def_priority := v } } }
    | _ => .returned (-EINVAL)
  else if kw = "vlans" then
    match set_port_vlans tok.data with
    | .error code => .returned code
    | .ok bitmask =>
      .build
        { st with
          port := { st.port with vlan := { st.port.vlan with vlan_membership_bitmask := bitmask } },
          have_vlans := true }
  else if kw = "loopback" then
    match parse_flag_state env tok with
    | some f => .build { st with port := { st.port with loopback := f } }
    | none => .returned (-EINVAL)
  else if kw = "learning" then
    match parse_flag_state env tok with
    | some f => .build { st with port := { st.port with learning := f } }
    | none => .returned (-EINVAL)
  else if kw = "update_dscp" then
    match parse_flag_state env tok with
    | some f => .build { st with port := { st.port with update_dscp := f } }
    | none => .returned (-EINVAL)
  else if kw = "update_ttl" then
    match parse_flag_state env tok with
    | some f => .build { st with port := { st.port with update_ttl := f } }
    | none => .returned (-EINVAL)
  else if kw = "mcast_flooding" then
    match parse_flag_state env tok with
    | some f => .build { st with port := { st.port with mcast_flooding := f } }
    | none => .returned (-EINVAL)
  else if kw = "update_dmac" then
    match parse_flag_state env tok with
    | some f => .build { st with port := { st.port with update_dmac := f } }
    | none => .returned (-EINVAL)
  else if kw = "update_smac" then
    match parse_flag_state env tok with
    | some f => .build { st with port := { st.port with update_smac := f } }
    | none => .returned (-EINVAL)
  else if kw = "update_vlan" then
    match parse_flag_state env tok with
    | some f => .build { st with port := { st.port with update_vlan := f } }
    | none => .returned (-EINVAL)
  else .exited (-1)

/-- The loop `while (argc > 0)` of `match_set_port_send`. A keyword that is
the last token has no value: every keyword returns `-EINVAL` then, except
`vlans`, which hands the `NULL` to `strtok`, and an unknown keyword, which
exits. -/
def set_port_loop (env : repository) : List String → set_port_state → send_result set_port_state
  | [], st => .build st
  | [kw], _ =>
    if kw = "vlans" then .undefined
    else if kw ∈ set_port_keywords then .returned (-EINVAL)
    else .exited (-1)
  | kw :: tok :: rest, st =>
    match set_port_clause env kw tok st with
    | .build st1 => set_port_loop env rest st1
    | r => r

/-- The function `match_set_port_send` up to the point where the message is allocated
(`build port` stands for the rest of the function run on `port`): the
argument loop, the test of the port id, and the copy of the fetched VLAN
membership when no `vlans` clause was given. -/
def match_set_port_send (env : repository) (argv : List String) : send_result net_mat_port :=
  match set_port_loop env argv (set_port_init env) with
  | .returned code => .returned code
  | .exited status => .exited status
  | .undefined => .undefined
  | .build st =>
    if st.port.port_id = env.NET_MAT_PORT_ID_UNSPEC then .exited (-1)
    else if st.have_vlans then .build st.port
    else
      match st.port_be with
      | none => .undefined
      | some pb =>
        .build
          { st.port with
            vlan := { st.port.vlan with
                      vlan_membership_bitmask := pb.vlan.vlan_membership_bitmask } }

/-! ### `create` and `update` -/

/-- The local variables of `match_create_tbl_send` in its argument loop:
`table` with its scalar members, and the three arrays with the entries
stored so far (`match_count`, `action_count` and `attrib_count` are their
lengths). -/
structure create_tbl_state where
  name : Option String
  uid : Nat
  source : Nat
  size : Nat
  matches_ : List net_mat_field_ref
  acts : List Nat
  attribs : List net_mat_named_value
deriving DecidableEq, Repr

/-- The state after the four `memset` calls. -/
def create_tbl_init : create_tbl_state :=
  { name := none, uid := 0, source := 0, size := 0, matches_ := [], acts := [], attribs := [] }

/-- The pattern `next_arg(); if (*argv == NULL) return -EINVAL;
err = sscanf(*argv, "%u", &x); if (err < 0) return -EINVAL;` of the
numeric keywords: the new value of `x`, or the code returned. -/
def scan_u32_keyword (rest : List String) (old : Nat) : Except Int Nat :=
  match rest with
  | [] => .error (-EINVAL)
  | tok :: _ =>
    match sscanf_u 32 tok.data with
    | (err, some v) => if err < 0 then .error (-EINVAL) else .ok v
    | (err, none) => if err < 0 then .error (-EINVAL) else .ok old

/-- One pass of the loop `while (argc > 0)` of `match_create_tbl_send` on
the keyword `kw` followed by `rest`: the code returned, the exit, or
(`build`) the tokens left after the clause and the new state. -/
def match_create_tbl_clause (env : repository) (kw : String) (rest : List String)
    (st : create_tbl_state) : send_result (List String × create_tbl_state) :=
  if kw = "match" then
    if st.matches_.length ≥ MAX_MATCHES then .returned (-EINVAL)
    else
      match get_match_arg env (kw :: rest) false true net_mat_field_ref.zero [] with
      | (advance, m) =>
        if advance < 1 then .returned (-EINVAL)
        else .build (rest.drop advance.toNat, { st with matches_ := st.matches_ ++ [m] })
  else if kw = "action" then
    if st.acts.length ≥ MAX_ACTIONS then .returned (-EINVAL)
    else
      match get_action_arg env (kw :: rest) false ⟨0, none, none⟩ with
      | .exited status => .exited status
      | .returned advance (a, _) =>
        if advance < 0 then .returned (-EINVAL)
        else .build (rest.drop advance.toNat, { st with acts := st.acts ++ [a.uid] })
  else if kw = "attrib" then
    if st.attribs.length ≥ MAX_ATTRIBS then .returned (-EINVAL)
    else
      match get_attrib_arg env (kw :: rest) st.uid net_mat_named_value.zero with
      | (advance, v) =>
        if advance < 1 then .returned (-EINVAL)
        else .build (rest.drop advance.toNat, { st with attribs := st.attribs ++ [v] })
  else if kw = "name" then
    match rest with
    | [] => .returned (-EINVAL)
    | tok :: rest1 =>
      .build (rest1, { st with name := some (String.mk (tok.data.take NET_MAT_MAXNAME)) })
  else if kw = "source" then
    match scan_u32_keyword rest st.source with
    | .error code => .returned code
    | .ok v => .build (rest.drop 1, { st with source := v })
  else if kw = "id" then
    match scan_u32_keyword rest st.uid with
    | .error code => .returned code
    | .ok v => .build (rest.drop 1, { st with uid := v })
  else if kw = "size" then
    match scan_u32_keyword rest st.size with
    | .error code => .returned code
    | .ok v => .build (rest.drop 1, { st with size := v })
  else .exited (-1)

/-- The loop `while (argc > 0)` of `match_create_tbl_send`. Every pass
consumes at least one token; the first argument bounds the number of
passes and is the token count at the call. -/
def match_create_tbl_loop (env : repository) :
    Nat → List String → create_tbl_state → send_result create_tbl_state
  | _, [], st => .build st
  | 0, _ :: _, _ => .undefined
  | fuel + 1, kw :: rest, st =>
    match match_create_tbl_clause env kw rest st with
    | .build (argv1, st1) => match_create_tbl_loop env fuel argv1 st1
    | .returned code => .returned code
    | .exited status => .exited status
    | .undefined => .undefined

/-- The checks of `match_create_tbl_send` between its argument loop and the
allocation of the message, in source order. The second component counts
the calls of `gen_table_id` made on the way. -/
def match_create_tbl_check (env : repository) (cmd : NET_MAT_CMD) (st : create_tbl_state) :
    send_result net_mat_tbl × Nat :=
  if st.uid = 0 ∧ cmd = .UPDATE_TABLE then (.exited (-1), 0)
  else
    let gen := if st.uid = 0 then 1 else 0
    let uid := if st.uid = 0 then env.gen_table_id else st.uid
    if uid = 0 then (.returned (-EINVAL), gen)
    else if st.source = 0 ∧ cmd = .CREATE_TABLE then (.exited (-1), gen)
    else if st.source ≠ 0 ∧ cmd = .UPDATE_TABLE then (.exited (-1), gen)
    else if st.name = none ∧ cmd = .CREATE_TABLE then (.exited (-1), gen)
    else
      let name := if st.name = none ∧ cmd = .UPDATE_TABLE then env.table_names uid else st.name
      if st.size = 0 ∧ cmd = .CREATE_TABLE then (.exited (-1), gen)
      else if st.size ≠ 0 ∧ cmd = .UPDATE_TABLE then (.exited (-1), gen)
      else if st.attribs.length = 0 ∧ cmd = .UPDATE_TABLE then (.exited (-1), gen)
      else if cmd = .CREATE_TABLE ∧ env.get_table_id name ≠ 0 then (.exited (-1), gen)
      else
        (.build
          { name := name, uid := uid, source := st.source, size := st.size,
            matches_ := st.matches_, actions := st.acts, attribs := some st.attribs }, gen)

/-- The function `match_create_tbl_send` up to the point where the message is allocated
(`build table` stands for the rest of the function run on `table`),
together with the number of calls of `gen_table_id`. -/
def match_create_tbl_send (env : repository) (argv : List String) (cmd : NET_MAT_CMD) :
    send_result net_mat_tbl × Nat :=
  match match_create_tbl_loop env argv.length argv create_tbl_init with
  | .returned code => (.returned code, 0)
  | .exited status => (.exited status, 0)
  | .undefined => (.undefined, 0)
  | .build st => match_create_tbl_check env cmd st

/-! ### `destroy` -/

/-- The local `table` of `match_destroy_tbl_send` in its argument loop. -/
structure destroy_tbl_state where
  name : Option String
  uid : Nat
  source : Nat
deriving DecidableEq, Repr

/-- The pattern `err = sscanf(tok, "%u", &x); if (err < 0) return -EINVAL;`
on a token that is present: the new value of `x`, or the code returned. -/
def scan_u32_return (tok : String) (old : Nat) : Except Int Nat :=
  match sscanf_u 32 tok.data with
  | (err, some v) => if err < 0 then .error (-EINVAL) else .ok v
  | (err, none) => if err < 0 then .error (-EINVAL) else .ok old

/-- One clause `KEYWORD VALUE` of `match_destroy_tbl_send`, the value token
being present. -/
def match_destroy_tbl_clause (kw tok : String) (st : destroy_tbl_state) :
    send_result destroy_tbl_state :=
  if kw = "name" then
    .build { st with name := some (String.mk (tok.data.take NET_MAT_MAXNAME)) }
  else if kw = "source" then
    match scan_u32_return tok st.source with
    | .error code => .returned code
    | .ok v => .build { st with source := v }
  else if kw = "id" then
    match scan_u32_return tok st.uid with
    | .error code => .returned code
    | .ok v => .build { st with uid := v }
  else .exited (-1)

/-- The loop `while (argc > 0)` of `match_destroy_tbl_send`. A keyword
without a value returns `-EINVAL`; an unknown token exits. The test
`if (err < 0)` after the loop cannot fire (every assignment of `err` in
the loop is followed by the same test) and is left out. -/
def match_destroy_tbl_loop : List String → destroy_tbl_state → send_result destroy_tbl_state
  | [], st => .build st
  | [kw], _ =>
    if kw = "name" ∨ kw = "source" ∨ kw = "id" then .returned (-EINVAL) else .exited (-1)
  | kw :: tok :: rest, st =>
    match match_destroy_tbl_clause kw tok st with
    | .build st1 => match_destroy_tbl_loop rest st1
    | r => r

/-- The chain `if (!(table.name || table.uid)) ... else ...` of
`match_destroy_tbl_send`: the name and the id of the table after it, or
the code returned. -/
def match_destroy_tbl_identify (env : repository) (st : destroy_tbl_state) :
    Except Int (Option String × Nat) :=
  if st.name = none ∧ st.uid = 0 then .error (-EINVAL)
  else if st.uid = 0 then
    if env.get_table_id st.name = 0 then .error (-EINVAL)
    else .ok (st.name, env.get_table_id st.name)
  else if st.name = none then
    match env.table_names st.uid with
    | none => .error (-EINVAL)
    | some name => .ok (some (String.mk (name.data.take NET_MAT_MAXNAME)), st.uid)
  else if env.get_table_id st.name ≠ st.uid then .error (-EINVAL)
  else .ok (st.name, st.uid)

/-- The checks of `match_destroy_tbl_send` between its argument loop and
the allocation of the message: the chain on name and id, then the test of
`source`. -/
def match_destroy_tbl_check (env : repository) (st : destroy_tbl_state) :
    send_result net_mat_tbl :=
  match match_destroy_tbl_identify env st with
  | .error code => .returned code
  | .ok (name, uid) =>
    if st.source = 0 then .returned (-EINVAL)
    else
      .build { name := name, uid := uid, source := st.source, size := 0,
               matches_ := [], actions := [], attribs := none }

/-- The function `match_destroy_tbl_send` up to the point where the message is
allocated. -/
def match_destroy_tbl_send (env : repository) (argv : List String) : send_result net_mat_tbl :=
  match match_destroy_tbl_loop argv { name := none, uid := 0, source := 0 } with
  | .returned code => .returned code
  | .exited status => .exited status
  | .undefined => .undefined
  | .build st => match_destroy_tbl_check env st

/-! ### `del_rule` and `set_rule` -/

/-- A rule (`struct net_mat_rule`): the members `match.c` writes. -/
structure net_mat_rule where
  table_id : Nat
  priority : Nat
  uid : Nat
  matches_ : List net_mat_field_ref
  actions : List net_mat_action
deriving DecidableEq, Repr

/-- The zeroed rule. -/
def net_mat_rule.zero : net_mat_rule :=
  { table_id := 0, priority := 0, uid := 0, matches_ := [], actions := [] }

/-- The pattern `err = sscanf(tok, "%u", &x); if (err < 0) exit(-1);` on a
token that is present: the new value of `x`, or `none` for the exit. -/
def scan_u32_exit (tok : String) (old : Nat) : Option Nat :=
  match sscanf_u 32 tok.data with
  | (err, some v) => if err < 0 then none else some v
  | (err, none) => if err < 0 then none else some old

/-- One clause `KEYWORD VALUE` of `rule_del_send`, the value token being
present. -/
def rule_del_clause (kw tok : String) (rule : net_mat_rule) : send_result net_mat_rule :=
  if kw = "prio" then
    match scan_u32_exit tok rule.priority with
    | none => .exited (-1)
    | some v => .build { rule with priority := v }
  else if kw = "handle" then
    match scan_u32_exit tok rule.uid with
    | none => .exited (-1)
    | some v => .build { rule with uid := v }
  else if kw = "table" then
    match scan_u32_exit tok rule.table_id with
    | none => .exited (-1)
    | some v => .build { rule with table_id := v }
  else .exited (-1)

/-- The loop `while (argc > 0)` of `rule_del_send`. -/
def rule_del_loop : List String → net_mat_rule → send_result net_mat_rule
  | [], rule => .build rule
  | [kw], _ =>
    if kw = "prio" ∨ kw = "handle" ∨ kw = "table" then .returned (-EINVAL) else .exited (-1)
  | kw :: tok :: rest, rule =>
    match rule_del_clause kw tok rule with
    | .build rule1 => rule_del_loop rest rule1
    | r => r

/-- The function `rule_del_send` up to the point where the message is allocated: the
argument loop and the two tests `!rule.table_id` and `!rule.uid`. -/
def rule_del_send (argv : List String) : send_result net_mat_rule :=
  match rule_del_loop argv net_mat_rule.zero with
  | .returned code => .returned code
  | .exited status => .exited status
  | .undefined => .undefined
  | .build rule =>
    if rule.table_id = 0 then .exited (-1)
    else if rule.uid = 0 then .exited (-1)
    else .build rule

/-- Whether `get_match_arg` reaches its first store through `match`
(`match->instance = ...`): the `INSTANCE.FIELD` token is present and
`strtok` splits it in two. -/
def get_match_arg_stores (argv : List String) : Bool :=
  match argv.tail with
  | [] => false
  | strings :: _ =>
    match strtok strings.data '.' with
    | none => false
    | some (_, saved) => (strtok saved '.').isSome

/-- Whether `get_action_arg` reaches its first store through `action`
(`action->uid = a->uid`): the action name is present and resolves. -/
def get_action_arg_stores (env : repository) (argv : List String) : Bool :=
  match argv.tail with
  | [] => false
  | nm :: _ => decide (env.find_action nm ≠ 0) && (env.get_actions (env.find_action nm)).isSome

/-- One pass of the loop `while (argc > 0)` of `rule_set_send` on the
keyword `kw` followed by `rest`. The arrays `matches` and `acts` have 50
entries and the function does not test the counts: a store through
`&matches[match_count]` or `&acts[action_count]` with a count of 50 or
more is outside the array. `table` as the last token hands the `NULL` to
`sscanf`. -/
def rule_set_clause (env : repository) (kw : String) (rest : List String)
    (rule : net_mat_rule) : send_result (List String × net_mat_rule) :=
  if kw = "match" then
    if rule.matches_.length ≥ MAX_MATCHES ∧ get_match_arg_stores (kw :: rest) = true then
      .undefined
    else
      match get_match_arg env (kw :: rest) true false net_mat_field_ref.zero
          rule_set_send_keywords with
      | (advance, m) =>
        if advance < 0 then .returned (-EINVAL)
        else .build (rest.drop advance.toNat, { rule with matches_ := rule.matches_ ++ [m] })
  else if kw = "action" then
    if rule.actions.length ≥ MAX_ACTIONS ∧ get_action_arg_stores env (kw :: rest) = true then
      .undefined
    else
      match get_action_arg env (kw :: rest) true ⟨0, none, none⟩ with
      | .exited status => .exited status
      | .returned advance (a, _) =>
        if advance < 0 then .returned (-EINVAL)
        else .build (rest.drop advance.toNat, { rule with actions := rule.actions ++ [a] })
  else if kw = "prio" then
    match rest with
    | [] => .returned (-EINVAL)
    | tok :: rest1 =>
      match scan_u32_exit tok rule.priority with
      | none => .exited (-1)
      | some v => .build (rest1, { rule with priority := v })
  else if kw = "handle" then
    match rest with
    | [] => .returned (-EINVAL)
    | tok :: rest1 =>
      match scan_u32_exit tok rule.uid with
      | none => .exited (-1)
      | some v => .build (rest1, { rule with uid := v })
  else if kw = "table" then
    match rest with
    | [] => .undefined
    | tok :: rest1 =>
      match scan_u32_exit tok rule.table_id with
      | none => .exited (-1)
      | some v => .build (rest1, { rule with table_id := v })
  else .exited (-1)

/-- The loop `while (argc > 0)` of `rule_set_send`; the first argument
bounds the number of passes and is the token count at the call. -/
def rule_set_loop (env : repository) :
    Nat → List String → net_mat_rule → send_result net_mat_rule
  | _, [], rule => .build rule
  | 0, _ :: _, _ => .undefined
  | fuel + 1, kw :: rest, rule =>
    match rule_set_clause env kw rest rule with
    | .build (argv1, rule1) => rule_set_loop env fuel argv1 rule1
    | .returned code => .returned code
    | .exited status => .exited status
    | .undefined => .undefined

/-- The function `rule_set_send` up to the point where the message is allocated: the
argument loop, the tests of the table id and the rule id, and the default
priority. -/
def rule_set_send (env : repository) (argv : List String) : send_result net_mat_rule :=
  match rule_set_loop env argv.length argv net_mat_rule.zero with
  | .returned code => .returned code
  | .exited status => .exited status
  | .undefined => .undefined
  | .build rule =>
    if rule.table_id = 0 then .exited (-1)
    else if rule.uid = 0 then .exited (-1)
    else .build { rule with priority := if rule.priority = 0 then 1 else rule.priority }

/-! ## The netlink exchange -/

/-- The message type `NLMSG_DONE` and the flag `NLM_F_MULTI` of
`linux/netlink.h`. -/
def NLMSG_DONE : Nat := 3
def NLM_F_MULTI : Nat := 2

/-- The attributes `match.c` puts into a request. -/
inductive nl_attr
  | NET_MAT_IDENTIFIER_TYPE | NET_MAT_IDENTIFIER
  | NET_MAT_TABLES | NET_MAT_TABLE
  | NET_MAT_RULES | NET_MAT_TABLE_RULES_TABLE
  | NET_MAT_TABLE_RULES_MINPRIO | NET_MAT_TABLE_RULES_MAXPRIO
  | NET_MAT_PORTS | NET_MAT_PORT | NET_MAT_PORT_MIN_INDEX | NET_MAT_PORT_MAX_INDEX
deriving DecidableEq, Repr

/-- A received message: the members `process_rx_message` reads
(`nlh->nlmsg_type`, `nlh->nlmsg_flags`, `glh->cmd`). -/
structure nlmsg where
  nlmsg_type : Nat
  nlmsg_flags : Nat
  cmd : Nat
deriving DecidableEq, Repr

/-- What one call of `match_nl_recv_msg` yields: `NULL` or a message. -/
inductive rx_result
  | failure
  | message (msg : nlmsg)
deriving DecidableEq, Repr

/-- The reply handlers `type_cb` points to. -/
inductive rx_handler
  | match_cmd_get_tables | match_cmd_get_headers | match_cmd_get_actions
  | match_cmd_get_headers_graph | match_cmd_get_table_graph | match_cmd_get_rules
  | match_cmd_set_rules | match_cmd_del_rules | match_cmd_update_rules
  | match_cmd_create_table | match_cmd_destroy_table | match_cmd_get_ports
  | match_cmd_get_lport | match_cmd_set_ports
deriving DecidableEq, Repr

/-- What `match.c` takes from libnl and `matchlib_nl` during one command:
whether the allocation of the request succeeds, the return values of the
puts, whether a nest start returns a pointer, the return value of
`nl_send_auto`, the result of the n-th call of `match_nl_recv_msg`, the
port state fetched after a `set_port`, and the values of the command
codes and constants of `if_match.h`. -/
structure netlink where
  match_nl_alloc_msg : NET_MAT_CMD → Bool
  nla_put_u32 : nl_attr → Nat → Int
  nla_nest_start : nl_attr → Bool
  match_put_table : net_mat_tbl → Int
  match_put_rule : net_mat_rule → Int
  match_put_port : net_mat_port → Int
  match_put_rule_error : Int
  nl_send_auto : Int
  match_nl_recv_msg : Nat → rx_result
  match_nl_get_ports_after : Nat → Option net_mat_port
  cmd_code : NET_MAT_CMD → Nat
  NET_MAT_CMD_MAX : Nat
  NET_MAT_IDENTIFIER_IFINDEX : Nat

/-- What a command does on the netlink side, in order. -/
inductive nl_event
  | alloc_msg (cmd : NET_MAT_CMD)
  | put_u32 (attr : nl_attr) (value : Nat)
  | put_rule_error
  | nest_start (attr : nl_attr)
  | nest_end (attr : nl_attr)
  | put_table (table : net_mat_tbl)
  | put_rule (rule : net_mat_rule)
  | put_port (port : net_mat_port)
  | send_auto
  | sig_unblock
  | recv_msg (r : rx_result)
  | sig_block
  | dispatch (h : rx_handler) (msg : nlmsg)
  | free_rx (msg : nlmsg)
  | free_request
deriving DecidableEq, Repr

/-- The initialisers of the array `type_cb`, in source order. -/
def type_cb_entries : List (NET_MAT_CMD × rx_handler) :=
  [(.GET_TABLES, .match_cmd_get_tables),
   (.GET_HEADERS, .match_cmd_get_headers),
   (.GET_ACTIONS, .match_cmd_get_actions),
   (.GET_HDR_GRAPH, .match_cmd_get_headers_graph),
   (.GET_TABLE_GRAPH, .match_cmd_get_table_graph),
   (.GET_RULES, .match_cmd_get_rules),
   (.SET_RULES, .match_cmd_set_rules),
   (.DEL_RULES, .match_cmd_del_rules),
   (.UPDATE_RULES, .match_cmd_update_rules),
   (.CREATE_TABLE, .match_cmd_create_table),
   (.DESTROY_TABLE, .match_cmd_destroy_table),
   (.UPDATE_TABLE, .match_cmd_create_table),
   (.GET_PORTS, .match_cmd_get_ports),
   (.GET_LPORT, .match_cmd_get_lport),
   (.GET_PHYS_PORT, .match_cmd_get_ports),
   (.SET_PORTS, .match_cmd_set_ports)]

/-- What the expression `type_cb[type]` denotes: a handler, the null
pointer of an entry without initialiser, or a read outside the
`NET_MAT_CMD_MAX + 1` entries of the array. -/
inductive type_cb_slot
  | handler (h : rx_handler)
  | null
  | outside
deriving DecidableEq, Repr

/-- The array `type_cb` indexed by a command code (the enumerators have
distinct values). -/
def type_cb (nl : netlink) (type : Nat) : type_cb_slot :=
  if type > nl.NET_MAT_CMD_MAX then .outside
  else
    match type_cb_entries.find? (fun e => decide (nl.cmd_code e.1 = type)) with
    | some e => .handler e.2
    | none => .null

/-- How `process_rx_message` ends: it returns; it calls through a pointer
that is no handler (behaviour undefined); or it is still receiving when
the bound on the number of received messages is reached. -/
inductive rx_end
  | finished
  | undefined
  | pending
deriving DecidableEq, Repr

/-- The loop `for (;;)` of `process_rx_message` from the `i`-th receive on,
bounded by the number of messages to receive. `SIGINT` is unblocked around
`match_nl_recv_msg` only. -/
def process_rx_loop (nl : netlink) : Nat → Nat → List nl_event × rx_end
  | 0, _ => ([], .pending)
  | fuel + 1, i =>
    match nl.match_nl_recv_msg i with
    | .failure => ([.sig_unblock, .recv_msg .failure, .sig_block], .finished)
    | .message msg =>
      if msg.nlmsg_type = NLMSG_DONE then
        ([.sig_unblock, .recv_msg (.message msg), .sig_block, .free_rx msg], .finished)
      else
        match type_cb nl msg.cmd with
        | .handler h =>
          if msg.nlmsg_flags &&& NLM_F_MULTI = 0 then
            ([.sig_unblock, .recv_msg (.message msg), .sig_block, .dispatch h msg,
              .free_rx msg], .finished)
          else
            match process_rx_loop nl fuel (i + 1) with
            | (events, e) =>
              ([.sig_unblock, .recv_msg (.message msg), .sig_block, .dispatch h msg,
                .free_rx msg] ++ events, e)
        | .null => ([.sig_unblock, .recv_msg (.message msg), .sig_block], .undefined)
        | .outside => ([.sig_unblock, .recv_msg (.message msg), .sig_block], .undefined)

/-- The function `process_rx_message`, receiving at most `fuel` messages. -/
def process_rx_message (nl : netlink) (fuel : Nat) : List nl_event × rx_end :=
  process_rx_loop nl fuel 0

/-- How a command function ends. -/
inductive run_end
  | returned (code : Int)
  | exited (status : Int)
  | undefined
  | pending
deriving DecidableEq, Repr

/-- A run of a command function: what it did on the netlink side and how
it ended. -/
structure run where
  events : List nl_event
  ending : run_end
deriving DecidableEq, Repr

/-- The tail common to the send functions, after the events `pre`:
`err = nl_send_auto(...); if (err > 0) process_rx_message(verbose);
match_nl_free_msg(msg); return err;`. -/
def send_and_receive (nl : netlink) (fuel : Nat) (pre : List nl_event) : run :=
  if nl.nl_send_auto > 0 then
    match process_rx_message nl fuel with
    | (events, .finished) =>
      ⟨pre ++ [.send_auto] ++ events ++ [.free_request], .returned nl.nl_send_auto⟩
    | (events, .undefined) => ⟨pre ++ [.send_auto] ++ events, .undefined⟩
    | (events, .pending) => ⟨pre ++ [.send_auto] ++ events, .pending⟩
  else ⟨pre ++ [.send_auto, .free_request], .returned nl.nl_send_auto⟩

/-- The head common to the send functions that test their identifier puts:
the allocation of the request (`alloc_err` is the code returned when it
fails) and `nla_put_u32(IDENTIFIER_TYPE) || nla_put_u32(IDENTIFIER)`,
whose failure frees the request and returns `-EMSGSIZE`. The result is the
run that ends there, or the events so far. -/
def start_request (nl : netlink) (cmd : NET_MAT_CMD) (ifindex : Nat) (alloc_err : Int) :
    Except run (List nl_event) :=
  if nl.match_nl_alloc_msg cmd = false then .error ⟨[.alloc_msg cmd], .returned alloc_err⟩
  else if nl.nla_put_u32 .NET_MAT_IDENTIFIER_TYPE nl.NET_MAT_IDENTIFIER_IFINDEX ≠ 0 then
    .error ⟨[.alloc_msg cmd, .put_u32 .NET_MAT_IDENTIFIER_TYPE nl.NET_MAT_IDENTIFIER_IFINDEX,
             .free_request], .returned (-EMSGSIZE)⟩
  else if nl.nla_put_u32 .NET_MAT_IDENTIFIER ifindex ≠ 0 then
    .error ⟨[.alloc_msg cmd, .put_u32 .NET_MAT_IDENTIFIER_TYPE nl.NET_MAT_IDENTIFIER_IFINDEX,
             .put_u32 .NET_MAT_IDENTIFIER ifindex, .free_request], .returned (-EMSGSIZE)⟩
  else
    .ok [.alloc_msg cmd, .put_u32 .NET_MAT_IDENTIFIER_TYPE nl.NET_MAT_IDENTIFIER_IFINDEX,
         .put_u32 .NET_MAT_IDENTIFIER ifindex]

/-- The rest of `match_create_tbl_send` and of `match_destroy_tbl_send` from
the allocation of the request on. The nest start of `NET_MAT_TABLE` and
the return value of `match_put_table` are not tested; `nla_nest_end` on
the null pointer of a failed nest start is not defined. -/
def table_request (nl : netlink) (fuel : Nat) (cmd : NET_MAT_CMD) (ifindex : Nat)
    (alloc_err : Int) (table : net_mat_tbl) : run :=
  match start_request nl cmd ifindex alloc_err with
  | .error r => r
  | .ok pre =>
    if nl.nla_nest_start .NET_MAT_TABLES = false then
      ⟨pre ++ [.nest_start .NET_MAT_TABLES, .free_request], .returned (-EMSGSIZE)⟩
    else if nl.nla_nest_start .NET_MAT_TABLE = false then
      ⟨pre ++ [.nest_start .NET_MAT_TABLES, .nest_start .NET_MAT_TABLE, .put_table table],
        .undefined⟩
    else
      send_and_receive nl fuel
        (pre ++ [.nest_start .NET_MAT_TABLES, .nest_start .NET_MAT_TABLE, .put_table table,
          .nest_end .NET_MAT_TABLE, .nest_end .NET_MAT_TABLES])

/-- The rest of `rule_set_send` and of `rule_del_send` from the allocation of
the request on. The return value of `match_put_rule` is not tested. -/
def rule_request (nl : netlink) (fuel : Nat) (cmd : NET_MAT_CMD) (ifindex : Nat)
    (rule : net_mat_rule) : run :=
  match start_request nl cmd ifindex (-ENOMSG) with
  | .error r => r
  | .ok pre =>
    if nl.match_put_rule_error ≠ 0 then
      ⟨pre ++ [.put_rule_error, .free_request], .returned nl.match_put_rule_error⟩
    else if nl.nla_nest_start .NET_MAT_RULES = false then
      ⟨pre ++ [.put_rule_error, .nest_start .NET_MAT_RULES, .free_request],
        .returned (-EMSGSIZE)⟩
    else
      send_and_receive nl fuel
        (pre ++ [.put_rule_error, .nest_start .NET_MAT_RULES, .put_rule rule,
          .nest_end .NET_MAT_RULES])

/-- The rest of `rule_get_send` from the allocation of the request on, for
the table id and the bounds its argument processing produced. -/
def rule_get_request (nl : netlink) (fuel : Nat) (ifindex : Nat) (tableid min max : Nat) :
    run :=
  match start_request nl .GET_RULES ifindex (-ENOMSG) with
  | .error r => r
  | .ok pre =>
    if nl.nla_nest_start .NET_MAT_RULES = false then
      ⟨pre ++ [.nest_start .NET_MAT_RULES, .free_request], .returned (-ENOMSG)⟩
    else if nl.nla_put_u32 .NET_MAT_TABLE_RULES_TABLE tableid ≠ 0 then
      ⟨pre ++ [.nest_start .NET_MAT_RULES, .put_u32 .NET_MAT_TABLE_RULES_TABLE tableid,
        .free_request], .returned (-EMSGSIZE)⟩
    else
      let ev1 := pre ++ [.nest_start .NET_MAT_RULES, .put_u32 .NET_MAT_TABLE_RULES_TABLE tableid]
      if min > 0 ∧ nl.nla_put_u32 nl_attr.NET_MAT_TABLE_RULES_MINPRIO min ≠ 0 then
        ⟨ev1 ++ [.put_u32 nl_attr.NET_MAT_TABLE_RULES_MINPRIO min, .free_request],
          .returned (nl.nla_put_u32 nl_attr.NET_MAT_TABLE_RULES_MINPRIO min)⟩
      else
        let ev2 :=
          ev1 ++ (if min > 0 then [.put_u32 nl_attr.NET_MAT_TABLE_RULES_MINPRIO min] else [])
        if max > 0 ∧ nl.nla_put_u32 nl_attr.NET_MAT_TABLE_RULES_MAXPRIO max ≠ 0 then
          ⟨ev2 ++ [.put_u32 nl_attr.NET_MAT_TABLE_RULES_MAXPRIO max, .free_request],
            .returned (nl.nla_put_u32 nl_attr.NET_MAT_TABLE_RULES_MAXPRIO max)⟩
        else
          let ev3 :=
            ev2 ++
              (if max > 0 then [.put_u32 nl_attr.NET_MAT_TABLE_RULES_MAXPRIO max] else []) ++
              [.nest_end .NET_MAT_RULES]
          if nl.match_put_rule_error ≠ 0 then
            ⟨ev3 ++ [.put_rule_error, .free_request], .returned nl.match_put_rule_error⟩
          else send_and_receive nl fuel (ev3 ++ [.put_rule_error])

/-- The rest of `match_get_port_send` from the allocation of the request on,
for the port record, the bounds and the query flags its argument
processing produced (`unspec` is `NET_MAT_PORT_ID_UNSPEC`). -/
def port_get_request (nl : netlink) (fuel : Nat) (cmd : NET_MAT_CMD) (ifindex : Nat)
    (unspec : Nat) (port : net_mat_port) (min max : Nat) (have_query : Bool) : run :=
  match start_request nl cmd ifindex (-ENOMEM) with
  | .error r => r
  | .ok pre =>
    if nl.nla_nest_start .NET_MAT_PORTS = false then
      ⟨pre ++ [.nest_start .NET_MAT_PORTS, .free_request], .returned (-EMSGSIZE)⟩
    else
      let ev1 := pre ++ [.nest_start .NET_MAT_PORTS]
      if max ≠ unspec ∧ nl.nla_put_u32 .NET_MAT_PORT_MAX_INDEX max ≠ 0 then
        ⟨ev1 ++ [.put_u32 .NET_MAT_PORT_MAX_INDEX max, .free_request], .returned (-EMSGSIZE)⟩
      else
        let ev2 := ev1 ++ (if max ≠ unspec then [.put_u32 .NET_MAT_PORT_MAX_INDEX max] else [])
        if min ≠ unspec ∧ nl.nla_put_u32 .NET_MAT_PORT_MIN_INDEX min ≠ 0 then
          ⟨ev2 ++ [.put_u32 .NET_MAT_PORT_MIN_INDEX min, .free_request], .returned (-EMSGSIZE)⟩
        else
          let ev3 :=
            ev2 ++ (if min ≠ unspec then [.put_u32 .NET_MAT_PORT_MIN_INDEX min] else [])
          if nl.nla_nest_start .NET_MAT_PORT = false then
            ⟨ev3 ++ [.nest_start .NET_MAT_PORT, .free_request], .returned (-EMSGSIZE)⟩
          else if have_query = true ∧ nl.match_put_port port ≠ 0 then
            ⟨ev3 ++ [.nest_start .NET_MAT_PORT, .put_port port, .free_request],
              .returned (-EMSGSIZE)⟩
          else
            send_and_receive nl fuel
              (ev3 ++ [.nest_start .NET_MAT_PORT] ++
                (if have_query = true then [.put_port port] else []) ++
                [.nest_end .NET_MAT_PORT, .nest_end .NET_MAT_PORTS])

/-- The rest of `match_set_port_send` from the allocation of the request on.
The nest start of `NET_MAT_PORT` is not tested. After the exchange the
port is fetched again; a failed fetch returns `-EINVAL`. -/
def port_set_request (nl : netlink) (fuel : Nat) (ifindex : Nat) (port : net_mat_port) : run :=
  match start_request nl .SET_PORTS ifindex (-ENOMEM) with
  | .error r => r
  | .ok pre =>
    if nl.nla_nest_start .NET_MAT_PORTS = false then
      ⟨pre ++ [.nest_start .NET_MAT_PORTS, .free_request], .returned (-EMSGSIZE)⟩
    else if nl.match_put_port port ≠ 0 then
      ⟨pre ++ [.nest_start .NET_MAT_PORTS, .nest_start .NET_MAT_PORT, .put_port port,
        .free_request], .returned (nl.match_put_port port)⟩
    else if nl.nla_nest_start .NET_MAT_PORT = false then
      ⟨pre ++ [.nest_start .NET_MAT_PORTS, .nest_start .NET_MAT_PORT, .put_port port],
        .undefined⟩
    else
      match send_and_receive nl fuel
          (pre ++ [.nest_start .NET_MAT_PORTS, .nest_start .NET_MAT_PORT, .put_port port,
            .nest_end .NET_MAT_PORT, .nest_end .NET_MAT_PORTS]) with
      | ⟨events, .returned code⟩ =>
        if (nl.match_nl_get_ports_after port.port_id).isNone then ⟨events, .returned (-EINVAL)⟩
        else ⟨events, .returned code⟩
      | r => r

/-- The function `match_send_recv`: the two identifier puts are not tested. -/
def match_send_recv (nl : netlink) (fuel : Nat) (ifindex : Nat) (cmd : NET_MAT_CMD) : run :=
  if nl.match_nl_alloc_msg cmd = false then ⟨[.alloc_msg cmd], .returned (-ENOMSG)⟩
  else
    send_and_receive nl fuel
      [.alloc_msg cmd, .put_u32 .NET_MAT_IDENTIFIER_TYPE nl.NET_MAT_IDENTIFIER_IFINDEX,
       .put_u32 .NET_MAT_IDENTIFIER ifindex]

/-- A send function as a whole: its argument processing, then, when that
passes, the request built from the record. -/
def send_result.then_request {α : Type} (r : send_result α) (request : α → run) : run :=
  match r with
  | .returned code => ⟨[], .returned code⟩
  | .exited status => ⟨[], .exited status⟩
  | .undefined => ⟨[], .undefined⟩
  | .build record => request record

/-- The whole of `match_create_tbl_send` (`cmd` is `CREATE_TABLE` or
`UPDATE_TABLE`). -/
def match_create_tbl_send_run (env : repository) (nl : netlink) (fuel : Nat) (ifindex : Nat)
    (argv : List String) (cmd : NET_MAT_CMD) : run :=
  (match_create_tbl_send env argv cmd).1.then_request
    (table_request nl fuel cmd ifindex (-ENOMEM))

/-- The whole of `match_destroy_tbl_send`. -/
def match_destroy_tbl_send_run (env : repository) (nl : netlink) (fuel : Nat) (ifindex : Nat)
    (argv : List String) : run :=
  (match_destroy_tbl_send env argv).then_request
    (table_request nl fuel .DESTROY_TABLE ifindex (-ENOMSG))

/-- The whole of `rule_set_send`. -/
def rule_set_send_run (env : repository) (nl : netlink) (fuel : Nat) (ifindex : Nat)
    (argv : List String) : run :=
  (rule_set_send env argv).then_request (rule_request nl fuel .SET_RULES ifindex)

/-- The whole of `rule_del_send`. -/
def rule_del_send_run (nl : netlink) (fuel : Nat) (ifindex : Nat) (argv : List String) : run :=
  (rule_del_send argv).then_request (rule_request nl fuel .DEL_RULES ifindex)

/-- The whole of `match_set_port_send`. -/
def match_set_port_send_run (env : repository) (nl : netlink) (fuel : Nat) (ifindex : Nat)
    (argv : List String) : run :=
  (match_set_port_send env argv).then_request (port_set_request nl fuel ifindex)

/-! ### `get_ports`, `get_phys_port` and `lookup_lport` -/

/-- The call `sscanf(s, "%hhx:%hhx.%hhu", &pci.bus, &pci.device,
&pci.function)`: the return value and `pci` after it. The ordinary
characters `:` and `.` must match the input exactly. -/
def sscanf_pci (s : List Char) (pci : net_mat_port_pci) : Int × net_mat_port_pci :=
  match scan_unsigned 16 8 s with
  | .input_failure => (EOF, pci)
  | .matching_failure => (0, pci)
  | .converted bus r1 =>
    match r1 with
    | [] => (1, { pci with bus := bus })
    | c1 :: r2 =>
      if c1.toNat ≠ 58 then (1, { pci with bus := bus })
      else
        match scan_unsigned 16 8 r2 with
        | .input_failure => (1, { pci with bus := bus })
        | .matching_failure => (1, { pci with bus := bus })
        | .converted device r3 =>
          match r3 with
          | [] => (2, { pci with bus := bus, device := device })
          | c2 :: r4 =>
            if c2.toNat ≠ 46 then (2, { pci with bus := bus, device := device })
            else
              match scan_unsigned 10 8 r4 with
              | .input_failure => (2, { pci with bus := bus, device := device })
              | .matching_failure => (2, { pci with bus := bus, device := device })
              | .converted function _ => (3, ⟨bus, device, function⟩)

/-- The local variables of `match_get_port_send` in its argument loop. -/
structure get_port_state where
  port : net_mat_port
  have_pci_query : Bool
  have_mac_query : Bool
  have_lport_query : Bool
  min : Nat
  max : Nat
deriving DecidableEq, Repr

/-- The state after `memset(&port, 0, sizeof(port))` and the initialisers:
`port_id`, `min` and `max` are `NET_MAT_PORT_ID_UNSPEC`. -/
def get_port_init (env : repository) : get_port_state :=
  { port :=
      { port_id := env.NET_MAT_PORT_ID_UNSPEC, speed := 0, max_frame_size := 0, state := 0,
        vlan := { def_vlan := 0, def_priority := 0, drop_tagged := 0, drop_untagged := 0,
                  vlan_membership_bitmask := List.replicate 512 0 },
        loopback := 0, learning := 0, update_dscp := 0, update_ttl := 0,
        mcast_flooding := 0, update_dmac := 0, update_smac := 0, update_vlan := 0 },
    have_pci_query := false, have_mac_query := false, have_lport_query := false,
    min := env.NET_MAT_PORT_ID_UNSPEC, max := env.NET_MAT_PORT_ID_UNSPEC }

/-- One clause `KEYWORD VALUE` of `match_get_port_send`, the value token
being present. -/
def get_port_clause (kw tok : String) (st : get_port_state) : send_result get_port_state :=
  if kw = "pci" then
    match sscanf_pci tok.data st.port.pci with
    | (ret, pci) =>
      if ret ≠ 3 then .returned (-EINVAL)
      else .build { st with port := { st.port with pci := pci }, have_pci_query := true }
  else if kw = "mac" then
    match match_macaddr2u64 st.port.mac_addr tok.data with
    | (err, mac) =>
      if err ≠ 0 then .returned (-EINVAL)
      else .build { st with port := { st.port with mac_addr := mac }, have_mac_query := true }
  else if kw = "lport" then
    match scan_u32_exit tok st.port.port_id with
    | none => .exited (-1)
    | some v =>
      .build { st with port := { st.port with port_id := v }, have_lport_query := true }
  else if kw = "min" then
    match scan_u32_exit tok st.min with
    | none => .exited (-1)
    | some v => .build { st with min := v }
  else if kw = "max" then
    match scan_u32_exit tok st.max with
    | none => .exited (-1)
    | some v => .build { st with max := v }
  else .exited (-1)

/-- The loop `while (argc > 0)` of `match_get_port_send`. A keyword that is
the last token has no value and returns `-EINVAL`; an unknown token
exits. -/
def get_port_loop : List String → get_port_state → send_result get_port_state
  | [], st => .build st
  | [kw], _ =>
    if kw = "pci" ∨ kw = "mac" ∨ kw = "lport" ∨ kw = "min" ∨ kw = "max" then
      .returned (-EINVAL)
    else .exited (-1)
  | kw :: tok :: rest, st =>
    match get_port_clause kw tok st with
    | .build st1 => get_port_loop rest st1
    | r => r

/-- The tests of `match_get_port_send` between its argument loop and the
allocation of the request. For `GET_PHYS_PORT` without `lport` a message
is printed and the function goes on. -/
def get_port_check (cmd : NET_MAT_CMD) (st : get_port_state) : send_result get_port_state :=
  if cmd = .GET_LPORT then
    if (st.have_pci_query ^^ st.have_mac_query) = false then .returned (-EINVAL)
    else .build st
  else if cmd = .GET_PHYS_PORT then
    if (st.have_pci_query ^^ st.have_mac_query) = true then .returned (-EINVAL)
    else .build st
  else .build st

/-- The function `match_get_port_send` up to the point where the request is
allocated. -/
def match_get_port_send (env : repository) (argv : List String) (cmd : NET_MAT_CMD) :
    send_result get_port_state :=
  match get_port_loop argv (get_port_init env) with
  | .returned code => .returned code
  | .exited status => .exited status
  | .undefined => .undefined
  | .build st => get_port_check cmd st

/-- The whole of `match_get_port_send` (`cmd` is `GET_PORTS`, `GET_LPORT` or
`GET_PHYS_PORT`). -/
def match_get_port_send_run (env : repository) (nl : netlink) (fuel : Nat) (ifindex : Nat)
    (argv : List String) (cmd : NET_MAT_CMD) : run :=
  (match_get_port_send env argv cmd).then_request
    (fun st =>
      port_get_request nl fuel cmd ifindex env.NET_MAT_PORT_ID_UNSPEC st.port st.min st.max
        (st.have_pci_query || st.have_mac_query || st.have_lport_query))

/-! ## The reply handlers -/

/-- What a reply handler does with the message it is handed: when
`genlmsg_parse` fails it prints a warning and returns; otherwise it goes on
to decode and print the attributes. No handler returns a value, exits or
writes to the message. -/
inductive handler_effect
  | warning
  | decoded
deriving DecidableEq, Repr

/-- The head of each reply handler: `err = genlmsg_parse(nlh, 0, tb,
NET_MAT_MAX, match_get_tables_policy); if (err < 0) { fprintf(stderr,
"Warning: unable to parse ..."); return; }`. The first argument is the
return value of `genlmsg_parse` on a message. -/
def rx_handler.run (genlmsg_parse : nlmsg → Int) (h : rx_handler) (msg : nlmsg) :
    handler_effect :=
  match h with
  | .match_cmd_get_tables => if genlmsg_parse msg < 0 then .warning else .decoded
  | .match_cmd_get_headers => if genlmsg_parse msg < 0 then .warning else .decoded
  | .match_cmd_get_actions => if genlmsg_parse msg < 0 then .warning else .decoded
  | .match_cmd_get_headers_graph => if genlmsg_parse msg < 0 then .warning else .decoded
  | .match_cmd_get_table_graph => if genlmsg_parse msg < 0 then .warning else .decoded
  | .match_cmd_get_rules => if genlmsg_parse msg < 0 then .warning else .decoded
  | .match_cmd_set_rules => if genlmsg_parse msg < 0 then .warning else .decoded
  | .match_cmd_del_rules => if genlmsg_parse msg < 0 then .warning else .decoded
  | .match_cmd_update_rules => if genlmsg_parse msg < 0 then .warning else .decoded
  | .match_cmd_create_table => if genlmsg_parse msg < 0 then .warning else .decoded
  | .match_cmd_destroy_table => if genlmsg_parse msg < 0 then .warning else .decoded
  | .match_cmd_get_ports => if genlmsg_parse msg < 0 then .warning else .decoded
  | .match_cmd_get_lport => if genlmsg_parse msg < 0 then .warning else .decoded
  | .match_cmd_set_ports => if genlmsg_parse msg < 0 then .warning else .decoded

/-- The loop `for (;;)` of `process_rx_message` with the handler calls
carried out: the messages handed to a handler, each with what the handler
did, and how the loop ends. The handler is called for its effect only; the
tests on `nlmsg_type` and `nlmsg_flags` follow the call. -/
def process_rx_handled (nl : netlink) (genlmsg_parse : nlmsg → Int) :
    Nat → Nat → List (nlmsg × handler_effect) × rx_end
  | 0, _ => ([], .pending)
  | fuel + 1, i =>
    match nl.match_nl_recv_msg i with
    | .failure => ([], .finished)
    | .message msg =>
      if msg.nlmsg_type = NLMSG_DONE then ([], .finished)
      else
        match type_cb nl msg.cmd with
        | .handler h =>
          if msg.nlmsg_flags &&& NLM_F_MULTI = 0 then
            ([(msg, rx_handler.run genlmsg_parse h msg)], .finished)
          else
            match process_rx_handled nl genlmsg_parse fuel (i + 1) with
            | (effects, e) => ((msg, rx_handler.run genlmsg_parse h msg) :: effects, e)
        | .null => ([], .undefined)
        | .outside => ([], .undefined)

/-! ## A small pipeline model used for concrete runs -/

/-- A declared action argument of the given name and type. -/
def demo_arg (name : String) (type : NET_MAT_ACTION_ARG_TYPE) : net_mat_action_arg :=
  { net_mat_action_arg.zero with name := some name, type := type }

/-- The port state the demo device reports for every port id: VLANs 1 and 3
are members. -/
def demo_port (port_id : Nat) : net_mat_port :=
  { port_id := port_id, speed := 1000, max_frame_size := 1500, state := 1,
    vlan := { def_vlan := 1, def_priority := 0, drop_tagged := 2, drop_untagged := 2,
              vlan_membership_bitmask := 10 :: List.replicate 511 0 },
    loopback := 2, learning := 1, update_dscp := 2, update_ttl := 2,
    mcast_flooding := 1, update_dmac := 2, update_smac := 2, update_vlan := 2 }

/-- A pipeline with one header instance `ethernet` (fields `dst_mac` of 48
bits and `vlan_id` of 12 bits) and the actions `set_egress_port PORT` and
`forward_to PORT...` (a 32-bit argument followed by a variadic one). -/
def demo_repository : repository :=
  { find_header_node := fun s => if s = "ethernet".data then 1 else 0,
    get_graph_node := fun n => if n = 1 then some ⟨"ethernet", 1, some [1]⟩ else none,
    find_field := fun s h =>
      if h = 1 ∧ s = "dst_mac".data then 1
      else if h = 1 ∧ s = "vlan_id".data then 2 else 0,
    get_fields := fun h f =>
      if h = 1 ∧ f = 1 then some ⟨"dst_mac", 1, 48⟩
      else if h = 1 ∧ f = 2 then some ⟨"vlan_id", 2, 12⟩ else none,
    find_action := fun s =>
      if s = "set_egress_port" then 1 else if s = "forward_to" then 2 else 0,
    get_actions := fun n =>
      if n = 1 then some ⟨1, some "set_egress_port", some [demo_arg "port" .U32]⟩
      else if n = 2 then
        some ⟨2, some "forward_to", some [demo_arg "port" .U32, demo_arg "ports" .VARIADIC]⟩
      else none,
    get_tables := fun _ => none,
    get_table_id := fun _ => 0,
    gen_table_id := 7,
    table_names := fun _ => none,
    match_nl_get_ports := fun n => some (demo_port n),
    flag_state_str := fun n => if n = 1 then "enabled" else "disabled",
    inet_aton := fun _ => none,
    inet_pton6 := fun _ => none,
    NET_MAT_PORT_ID_UNSPEC := 0,
    NET_MAT_PORT_T_DEF_PRI_UNSPEC := 0,
    NET_MAT_PORT_T_STATE_UP := 1,
    NET_MAT_PORT_T_STATE_DOWN := 2,
    NET_MAT_PORT_T_FLAG_ENABLED := 1,
    NET_MAT_PORT_T_FLAG_DISABLED := 2 }

/-- The received messages of the demo exchange: two parts of a multi-part
reply to `get_tables`, then the completion marker; every later receive
fails. -/
def demo_rx (n : Nat) : rx_result :=
  if n = 0 then .message ⟨16, 2, 0⟩
  else if n = 1 then .message ⟨16, 2, 0⟩
  else if n = 2 then .message ⟨3, 2, 0⟩
  else .failure

/-- A netlink side on which every call succeeds: `nl_send_auto` reports 20
bytes, the command codes are 0 to 15 in the order of the enumeration and
`NET_MAT_CMD_MAX` is 15. -/
def demo_netlink : netlink :=
  { match_nl_alloc_msg := fun _ => true,
    nla_put_u32 := fun _ _ => 0,
    nla_nest_start := fun _ => true,
    match_put_table := fun _ => 0,
    match_put_rule := fun _ => 0,
    match_put_port := fun _ => 0,
    match_put_rule_error := 0,
    nl_send_auto := 20,
    match_nl_recv_msg := demo_rx,
    match_nl_get_ports_after := fun n => some (demo_port n),
    cmd_code := fun c =>
      match c with
      | .GET_TABLES => 0 | .GET_HEADERS => 1 | .GET_ACTIONS => 2 | .GET_HDR_GRAPH => 3
      | .GET_TABLE_GRAPH => 4 | .GET_RULES => 5 | .SET_RULES => 6 | .DEL_RULES => 7
      | .UPDATE_RULES => 8 | .CREATE_TABLE => 9 | .DESTROY_TABLE => 10 | .UPDATE_TABLE => 11
      | .GET_PORTS => 12 | .GET_LPORT => 13 | .GET_PHYS_PORT => 14 | .SET_PORTS => 15,
    NET_MAT_CMD_MAX := 15,
    NET_MAT_IDENTIFIER_IFINDEX := 1 }

/-- The demo pipeline with a third field `ethernet.tag` of 96 bits and two
tables: table 1 (`acl`) declares the attributes `aging` (U32, writable),
`hash` (U8, read-only) and `depth` (U16, writable); table 2 (`fdb`)
declares none. -/
def demo_table_repository : repository :=
  { demo_repository with
    find_field := fun s h =>
      if h = 1 ∧ s = "tag".data then 3 else demo_repository.find_field s h,
    get_fields := fun h f =>
      if h = 1 ∧ f = 3 then some ⟨"tag", 3, 96⟩ else demo_repository.get_fields h f,
    get_tables := fun n =>
      if n = 1 then
        some { name := some "acl", uid := 1, source := 1, size := 64, matches_ := [],
               actions := [],
               attribs := some
                 [{ net_mat_named_value.zero with
                      name := some "aging", uid := 1, type := .U32, write := 1 },
                  { net_mat_named_value.zero with
                      name := some "hash", uid := 2, type := .U8, write := 0 },
                  { net_mat_named_value.zero with
                      name := some "depth", uid := 3, type := .U16, write := 1 },
                  net_mat_named_value.zero] }
      else if n = 2 then
        some { name := some "fdb", uid := 2, source := 1, size := 64, matches_ := [],
               actions := [], attribs := none }
      else none }

/-- A receive side that delivers one part of a multi-part reply and then
fails. -/
def demo_rx_broken (n : Nat) : rx_result :=
  if n = 0 then .message ⟨16, 2, 0⟩ else .failure

/-- The demo pipeline with a node `ethernet` that exposes two headers, 1 and
2; the fields are those of header 1. -/
def demo_two_header_repository : repository :=
  { demo_repository with
    get_graph_node := fun n => if n = 1 then some ⟨"ethernet", 1, some [1, 2]⟩ else none }

/-- The token list made of `n` copies of a clause. -/
def repeat_clause (clause : List String) : Nat → List String
  | 0 => []
  | n + 1 => clause ++ repeat_clause clause n

/-- The demo pipeline with a third action `set_vlan VID PCP`: a 16-bit and an
8-bit argument, then the `UNSPEC` entry that ends the array. -/
def demo_action_repository : repository :=
  { demo_repository with
    find_action := fun s => if s = "set_vlan" then 3 else demo_repository.find_action s,
    get_actions := fun n =>
      if n = 3 then
        some ⟨3, some "set_vlan",
          some [demo_arg "vid" .U16, demo_arg "pcp" .U8, net_mat_action_arg.zero]⟩
      else demo_repository.get_actions n }

/-- The demo pipeline with three more fields of the header `ethernet`:
`station` of 40 bits, `subnet` of 24 bits and `ip6` of 128 bits. Here
`inet_aton` accepts `10.0.0.1` (stored in network byte order, read back on
a little-endian host) and `inet_pton` accepts `::1`. -/
def demo_address_repository : repository :=
  { demo_repository with
    find_field := fun s h =>
      if h = 1 ∧ s = "station".data then 1
      else if h = 1 ∧ s = "subnet".data then 2
      else if h = 1 ∧ s = "ip6".data then 3 else 0,
    get_fields := fun h f =>
      if h = 1 ∧ f = 1 then some ⟨"station", 1, 40⟩
      else if h = 1 ∧ f = 2 then some ⟨"subnet", 2, 24⟩
      else if h = 1 ∧ f = 3 then some ⟨"ip6", 3, 128⟩ else none,
    inet_aton := fun s => if s = "10.0.0.1".data then some 0x0100000a else none,
    inet_pton6 := fun s => if s = "::1".data then some ⟨0, 0, 0, 0x01000000⟩ else none }

/-- The demo pipeline with one more action, `flood`, which declares a
variadic argument alone. -/
def demo_flood_repository : repository :=
  { demo_repository with
    find_action := fun s => if s = "flood" then 4 else demo_repository.find_action s,
    get_actions := fun n =>
      if n = 4 then some ⟨4, some "flood", some [demo_arg "ports" .VARIADIC]⟩
      else demo_repository.get_actions n }

/-! ## Notions used to state the properties -/

/-- The text `ds` is the decimal numeral of `v`: decimal digits only, at
least one, no leading zero except in the numeral `0` itself. -/
def decimal_denotes (ds : List Char) (v : Nat) : Prop :=
  ds ≠ [] ∧ (∀ c ∈ ds, 48 ≤ c.toNat ∧ c.toNat ≤ 57) ∧
  (∀ c cs, ds = c :: cs → c.toNat = 48 → cs = []) ∧
  ds.foldl (fun acc c => acc * 10 + (c.toNat - 48)) 0 = v

/-- Whether no clause of the token list has the keyword `vlans`: the tokens
at the keyword positions (first, third, ...) all differ from it. -/
def no_vlans_clause : List String → Bool
  | [] => true
  | [kw] => decide (kw ≠ "vlans")
  | kw :: _ :: rest => decide (kw ≠ "vlans") && no_vlans_clause rest

/-- The cached port state is the one fetched for the current port id; with
no cached state the port id is still unspecified. -/
def port_be_fetched (env : repository) (st : set_port_state) : Prop :=
  match st.port_be with
  | none => st.port.port_id = env.NET_MAT_PORT_ID_UNSPEC
  | some pb => env.match_nl_get_ports st.port.port_id = some pb

/-- The value of a digit string read in `base`, most significant digit
first. -/
def numeral_value (base : Nat) (ds : List Char) : Nat :=
  ds.foldl (fun acc c => acc * base + (digit_value c).getD 0) 0

/-- The token is a numeral denoting `v` in one of the three C notations:
a decimal numeral; `0x` followed by at least one hexadecimal digit; `0`
followed by octal digits. -/
inductive numeral_denotes : List Char → Nat → Prop
  | decimal (ds : List Char) (v : Nat) : decimal_denotes ds v → numeral_denotes ds v
  | hex (ds : List Char) : ds ≠ [] → (∀ c ∈ ds, is_digit_in 16 c = true) →
      numeral_denotes ('0' :: 'x' :: ds) (numeral_value 16 ds)
  | octal (ds : List Char) : (∀ c ∈ ds, is_digit_in 8 c = true) →
      numeral_denotes ('0' :: ds) (numeral_value 8 ds)

/-- The messages a run hands to a handler, in order. -/
def dispatched : List nl_event → List nlmsg
  | [] => []
  | .dispatch _ msg :: es => msg :: dispatched es
  | _ :: es => dispatched es

/-- The results of the calls of `match_nl_recv_msg` in a run, in order. -/
def received : List nl_event → List rx_result
  | [] => []
  | .recv_msg r :: es => r :: received es
  | _ :: es => received es

/-- Whether a receive result ends the loop: a failure, a completion marker,
or a message without the flag `NLM_F_MULTI`. -/
def rx_stops (r : rx_result) : Bool :=
  match r with
  | .failure => true
  | .message msg =>
    decide (msg.nlmsg_type = NLMSG_DONE) || decide (msg.nlmsg_flags &&& NLM_F_MULTI = 0)

/-- The messages to be dispatched from a sequence of receive results, as the
specification words it: those before the first completion marker or
failure, cut after the first one that lacks `NLM_F_MULTI`. -/
def dispatch_spec : List rx_result → List nlmsg
  | [] => []
  | .failure :: _ => []
  | .message msg :: rest =>
    if msg.nlmsg_type = NLMSG_DONE then []
    else if msg.nlmsg_flags &&& NLM_F_MULTI = 0 then [msg]
    else msg :: dispatch_spec rest

/-- The results to be received from a sequence of receive results, as the
specification words it: up to the first one that ends the loop, that one
included, and none after it. -/
def receive_spec : List rx_result → List rx_result
  | [] => []
  | r :: rest => if rx_stops r = true then [r] else r :: receive_spec rest

/-- Whether a run keeps the discipline of `SIGINT` around the receive: the
signal is unblocked only from a `sig_unblock` to the `sig_block` that
follows the one `match_nl_recv_msg` between them, and every handler call
and every release of a received message happens while it is blocked. The
first argument tells whether the signal is blocked before the events. -/
def sigint_discipline : Bool → List nl_event → Bool
  | _, [] => true
  | _, .sig_unblock :: .recv_msg _ :: .sig_block :: es => sigint_discipline true es
  | _, .sig_unblock :: _ => false
  | _, .sig_block :: _ => false
  | _, .recv_msg _ :: _ => false
  | blocked, .dispatch _ _ :: es => blocked && sigint_discipline blocked es
  | blocked, .free_rx _ :: es => blocked && sigint_discipline blocked es
  | blocked, _ :: es => sigint_discipline blocked es

/-- The flag keywords of `set_port`. -/
def set_port_flag_keywords : List String :=
  ["drop_tagged", "drop_untagged", "loopback", "learning", "update_dscp", "update_ttl",
   "update_dmac", "update_smac", "update_vlan", "mcast_flooding"]

/-- The port record with the member named by a flag keyword set to `f` and
every other member as it was. -/
def set_port_flag (kw : String) (f : Nat) (port : net_mat_port) : net_mat_port :=
  if kw = "drop_tagged" then { port with vlan := { port.vlan with drop_tagged := f } }
  else if kw = "drop_untagged" then { port with vlan := { port.vlan with drop_untagged := f } }
  else if kw = "loopback" then { port with loopback := f }
  else if kw = "learning" then { port with learning := f }
  else if kw = "update_dscp" then { port with update_dscp := f }
  else if kw = "update_ttl" then { port with update_ttl := f }
  else if kw = "update_dmac" then { port with update_dmac := f }
  else if kw = "update_smac" then { port with update_smac := f }
  else if kw = "update_vlan" then { port with update_vlan := f }
  else if kw = "mcast_flooding" then { port with mcast_flooding := f }
  else port

/-- The clauses the argument loop of `rule_set_send` visits: at each pass
the keyword the loop stands at and the tokens after it, up to the pass
that does not hand on. -/
def rule_set_heads (env : repository) :
    Nat → List String → net_mat_rule → List (String × List String)
  | _, [], _ => []
  | 0, _ :: _, _ => []
  | fuel + 1, kw :: rest, rule =>
    (kw, rest) ::
      (match rule_set_clause env kw rest rule with
       | .build (argv1, rule1) => rule_set_heads env fuel argv1 rule1
       | _ => [])

/-- The priority after a visited clause: a `prio` clause with a value token
leaves what `sscanf "%u"` leaves in `rule.priority`; every other clause
leaves the priority as it was. -/
def prio_after (priority : Nat) (head : String × List String) : Nat :=
  if head.1 = "prio" then
    match head.2 with
    | tok :: _ => (scan_u32_exit tok priority).getD priority
    | [] => priority
  else priority

/-- Whether a token list made of clauses `KEYWORD VALUE` has a clause with
the keyword `kw`: the token is at a keyword position (first, third, ...)
and a value follows it. -/
def has_clause (kw : String) : List String → Bool
  | [] => false
  | [_] => false
  | k :: _ :: rest => decide (k = kw) || has_clause kw rest

/-- The token is a numeral in one of the two raw notations of a MAC
address: a string of decimal digits, read in base 10 (leading zeros
allowed), or `0x` followed by at least one hexadecimal digit. -/
inductive raw_numeral_denotes : List Char → Nat → Prop
  | decimal (ds : List Char) : ds ≠ [] → (∀ c ∈ ds, 48 ≤ c.toNat ∧ c.toNat ≤ 57) →
      raw_numeral_denotes ds (ds.foldl (fun acc c => acc * 10 + (c.toNat - 48)) 0)
  | hex (ds : List Char) : ds ≠ [] → (∀ c ∈ ds, is_digit_in 16 c = true) →
      raw_numeral_denotes ('0' :: 'x' :: ds) (numeral_value 16 ds)

/-- Whether every token is one the `switch (type)` of `get_action_arg`
converts for the declared argument at its position (it leaves `err` at 1):
the tokens and the declarations are taken pairwise and are equally many.
The first argument is the value of `err` before the first token. -/
def tokens_parse (env : repository) : Int → List net_mat_action_arg → List String → Bool
  | _, [], [] => true
  | err, d :: ds, t :: ts =>
    (match parse_action_arg env d.type t.data err
        { net_mat_action_arg.zero with type := d.type, name := d.name } with
     | .next 1 _ => true
     | _ => false) && tokens_parse env 1 ds ts
  | _, _, _ => false

/-- The first `min(length, NET_MAT_MAXNAME)` bytes of a token. -/
def first_bytes (tok : String) : String :=
  String.mk (tok.data.take (min tok.data.length NET_MAT_MAXNAME))

/-- The text starts as every IPv6 text form does: at most four hexadecimal
digits, then a colon. -/
def ipv6_lead (tok : List Char) : Prop :=
  ∃ hs rest, tok = hs ++ ':' :: rest ∧ hs.length ≤ 4 ∧ ∀ c ∈ hs, is_digit_in 16 c = true

/-- An octet written as one or two hexadecimal digits. -/
def octet_text (hs : List Char) : Prop :=
  hs ≠ [] ∧ hs.length ≤ 2 ∧ ∀ c ∈ hs, is_digit_in 16 c = true

/-- The token `o0:o1:o2:o3:o4:o5` made of six octet texts. -/
def mac_text (h0 h1 h2 h3 h4 h5 : List Char) : List Char :=
  h0 ++ ':' :: (h1 ++ ':' :: (h2 ++ ':' :: (h3 ++ ':' :: (h4 ++ ':' :: h5))))

/-- The last declared argument of the list that is not variadic. -/
def last_non_variadic (decls : List net_mat_action_arg) : Option net_mat_action_arg :=
  (decls.filter (fun d => decide (d.type ≠ .VARIADIC))).getLast?

/-- The type of the last non-variadic declared argument of the list;
unspecified when there is none. -/
def bound_type (decls : List net_mat_action_arg) : NET_MAT_ACTION_ARG_TYPE :=
  match last_non_variadic decls with
  | some d => d.type
  | none => .UNSPEC

/-- The name of the last non-variadic declared argument of the list; null
when there is none. -/
def bound_name (decls : List net_mat_action_arg) : Option String :=
  match last_non_variadic decls with
  | some d => d.name
  | none => none

/-- Every filled slot has the type and the name of the last non-variadic
declared argument at or before its index, among the first `reqs_args`
declarations. -/
def slots_bound (a_args : List net_mat_action_arg) (reqs_args : Nat)
    (args : List net_mat_action_arg) : Prop :=
  ∀ j slot, args[j]? = some slot →
    slot.type = bound_type (a_args.take (min (j + 1) reqs_args)) ∧
    slot.name = bound_name (a_args.take (min (j + 1) reqs_args))

/-! # Properties -/

/-- C1 (fails at width 64): for a field of bit-width 64, `field_max_value`
computes `(1ULL << 64) - 1`, which the target evaluates to 0, and
`field_parse_value` rejects the token `1` with `-ERANGE` although
`1 ≤ 2 ^ 64 - 1`. -/
theorem field_parse_value_width_64_rejects_one :
    (1 : Nat) ≤ 2 ^ 64 - 1 ∧
    field_max_value (some ⟨"f", 1, 64⟩) = 0 ∧
    field_parse_value ⟨"f", 1, 64⟩ "1".data = .error (-ERANGE) := by
  decide

/-- C2 (fails): `match_set_value_ll` does to every record what
`match_set_mask_ll` does; on a zeroed record of type `U8` for an 8-bit
field, `match_parse_value_as_number` with the token `5` returns 0, leaves
`value_u8` at 0 and stores 5 in `mask_u8`: the value step writes the mask
member, not the value member. -/
theorem match_parse_value_as_number_writes_mask :
    (∀ (m : net_mat_field_ref) (value : Nat),
      match_set_value_ll m value = match_set_mask_ll m value) ∧
    match_parse_value_as_number { net_mat_field_ref.zero with type := .U8 }
        ⟨"f", 1, 8⟩ "5".data =
      (0, { net_mat_field_ref.zero with type := .U8, mask_u8 := 5 }) ∧
    (match_parse_value_as_number { net_mat_field_ref.zero with type := .U8 }
        ⟨"f", 1, 8⟩ "5".data).2.value_u8 = 0 :=
  ⟨fun _ _ => rfl, by decide, by decide⟩

/-- C3: `field_get_attr_type` of a non-null field is U8, U16, U32, U64 for
widths up to 8, 16, 32, 64, IN6 for width 128 and UNSPEC for every other
width; two fields of the same width get the same type. -/
theorem field_get_attr_type_by_width (f : net_mat_field) :
    (f.bitwidth ≤ 8 → field_get_attr_type (some f) = .U8) ∧
    (8 < f.bitwidth ∧ f.bitwidth ≤ 16 → field_get_attr_type (some f) = .U16) ∧
    (16 < f.bitwidth ∧ f.bitwidth ≤ 32 → field_get_attr_type (some f) = .U32) ∧
    (32 < f.bitwidth ∧ f.bitwidth ≤ 64 → field_get_attr_type (some f) = .U64) ∧
    (f.bitwidth = 128 → field_get_attr_type (some f) = .IN6) ∧
    (64 < f.bitwidth ∧ f.bitwidth ≠ 128 → field_get_attr_type (some f) = .UNSPEC) ∧
    (∀ g : net_mat_field, g.bitwidth = f.bitwidth →
      field_get_attr_type (some g) = field_get_attr_type (some f)) := by
  refine ⟨?_, ?_, ?_, ?_, ?_, ?_, ?_⟩
  · intro h; simp [field_get_attr_type, h]
  · rintro ⟨h1, h2⟩
    have : ¬ f.bitwidth ≤ 8 := by omega
    simp [field_get_attr_type, *]
  · rintro ⟨h1, h2⟩
    have a : ¬ f.bitwidth ≤ 8 := by omega
    have b : ¬ f.bitwidth ≤ 16 := by omega
    simp [field_get_attr_type, *]
  · rintro ⟨h1, h2⟩
    have a : ¬ f.bitwidth ≤ 8 := by omega
    have b : ¬ f.bitwidth ≤ 16 := by omega
    have c : ¬ f.bitwidth ≤ 32 := by omega
    simp [field_get_attr_type, *]
  · intro h; simp [field_get_attr_type, h]
  · rintro ⟨h1, h2⟩
    have a : ¬ f.bitwidth ≤ 8 := by omega
    have b : ¬ f.bitwidth ≤ 16 := by omega
    have c : ¬ f.bitwidth ≤ 32 := by omega
    have d : ¬ f.bitwidth ≤ 64 := by omega
    simp [field_get_attr_type, *]
  · intro g h; simp [field_get_attr_type, h]

/-- Witness of C3: a 48-bit field gets type U64 and a 128-bit field type IN6. -/
theorem field_get_attr_type_by_width_witness :
    field_get_attr_type (some ⟨"dst_mac", 1, 48⟩) = .U64 ∧
    field_get_attr_type (some ⟨"dst_ip", 2, 128⟩) = .IN6 :=
  ⟨(field_get_attr_type_by_width ⟨"dst_mac", 1, 48⟩).2.2.2.1 (by decide),
   (field_get_attr_type_by_width ⟨"dst_ip", 2, 128⟩).2.2.2.2.1 (by decide)⟩

/-- C4: `match_set_exact_mask` returns 0 and sets the mask of the record's
type to all ones (four words `0xffffffff` for IN6; `0xff`, `0xffff`,
`0xffffffff`, `0xffffffffffffffff` for U8, U16, U32, U64), every other
member of the record, the value members included, staying as it was. -/
theorem match_set_exact_mask_all_ones (m : net_mat_field_ref) :
    (m.type = .IN6 → match_set_exact_mask m =
      (0, { m with mask_in6 := ⟨0xffffffff, 0xffffffff, 0xffffffff, 0xffffffff⟩ })) ∧
    (m.type = .U8 → match_set_exact_mask m = (0, { m with mask_u8 := 0xff })) ∧
    (m.type = .U16 → match_set_exact_mask m = (0, { m with mask_u16 := 0xffff })) ∧
    (m.type = .U32 → match_set_exact_mask m = (0, { m with mask_u32 := 0xffffffff })) ∧
    (m.type = .U64 → match_set_exact_mask m =
      (0, { m with mask_u64 := 0xffffffffffffffff })) := by
  refine ⟨?_, ?_, ?_, ?_, ?_⟩ <;> intro h <;>
    simp [match_set_exact_mask, match_set_mask_ll, h, ULLONG_MAX]

/-- Witness of C4: the exact mask of a zeroed U16 record and of a zeroed IN6
record. -/
theorem match_set_exact_mask_all_ones_witness :
    match_set_exact_mask { net_mat_field_ref.zero with type := .U16 } =
      (0, { net_mat_field_ref.zero with type := .U16, mask_u16 := 0xffff }) ∧
    match_set_exact_mask { net_mat_field_ref.zero with type := .IN6 } =
      (0, { net_mat_field_ref.zero with
            type := .IN6,
            mask_in6 := ⟨0xffffffff, 0xffffffff, 0xffffffff, 0xffffffff⟩ }) :=
  ⟨(match_set_exact_mask_all_ones { net_mat_field_ref.zero with type := .U16 }).2.2.1 rfl,
   (match_set_exact_mask_all_ones { net_mat_field_ref.zero with type := .IN6 }).1 rfl⟩

/-- C6 as stated fails: `match_macaddr2u64` on `00:01:02:03:04:05` does not
yield `0x000504030201`. -/
theorem match_macaddr2u64_literal_not_reversed :
    match_macaddr2u64 0 "00:01:02:03:04:05".data ≠ (0, 0x000504030201) := by
  decide

/-- C6 (amended): `match_macaddr2u64` on `00:01:02:03:04:05` with a zero
destination returns 0 and yields `0x000102030405`: the first octet of the
text is the most significant of the six bytes. -/
theorem match_macaddr2u64_literal :
    match_macaddr2u64 0 "00:01:02:03:04:05".data = (0, 0x000102030405) := by
  decide

theorem is_valid_keyword_iff (tok : String) (kw : List String) :
    is_valid_keyword tok kw = true ↔ tok ∈ kw := by
  induction kw with
  | nil => simp [is_valid_keyword]
  | cons k ks ih =>
    by_cases h : tok = k
    · simp [is_valid_keyword, h]
    · simp [is_valid_keyword, h, ih]

theorem match_set_value_ll_type (m : net_mat_field_ref) (v : Nat) :
    (match_set_value_ll m v).2.type = m.type ∧
    ((match_set_value_ll m v).1 = 0 → m.type ≠ .UNSPEC) := by
  unfold match_set_value_ll
  cases h : m.type <;> simp [h, EINVAL]

theorem match_parse_value_specific_type (env : repository) (m : net_mat_field_ref)
    (str : List Char) :
    (match_parse_value_specific env m str).2.type = m.type ∧
    ((match_parse_value_specific env m str).1 = 0 → m.type ≠ .UNSPEC) := by
  unfold match_parse_value_specific
  cases h : m.type <;> simp [h, EINVAL]
  · cases env.inet_aton str <;> simp [h]
  · split <;> simp [h]
  · cases env.inet_pton6 str <;> simp [h]

theorem match_set_exact_mask_ok (m : net_mat_field_ref) (h : m.type ≠ .UNSPEC) :
    (match_set_exact_mask m).1 = 0 := by
  unfold match_set_exact_mask match_set_mask_ll
  cases ht : m.type <;> simp_all

theorem match_parse_value_as_number_type (m : net_mat_field_ref) (field : net_mat_field)
    (str : List Char) :
    (match_parse_value_as_number m field str).2.type = m.type ∧
    ((match_parse_value_as_number m field str).1 = 0 → m.type ≠ .UNSPEC) := by
  unfold match_parse_value_as_number
  cases hf : field_parse_value field str with
  | error e =>
    refine ⟨rfl, ?_⟩
    intro h0
    simp only at h0
    unfold field_parse_value at hf
    revert hf
    rcases parse_ull str with ⟨err, value⟩
    simp only
    split_ifs with h1 h2
    · intro hf; cases hf; simp [ERANGE] at h0
    · simp
    · intro hf; cases hf; exact absurd h0 h2
  | ok v => exact match_set_value_ll_type m v

theorem get_match_arg_parse_value_type (env : repository) (field : net_mat_field)
    (tok : List Char) (m m4 : net_mat_field_ref)
    (h : get_match_arg_parse_value env field tok m = (0, m4)) : m4.type ≠ .UNSPEC := by
  unfold get_match_arg_parse_value at h
  have hn := match_parse_value_as_number_type
    { m with type := field_get_attr_type (some field) } field tok
  rcases hr : match_parse_value_as_number
    { m with type := field_get_attr_type (some field) } field tok with ⟨err, m1⟩
  rw [hr] at h hn
  simp only at h hn
  have hs := match_parse_value_specific_type env m1 tok
  split_ifs at h with h1 h2 h3
  · simp [ERANGE] at h
  · simp [EINVAL] at h
  · have h3' : (match_parse_value_specific env m1 tok).1 = 0 := by simpa using h3
    have hm : (match_parse_value_specific env m1 tok).2 = m4 := by simpa using h
    rw [← hm, hs.1]
    exact hs.2 h3'
  · have h2' : err = 0 := by simpa using h2
    have hm : m1 = m4 := by simpa using h
    rw [← hm, hn.1]
    exact hn.2 h2'

theorem get_match_arg_parse_mask_code (env : repository) (field : net_mat_field)
    (tok : List Char) (m : net_mat_field_ref) :
    (get_match_arg_parse_mask env field tok m).1 = 0 ∨
    (get_match_arg_parse_mask env field tok m).1 < 0 := by
  unfold get_match_arg_parse_mask
  rcases match_parse_mask_as_number m field tok with ⟨err, m1⟩
  simp only
  split_ifs with h1 h2 h3
  · right; simp [ERANGE]
  · right; simp [EINVAL]
  · left; rfl
  · left; rfl

/-- C5: in `get_match_arg` with `need_value` and without `need_mask_type`, on
a resolvable `INSTANCE.FIELD` and a value token that parses, the function
returns 2 exactly when the token after the value is absent or is in the
caller's keyword list, and the record then carries the exact mask;
otherwise that token goes through the mask parse and the function returns
3 or the negative code of that parse. With the list of `rule_set_send`,
a following `match`, `action`, `prio`, `handle` or `table` gives 2. -/
theorem get_match_arg_mask_omitted_iff (env : repository) (strings val : String)
    (rest kw : List String) (m m3 m4 : net_mat_field_ref) (field : net_mat_field)
    (hres : get_match_arg_resolve env strings.data m = .ok (field, m3))
    (hval : get_match_arg_parse_value env field val.data m3 = (0, m4)) :
    ((get_match_arg env ("match" :: strings :: val :: rest) true false m kw).1 = 2 ↔
      (rest = [] ∨ ∃ t, rest.head? = some t ∧ t ∈ kw)) ∧
    ((rest = [] ∨ ∃ t, rest.head? = some t ∧ t ∈ kw) →
      (match_set_exact_mask m4).1 = 0 ∧
      get_match_arg env ("match" :: strings :: val :: rest) true false m kw =
        (2, (match_set_exact_mask m4).2)) ∧
    (∀ t, rest.head? = some t → t ∉ kw →
      ((get_match_arg_parse_mask env field t.data m4).1 = 0 →
        get_match_arg env ("match" :: strings :: val :: rest) true false m kw =
          (3, (get_match_arg_parse_mask env field t.data m4).2)) ∧
      ((get_match_arg_parse_mask env field t.data m4).1 ≠ 0 →
        (get_match_arg_parse_mask env field t.data m4).1 < 0 ∧
        get_match_arg env ("match" :: strings :: val :: rest) true false m kw =
          get_match_arg_parse_mask env field t.data m4)) ∧
    (kw = rule_set_send_keywords →
      ∀ t ∈ ["match", "action", "prio", "handle", "table"], rest.head? = some t →
        (get_match_arg env ("match" :: strings :: val :: rest) true false m kw).1 = 2) := by
  have hex : (match_set_exact_mask m4).1 = 0 :=
    match_set_exact_mask_ok m4 (get_match_arg_parse_value_type env field val.data m3 m4 hval)
  have hrun : get_match_arg env ("match" :: strings :: val :: rest) true false m kw =
      get_match_arg_mask env field (val :: rest) 2 m4 kw := by
    simp [get_match_arg, hres, get_match_arg_mask_type, get_match_arg_value, hval]
  have hyes : (rest = [] ∨ ∃ t, rest.head? = some t ∧ t ∈ kw) →
      get_match_arg_mask env field (val :: rest) 2 m4 kw = (2, (match_set_exact_mask m4).2) := by
    intro hc
    rcases hc with h | ⟨t, ht, hk⟩
    · subst h
      rcases hm : match_set_exact_mask m4 with ⟨e, m5⟩
      rw [hm] at hex
      simp only at hex
      simp [get_match_arg_mask, hm, hex]
    · cases rest with
      | nil => simp at ht
      | cons t0 rest0 =>
        simp at ht
        subst ht
        rcases hm : match_set_exact_mask m4 with ⟨e, m5⟩
        rw [hm] at hex
        simp only at hex
        simp [get_match_arg_mask, hm, hex, (is_valid_keyword_iff t0 kw).2 hk]
  have hno : ∀ t, rest.head? = some t → t ∉ kw →
      get_match_arg_mask env field (val :: rest) 2 m4 kw =
        (if (get_match_arg_parse_mask env field t.data m4).1 ≠ 0
          then get_match_arg_parse_mask env field t.data m4
          else (3, (get_match_arg_parse_mask env field t.data m4).2)) := by
    intro t ht hk
    cases rest with
    | nil => simp at ht
    | cons t0 rest0 =>
      simp at ht
      subst ht
      have hk' : is_valid_keyword t0 kw = false := by
        cases hv : is_valid_keyword t0 kw
        · rfl
        · exact absurd ((is_valid_keyword_iff t0 kw).1 hv) hk
      rcases hp : get_match_arg_parse_mask env field t0.data m4 with ⟨e, m5⟩
      simp only [get_match_arg_mask, List.tail_cons, hk', hp]
      by_cases he : e = 0
      · simp [he]
      · simp [he]
  refine ⟨?_, ?_, ?_, ?_⟩
  · constructor
    · intro h2
      by_contra hc
      cases rest with
      | nil => exact hc (Or.inl rfl)
      | cons t0 rest0 =>
        have hk : t0 ∉ kw := fun hk => hc (Or.inr ⟨t0, rfl, hk⟩)
        rw [hrun, hno t0 rfl hk] at h2
        have hcode := get_match_arg_parse_mask_code env field t0.data m4
        split_ifs at h2 with he
        · rcases hcode with h0 | hneg
          · exact he h0
          · omega
        · simp at h2
    · intro hc
      rw [hrun, hyes hc]
  · intro hc
    exact ⟨hex, by rw [hrun, hyes hc]⟩
  · intro t ht hk
    constructor
    · intro h0
      rw [hrun, hno t ht hk]
      simp [h0]
    · intro hne
      refine ⟨?_, ?_⟩
      · rcases get_match_arg_parse_mask_code env field t.data m4 with h0 | hneg
        · exact absurd h0 hne
        · exact hneg
      · rw [hrun, hno t ht hk]
        simp [hne]
  · intro hkw t ht hhead
    rw [hrun, hyes (Or.inr ⟨t, hhead, by rw [hkw]; exact ht⟩)]

theorem parse_action_arg_ret_neg (env : repository) (type : NET_MAT_ACTION_ARG_TYPE)
    (tok : List Char) (err : Int) (slot slot1 : net_mat_action_arg) (code : Int)
    (h : parse_action_arg env type tok err slot = .ret code slot1) : code < 0 := by
  unfold parse_action_arg at h
  cases type <;> simp only at h
  all_goals (try (split at h)) 
  all_goals (try (split at h))
  all_goals (try (split at h))
  all_goals (try (split at h))
  all_goals (try (simp [EINVAL] at h))
  all_goals (try (rcases h with ⟨h1, _⟩; omega))

theorem count_variadic_args_boundary (toks rest : List String)
    (htoks : ∀ t ∈ toks, t ≠ "action")
    (hrest : rest = [] ∨ rest.head? = some "action") :
    count_variadic_args (toks ++ rest) = (toks.length, rest) := by
  induction toks with
  | nil =>
    cases rest with
    | nil => rfl
    | cons r rs =>
      rcases hrest with h | h
      · simp at h
      · simp at h
        subst h
        simp [count_variadic_args]
  | cons t ts ih =>
    have ht : t ≠ "action" := htoks t (List.mem_cons_self _ _)
    have := ih (fun x hx => htoks x (List.mem_cons_of_mem _ hx))
    simp [count_variadic_args, ht, this]

theorem get_action_arg_loop_success (env : repository) (a_args : List net_mat_action_arg)
    (reqs_args : Nat) (variadic : Bool) (rest : List String) :
    ∀ (toks : List String) (i : Nat) (st st1 : action_arg_state) (adv : Int),
      st.argv = toks ++ rest →
      get_action_arg_loop env a_args reqs_args variadic toks.length i st = .returned adv st1 →
      0 ≤ adv →
      adv = st.advance + toks.length ∧ st1.args.length = st.args.length + toks.length ∧
        st1.argv = rest := by
  intro toks
  induction toks with
  | nil =>
    intro i st st1 adv hargv h _
    simp [get_action_arg_loop] at h
    rcases h with ⟨h1, h2⟩
    subst h2
    simp [← h1, hargv]
  | cons t ts ih =>
    intro i st st1 adv hargv h hadv
    rw [List.length_cons, get_action_arg_loop] at h
    simp only [hargv, List.cons_append] at h
    split at h
    · rename_i code slot1 hp
      have hneg := parse_action_arg_ret_neg _ _ _ _ _ _ _ hp
      simp at h
      omega
    · simp at h
    · rename_i err slot1 hp
      by_cases he : err = 1
      · rw [if_neg (not_not.mpr he)] at h
        have := ih (i + 1) _ st1 adv rfl h hadv
        simp at this
        rcases this with ⟨h1, h2, h3⟩
        refine ⟨?_, ?_, h3⟩
        · rw [h1, List.length_cons]; push_cast; ring
        · rw [h2, List.length_cons]; ring
      · rw [if_pos he] at h
        simp [EINVAL] at h
        omega

/-- C7: for an action whose last declared argument is variadic, with `toks`
the tokens between the action name and the next `action` token or the end
of the input, a call of `get_action_arg` with `need_args` that succeeds
(returns no negative code: every token parsed) returns `1 + N`, has filled
`N` slots and leaves the cursor at the boundary; the pre-scan counts `N`
and stops at the boundary. -/
theorem get_action_arg_variadic (env : repository) (nm : String) (toks rest : List String)
    (a : net_mat_action) (action act : net_mat_action) (adv : Int) (cur : List String)
    (hfind : env.find_action nm ≠ 0)
    (hget : env.get_actions (env.find_action nm) = some a)
    (hreq : ((a.args.getD []).takeWhile (fun x => decide (x.type ≠ .UNSPEC))).length ≠ 0)
    (hvar : ((a.args.getD []).getD
      (((a.args.getD []).takeWhile (fun x => decide (x.type ≠ .UNSPEC))).length - 1)
      net_mat_action_arg.zero).type = .VARIADIC)
    (htoks : ∀ t ∈ toks, t ≠ "action")
    (hrest : rest = [] ∨ rest.head? = some "action")
    (hrun : get_action_arg env ("action" :: nm :: (toks ++ rest)) true action =
      .returned adv (act, cur))
    (hadv : 0 ≤ adv) :
    count_variadic_args (toks ++ rest) = (toks.length, rest) ∧
    adv = 1 + toks.length ∧
    (act.args.getD []).length = toks.length ∧
    cur = rest := by
  have hcount := count_variadic_args_boundary toks rest htoks hrest
  refine ⟨hcount, ?_⟩
  simp only [get_action_arg, List.tail_cons, hfind, if_false, hget, hreq, false_or,
    Bool.true_eq_false, hvar, decide_True, if_true, hcount] at hrun
  split at hrun
  · simp at hrun
  · rename_i r st hloop
    have := get_action_arg_loop_success env _ _ _ rest toks 0 _ st r rfl hloop
    simp only [outcome.returned.injEq, Prod.mk.injEq] at hrun
    rcases hrun with ⟨h1, h2, h3⟩
    subst h1
    rcases this hadv with ⟨g1, g2, g3⟩
    refine ⟨by simpa using g1, ?_, by rw [← h3, g3]⟩
    rw [← h2]
    simpa using g2

theorem scan_digits_decimal (ds : List Char) (h : ∀ c ∈ ds, 48 ≤ c.toNat ∧ c.toNat ≤ 57) :
    ∀ acc n, scan_digits 10 ds acc n =
      (ds.foldl (fun acc c => acc * 10 + (c.toNat - 48)) acc, n + ds.length, []) := by
  induction ds with
  | nil => intro acc n; simp [scan_digits]
  | cons c cs ih =>
    intro acc n
    have hc := h c (List.mem_cons_self _ _)
    have hd : digit_value c = some (c.toNat - 48) := by simp [digit_value, hc]
    have hlt : c.toNat - 48 < 10 := by omega
    rw [scan_digits]
    simp only [hd, hlt, if_true, List.foldl_cons, List.length_cons]
    rw [ih (fun x hx => h x (List.mem_cons_of_mem _ hx))]
    simp; ring

theorem parse_subject_decimal (ds : List Char) (v : Nat) (h : decimal_denotes ds v) :
    skip_space ds ≠ [] ∧ parse_subject 0 ds = some ⟨false, v, []⟩ := by
  rcases h with ⟨hne, hdig, hzero, hval⟩
  cases ds with
  | nil => exact absurd rfl hne
  | cons c cs =>
    have hc := hdig c (List.mem_cons_self _ _)
    have hsp : isspace c = false := by
      simp [isspace]; omega
    have hskip : skip_space (c :: cs) = c :: cs := by
      simp [skip_space, List.dropWhile, hsp]
    have hsign : take_sign (c :: cs) = (false, c :: cs) := by
      have h1 : ¬ c.toNat = 45 := by omega
      have h2 : ¬ c.toNat = 43 := by omega
      simp [take_sign, h1, h2]
    refine ⟨by rw [hskip]; simp, ?_⟩
    by_cases h0 : c.toNat = 48
    · have hcs := hzero c cs rfl h0
      subst hcs
      have hd : digit_value c = some 0 := by simp [digit_value, h0]
      simp [decimal_denotes] at hval
      simp [parse_subject, hskip, hsign, select_base, hex_lead, h0, scan_digits, hd]
      omega
    · have hlead : hex_lead (c :: cs) = none := by
        cases cs with
        | nil => rfl
        | cons x xs =>
          cases xs with
          | nil => rfl
          | cons y ys => simp [hex_lead, h0]
      have hscan := scan_digits_decimal (c :: cs) hdig 0 0
      have hbase : select_base 0 (c :: cs) = (10, c :: cs) := by
        simp [select_base, hlead, h0]
      simp only [parse_subject, hskip, hsign, hbase, hscan, hval]
      simp

theorem sscanf_i_decimal (ds : List Char) (v : Nat) (h : decimal_denotes ds v)
    (hv : v < 2 ^ 31) : sscanf_i ds = (1, some (v : Int)) := by
  rcases parse_subject_decimal ds v h with ⟨hsp, hps⟩
  have h1 : ¬ v > 2 ^ 63 - 1 := by omega
  have hb : Int.bmod (v : Int) (2 ^ 32) = (v : Int) := by
    unfold Int.bmod
    have : ((v : Int) % ((2 ^ 32 : Nat) : Int)) = (v : Int) := by
      apply Int.emod_eq_of_lt <;> omega
    rw [this]
    simp
    omega
  have h2 : ¬ (9223372036854775807 < v) := by omega
  have hb2 : Int.bmod (v : Int) 4294967296 = (v : Int) := by simpa using hb
  simp [sscanf_i, hsp, hps, h2, hb2]

theorem strtok_all_run (d : Char) (t : List Char) (ht : ∀ c ∈ t, c ≠ d) :
    ∀ (s cur : List Char), strtok_all d (t ++ s) cur = strtok_all d s (cur ++ t) := by
  induction t with
  | nil => intro s cur; simp
  | cons c cs ih =>
    intro s cur
    have hc : c ≠ d := ht c (List.mem_cons_self _ _)
    rw [List.cons_append, strtok_all]
    simp only [hc, if_false]
    rw [ih (fun x hx => ht x (List.mem_cons_of_mem _ hx))]
    simp

theorem strtok_all_intercalate (d : Char) (toks : List (List Char))
    (h : ∀ t ∈ toks, t ≠ [] ∧ ∀ c ∈ t, c ≠ d) :
    strtok_all d (List.intercalate [d] toks) [] = toks := by
  induction toks with
  | nil => simp [List.intercalate, strtok_all]
  | cons t ts ih =>
    have ht := h t (List.mem_cons_self _ _)
    cases ts with
    | nil =>
      have : List.intercalate [d] [t] = t ++ [] := by simp [List.intercalate]
      rw [this, strtok_all_run d t ht.2]
      simp [strtok_all, ht.1]
    | cons u us =>
      have : List.intercalate [d] (t :: u :: us) = t ++ (d :: List.intercalate [d] (u :: us)) := by
        simp [List.intercalate, List.intersperse]
      rw [this, strtok_all_run d t ht.2, strtok_all]
      simp only [if_true, List.nil_append, ht.1, if_false]
      rw [ih (fun x hx => h x (List.mem_cons_of_mem _ hx))]

theorem vlan_bit_step (bm : List Nat) (hlen : bm.length = 512) (v : Nat) (hv : v ≤ 4095)
    (u : Nat) :
    ((bm.set (v / 8) (bm.getD (v / 8) 0 ||| (2 ^ (v % 8) % 2 ^ 8))).getD (u / 8) 0).testBit
        (u % 8) =
      ((bm.getD (u / 8) 0).testBit (u % 8) || decide (u = v)) := by
  have hmod : 2 ^ (v % 8) % 2 ^ 8 = 2 ^ (v % 8) := by
    apply Nat.mod_eq_of_lt
    apply Nat.pow_lt_pow_right (by decide)
    omega
  rw [hmod]
  have hslot : v / 8 < bm.length := by omega
  by_cases hs : u / 8 = v / 8
  · rw [hs]
    simp only [List.getD_eq_getElem?_getD, List.getElem?_set_self hslot, Option.getD_some,
      Nat.testBit_lor, Nat.testBit_two_pow]
    congr 1
    have : (v % 8 = u % 8) ↔ (u = v) := by omega
    simp [this]
  · have hne : ¬ u = v := fun h => hs (by rw [h])
    simp only [List.getD_eq_getElem?_getD]
    rw [List.getElem?_set_ne (fun h => hs h.symm)]
    simp [hne]

theorem set_port_vlans_loop_decimal (toks : List (List Char)) (vids : List Nat)
    (hden : List.Forall₂ decimal_denotes toks vids) :
    ∀ (bm : List Nat), (∀ v ∈ vids, v ≤ 4095) → bm.length = 512 →
      ∃ bm1, set_port_vlans_loop toks bm = .ok bm1 ∧ bm1.length = 512 ∧
        ∀ u, (bm1.getD (u / 8) 0).testBit (u % 8) =
          ((bm.getD (u / 8) 0).testBit (u % 8) || decide (u ∈ vids)) := by
  induction hden with
  | nil =>
    intro bm _ hlen
    exact ⟨bm, rfl, hlen, by simp⟩
  | @cons t v ts vs htv _ ih =>
    intro bm hr hlen
    have hv : v ≤ 4095 := hr v (List.mem_cons_self _ _)
    have hscan := sscanf_i_decimal t v htv (by omega)
    have hcond : ¬ ((1 : Int) < 1 ∨ (v : Int) > 4095 ∨ (v : Int) < 0) := by omega
    obtain ⟨bm1, h1, h2, h3⟩ := ih
      (bm.set (v / 8) (bm.getD (v / 8) 0 ||| (2 ^ (v % 8) % 2 ^ 8)))
      (fun x hx => hr x (List.mem_cons_of_mem _ hx)) (by simpa using hlen)
    refine ⟨bm1, ?_, h2, ?_⟩
    · rw [set_port_vlans_loop, hscan]
      simp only [hcond, if_false, Int.toNat_ofNat]
      exact h1
    · intro u
      rw [h3 u, vlan_bit_step bm hlen v hv u]
      by_cases huv : u = v
      · simp [huv]
      · simp [huv]

theorem decimal_denotes_no_comma (t : List Char) (v : Nat) (h : decimal_denotes t v) :
    t ≠ [] ∧ ∀ c ∈ t, c ≠ ',' := by
  refine ⟨h.1, ?_⟩
  intro c hc hcomma
  have := h.2.1 c hc
  rw [hcomma] at this
  revert this
  decide

theorem forall₂_left_mem {α β : Type} (R : α → β → Prop) (l1 : List α) (l2 : List β)
    (h : List.Forall₂ R l1 l2) : ∀ t ∈ l1, ∃ v, R t v := by
  induction h with
  | nil => intro t ht; simp at ht
  | cons hab _ ih =>
    intro t ht
    rcases List.mem_cons.1 ht with h1 | h1
    · subst h1; exact ⟨_, hab⟩
    · exact ih t h1

theorem vlan_bitmask_zero_bit (u : Nat) :
    ((List.replicate 512 0).getD (u / 8) 0).testBit (u % 8) = false := by
  rw [List.getD_eq_getElem?_getD, List.getElem?_getD_replicate_default_eq]
  exact Nat.zero_testBit _

theorem set_port_vlans_decimal (toks : List (List Char)) (vids : List Nat)
    (hden : List.Forall₂ decimal_denotes toks vids) (hne : vids ≠ [])
    (hr : ∀ v ∈ vids, v ≤ 4095) :
    ∃ bm, set_port_vlans (List.intercalate [','] toks) = .ok bm ∧ bm.length = 512 ∧
      ∀ u, (bm.getD (u / 8) 0).testBit (u % 8) = true ↔ u ∈ vids := by
  have hsplit : strtok_all ',' (List.intercalate [','] toks) [] = toks := by
    apply strtok_all_intercalate
    intro t ht
    obtain ⟨v, htv⟩ := forall₂_left_mem _ _ _ hden t ht
    exact decimal_denotes_no_comma t v htv
  obtain ⟨bm, h1, h2, h3⟩ :=
    set_port_vlans_loop_decimal toks vids hden (List.replicate 512 0) hr
      (List.length_replicate _ _)
  refine ⟨bm, ?_, h2, ?_⟩
  · unfold set_port_vlans
    rw [hsplit]
    cases toks with
    | nil =>
      cases hden
      exact absurd rfl hne
    | cons t ts => exact h1
  · intro u
    rw [h3 u, vlan_bitmask_zero_bit u]
    simp

set_option linter.unusedTactic false in
theorem set_port_clause_build (env : repository) (kw tok : String) (st st1 : set_port_state)
    (h : set_port_clause env kw tok st = .build st1) :
    (kw = "vlans" ∧ ∃ bm, set_port_vlans tok.data = .ok bm ∧
      st1 = { st with
              port := { st.port with
                        vlan := { st.port.vlan with vlan_membership_bitmask := bm } },
              have_vlans := true }) ∨
    (kw = "port" ∧ ∃ v pb, env.match_nl_get_ports v = some pb ∧
      st1 = { st with port := { st.port with port_id := v }, port_be := some pb }) ∨
    (st1.have_vlans = st.have_vlans ∧ st1.port_be = st.port_be ∧
      st1.port.port_id = st.port.port_id ∧
      st1.port.vlan.vlan_membership_bitmask = st.port.vlan.vlan_membership_bitmask) := by
  unfold set_port_clause at h
  by_cases hk : kw = "port"
  · rw [if_pos hk] at h
    right; left
    refine ⟨hk, ?_⟩
    split at h
    · split at h
      · cases h
      · rename_i pb hp
        cases h
        exact ⟨_, pb, hp, rfl⟩
    · cases h
  rw [if_neg hk] at h
  clear hk
  by_cases hk : kw = "speed"
  · rw [if_pos hk] at h
    right; right
    all_goals (try split at h)
    all_goals (try split at h)
    all_goals first | (cases h; exact ⟨rfl, rfl, rfl, rfl⟩) | cases h
  rw [if_neg hk] at h
  clear hk
  by_cases hk : kw = "max_frame_size"
  · rw [if_pos hk] at h
    right; right
    all_goals (try split at h)
    all_goals (try split at h)
    all_goals first | (cases h; exact ⟨rfl, rfl, rfl, rfl⟩) | cases h
  rw [if_neg hk] at h
  clear hk
  by_cases hk : kw = "state"
  · rw [if_pos hk] at h
    right; right
    all_goals (try split at h)
    all_goals (try split at h)
    all_goals first | (cases h; exact ⟨rfl, rfl, rfl, rfl⟩) | cases h
  rw [if_neg hk] at h
  clear hk
  by_cases hk : kw = "def_vlan"
  · rw [if_pos hk] at h
    right; right
    all_goals (try split at h)
    all_goals (try split at h)
    all_goals first | (cases h; exact ⟨rfl, rfl, rfl, rfl⟩) | cases h
  rw [if_neg hk] at h
  clear hk
  by_cases hk : kw = "drop_tagged"
  · rw [if_pos hk] at h
    right; right
    all_goals (try split at h)
    all_goals (try split at h)
    all_goals first | (cases h; exact ⟨rfl, rfl, rfl, rfl⟩) | cases h
  rw [if_neg hk] at h
  clear hk
  by_cases hk : kw = "drop_untagged"
  · rw [if_pos hk] at h
    right; right
    all_goals (try split at h)
    all_goals (try split at h)
    all_goals first | (cases h; exact ⟨rfl, rfl, rfl, rfl⟩) | cases h
  rw [if_neg hk] at h
  clear hk
  by_cases hk : kw = "def_priority"
  · rw [if_pos hk] at h
    right; right
    all_goals (try split at h)
    all_goals (try split at h)
    all_goals first | (cases h; exact ⟨rfl, rfl, rfl, rfl⟩) | cases h
  rw [if_neg hk] at h
  clear hk
  by_cases hk : kw = "vlans"
  · rw [if_pos hk] at h
    left
    refine ⟨hk, ?_⟩
    split at h
    · cases h
    · rename_i bm hb
      cases h
      exact ⟨bm, hb, rfl⟩
  rw [if_neg hk] at h
  clear hk
  by_cases hk : kw = "loopback"
  · rw [if_pos hk] at h
    right; right
    all_goals (try split at h)
    all_goals (try split at h)
    all_goals first | (cases h; exact ⟨rfl, rfl, rfl, rfl⟩) | cases h
  rw [if_neg hk] at h
  clear hk
  by_cases hk : kw = "learning"
  · rw [if_pos hk] at h
    right; right
    all_goals (try split at h)
    all_goals (try split at h)
    all_goals first | (cases h; exact ⟨rfl, rfl, rfl, rfl⟩) | cases h
  rw [if_neg hk] at h
  clear hk
  by_cases hk : kw = "update_dscp"
  · rw [if_pos hk] at h
    right; right
    all_goals (try split at h)
    all_goals (try split at h)
    all_goals first | (cases h; exact ⟨rfl, rfl, rfl, rfl⟩) | cases h
  rw [if_neg hk] at h
  clear hk
  by_cases hk : kw = "update_ttl"
  · rw [if_pos hk] at h
    right; right
    all_goals (try split at h)
    all_goals (try split at h)
    all_goals first | (cases h; exact ⟨rfl, rfl, rfl, rfl⟩) | cases h
  rw [if_neg hk] at h
  clear hk
  by_cases hk : kw = "mcast_flooding"
  · rw [if_pos hk] at h
    right; right
    all_goals (try split at h)
    all_goals (try split at h)
    all_goals first | (cases h; exact ⟨rfl, rfl, rfl, rfl⟩) | cases h
  rw [if_neg hk] at h
  clear hk
  by_cases hk : kw = "update_dmac"
  · rw [if_pos hk] at h
    right; right
    all_goals (try split at h)
    all_goals (try split at h)
    all_goals first | (cases h; exact ⟨rfl, rfl, rfl, rfl⟩) | cases h
  rw [if_neg hk] at h
  clear hk
  by_cases hk : kw = "update_smac"
  · rw [if_pos hk] at h
    right; right
    all_goals (try split at h)
    all_goals (try split at h)
    all_goals first | (cases h; exact ⟨rfl, rfl, rfl, rfl⟩) | cases h
  rw [if_neg hk] at h
  clear hk
  by_cases hk : kw = "update_vlan"
  · rw [if_pos hk] at h
    right; right
    all_goals (try split at h)
    all_goals (try split at h)
    all_goals first | (cases h; exact ⟨rfl, rfl, rfl, rfl⟩) | cases h
  rw [if_neg hk] at h
  clear hk
  cases h

theorem set_port_clause_frame (env : repository) (kw tok : String) (st st1 : set_port_state)
    (hkw : kw ≠ "vlans") (h : set_port_clause env kw tok st = .build st1) :
    st1.have_vlans = st.have_vlans ∧
    st1.port.vlan.vlan_membership_bitmask = st.port.vlan.vlan_membership_bitmask := by
  rcases set_port_clause_build env kw tok st st1 h with ⟨hk, _⟩ | ⟨_, v, pb, _, hst⟩ | h3
  · exact absurd hk hkw
  · subst hst; exact ⟨rfl, rfl⟩
  · exact ⟨h3.1, h3.2.2.2⟩

theorem set_port_clause_fetched (env : repository) (kw tok : String) (st st1 : set_port_state)
    (hinv : port_be_fetched env st) (h : set_port_clause env kw tok st = .build st1) :
    port_be_fetched env st1 := by
  rcases set_port_clause_build env kw tok st st1 h with ⟨_, bm, _, hst⟩ | ⟨_, v, pb, hp, hst⟩ | h3
  · subst hst; exact hinv
  · subst hst; exact hp
  · unfold port_be_fetched at hinv ⊢
    rw [h3.2.1, h3.2.2.1]
    exact hinv

theorem set_port_loop_frame (env : repository) :
    ∀ (n : Nat) (argv : List String) (st st1 : set_port_state), argv.length ≤ n →
      no_vlans_clause argv = true → set_port_loop env argv st = .build st1 →
      st1.have_vlans = st.have_vlans ∧
      st1.port.vlan.vlan_membership_bitmask = st.port.vlan.vlan_membership_bitmask := by
  intro n
  induction n with
  | zero =>
    intro argv st st1 hlen _ h
    have : argv = [] := List.length_eq_zero.1 (Nat.le_zero.1 hlen)
    subst this
    simp [set_port_loop] at h
    subst h
    exact ⟨rfl, rfl⟩
  | succ n ih =>
    intro argv st st1 hlen hno h
    match argv, hlen, hno, h with
    | [], _, _, h =>
      simp [set_port_loop] at h
      subst h
      exact ⟨rfl, rfl⟩
    | [kw], _, _, h =>
      simp only [set_port_loop] at h
      split_ifs at h
    | kw :: tok :: rest, hlen, hno, h =>
      simp only [no_vlans_clause, Bool.and_eq_true, decide_eq_true_eq] at hno
      simp only [set_port_loop] at h
      split at h
      · rename_i st2 hc
        have hf := set_port_clause_frame env kw tok st st2 hno.1 hc
        have := ih rest st2 st1 (by simp at hlen; omega) hno.2 h
        exact ⟨this.1.trans hf.1, this.2.trans hf.2⟩
      · rename_i r hr
        cases hc : set_port_clause env kw tok st with
        | build st2 => exact absurd hc (hr st2)
        | returned c => rw [hc] at h; cases h
        | exited c => rw [hc] at h; cases h
        | undefined => rw [hc] at h; cases h

theorem set_port_loop_fetched (env : repository) :
    ∀ (n : Nat) (argv : List String) (st st1 : set_port_state), argv.length ≤ n →
      port_be_fetched env st → set_port_loop env argv st = .build st1 →
      port_be_fetched env st1 := by
  intro n
  induction n with
  | zero =>
    intro argv st st1 hlen hinv h
    have : argv = [] := List.length_eq_zero.1 (Nat.le_zero.1 hlen)
    subst this
    simp [set_port_loop] at h
    subst h
    exact hinv
  | succ n ih =>
    intro argv st st1 hlen hinv h
    match argv, hlen, h with
    | [], _, h =>
      simp [set_port_loop] at h
      subst h
      exact hinv
    | [kw], _, h =>
      simp only [set_port_loop] at h
      split_ifs at h
    | kw :: tok :: rest, hlen, h =>
      simp only [set_port_loop] at h
      split at h
      · rename_i st2 hc
        exact ih rest st2 st1 (by simp at hlen; omega)
          (set_port_clause_fetched env kw tok st st2 hinv hc) h
      · rename_i r hr
        cases hc : set_port_clause env kw tok st with
        | build st2 => exact absurd hc (hr st2)
        | returned c => rw [hc] at h; cases h
        | exited c => rw [hc] at h; cases h
        | undefined => rw [hc] at h; cases h

theorem set_port_loop_append (env : repository) (more : List String) :
    ∀ (n : Nat) (pre : List String) (st : set_port_state), pre.length ≤ n →
      pre.length % 2 = 0 →
      set_port_loop env (pre ++ more) st =
        (match set_port_loop env pre st with
         | .build st1 => set_port_loop env more st1
         | r => r) := by
  intro n
  induction n with
  | zero =>
    intro pre st hlen _
    have : pre = [] := List.length_eq_zero.1 (Nat.le_zero.1 hlen)
    subst this
    simp [set_port_loop]
  | succ n ih =>
    intro pre st hlen hev
    match pre, hlen, hev with
    | [], _, _ => simp [set_port_loop]
    | [kw], _, hev => simp at hev
    | kw :: tok :: rest, hlen, hev =>
      have hr : rest.length % 2 = 0 := by simp at hev; omega
      have hl : rest.length ≤ n := by simp at hlen; omega
      simp only [List.cons_append, set_port_loop]
      cases hc : set_port_clause env kw tok st with
      | build st2 => simpa using ih rest st2 hl hr
      | returned c => rfl
      | exited c => rfl
      | undefined => rfl

theorem sscanf_i_some (s : List Char) (e : Int) (v : Int) (h : sscanf_i s = (e, some v)) :
    e = 1 := by
  unfold sscanf_i at h
  split_ifs at h
  · cases h
  · split at h
    · cases h
    · cases h; rfl

theorem set_port_vlans_loop_error :
    ∀ (toks : List (List Char)) (bm : List Nat),
      (∃ piece ∈ toks, ∀ v, sscanf_i piece = (1, some v) → v < 0 ∨ 4095 < v) →
      set_port_vlans_loop toks bm = .error (-EINVAL) := by
  intro toks
  induction toks with
  | nil => intro bm h; simp at h
  | cons t ts ih =>
    intro bm h
    rw [set_port_vlans_loop]
    split
    · rfl
    · rename_i err vid hs
      have he := sscanf_i_some t err vid hs
      subst he
      split_ifs with hc
      · rfl
      · apply ih
        obtain ⟨piece, hp, hbad⟩ := h
        rcases List.mem_cons.1 hp with h1 | h1
        · subst h1
          have := hbad vid hs
          omega
        · exact ⟨piece, h1, hbad⟩

theorem set_port_loop_vlans_clause (env : repository) (tok : String) (rest : List String)
    (st : set_port_state) :
    set_port_loop env ("vlans" :: tok :: rest) st =
      (match set_port_vlans tok.data with
       | .error code => .returned code
       | .ok bitmask =>
         set_port_loop env rest
           { st with
             port := { st.port with
                       vlan := { st.port.vlan with vlan_membership_bitmask := bitmask } },
             have_vlans := true }) := by
  have hc : set_port_clause env "vlans" tok st =
      (match set_port_vlans tok.data with
       | .error code => .returned code
       | .ok bitmask =>
         .build
           { st with
             port := { st.port with
                       vlan := { st.port.vlan with vlan_membership_bitmask := bitmask } },
             have_vlans := true }) := by
    unfold set_port_clause
    simp
  rw [set_port_loop, hc]
  cases set_port_vlans tok.data <;> rfl

/-- C8 (amended): when the value of a `vlans` clause is a comma-separated
list of decimal numerals of integers in [0,4095], the port record that
`match_set_port_send` goes on to send has a 512-byte membership bitmap
whose bit `v mod 8` of byte `v div 8` is set exactly for the `v` of the
list. When an element of the list has no leading integer for `%i` to
convert, or converts to a value outside [0,4095], the function returns
`-EINVAL` at that clause. -/
theorem match_set_port_send_vlans (env : repository) :
    (∀ (pre post : List String) (toks : List (List Char)) (vids : List Nat)
        (p : net_mat_port),
      pre.length % 2 = 0 → no_vlans_clause post = true →
      List.Forall₂ decimal_denotes toks vids → vids ≠ [] → (∀ v ∈ vids, v ≤ 4095) →
      match_set_port_send env
          (pre ++ "vlans" :: String.mk (List.intercalate [','] toks) :: post) = .build p →
      p.vlan.vlan_membership_bitmask.length = 512 ∧
      ∀ u, (p.vlan.vlan_membership_bitmask.getD (u / 8) 0).testBit (u % 8) = true ↔
        u ∈ vids) ∧
    (∀ (pre rest : List String) (tok : String) (st : set_port_state),
      pre.length % 2 = 0 → set_port_loop env pre (set_port_init env) = .build st →
      (∃ piece ∈ strtok_all ',' tok.data [],
        ∀ v, sscanf_i piece = (1, some v) → v < 0 ∨ 4095 < v) →
      match_set_port_send env (pre ++ "vlans" :: tok :: rest) = .returned (-EINVAL)) := by
  constructor
  · intro pre post toks vids p hev hno hden hne hr hrun
    obtain ⟨bm, hbm, hlen, hbits⟩ := set_port_vlans_decimal toks vids hden hne hr
    unfold match_set_port_send at hrun
    rw [set_port_loop_append env _ pre.length pre _ (Nat.le_refl _) hev] at hrun
    cases hpre : set_port_loop env pre (set_port_init env) with
    | returned c => rw [hpre] at hrun; cases hrun
    | exited c => rw [hpre] at hrun; cases hrun
    | undefined => rw [hpre] at hrun; cases hrun
    | build st =>
      rw [hpre] at hrun
      simp only at hrun
      rw [set_port_loop_vlans_clause] at hrun
      have hdata : (String.mk (List.intercalate [','] toks)).data =
          List.intercalate [','] toks := rfl
      rw [hdata, hbm] at hrun
      simp only at hrun
      cases hpost : set_port_loop env post
          { st with
            port := { st.port with
                      vlan := { st.port.vlan with vlan_membership_bitmask := bm } },
            have_vlans := true } with
      | returned c => rw [hpost] at hrun; cases hrun
      | exited c => rw [hpost] at hrun; cases hrun
      | undefined => rw [hpost] at hrun; cases hrun
      | build st2 =>
        rw [hpost] at hrun
        have hf := set_port_loop_frame env post.length post _ st2 (Nat.le_refl _) hno hpost
        simp only at hf hrun
        by_cases hid : st2.port.port_id = env.NET_MAT_PORT_ID_UNSPEC
        · rw [if_pos hid] at hrun; cases hrun
        · rw [if_neg hid, hf.1, if_pos rfl] at hrun
          cases hrun
          rw [hf.2]
          exact ⟨hlen, hbits⟩
  · intro pre rest tok st hev hpre hbad
    unfold match_set_port_send
    rw [set_port_loop_append env _ pre.length pre _ (Nat.le_refl _) hev, hpre]
    simp only
    rw [set_port_loop_vlans_clause]
    have herr : set_port_vlans tok.data = .error (-EINVAL) := by
      unfold set_port_vlans
      obtain ⟨piece, hp, hb⟩ := hbad
      cases hs : strtok_all ',' tok.data [] with
      | nil => rfl
      | cons t ts =>
        simp only
        apply set_port_vlans_loop_error
        exact ⟨piece, by rw [← hs]; exact hp, hb⟩
    rw [herr]

/-- C9: when no clause of a `set_port` command has the keyword `vlans` and
validation passes, the membership bitmap of the port record that
`match_set_port_send` goes on to send is the bitmap of the port state
fetched for the port id of that record. -/
theorem match_set_port_send_keeps_membership (env : repository) (argv : List String)
    (p : net_mat_port) (hno : no_vlans_clause argv = true)
    (hrun : match_set_port_send env argv = .build p) :
    ∃ pb, env.match_nl_get_ports p.port_id = some pb ∧
      p.vlan.vlan_membership_bitmask = pb.vlan.vlan_membership_bitmask := by
  unfold match_set_port_send at hrun
  cases hl : set_port_loop env argv (set_port_init env) with
  | returned c => rw [hl] at hrun; cases hrun
  | exited c => rw [hl] at hrun; cases hrun
  | undefined => rw [hl] at hrun; cases hrun
  | build st =>
    rw [hl] at hrun
    have hf := set_port_loop_frame env argv.length argv _ st (Nat.le_refl _) hno hl
    have hinit : port_be_fetched env (set_port_init env) := rfl
    have hb := set_port_loop_fetched env argv.length argv _ st (Nat.le_refl _) hinit hl
    have hv : st.have_vlans = false := hf.1
    simp only at hrun
    by_cases hid : st.port.port_id = env.NET_MAT_PORT_ID_UNSPEC
    · rw [if_pos hid] at hrun; cases hrun
    · rw [if_neg hid, hv] at hrun
      simp only [Bool.false_eq_true, if_false] at hrun
      unfold port_be_fetched at hb
      cases hpb : st.port_be with
      | none => rw [hpb] at hrun; cases hrun
      | some pb =>
        rw [hpb] at hrun hb
        cases hrun
        exact ⟨pb, hb, rfl⟩

theorem scan_u32_keyword_error (rest : List String) (old : Nat) (code : Int)
    (h : scan_u32_keyword rest old = .error code) : code = -EINVAL := by
  unfold scan_u32_keyword at h
  split at h
  · cases h; rfl
  · split at h <;> split_ifs at h <;> cases h <;> rfl

theorem match_create_tbl_clause_total (env : repository) (kw : String) (rest : List String)
    (st : create_tbl_state) :
    (match_create_tbl_clause env kw rest st).rejected = true ∨
    ∃ argv1 st1, match_create_tbl_clause env kw rest st = .build (argv1, st1) ∧
      argv1.length ≤ rest.length := by
  have hneg : (send_result.returned (-EINVAL) :
      send_result (List String × create_tbl_state)).rejected = true := by decide
  have hdrop : ∀ k, (rest.drop k).length ≤ rest.length := by
    intro k; simp
  unfold match_create_tbl_clause
  by_cases h1 : kw = "match"
  · rw [if_pos h1]
    split_ifs
    · exact Or.inl hneg
    · split
      split_ifs
      · exact Or.inl hneg
      · exact Or.inr ⟨_, _, rfl, hdrop _⟩
  rw [if_neg h1]
  by_cases h2 : kw = "action"
  · rw [if_pos h2]
    split_ifs
    · exact Or.inl hneg
    · split
      · left; rfl
      · split_ifs
        · exact Or.inl hneg
        · exact Or.inr ⟨_, _, rfl, hdrop _⟩
  rw [if_neg h2]
  by_cases h3 : kw = "attrib"
  · rw [if_pos h3]
    split_ifs
    · exact Or.inl hneg
    · split
      split_ifs
      · exact Or.inl hneg
      · exact Or.inr ⟨_, _, rfl, hdrop _⟩
  rw [if_neg h3]
  by_cases h4 : kw = "name"
  · rw [if_pos h4]
    split
    · exact Or.inl hneg
    · exact Or.inr ⟨_, _, rfl, by simp⟩
  rw [if_neg h4]
  by_cases h5 : kw = "source"
  · rw [if_pos h5]
    split
    · rename_i code hc
      rw [scan_u32_keyword_error _ _ _ hc]
      exact Or.inl hneg
    · exact Or.inr ⟨_, _, rfl, hdrop _⟩
  rw [if_neg h5]
  by_cases h6 : kw = "id"
  · rw [if_pos h6]
    split
    · rename_i code hc
      rw [scan_u32_keyword_error _ _ _ hc]
      exact Or.inl hneg
    · exact Or.inr ⟨_, _, rfl, hdrop _⟩
  rw [if_neg h6]
  by_cases h7 : kw = "size"
  · rw [if_pos h7]
    split
    · rename_i code hc
      rw [scan_u32_keyword_error _ _ _ hc]
      exact Or.inl hneg
    · exact Or.inr ⟨_, _, rfl, hdrop _⟩
  rw [if_neg h7]
  left; rfl

theorem match_create_tbl_loop_total (env : repository) :
    ∀ (fuel : Nat) (argv : List String) (st : create_tbl_state), argv.length ≤ fuel →
      (match_create_tbl_loop env fuel argv st).rejected = true ∨
      ∃ st1, match_create_tbl_loop env fuel argv st = .build st1 := by
  intro fuel
  induction fuel with
  | zero =>
    intro argv st hlen
    have : argv = [] := List.length_eq_zero.1 (Nat.le_zero.1 hlen)
    subst this
    right
    exact ⟨st, by simp [match_create_tbl_loop]⟩
  | succ fuel ih =>
    intro argv st hlen
    cases argv with
    | nil => right; exact ⟨st, by simp [match_create_tbl_loop]⟩
    | cons kw rest =>
      have hrest : rest.length ≤ fuel := by simp at hlen; omega
      rw [match_create_tbl_loop]
      rcases match_create_tbl_clause_total env kw rest st with h | ⟨argv1, st1, h, hl⟩
      · cases hc : match_create_tbl_clause env kw rest st with
        | returned c => rw [hc] at h; left; exact h
        | exited c => left; rfl
        | undefined => rw [hc] at h; cases h
        | build x => rw [hc] at h; cases h
      · rw [h]
        exact ih argv1 st1 (by omega)

theorem match_create_tbl_check_rejects (env : repository) (cmd : NET_MAT_CMD)
    (st : create_tbl_state)
    (hc : (cmd = .CREATE_TABLE ∧ st.size = 0) ∨ (cmd = .UPDATE_TABLE ∧ st.size ≠ 0) ∨
      (cmd = .UPDATE_TABLE ∧ st.uid = 0)) :
    (match_create_tbl_check env cmd st).1.rejected = true := by
  unfold match_create_tbl_check
  have hneg : (send_result.returned (-EINVAL) : send_result net_mat_tbl).rejected = true := by
    decide
  by_cases c1 : st.uid = 0 ∧ cmd = .UPDATE_TABLE
  · rw [if_pos c1]; rfl
  rw [if_neg c1]
  simp only
  by_cases c2 : (if st.uid = 0 then env.gen_table_id else st.uid) = 0
  · rw [if_pos c2]; exact hneg
  rw [if_neg c2]
  by_cases c3 : st.source = 0 ∧ cmd = .CREATE_TABLE
  · rw [if_pos c3]; rfl
  rw [if_neg c3]
  by_cases c4 : st.source ≠ 0 ∧ cmd = .UPDATE_TABLE
  · rw [if_pos c4]; rfl
  rw [if_neg c4]
  by_cases c5 : st.name = none ∧ cmd = .CREATE_TABLE
  · rw [if_pos c5]; rfl
  rw [if_neg c5]
  by_cases c6 : st.size = 0 ∧ cmd = .CREATE_TABLE
  · rw [if_pos c6]; rfl
  rw [if_neg c6]
  by_cases c7 : st.size ≠ 0 ∧ cmd = .UPDATE_TABLE
  · rw [if_pos c7]; rfl
  rw [if_neg c7]
  exfalso
  rcases hc with ⟨h1, h2⟩ | ⟨h1, h2⟩ | ⟨h1, h2⟩
  · exact c6 ⟨h2, h1⟩
  · exact c7 ⟨h2, h1⟩
  · exact c1 ⟨h2, h1⟩

/-- C10: `match_create_tbl_send` rejects the command (returns a negative
code or exits, before any message is allocated) when the argument loop
ends with `create` and a zero `size`, with `update` and a non-zero `size`,
or with `update` and a zero `id`; in the last case it exits without a call
of `gen_table_id`. A command whose argument loop does not run to its end
is rejected as well. -/
theorem match_create_tbl_send_rejects (env : repository) (argv : List String)
    (cmd : NET_MAT_CMD) :
    (∀ st, match_create_tbl_loop env argv.length argv create_tbl_init = .build st →
      ((cmd = .CREATE_TABLE ∧ st.size = 0) ∨ (cmd = .UPDATE_TABLE ∧ st.size ≠ 0) ∨
        (cmd = .UPDATE_TABLE ∧ st.uid = 0)) →
      (match_create_tbl_send env argv cmd).1.rejected = true) ∧
    (∀ st, match_create_tbl_loop env argv.length argv create_tbl_init = .build st →
      cmd = .UPDATE_TABLE → st.uid = 0 →
      match_create_tbl_send env argv cmd = (.exited (-1), 0)) ∧
    ((∀ st, match_create_tbl_loop env argv.length argv create_tbl_init ≠ .build st) →
      (match_create_tbl_send env argv cmd).1.rejected = true) := by
  refine ⟨?_, ?_, ?_⟩
  · intro st hl hc
    unfold match_create_tbl_send
    rw [hl]
    exact match_create_tbl_check_rejects env cmd st hc
  · intro st hl hc hu
    unfold match_create_tbl_send
    rw [hl]
    simp only
    unfold match_create_tbl_check
    rw [if_pos ⟨hu, hc⟩]
  · intro hnb
    rcases match_create_tbl_loop_total env argv.length argv create_tbl_init (Nat.le_refl _)
      with h | ⟨st1, h⟩
    · unfold match_create_tbl_send
      cases hl : match_create_tbl_loop env argv.length argv create_tbl_init with
      | returned c => rw [hl] at h; exact h
      | exited c => rfl
      | undefined => rw [hl] at h; cases h
      | build st => exact absurd hl (hnb st)
    · exact absurd h (hnb st1)

/-! ## Concrete runs -/

/-- Witness of C5: in `match ethernet.vlan_id 5 action set_egress_port 1`
the token after the value is the keyword `action`, so `get_match_arg`
returns 2 with the exact mask. -/
theorem get_match_arg_mask_omitted_iff_witness :
    get_match_arg_resolve demo_repository "ethernet.vlan_id".data net_mat_field_ref.zero =
      .ok (⟨"vlan_id", 2, 12⟩,
        { net_mat_field_ref.zero with instance_id := 1, header := 1, field := 2 }) ∧
    get_match_arg_parse_value demo_repository ⟨"vlan_id", 2, 12⟩ "5".data
        { net_mat_field_ref.zero with instance_id := 1, header := 1, field := 2 } =
      (0, { net_mat_field_ref.zero with
            instance_id := 1, header := 1, field := 2, type := .U16, mask_u16 := 5 }) ∧
    get_match_arg demo_repository
        ["match", "ethernet.vlan_id", "5", "action", "set_egress_port", "1"] true false
        net_mat_field_ref.zero rule_set_send_keywords =
      (2, { net_mat_field_ref.zero with
            instance_id := 1, header := 1, field := 2, type := .U16, mask_u16 := 0xffff }) :=
  ⟨by decide, by decide,
   ((get_match_arg_mask_omitted_iff demo_repository "ethernet.vlan_id" "5"
      ["action", "set_egress_port", "1"] rule_set_send_keywords net_mat_field_ref.zero
      { net_mat_field_ref.zero with instance_id := 1, header := 1, field := 2 }
      { net_mat_field_ref.zero with
        instance_id := 1, header := 1, field := 2, type := .U16, mask_u16 := 5 }
      ⟨"vlan_id", 2, 12⟩ (by decide) (by decide)).2.1
      (Or.inr ⟨"action", rfl, by decide⟩)).2⟩

/-- Witness of C7: `action forward_to 1 2 action set_egress_port 3` has two
tokens before the next `action`; `get_action_arg` returns 3, fills two
slots and leaves the cursor at that `action`. -/
theorem get_action_arg_variadic_witness :
    get_action_arg demo_repository
        ("action" :: "forward_to" :: (["1", "2"] ++ ["action", "set_egress_port", "3"])) true
        ⟨0, none, none⟩ =
      .returned 3
        ({ uid := 2, name := some "forward_to",
           args := some [{ demo_arg "port" .U32 with value_u32 := 1 },
                         { demo_arg "port" .U32 with value_u32 := 2 }] },
         ["action", "set_egress_port", "3"]) ∧
    count_variadic_args (["1", "2"] ++ ["action", "set_egress_port", "3"]) =
      (2, ["action", "set_egress_port", "3"]) := by
  have h := get_action_arg_variadic demo_repository "forward_to" ["1", "2"]
    ["action", "set_egress_port", "3"]
    ⟨2, some "forward_to", some [demo_arg "port" .U32, demo_arg "ports" .VARIADIC]⟩
    ⟨0, none, none⟩
    { uid := 2, name := some "forward_to",
      args := some [{ demo_arg "port" .U32 with value_u32 := 1 },
                    { demo_arg "port" .U32 with value_u32 := 2 }] }
    3 ["action", "set_egress_port", "3"]
    (by decide) (by decide) (by decide) (by decide) (by decide) (by decide) (by decide)
    (by decide)
  exact ⟨by decide, h.1⟩

set_option maxRecDepth 100000 in
/-- C8 as stated fails: the element `10x` of a `vlans` list is not an
integer, yet `match_set_port_send` does not return `-EINVAL`: it goes on to
send a port record with bit 10 set (byte 1 is 4). -/
theorem match_set_port_send_vlans_trailing_text :
    match_set_port_send demo_repository ["port", "1", "vlans", "10x"] =
      .build
        { (set_port_init demo_repository).port with
          port_id := 1,
          vlan := { (set_port_init demo_repository).port.vlan with
                    vlan_membership_bitmask := (List.replicate 512 0).set 1 4 } } := by
  decide

set_option maxRecDepth 100000 in
/-- Witness of C8: `port 1 vlans 10,20,4095` is sent with a 512-byte bitmap
in which bit 4095 is set and bit 11 is not. -/
theorem match_set_port_send_vlans_witness :
    match_set_port_send demo_repository
        (["port", "1"] ++
          "vlans" :: String.mk (List.intercalate [','] ["10".data, "20".data, "4095".data]) ::
            []) =
      .build
        { (set_port_init demo_repository).port with
          port_id := 1,
          vlan := { (set_port_init demo_repository).port.vlan with
                    vlan_membership_bitmask :=
                      (((List.replicate 512 0).set 1 4).set 2 16).set 511 128 } } ∧
    ((((((List.replicate 512 0).set 1 4).set 2 16).set 511 128).getD (4095 / 8) 0).testBit
        (4095 % 8) = true ↔ 4095 ∈ [10, 20, 4095]) ∧
    ((((((List.replicate 512 0).set 1 4).set 2 16).set 511 128).getD (11 / 8) 0).testBit
        (11 % 8) = true ↔ 11 ∈ [10, 20, 4095]) := by
  have hden : List.Forall₂ decimal_denotes ["10".data, "20".data, "4095".data]
      [10, 20, 4095] := by
    refine List.Forall₂.cons ?_ (List.Forall₂.cons ?_ (List.Forall₂.cons ?_ List.Forall₂.nil))
    all_goals
      refine ⟨by decide, by decide, ?_, by decide⟩
      intro c cs h h0
      cases h
      exact absurd h0 (by decide)
  have hrun : match_set_port_send demo_repository
        (["port", "1"] ++
          "vlans" :: String.mk (List.intercalate [','] ["10".data, "20".data, "4095".data]) ::
            []) =
      .build
        { (set_port_init demo_repository).port with
          port_id := 1,
          vlan := { (set_port_init demo_repository).port.vlan with
                    vlan_membership_bitmask :=
                      (((List.replicate 512 0).set 1 4).set 2 16).set 511 128 } } := by
    decide
  have h := (match_set_port_send_vlans demo_repository).1 ["port", "1"] []
    ["10".data, "20".data, "4095".data] [10, 20, 4095] _ (by decide) (by decide) hden
    (by decide) (by decide) hrun
  exact ⟨hrun, h.2 4095, h.2 11⟩

set_option maxRecDepth 100000 in
/-- Witness of C9: `port 3 speed 100` has no `vlans` clause; the record sent
carries the bitmap of the port state fetched for port 3. -/
theorem match_set_port_send_keeps_membership_witness :
    no_vlans_clause ["port", "3", "speed", "100"] = true ∧
    match_set_port_send demo_repository ["port", "3", "speed", "100"] =
      .build
        { (set_port_init demo_repository).port with
          port_id := 3, speed := 100,
          vlan := { (set_port_init demo_repository).port.vlan with
                    vlan_membership_bitmask := (demo_port 3).vlan.vlan_membership_bitmask } } ∧
    ∃ pb, demo_repository.match_nl_get_ports 3 = some pb ∧
      (demo_port 3).vlan.vlan_membership_bitmask = pb.vlan.vlan_membership_bitmask := by
  have hrun : match_set_port_send demo_repository ["port", "3", "speed", "100"] =
      .build
        { (set_port_init demo_repository).port with
          port_id := 3, speed := 100,
          vlan := { (set_port_init demo_repository).port.vlan with
                    vlan_membership_bitmask := (demo_port 3).vlan.vlan_membership_bitmask } } := by
    decide
  exact ⟨by decide, hrun,
    match_set_port_send_keeps_membership demo_repository ["port", "3", "speed", "100"] _
      (by decide) hrun⟩

/-- Witness of C10: `create source 1 name t` ends its argument loop with a
zero `size` and is rejected. -/
theorem match_create_tbl_send_rejects_witness :
    match_create_tbl_loop demo_repository ["source", "1", "name", "t"].length
        ["source", "1", "name", "t"] create_tbl_init =
      .build { create_tbl_init with source := 1, name := some "t" } ∧
    (match_create_tbl_send demo_repository ["source", "1", "name", "t"]
      .CREATE_TABLE).1.rejected = true :=
  ⟨by decide,
   (match_create_tbl_send_rejects demo_repository ["source", "1", "name", "t"]
      .CREATE_TABLE).1 { create_tbl_init with source := 1, name := some "t" } (by decide)
      (Or.inl ⟨rfl, rfl⟩)⟩

theorem scan_digits_all (base : Nat) (ds : List Char)
    (h : ∀ c ∈ ds, is_digit_in base c = true) :
    ∀ acc n, scan_digits base ds acc n =
      (ds.foldl (fun acc c => acc * base + (digit_value c).getD 0) acc, n + ds.length, []) := by
  induction ds with
  | nil => intro acc n; simp [scan_digits]
  | cons c cs ih =>
    intro acc n
    have hc := h c (List.mem_cons_self _ _)
    unfold is_digit_in at hc
    rw [scan_digits]
    cases hd : digit_value c with
    | none => rw [hd] at hc; simp at hc
    | some d =>
      rw [hd] at hc
      have hlt : d < base := by simpa using hc
      simp only [hlt, if_true, List.foldl_cons, List.length_cons, hd, Option.getD_some]
      rw [ih (fun x hx => h x (List.mem_cons_of_mem _ hx))]
      simp; ring

theorem parse_subject_numeral (tok : List Char) (v : Nat) (h : numeral_denotes tok v) :
    tok ≠ [] ∧ parse_subject 0 tok = some ⟨false, v, []⟩ := by
  cases h with
  | decimal ds v hd => exact ⟨hd.1, (parse_subject_decimal _ v hd).2⟩
  | hex ds hne hdig =>
    refine ⟨by simp, ?_⟩
    cases ds with
    | nil => exact absurd rfl hne
    | cons d ds1 =>
      have hd := hdig d (List.mem_cons_self _ _)
      have hskip : skip_space ('0' :: 'x' :: d :: ds1) = '0' :: 'x' :: d :: ds1 := by
        simp [skip_space, List.dropWhile, isspace]
      have hsign : take_sign ('0' :: 'x' :: d :: ds1) = (false, '0' :: 'x' :: d :: ds1) := by
        simp [take_sign]
      have hbase : select_base 0 ('0' :: 'x' :: d :: ds1) = (16, d :: ds1) := by
        simp [select_base, hex_lead, hd]
      have hscan := scan_digits_all 16 (d :: ds1) hdig 0 0
      simp only [parse_subject, hskip, hsign, hbase, hscan]
      simp [numeral_value]
  | octal ds hdig =>
    refine ⟨by simp, ?_⟩
    have hskip : skip_space ('0' :: ds) = '0' :: ds := by
      simp [skip_space, List.dropWhile, isspace]
    have hsign : take_sign ('0' :: ds) = (false, '0' :: ds) := by
      simp [take_sign]
    have hlead : hex_lead ('0' :: ds) = none := by
      cases ds with
      | nil => rfl
      | cons x xs =>
        cases xs with
        | nil => rfl
        | cons y ys =>
          have hx := hdig x (List.mem_cons_self _ _)
          have hx1 : ¬ x.toNat = 120 := by
            intro h1
            simp [is_digit_in, digit_value, h1] at hx
          have hx2 : ¬ x.toNat = 88 := by
            intro h1
            simp [is_digit_in, digit_value, h1] at hx
          simp [hex_lead, hx1, hx2]
    have hbase : select_base 0 ('0' :: ds) = (8, '0' :: ds) := by
      simp [select_base, hlead]
    have hall : ∀ c ∈ '0' :: ds, is_digit_in 8 c = true := by
      intro c hc
      rcases List.mem_cons.1 hc with h1 | h1
      · subst h1; decide
      · exact hdig c h1
    have hscan := scan_digits_all 8 ('0' :: ds) hall 0 0
    have hzero : (digit_value '0').getD 0 = 0 := by decide
    simp only [parse_subject, hskip, hsign, hbase, hscan]
    simp [numeral_value, hzero]

theorem parse_ull_numeral (tok : List Char) (v : Nat) (h : numeral_denotes tok v) :
    parse_ull tok = if v ≤ ULONG_MAX then (0, v) else (-ERANGE, ULONG_MAX) := by
  obtain ⟨hne, hp⟩ := parse_subject_numeral tok v h
  unfold parse_ull strtoul
  rw [hp]
  by_cases hv : v ≤ ULONG_MAX
  · have : ¬ v > ULONG_MAX := by omega
    simp [hv, this, hne]
  · have : v > ULONG_MAX := by omega
    simp [hv, this, ERANGE]

theorem field_max_value_below_64 (f : net_mat_field) (hw : f.bitwidth ≤ 63) :
    field_max_value (some f) = 2 ^ f.bitwidth - 1 := by
  have h1 : ¬ f.bitwidth > 64 := by omega
  have h2 : f.bitwidth % 64 = f.bitwidth := Nat.mod_eq_of_lt (by omega)
  have h3 : 2 ^ f.bitwidth < 2 ^ 64 := Nat.pow_lt_pow_right (by decide) (by omega)
  have h4 : 0 < 2 ^ f.bitwidth := Nat.two_pow_pos f.bitwidth
  simp only [field_max_value, h1, if_false, shl_ull, h2, one_mul, Nat.mod_eq_of_lt h3]
  have : 2 ^ f.bitwidth + (2 ^ 64 - 1) = (2 ^ f.bitwidth - 1) + 2 ^ 64 := by omega
  rw [this, Nat.add_mod_right]
  exact Nat.mod_eq_of_lt (by omega)

/-- For every field of bit-width 1 to 63 and every decimal, `0x` or `0`
numeral denoting `v`, `field_parse_value` yields `v` when `v ≤ 2 ^ w - 1`
and `-ERANGE` otherwise. -/
theorem field_parse_value_numeral (f : net_mat_field) (tok : List Char) (v : Nat)
    (hw : f.bitwidth ≤ 63) (h : numeral_denotes tok v) :
    field_parse_value f tok =
      if v ≤ 2 ^ f.bitwidth - 1 then .ok v else .error (-ERANGE) := by
  have hmax := field_max_value_below_64 f hw
  have h3 : 2 ^ f.bitwidth < 2 ^ 64 := Nat.pow_lt_pow_right (by decide) (by omega)
  unfold field_parse_value
  rw [parse_ull_numeral tok v h, hmax]
  by_cases hv : v ≤ ULONG_MAX
  · rw [if_pos hv]
    by_cases hr : v ≤ 2 ^ f.bitwidth - 1
    · simp [hr, ERANGE]
    · simp [hr]
  · rw [if_neg hv]
    have hr : ¬ v ≤ 2 ^ f.bitwidth - 1 := by
      unfold ULONG_MAX at hv
      omega
    simp [hr]

/-! ## Destroy: a name and an id that do not agree -/

/-- C11: when the arguments of `destroy` leave both a name and a non-zero
id in the table record and `get_table_id` of the name is not that id,
`match_destroy_tbl_send` returns `-EINVAL`, whatever the value of `source`;
the run of the whole function has no netlink event: no request is
allocated and nothing is sent. -/
theorem match_destroy_tbl_send_mismatch (env : repository) (argv : List String)
    (st : destroy_tbl_state) (n : String)
    (hloop : match_destroy_tbl_loop argv { name := none, uid := 0, source := 0 } = .build st)
    (hname : st.name = some n) (hid : st.uid ≠ 0)
    (hdiff : env.get_table_id (some n) ≠ st.uid) :
    match_destroy_tbl_send env argv = .returned (-EINVAL) ∧
    ∀ (nl : netlink) (fuel ifindex : Nat),
      match_destroy_tbl_send_run env nl fuel ifindex argv = ⟨[], .returned (-EINVAL)⟩ := by
  have h : match_destroy_tbl_send env argv = .returned (-EINVAL) := by
    simp [match_destroy_tbl_send, hloop, match_destroy_tbl_check, match_destroy_tbl_identify,
      hname, hid, hdiff]
  refine ⟨h, fun nl fuel ifindex => ?_⟩
  simp [match_destroy_tbl_send_run, h, send_result.then_request]

/-- Witness of C11: `source 1 name t id 3` and `name t id 3` on a switch
where no table is named `t`. -/
theorem match_destroy_tbl_send_mismatch_witness :
    (match_destroy_tbl_send demo_repository ["source", "1", "name", "t", "id", "3"] =
        .returned (-EINVAL) ∧
      ∀ (nl : netlink) (fuel ifindex : Nat),
        match_destroy_tbl_send_run demo_repository nl fuel ifindex
          ["source", "1", "name", "t", "id", "3"] = ⟨[], .returned (-EINVAL)⟩) ∧
    (match_destroy_tbl_send demo_repository ["name", "t", "id", "3"] = .returned (-EINVAL) ∧
      ∀ (nl : netlink) (fuel ifindex : Nat),
        match_destroy_tbl_send_run demo_repository nl fuel ifindex
          ["name", "t", "id", "3"] = ⟨[], .returned (-EINVAL)⟩) :=
  ⟨match_destroy_tbl_send_mismatch demo_repository ["source", "1", "name", "t", "id", "3"]
      ⟨some "t", 3, 1⟩ "t" (by decide) rfl (by decide) (by decide),
   match_destroy_tbl_send_mismatch demo_repository ["name", "t", "id", "3"]
      ⟨some "t", 3, 0⟩ "t" (by decide) rfl (by decide) (by decide)⟩

/-! ## Match values of narrow and of unsupported fields -/

theorem field_parse_value_not_number (field : net_mat_field) (str : List Char)
    (h : (parse_ull str).1 = -EINVAL) : field_parse_value field str = .error (-EINVAL) := by
  unfold field_parse_value
  rcases hp : parse_ull str with ⟨err, value⟩
  rw [hp] at h
  simp only at h
  subst h
  simp [EINVAL, ERANGE]

theorem field_get_attr_type_narrow (field : net_mat_field) (hw : field.bitwidth ≤ 16) :
    field_get_attr_type (some field) = .U8 ∨ field_get_attr_type (some field) = .U16 := by
  unfold field_get_attr_type
  by_cases h8 : field.bitwidth ≤ 8
  · simp [h8]
  · simp [h8, hw]

theorem match_parse_value_specific_narrow (env : repository) (m : net_mat_field_ref)
    (str : List Char) (h : m.type = .U8 ∨ m.type = .U16) :
    match_parse_value_specific env m str = (-EINVAL, m) := by
  unfold match_parse_value_specific
  rcases h with h | h <;> simp [h]

theorem match_parse_mask_specific_narrow (env : repository) (m : net_mat_field_ref)
    (str : List Char) (h : m.type = .U8 ∨ m.type = .U16) :
    match_parse_mask_specific env m str = (-EINVAL, m) := by
  unfold match_parse_mask_specific
  rcases h with h | h <;> simp [h]

theorem get_match_arg_parse_value_narrow (env : repository) (field : net_mat_field)
    (tok : List Char) (m : net_mat_field_ref) (hw : field.bitwidth ≤ 16)
    (h : (parse_ull tok).1 = -EINVAL) :
    get_match_arg_parse_value env field tok m =
      (-EINVAL, { m with type := field_get_attr_type (some field) }) := by
  unfold get_match_arg_parse_value match_parse_value_as_number
  rw [field_parse_value_not_number field tok h]
  simp only
  rw [match_parse_value_specific_narrow env _ tok (field_get_attr_type_narrow field hw)]
  simp [EINVAL, ERANGE]

theorem get_match_arg_parse_mask_narrow (env : repository) (field : net_mat_field)
    (tok : List Char) (m : net_mat_field_ref) (ht : m.type = .U8 ∨ m.type = .U16)
    (h : (parse_ull tok).1 = -EINVAL) :
    get_match_arg_parse_mask env field tok m = (-EINVAL, m) := by
  unfold get_match_arg_parse_mask match_parse_mask_as_number
  rw [field_parse_value_not_number field tok h]
  simp only
  rw [match_parse_mask_specific_narrow env _ tok ht]
  simp [EINVAL, ERANGE]

theorem get_match_arg_parse_value_keeps_type (env : repository) (field : net_mat_field)
    (tok : List Char) (m : net_mat_field_ref) :
    (get_match_arg_parse_value env field tok m).2.type = field_get_attr_type (some field) := by
  unfold get_match_arg_parse_value
  have hn := match_parse_value_as_number_type
    { m with type := field_get_attr_type (some field) } field tok
  rcases hr : match_parse_value_as_number
    { m with type := field_get_attr_type (some field) } field tok with ⟨err, m1⟩
  rw [hr] at hn
  simp only at hn ⊢
  have hs := match_parse_value_specific_type env m1 tok
  rcases hsp : match_parse_value_specific env m1 tok with ⟨err2, m2⟩
  rw [hsp] at hs
  simp only at hs
  split_ifs <;> simp_all

/-- The value step of `get_match_arg` on a field of at most 16 bits and a
token `parse_ull` reports as no number. -/
theorem get_match_arg_value_narrow (env : repository) (field : net_mat_field)
    (prev tok : String) (rest : List String) (advance : Int) (m : net_mat_field_ref)
    (kws : List String) (hw : field.bitwidth ≤ 16) (h : (parse_ull tok.data).1 = -EINVAL) :
    get_match_arg_value env field (prev :: tok :: rest) advance true m kws =
      (-EINVAL, { m with type := field_get_attr_type (some field) }) := by
  simp [get_match_arg_value, get_match_arg_parse_value_narrow env field tok.data m hw h, EINVAL]

/-- The mask step of `get_match_arg` on a field of at most 16 bits, a value
token that parses and a mask token `parse_ull` reports as no number. -/
theorem get_match_arg_value_mask_narrow (env : repository) (field : net_mat_field)
    (prev tok mtok : String) (rest : List String) (advance : Int) (m m4 : net_mat_field_ref)
    (kws : List String) (hw : field.bitwidth ≤ 16)
    (hv : get_match_arg_parse_value env field tok.data m = (0, m4))
    (hk : mtok ∉ kws) (h : (parse_ull mtok.data).1 = -EINVAL) :
    get_match_arg_value env field (prev :: tok :: mtok :: rest) advance true m kws =
      (-EINVAL, m4) := by
  have ht : m4.type = .U8 ∨ m4.type = .U16 := by
    have h1 := get_match_arg_parse_value_keeps_type env field tok.data m
    rw [hv] at h1
    simp only at h1
    rw [h1]
    exact field_get_attr_type_narrow field hw
  have hkw : is_valid_keyword mtok kws = false := by
    rcases hb : is_valid_keyword mtok kws with _ | _
    · rfl
    · exact absurd ((is_valid_keyword_iff mtok kws).1 hb) hk
  simp [get_match_arg_value, hv, get_match_arg_mask, hkw,
    get_match_arg_parse_mask_narrow env field mtok.data m4 ht h, EINVAL]

/-- C18: for a field of at most 16 bits (derived type U8 or U16),
`get_match_arg` with `need_value = true` returns `-EINVAL` on a value token
that `parse_ull` reports as no number (code `-EINVAL`), and the record is
the resolved one with only its type set: no value or mask member is
written. On a value token that parses, a mask token that is no keyword
and that `parse_ull` reports as no number gives `-EINVAL` too, and the
record is the one the value step left: no mask is written. Both hold with
and without a mask-type token. -/
theorem get_match_arg_narrow_not_number (env : repository) (strings : String)
    (m m3 : net_mat_field_ref) (field : net_mat_field)
    (hres : get_match_arg_resolve env strings.data m = .ok (field, m3))
    (hw : field.bitwidth ≤ 16) :
    (field_get_attr_type (some field) = .U8 ∨ field_get_attr_type (some field) = .U16) ∧
    (∀ (kw tok : String) (rest kws : List String), (parse_ull tok.data).1 = -EINVAL →
      get_match_arg env (kw :: strings :: tok :: rest) true false m kws =
        (-EINVAL, { m3 with type := field_get_attr_type (some field) })) ∧
    (∀ (kw mt tok : String) (rest kws : List String),
      mt = "lpm" ∨ mt = "exact" ∨ mt = "mask" → (parse_ull tok.data).1 = -EINVAL →
      ∃ mask_type,
        get_match_arg env (kw :: strings :: mt :: tok :: rest) true true m kws =
          (-EINVAL, { m3 with mask_type := mask_type,
                              type := field_get_attr_type (some field) })) ∧
    (∀ (kw tok mtok : String) (rest kws : List String) (m4 : net_mat_field_ref),
      get_match_arg_parse_value env field tok.data m3 = (0, m4) →
      mtok ∉ kws → (parse_ull mtok.data).1 = -EINVAL →
      get_match_arg env (kw :: strings :: tok :: mtok :: rest) true false m kws =
        (-EINVAL, m4)) ∧
    (∀ (kw mt tok mtok : String) (rest kws : List String),
      mt = "lpm" ∨ mt = "exact" ∨ mt = "mask" →
      ∃ mask_type, ∀ (m4 : net_mat_field_ref),
        get_match_arg_parse_value env field tok.data { m3 with mask_type := mask_type } =
          (0, m4) →
        mtok ∉ kws → (parse_ull mtok.data).1 = -EINVAL →
        get_match_arg env (kw :: strings :: mt :: tok :: mtok :: rest) true true m kws =
          (-EINVAL, m4)) := by
  refine ⟨field_get_attr_type_narrow field hw, ?_, ?_, ?_, ?_⟩
  · intro kw tok rest kws h
    simp only [get_match_arg, List.tail_cons, hres, get_match_arg_mask_type]
    simpa using get_match_arg_value_narrow env field strings tok rest 1 m3 kws hw h
  · intro kw mt tok rest kws hmt h
    simp only [get_match_arg, List.tail_cons, hres, get_match_arg_mask_type]
    rcases hmt with hmt | hmt | hmt
    · subst hmt
      have h1 := get_match_arg_value_narrow env field "lpm" tok rest 2
        ({ m3 with mask_type := .LPM }) kws hw h
      exact ⟨.LPM, by simpa using h1⟩
    · subst hmt
      have h1 := get_match_arg_value_narrow env field "exact" tok rest 2
        ({ m3 with mask_type := .EXACT }) kws hw h
      exact ⟨.EXACT, by simpa using h1⟩
    · subst hmt
      have h1 := get_match_arg_value_narrow env field "mask" tok rest 2
        ({ m3 with mask_type := .MASK }) kws hw h
      exact ⟨.MASK, by simpa using h1⟩
  · intro kw tok mtok rest kws m4 hv hk h
    simp only [get_match_arg, List.tail_cons, hres, get_match_arg_mask_type]
    simpa using get_match_arg_value_mask_narrow env field strings tok mtok rest 1 m3 m4 kws
      hw hv hk h
  · intro kw mt tok mtok rest kws hmt
    simp only [get_match_arg, List.tail_cons, hres, get_match_arg_mask_type]
    rcases hmt with hmt | hmt | hmt
    · subst hmt
      refine ⟨.LPM, fun m4 hv hk h => ?_⟩
      have h1 := get_match_arg_value_mask_narrow env field "lpm" tok mtok rest 2
        ({ m3 with mask_type := .LPM }) m4 kws hw hv hk h
      simpa using h1
    · subst hmt
      refine ⟨.EXACT, fun m4 hv hk h => ?_⟩
      have h1 := get_match_arg_value_mask_narrow env field "exact" tok mtok rest 2
        ({ m3 with mask_type := .EXACT }) m4 kws hw hv hk h
      simpa using h1
    · subst hmt
      refine ⟨.MASK, fun m4 hv hk h => ?_⟩
      have h1 := get_match_arg_value_mask_narrow env field "mask" tok mtok rest 2
        ({ m3 with mask_type := .MASK }) m4 kws hw hv hk h
      simpa using h1

theorem get_match_arg_parse_value_code (env : repository) (field : net_mat_field)
    (tok : List Char) (m : net_mat_field_ref) :
    (get_match_arg_parse_value env field tok m).1 = 0 ∨
    (get_match_arg_parse_value env field tok m).1 < 0 := by
  unfold get_match_arg_parse_value
  rcases match_parse_value_as_number
    { m with type := field_get_attr_type (some field) } field tok with ⟨err, m1⟩
  rcases hsp : match_parse_value_specific env m1 tok with ⟨err2, m2⟩
  simp only
  split_ifs <;> simp [hsp, ERANGE, EINVAL]

theorem field_get_attr_type_unsupported (field : net_mat_field) (hw : 64 < field.bitwidth)
    (h128 : field.bitwidth ≠ 128) : field_get_attr_type (some field) = .UNSPEC := by
  unfold field_get_attr_type
  have h1 : ¬ field.bitwidth ≤ 8 := by omega
  have h2 : ¬ field.bitwidth ≤ 16 := by omega
  have h3 : ¬ field.bitwidth ≤ 32 := by omega
  have h4 : ¬ field.bitwidth ≤ 64 := by omega
  simp [h1, h2, h3, h4, h128]

theorem get_match_arg_parse_value_unsupported (env : repository) (field : net_mat_field)
    (tok : List Char) (m : net_mat_field_ref) (hw : 64 < field.bitwidth)
    (h128 : field.bitwidth ≠ 128) : (get_match_arg_parse_value env field tok m).1 < 0 := by
  rcases get_match_arg_parse_value_code env field tok m with h | h
  · exfalso
    have hk := get_match_arg_parse_value_keeps_type env field tok m
    rw [field_get_attr_type_unsupported field hw h128] at hk
    exact get_match_arg_parse_value_type env field tok m
      (get_match_arg_parse_value env field tok m).2 (Prod.ext h rfl) hk
  · exact h

theorem get_match_arg_value_unsupported (env : repository) (field : net_mat_field)
    (argv : List String) (advance : Int) (m : net_mat_field_ref) (kws : List String)
    (hw : 64 < field.bitwidth) (h128 : field.bitwidth ≠ 128) :
    (get_match_arg_value env field argv advance true m kws).1 < 0 := by
  unfold get_match_arg_value
  rcases h : argv.tail with _ | ⟨tok, rest⟩
  · simp [EINVAL]
  · have hp := get_match_arg_parse_value_unsupported env field tok.data m hw h128
    rcases hr : get_match_arg_parse_value env field tok.data m with ⟨err, m1⟩
    rw [hr] at hp
    simp only at hp
    have hne : err ≠ 0 := by omega
    simp only [h, hr, hne, ne_eq, not_false_eq_true, if_true]
    exact hp

/-- C19: for a field wider than 64 bits whose width is not 128 the derived
type is `UNSPEC`, and `get_match_arg` with `need_value = true` returns a
negative code whatever tokens follow the `INSTANCE.FIELD` token (a value
that is a number, one that is not, or none), with and without a mask
type. -/
theorem get_match_arg_unsupported_width (env : repository) (strings : String)
    (m m3 : net_mat_field_ref) (field : net_mat_field)
    (hres : get_match_arg_resolve env strings.data m = .ok (field, m3))
    (hw : 64 < field.bitwidth) (h128 : field.bitwidth ≠ 128) :
    field_get_attr_type (some field) = .UNSPEC ∧
    ∀ (kw : String) (rest : List String) (need_mask_type : Bool) (kws : List String),
      (get_match_arg env (kw :: strings :: rest) true need_mask_type m kws).1 < 0 := by
  refine ⟨field_get_attr_type_unsupported field hw h128, fun kw rest nmt kws => ?_⟩
  simp only [get_match_arg, List.tail_cons, hres, get_match_arg_mask_type]
  cases nmt
  · simpa using get_match_arg_value_unsupported env field (strings :: rest) 1 m3 kws hw h128
  · simp only [if_true]
    rcases rest with _ | ⟨tok, rest1⟩
    · simp [EINVAL]
    · simp only
      split_ifs
      · exact get_match_arg_value_unsupported env field _ 2 _ kws hw h128
      · exact get_match_arg_value_unsupported env field _ 2 _ kws hw h128
      · exact get_match_arg_value_unsupported env field _ 2 _ kws hw h128
      · simp [EINVAL]

/-! ## Attribute clause of `update` -/

theorem find_attrib_none (ref : List net_mat_named_value) (name : String)
    (h : ∀ r ∈ ref.takeWhile (fun r => decide (r.uid ≠ 0)), r.name ≠ some name) :
    find_attrib ref name = none := by
  induction ref with
  | nil => rfl
  | cons r rs ih =>
    unfold find_attrib
    by_cases hu : r.uid = 0
    · simp [hu]
    · have hr : r.name ≠ some name := by
        refine h r ?_
        rw [List.takeWhile_cons_of_pos (by simp [hu])]
        exact List.mem_cons_self _ _
      simp only [hu, if_false, hr]
      refine ih (fun x hx => h x ?_)
      rw [List.takeWhile_cons_of_pos (by simp [hu])]
      exact List.mem_cons_of_mem _ hx

theorem find_attrib_some (ref : List net_mat_named_value) (name : String)
    (r : net_mat_named_value) (h : find_attrib ref name = some r) :
    r ∈ ref ∧ r.name = some name ∧ r.uid ≠ 0 := by
  induction ref with
  | nil => simp [find_attrib] at h
  | cons x xs ih =>
    unfold find_attrib at h
    by_cases hu : x.uid = 0
    · simp [hu] at h
    · simp only [hu, if_false] at h
      by_cases hn : x.name = some name
      · simp only [hn, if_true, Option.some.injEq] at h
        subst h
        exact ⟨List.mem_cons_self _ _, hn, hu⟩
      · simp only [hn, if_false] at h
        exact ⟨List.mem_cons_of_mem _ (ih h).1, (ih h).2⟩

theorem get_attrib_arg_found (env : repository) (kw name tok : String) (rest1 : List String)
    (table_uid : Nat) (value : net_mat_named_value) (ref : List net_mat_named_value)
    (r : net_mat_named_value) (h : get_table_attribs env table_uid = some ref)
    (hf : find_attrib ref name = some r) (hwr : r.write ≠ 0) (ht : r.type ≠ .UNSPEC) :
    ((get_attrib_arg env (kw :: name :: tok :: rest1) table_uid value).1 = 2 ∨
      (get_attrib_arg env (kw :: name :: tok :: rest1) table_uid value).1 = -EINVAL) ∧
    (get_attrib_arg env (kw :: name :: tok :: rest1) table_uid value).2.uid = r.uid ∧
    (get_attrib_arg env (kw :: name :: tok :: rest1) table_uid value).2.name = r.name ∧
    (get_attrib_arg env (kw :: name :: tok :: rest1) table_uid value).2.type = r.type := by
  simp only [get_attrib_arg, List.tail_cons, h, hf, hwr, if_false]
  rcases hty : r.type with _ | _ | _ | _ | _
  · exact absurd hty ht
  · simp only []
    split <;> simp [EINVAL]
  · simp only []
    split <;> simp [EINVAL]
  · simp only []
    split
    · simp [EINVAL]
    · split
      · split <;> simp [EINVAL]
      · split <;> simp [EINVAL]
  · simp only []
    split_ifs <;> simp [EINVAL]

theorem get_attrib_arg_u8 (env : repository) (kw name tok : String) (rest1 : List String)
    (table_uid : Nat) (value : net_mat_named_value) (ref : List net_mat_named_value)
    (r : net_mat_named_value) (v : Nat) (h : get_table_attribs env table_uid = some ref)
    (hf : find_attrib ref name = some r) (hwr : r.write ≠ 0) (hty : r.type = .U8)
    (hs : sscanf_0x_or_u 8 tok.data = (1, some v)) :
    get_attrib_arg env (kw :: name :: tok :: rest1) table_uid value =
      (2, { value with uid := r.uid, name := r.name, type := .U8, value_u8 := v }) := by
  simp only [get_attrib_arg, List.tail_cons, h, hf, hwr, if_false, hty, hs]

theorem get_attrib_arg_u16 (env : repository) (kw name tok : String) (rest1 : List String)
    (table_uid : Nat) (value : net_mat_named_value) (ref : List net_mat_named_value)
    (r : net_mat_named_value) (v : Nat) (h : get_table_attribs env table_uid = some ref)
    (hf : find_attrib ref name = some r) (hwr : r.write ≠ 0) (hty : r.type = .U16)
    (hs : sscanf_0x_or_u 16 tok.data = (1, some v)) :
    get_attrib_arg env (kw :: name :: tok :: rest1) table_uid value =
      (2, { value with uid := r.uid, name := r.name, type := .U16, value_u16 := v }) := by
  simp only [get_attrib_arg, List.tail_cons, h, hf, hwr, if_false, hty, hs]

theorem get_attrib_arg_u32_dotted (env : repository) (kw name tok : String)
    (rest1 : List String) (table_uid : Nat) (value : net_mat_named_value)
    (ref : List net_mat_named_value) (r : net_mat_named_value) (has_dots saved : List Char)
    (a : Nat) (h : get_table_attribs env table_uid = some ref)
    (hf : find_attrib ref name = some r) (hwr : r.write ≠ 0) (hty : r.type = .U32)
    (hst : strtok tok.data ' ' = some (has_dots, saved))
    (hd : has_dots.any (fun c => c.toNat = 46) = true)
    (hin : env.inet_aton (strtok_cut tok.data) = some a) :
    get_attrib_arg env (kw :: name :: tok :: rest1) table_uid value =
      (2, { value with uid := r.uid, name := r.name, type := .U32, value_u32 := a }) := by
  simp only [get_attrib_arg, List.tail_cons, h, hf, hwr, if_false, hty, hst, hd, if_true, hin]

theorem get_attrib_arg_u32_number (env : repository) (kw name tok : String)
    (rest1 : List String) (table_uid : Nat) (value : net_mat_named_value)
    (ref : List net_mat_named_value) (r : net_mat_named_value) (has_dots saved : List Char)
    (v : Nat) (h : get_table_attribs env table_uid = some ref)
    (hf : find_attrib ref name = some r) (hwr : r.write ≠ 0) (hty : r.type = .U32)
    (hst : strtok tok.data ' ' = some (has_dots, saved))
    (hd : has_dots.any (fun c => c.toNat = 46) = false)
    (hs : sscanf_0x_or_u 32 (strtok_cut tok.data) = (1, some v)) :
    get_attrib_arg env (kw :: name :: tok :: rest1) table_uid value =
      (2, { value with uid := r.uid, name := r.name, type := .U32, value_u32 := v }) := by
  simp only [get_attrib_arg, List.tail_cons, h, hf, hwr, if_false, hty, hst, hd, hs]
  rfl

theorem get_attrib_arg_u64 (env : repository) (kw name tok : String) (rest1 : List String)
    (table_uid : Nat) (value : net_mat_named_value) (ref : List net_mat_named_value)
    (r : net_mat_named_value) (h : get_table_attribs env table_uid = some ref)
    (hf : find_attrib ref name = some r) (hwr : r.write ≠ 0) (hty : r.type = .U64)
    (hm : (match_macaddr2u64 value.value_u64 tok.data).1 = 0) :
    get_attrib_arg env (kw :: name :: tok :: rest1) table_uid value =
      (2, { value with uid := r.uid, name := r.name, type := .U64,
                       value_u64 := (match_macaddr2u64 value.value_u64 tok.data).2 }) := by
  simp only [get_attrib_arg, List.tail_cons, h, hf, hwr, if_false, hty]
  rcases hr : match_macaddr2u64 value.value_u64 tok.data with ⟨e, v⟩
  rw [hr] at hm
  simp only at hm
  simp [hm]

/-- C20: `get_attrib_arg` returns `-EINVAL` when the table has no attribute
list, when no entry before the end of the list has the name, and when the
named attribute has its write flag clear. For a writable attribute of type
U8, U16, U32 or U64 followed by a value token, the return value is 2 or
`-EINVAL` and the output record carries the uid, the name and the type of
the attribute; it is 2, with the value stored in the member of the type,
when the token converts: for U8 and U16 when `0x%x` or `%u` converts it,
for U32 when it holds a dot and `inet_aton` accepts it or holds none and
the two conversions take it, for U64 when `match_macaddr2u64` returns 0. -/
theorem get_attrib_arg_checks (env : repository) (kw name : String) (rest : List String)
    (table_uid : Nat) (value : net_mat_named_value) :
    (get_table_attribs env table_uid = none →
      (get_attrib_arg env (kw :: name :: rest) table_uid value).1 = -EINVAL) ∧
    (∀ ref, get_table_attribs env table_uid = some ref →
      (∀ r ∈ ref.takeWhile (fun r => decide (r.uid ≠ 0)), r.name ≠ some name) →
      (get_attrib_arg env (kw :: name :: rest) table_uid value).1 = -EINVAL) ∧
    (∀ ref r, get_table_attribs env table_uid = some ref → find_attrib ref name = some r →
      r.write = 0 → (get_attrib_arg env (kw :: name :: rest) table_uid value).1 = -EINVAL) ∧
    (∀ ref r tok rest1, get_table_attribs env table_uid = some ref →
      find_attrib ref name = some r → r.write ≠ 0 → rest = tok :: rest1 →
      r.type ≠ .UNSPEC →
      (r ∈ ref ∧ r.name = some name ∧ r.uid ≠ 0) ∧
      ((get_attrib_arg env (kw :: name :: rest) table_uid value).1 = 2 ∨
        (get_attrib_arg env (kw :: name :: rest) table_uid value).1 = -EINVAL) ∧
      (get_attrib_arg env (kw :: name :: rest) table_uid value).2.uid = r.uid ∧
      (get_attrib_arg env (kw :: name :: rest) table_uid value).2.name = r.name ∧
      (get_attrib_arg env (kw :: name :: rest) table_uid value).2.type = r.type ∧
      (∀ v, r.type = .U8 → sscanf_0x_or_u 8 tok.data = (1, some v) →
        get_attrib_arg env (kw :: name :: rest) table_uid value =
          (2, { value with uid := r.uid, name := r.name, type := .U8, value_u8 := v })) ∧
      (∀ v, r.type = .U16 → sscanf_0x_or_u 16 tok.data = (1, some v) →
        get_attrib_arg env (kw :: name :: rest) table_uid value =
          (2, { value with uid := r.uid, name := r.name, type := .U16, value_u16 := v })) ∧
      (∀ has_dots saved a, r.type = .U32 → strtok tok.data ' ' = some (has_dots, saved) →
        has_dots.any (fun c => c.toNat = 46) = true →
        env.inet_aton (strtok_cut tok.data) = some a →
        get_attrib_arg env (kw :: name :: rest) table_uid value =
          (2, { value with uid := r.uid, name := r.name, type := .U32, value_u32 := a })) ∧
      (∀ has_dots saved v, r.type = .U32 → strtok tok.data ' ' = some (has_dots, saved) →
        has_dots.any (fun c => c.toNat = 46) = false →
        sscanf_0x_or_u 32 (strtok_cut tok.data) = (1, some v) →
        get_attrib_arg env (kw :: name :: rest) table_uid value =
          (2, { value with uid := r.uid, name := r.name, type := .U32, value_u32 := v })) ∧
      (r.type = .U64 → (match_macaddr2u64 value.value_u64 tok.data).1 = 0 →
        get_attrib_arg env (kw :: name :: rest) table_uid value =
          (2, { value with uid := r.uid, name := r.name, type := .U64,
                           value_u64 := (match_macaddr2u64 value.value_u64 tok.data).2 }))) := by
  refine ⟨?_, ?_, ?_, ?_⟩
  · intro h
    simp [get_attrib_arg, h]
  · intro ref h hn
    simp [get_attrib_arg, h, find_attrib_none ref name hn]
  · intro ref r h hf hwr
    simp [get_attrib_arg, h, hf, hwr]
  · intro ref r tok rest1 h hf hwr hrest ht
    subst hrest
    exact ⟨find_attrib_some ref name r hf,
      (get_attrib_arg_found env kw name tok rest1 table_uid value ref r h hf hwr ht).1,
      (get_attrib_arg_found env kw name tok rest1 table_uid value ref r h hf hwr ht).2.1,
      (get_attrib_arg_found env kw name tok rest1 table_uid value ref r h hf hwr ht).2.2.1,
      (get_attrib_arg_found env kw name tok rest1 table_uid value ref r h hf hwr ht).2.2.2,
      fun v hty hs =>
        get_attrib_arg_u8 env kw name tok rest1 table_uid value ref r v h hf hwr hty hs,
      fun v hty hs =>
        get_attrib_arg_u16 env kw name tok rest1 table_uid value ref r v h hf hwr hty hs,
      fun has_dots saved a hty hst hd hin =>
        get_attrib_arg_u32_dotted env kw name tok rest1 table_uid value ref r has_dots saved a
          h hf hwr hty hst hd hin,
      fun has_dots saved v hty hst hd hs =>
        get_attrib_arg_u32_number env kw name tok rest1 table_uid value ref r has_dots saved v
          h hf hwr hty hst hd hs,
      fun hty hm =>
        get_attrib_arg_u64 env kw name tok rest1 table_uid value ref r h hf hwr hty hm⟩

/-- Witness of C18: on the 12-bit field `ethernet.vlan_id` the value token
`abc` is rejected with `-EINVAL` and leaves every value and mask member
zero; after the value `5` the mask token `xyz` is rejected with `-EINVAL`
and the record is the one the value step left. -/
theorem get_match_arg_narrow_not_number_witness :
    get_match_arg demo_repository ["match", "ethernet.vlan_id", "abc"] true false
        net_mat_field_ref.zero rule_set_send_keywords =
      (-EINVAL, { net_mat_field_ref.zero with
                  instance_id := 1, header := 1, field := 2, type := .U16 }) ∧
    get_match_arg demo_repository ["match", "ethernet.vlan_id", "5", "xyz"] true false
        net_mat_field_ref.zero rule_set_send_keywords =
      (-EINVAL, (get_match_arg_parse_value demo_repository ⟨"vlan_id", 2, 12⟩ "5".data
        { net_mat_field_ref.zero with instance_id := 1, header := 1, field := 2 }).2) :=
  ⟨(get_match_arg_narrow_not_number demo_repository "ethernet.vlan_id"
      net_mat_field_ref.zero
      ({ net_mat_field_ref.zero with instance_id := 1, header := 1, field := 2 })
      ⟨"vlan_id", 2, 12⟩ (by decide) (by decide)).2.1 "match" "abc" []
      rule_set_send_keywords (by decide),
   (get_match_arg_narrow_not_number demo_repository "ethernet.vlan_id"
      net_mat_field_ref.zero
      ({ net_mat_field_ref.zero with instance_id := 1, header := 1, field := 2 })
      ⟨"vlan_id", 2, 12⟩ (by decide) (by decide)).2.2.2.1 "match" "5" "xyz" []
      rule_set_send_keywords _ (by decide) (by decide) (by decide)⟩

/-- Witness of C19: on the 96-bit field `ethernet.tag` the value `5` gets a
negative code. -/
theorem get_match_arg_unsupported_width_witness :
    field_get_attr_type (some ⟨"tag", 3, 96⟩) = .UNSPEC ∧
    (get_match_arg demo_table_repository ["match", "ethernet.tag", "5"] true false
        net_mat_field_ref.zero rule_set_send_keywords).1 < 0 :=
  ⟨(get_match_arg_unsupported_width demo_table_repository "ethernet.tag"
      net_mat_field_ref.zero
      ({ net_mat_field_ref.zero with instance_id := 1, header := 1, field := 3 })
      ⟨"tag", 3, 96⟩ (by decide) (by decide) (by decide)).1,
   (get_match_arg_unsupported_width demo_table_repository "ethernet.tag"
      net_mat_field_ref.zero
      ({ net_mat_field_ref.zero with instance_id := 1, header := 1, field := 3 })
      ⟨"tag", 3, 96⟩ (by decide) (by decide) (by decide)).2 "match" ["5"] false
      rule_set_send_keywords⟩

/-- Witness of C20: on table 2, which declares no attributes, and on table 1
for the unknown name `nope` and the read-only `hash`, the code is
`-EINVAL`; `attrib depth 0x10` on table 1 returns 2 with uid 3, the name,
type U16 and the value 16. -/
theorem get_attrib_arg_checks_witness :
    (get_attrib_arg demo_table_repository ["attrib", "aging", "3"] 2
        net_mat_named_value.zero).1 = -EINVAL ∧
    (get_attrib_arg demo_table_repository ["attrib", "nope", "3"] 1
        net_mat_named_value.zero).1 = -EINVAL ∧
    (get_attrib_arg demo_table_repository ["attrib", "hash", "3"] 1
        net_mat_named_value.zero).1 = -EINVAL ∧
    get_attrib_arg demo_table_repository ["attrib", "depth", "0x10"] 1
        net_mat_named_value.zero =
      (2, { net_mat_named_value.zero with
            uid := 3, name := some "depth", type := .U16, value_u16 := 16 }) :=
  ⟨(get_attrib_arg_checks demo_table_repository "attrib" "aging" ["3"] 2
      net_mat_named_value.zero).1 (by decide),
   (get_attrib_arg_checks demo_table_repository "attrib" "nope" ["3"] 1
      net_mat_named_value.zero).2.1 _ rfl (by decide),
   (get_attrib_arg_checks demo_table_repository "attrib" "hash" ["3"] 1
      net_mat_named_value.zero).2.2.1 _
      ({ net_mat_named_value.zero with
          name := some "hash", uid := 2, type := .U8, write := 0 }) rfl (by decide) rfl,
   ((get_attrib_arg_checks demo_table_repository "attrib" "depth" ["0x10"] 1
      net_mat_named_value.zero).2.2.2 _
      ({ net_mat_named_value.zero with
          name := some "depth", uid := 3, type := .U16, write := 1 }) "0x10" [] rfl
      (by decide) (by decide) rfl (by decide)).2.2.2.2.2.2.1 16 rfl (by decide)⟩

/-! ## The receive loop -/

theorem process_rx_loop_spec (nl : netlink)
    (hh : ∀ k msg, nl.match_nl_recv_msg k = .message msg → msg.nlmsg_type ≠ NLMSG_DONE →
      ∃ h, type_cb nl msg.cmd = .handler h) :
    ∀ fuel i,
      dispatched (process_rx_loop nl fuel i).1 =
        dispatch_spec ((List.range fuel).map (fun k => nl.match_nl_recv_msg (i + k))) ∧
      received (process_rx_loop nl fuel i).1 =
        receive_spec ((List.range fuel).map (fun k => nl.match_nl_recv_msg (i + k))) := by
  intro fuel
  induction fuel with
  | zero => intro i; simp [process_rx_loop, dispatched, received, dispatch_spec, receive_spec]
  | succ fuel ih =>
    intro i
    have hmap : (List.range (fuel + 1)).map (fun k => nl.match_nl_recv_msg (i + k)) =
        nl.match_nl_recv_msg i ::
          (List.range fuel).map (fun k => nl.match_nl_recv_msg (i + 1 + k)) := by
      rw [List.range_succ_eq_map]
      simp [List.map_map, Function.comp_def, Nat.add_assoc, Nat.add_comm 1]
    rw [hmap]
    unfold process_rx_loop
    rcases hr : nl.match_nl_recv_msg i with _ | msg
    · simp [dispatched, received, dispatch_spec, receive_spec, rx_stops]
    · by_cases hd : msg.nlmsg_type = NLMSG_DONE
      · simp [hd, dispatched, received, dispatch_spec, receive_spec, rx_stops]
      · obtain ⟨h, hcb⟩ := hh i msg hr hd
        by_cases hm : msg.nlmsg_flags &&& NLM_F_MULTI = 0
        · simp [hd, hcb, hm, dispatched, received, dispatch_spec, receive_spec, rx_stops]
        · have := ih (i + 1)
          simp [hd, hcb, hm, dispatched, received, dispatch_spec, receive_spec, rx_stops, this]

theorem process_rx_loop_finished (nl : netlink)
    (hh : ∀ k msg, nl.match_nl_recv_msg k = .message msg → msg.nlmsg_type ≠ NLMSG_DONE →
      ∃ h, type_cb nl msg.cmd = .handler h) :
    ∀ d i, rx_stops (nl.match_nl_recv_msg (i + d)) = true →
      ∀ fuel, d < fuel → process_rx_loop nl fuel i = process_rx_loop nl (d + 1) i ∧
        (process_rx_loop nl fuel i).2 = .finished := by
  intro d
  induction d with
  | zero =>
    intro i hs fuel hf
    obtain ⟨f, rfl⟩ : ∃ f, fuel = f + 1 := ⟨fuel - 1, by omega⟩
    simp only [Nat.add_zero] at hs
    unfold process_rx_loop
    rcases hr : nl.match_nl_recv_msg i with _ | msg
    · simp
    · rw [hr] at hs
      by_cases hd : msg.nlmsg_type = NLMSG_DONE
      · simp [hd]
      · obtain ⟨h, hcb⟩ := hh i msg hr hd
        have hm : msg.nlmsg_flags &&& NLM_F_MULTI = 0 := by simpa [rx_stops, hd] using hs
        simp [hd, hcb, hm]
  | succ d ih =>
    intro i hs fuel hf
    obtain ⟨f, rfl⟩ : ∃ f, fuel = f + 1 := ⟨fuel - 1, by omega⟩
    have hs1 : rx_stops (nl.match_nl_recv_msg (i + 1 + d)) = true := by
      rw [Nat.add_assoc, Nat.add_comm 1 d]; exact hs
    have h1 := ih (i + 1) hs1 f (by omega)
    rw [process_rx_loop, process_rx_loop]
    rcases hr : nl.match_nl_recv_msg i with _ | msg
    · simp
    · by_cases hd : msg.nlmsg_type = NLMSG_DONE
      · simp [hd]
      · obtain ⟨h, hcb⟩ := hh i msg hr hd
        by_cases hm : msg.nlmsg_flags &&& NLM_F_MULTI = 0
        · simp [hd, hcb, hm]
        · simp only [hd, hcb, hm, if_false]
          rw [h1.1]
          exact ⟨rfl, by rw [← h1.1]; exact h1.2⟩

theorem process_rx_loop_pending (nl : netlink)
    (hh : ∀ k msg, nl.match_nl_recv_msg k = .message msg → msg.nlmsg_type ≠ NLMSG_DONE →
      ∃ h, type_cb nl msg.cmd = .handler h) :
    ∀ fuel i, (∀ k, k < fuel → rx_stops (nl.match_nl_recv_msg (i + k)) = false) →
      (process_rx_loop nl fuel i).2 = .pending := by
  intro fuel
  induction fuel with
  | zero => intro i _; simp [process_rx_loop]
  | succ fuel ih =>
    intro i hs
    have h0 := hs 0 (by omega)
    simp only [Nat.add_zero] at h0
    unfold process_rx_loop
    rcases hr : nl.match_nl_recv_msg i with _ | msg
    · rw [hr] at h0; simp [rx_stops] at h0
    · rw [hr] at h0
      simp only [rx_stops, Bool.or_eq_false_iff, decide_eq_false_iff_not] at h0
      obtain ⟨h, hcb⟩ := hh i msg hr h0.1
      simp only [h0.1, h0.2, hcb, if_false]
      exact ih (i + 1) (fun k hk => by
        have := hs (k + 1) (by omega)
        rw [Nat.add_assoc, Nat.add_comm 1 k]; exact this)

/-- C14: when every message that is no completion marker has a handler in
`type_cb`, a run of `process_rx_message` that may receive up to `fuel`
results dispatches exactly the messages the specification names for the
first `fuel` results of the stream (those before the first completion
marker or failure, cut after the first message without `NLM_F_MULTI`,
which is itself dispatched; a completion marker is not), and receives the
results up to the first one that ends the loop and none after it. If the
`n`-th result ends the loop, every run with more than `n` receives
returns and is the same run; if none of the first `fuel` results ends it,
the run is still receiving. -/
theorem process_rx_message_dispatch (nl : netlink)
    (hh : ∀ k msg, nl.match_nl_recv_msg k = .message msg → msg.nlmsg_type ≠ NLMSG_DONE →
      ∃ h, type_cb nl msg.cmd = .handler h) :
    (∀ fuel,
      dispatched (process_rx_message nl fuel).1 =
        dispatch_spec ((List.range fuel).map nl.match_nl_recv_msg) ∧
      received (process_rx_message nl fuel).1 =
        receive_spec ((List.range fuel).map nl.match_nl_recv_msg)) ∧
    (∀ n, rx_stops (nl.match_nl_recv_msg n) = true → ∀ fuel, n < fuel →
      process_rx_message nl fuel = process_rx_message nl (n + 1) ∧
      (process_rx_message nl fuel).2 = .finished) ∧
    (∀ fuel, (∀ k, k < fuel → rx_stops (nl.match_nl_recv_msg k) = false) →
      (process_rx_message nl fuel).2 = .pending) := by
  refine ⟨fun fuel => ?_, fun n hs fuel hf => ?_, fun fuel hs => ?_⟩
  · simpa using process_rx_loop_spec nl hh fuel 0
  · exact process_rx_loop_finished nl hh n 0 (by simpa using hs) fuel hf
  · exact process_rx_loop_pending nl hh fuel 0 (by simpa using hs)

theorem demo_rx_handlers :
    ∀ k msg, demo_netlink.match_nl_recv_msg k = .message msg → msg.nlmsg_type ≠ NLMSG_DONE →
      ∃ h, type_cb demo_netlink msg.cmd = .handler h := by
  intro k msg h hd
  simp only [demo_netlink, demo_rx] at h
  split_ifs at h
  · cases h; exact ⟨.match_cmd_get_tables, by decide⟩
  · cases h; exact ⟨.match_cmd_get_tables, by decide⟩
  · cases h; exact absurd rfl hd

/-- Witness of C14: the demo exchange delivers two parts of a multi-part
reply, then the completion marker; both parts are dispatched, the marker
is not, three results are received, and a run allowed ten receives is the
run allowed three. -/
theorem process_rx_message_dispatch_witness :
    (dispatched (process_rx_message demo_netlink 10).1 =
        dispatch_spec ((List.range 10).map demo_netlink.match_nl_recv_msg) ∧
      received (process_rx_message demo_netlink 10).1 =
        receive_spec ((List.range 10).map demo_netlink.match_nl_recv_msg)) ∧
    dispatch_spec ((List.range 10).map demo_netlink.match_nl_recv_msg) =
      [⟨16, 2, 0⟩, ⟨16, 2, 0⟩] ∧
    receive_spec ((List.range 10).map demo_netlink.match_nl_recv_msg) =
      [.message ⟨16, 2, 0⟩, .message ⟨16, 2, 0⟩, .message ⟨3, 2, 0⟩] ∧
    (process_rx_message demo_netlink 10 = process_rx_message demo_netlink (2 + 1) ∧
      (process_rx_message demo_netlink 10).2 = .finished) :=
  ⟨(process_rx_message_dispatch demo_netlink demo_rx_handlers).1 10, by decide, by decide,
   (process_rx_message_dispatch demo_netlink demo_rx_handlers).2.1 2 (by decide) 10
     (by decide)⟩

/-! ## Numeric keywords -/

/-- C12 (fails for the rule and table keywords): `set_rule prio abc handle 1
table 1` is not rejected. `sscanf("abc", "%u", ...)` returns 0 and the
keyword tests only `err < 0`, so the priority stays 0, becomes the default
1, and the rule is put into a request that reaches `nl_send_auto`;
`del_rule` does the same. The `set_port` keywords test `err < 1` and do
reject `abc`. -/
theorem rule_set_send_takes_non_number :
    sscanf_u 32 "abc".data = (0, none) ∧
    rule_set_send demo_repository ["prio", "abc", "handle", "1", "table", "1"] =
      .build { table_id := 1, priority := 1, uid := 1, matches_ := [], actions := [] } ∧
    nl_event.send_auto ∈
      (rule_set_send_run demo_repository demo_netlink 10 0
        ["prio", "abc", "handle", "1", "table", "1"]).events ∧
    rule_del_send ["prio", "abc", "handle", "1", "table", "1"] =
      .build { table_id := 1, priority := 0, uid := 1, matches_ := [], actions := [] } ∧
    match_set_port_send demo_repository ["port", "abc"] = .returned (-EINVAL) ∧
    match_set_port_send demo_repository ["port", "1", "speed", "abc"] = .returned (-EINVAL) := by
  decide

/-! ## `del_rule` -/

/-- C13 as stated fails: `del_rule handle 1 table 1` is not rejected;
`rule_del_send` puts the rule into a `DEL_RULES` request, calls
`nl_send_auto` and returns its value. -/
theorem rule_del_send_sends :
    rule_del_send ["handle", "1", "table", "1"] =
      .build { table_id := 1, priority := 0, uid := 1, matches_ := [], actions := [] } ∧
    (rule_del_send_run demo_netlink 10 0 ["handle", "1", "table", "1"]).events.take 8 =
      [.alloc_msg .DEL_RULES, .put_u32 .NET_MAT_IDENTIFIER_TYPE 1,
       .put_u32 .NET_MAT_IDENTIFIER 0, .put_rule_error, .nest_start .NET_MAT_RULES,
       .put_rule { table_id := 1, priority := 0, uid := 1, matches_ := [], actions := [] },
       .nest_end .NET_MAT_RULES, .send_auto] ∧
    (rule_del_send_run demo_netlink 10 0 ["handle", "1", "table", "1"]).ending =
      .returned 20 := by
  decide

/-! ## Dispatch of a command code without handler -/

/-- C15 (fails): a received message that is no completion marker and whose
command code is `NET_MAT_CMD_MAX + 1` makes `process_rx_message` evaluate
`type_cb[type]` outside the array and call through what it reads: the
behaviour is undefined, nothing ends the process. Every code above
`NET_MAT_CMD_MAX` indexes outside the array. -/
theorem process_rx_message_unmapped_code :
    type_cb demo_netlink 16 = .outside ∧
    process_rx_message
        { demo_netlink with match_nl_recv_msg := fun _ => .message ⟨16, 0, 16⟩ } 10 =
      ([.sig_unblock, .recv_msg (.message ⟨16, 0, 16⟩), .sig_block], .undefined) ∧
    (∀ (nl : netlink) (k : Nat), type_cb nl (nl.NET_MAT_CMD_MAX + 1 + k) = .outside) :=
  ⟨by decide, by decide, fun nl k => by
    unfold type_cb
    rw [if_pos (by omega)]⟩

/-! ## Failures while the request is built -/

set_option maxRecDepth 100000 in
/-- C16 (fails): when `match_put_table` fails, `match_create_tbl_send` still
calls `nl_send_auto` and returns its value; so does `rule_set_send` when
`match_put_rule` fails and `match_send_recv` when its two `nla_put_u32`
fail. None of the three return values is looked at. `rule_get_send` does
stop at a failed put, and `match_set_port_send` at a failed
`match_put_port`. -/
theorem put_failure_still_sends :
    ({ demo_netlink with match_put_table := fun _ => -EMSGSIZE } : netlink).match_put_table
        { name := some "t", uid := 7, source := 1, size := 10, matches_ := [], actions := [],
          attribs := some [] } < 0 ∧
    nl_event.send_auto ∈
      (match_create_tbl_send_run demo_repository
        { demo_netlink with match_put_table := fun _ => -EMSGSIZE } 10 0
        ["source", "1", "name", "t", "size", "10"] .CREATE_TABLE).events ∧
    (match_create_tbl_send_run demo_repository
        { demo_netlink with match_put_table := fun _ => -EMSGSIZE } 10 0
        ["source", "1", "name", "t", "size", "10"] .CREATE_TABLE).ending = .returned 20 ∧
    nl_event.send_auto ∈
      (rule_set_send_run demo_repository
        { demo_netlink with match_put_rule := fun _ => -EMSGSIZE } 10 0
        ["handle", "1", "table", "1"]).events ∧
    (rule_set_send_run demo_repository
        { demo_netlink with match_put_rule := fun _ => -EMSGSIZE } 10 0
        ["handle", "1", "table", "1"]).ending = .returned 20 ∧
    nl_event.send_auto ∈
      (match_send_recv { demo_netlink with nla_put_u32 := fun _ _ => -EMSGSIZE } 10 0
        .GET_TABLES).events ∧
    (match_send_recv { demo_netlink with nla_put_u32 := fun _ _ => -EMSGSIZE } 10 0
        .GET_TABLES).ending = .returned 20 ∧
    rule_get_request
        { demo_netlink with
          nla_put_u32 := fun a _ => if a = .NET_MAT_TABLE_RULES_TABLE then -EMSGSIZE else 0 }
        10 0 1 0 0 =
      ⟨[.alloc_msg .GET_RULES, .put_u32 .NET_MAT_IDENTIFIER_TYPE 1,
        .put_u32 .NET_MAT_IDENTIFIER 0, .nest_start .NET_MAT_RULES,
        .put_u32 .NET_MAT_TABLE_RULES_TABLE 1, .free_request], .returned (-EMSGSIZE)⟩ ∧
    nl_event.send_auto ∉
      (match_set_port_send_run demo_repository
        { demo_netlink with match_put_port := fun _ => -EMSGSIZE } 10 0
        ["port", "1", "speed", "100"]).events ∧
    (match_set_port_send_run demo_repository
        { demo_netlink with match_put_port := fun _ => -EMSGSIZE } 10 0
        ["port", "1", "speed", "100"]).ending = .returned (-EMSGSIZE) := by
  decide

/-! ## A receive failure -/

/-- C17 as stated fails: when the first `match_nl_recv_msg` fails,
`match_send_recv` returns 20, the value of `nl_send_auto`, which is not
negative; so does `rule_set_send`. -/
theorem match_send_recv_receive_failure_positive :
    match_send_recv { demo_netlink with match_nl_recv_msg := fun _ => .failure } 10 0
        .GET_TABLES =
      ⟨[.alloc_msg .GET_TABLES, .put_u32 .NET_MAT_IDENTIFIER_TYPE 1,
        .put_u32 .NET_MAT_IDENTIFIER 0, .send_auto, .sig_unblock, .recv_msg .failure,
        .sig_block, .free_request], .returned 20⟩ ∧
    (rule_set_send_run demo_repository
        { demo_netlink with match_nl_recv_msg := fun _ => .failure } 10 0
        ["handle", "1", "table", "1"]).ending = .returned 20 ∧
    ¬ ((20 : Int) < 0) := by
  decide

/-! ## What the send functions return after the exchange -/

theorem send_and_receive_events (nl : netlink) (fuel : Nat) (pre : List nl_event) :
    ∃ events, (send_and_receive nl fuel pre).events = pre ++ nl_event.send_auto :: events := by
  unfold send_and_receive
  by_cases hs : nl.nl_send_auto > 0
  · rw [if_pos hs]
    rcases process_rx_message nl fuel with ⟨events, e⟩
    cases e
    · exact ⟨events ++ [.free_request], by simp⟩
    · exact ⟨events, by simp⟩
    · exact ⟨events, by simp⟩
  · rw [if_neg hs]
    exact ⟨[.free_request], by simp⟩

theorem send_and_receive_finished (nl : netlink) (fuel : Nat) (pre : List nl_event)
    (hs : 0 < nl.nl_send_auto) (hfin : (process_rx_message nl fuel).2 = .finished) :
    send_and_receive nl fuel pre =
      ⟨pre ++ [.send_auto] ++ (process_rx_message nl fuel).1 ++ [.free_request],
        .returned nl.nl_send_auto⟩ := by
  unfold send_and_receive
  rw [if_pos hs]
  rcases hp : process_rx_message nl fuel with ⟨events, e⟩
  rw [hp] at hfin
  simp only at hfin
  subst hfin
  rfl

theorem process_rx_loop_reaches (nl : netlink)
    (hh : ∀ k msg, nl.match_nl_recv_msg k = .message msg → msg.nlmsg_type ≠ NLMSG_DONE →
      ∃ h, type_cb nl msg.cmd = .handler h) :
    ∀ d i, (∀ k, k < d → rx_stops (nl.match_nl_recv_msg (i + k)) = false) →
      ∀ fuel, d < fuel →
        nl_event.recv_msg (nl.match_nl_recv_msg (i + d)) ∈ (process_rx_loop nl fuel i).1 := by
  intro d
  induction d with
  | zero =>
    intro i _ fuel hf
    obtain ⟨f, rfl⟩ : ∃ f, fuel = f + 1 := ⟨fuel - 1, by omega⟩
    simp only [Nat.add_zero]
    unfold process_rx_loop
    rcases hr : nl.match_nl_recv_msg i with _ | msg
    · simp
    · by_cases hd : msg.nlmsg_type = NLMSG_DONE
      · simp [hd]
      · by_cases hm : msg.nlmsg_flags &&& NLM_F_MULTI = 0
        · rcases hcb : type_cb nl msg.cmd with h | _ | _ <;> simp [hd, hm, hcb]
        · rcases hcb : type_cb nl msg.cmd with h | _ | _ <;> simp [hd, hm, hcb]
  | succ d ih =>
    intro i hs fuel hf
    obtain ⟨f, rfl⟩ : ∃ f, fuel = f + 1 := ⟨fuel - 1, by omega⟩
    have h0 := hs 0 (by omega)
    simp only [Nat.add_zero] at h0
    have h1 := ih (i + 1) (fun k hk => by
      have := hs (k + 1) (by omega)
      rw [Nat.add_assoc, Nat.add_comm 1 k]; exact this) f (by omega)
    rw [Nat.add_assoc, Nat.add_comm 1 d] at h1
    unfold process_rx_loop
    rcases hr : nl.match_nl_recv_msg i with _ | msg
    · rw [hr] at h0; simp [rx_stops] at h0
    · rw [hr] at h0
      simp only [rx_stops, Bool.or_eq_false_iff, decide_eq_false_iff_not] at h0
      obtain ⟨h, hcb⟩ := hh i msg hr h0.1
      simp only [h0.1, h0.2, hcb, if_false]
      simp [h1]

theorem start_request_ok (nl : netlink) (cmd : NET_MAT_CMD) (ifindex : Nat) (alloc_err : Int)
    (ha : nl.match_nl_alloc_msg cmd = true) (hp : ∀ a v, nl.nla_put_u32 a v = 0) :
    start_request nl cmd ifindex alloc_err =
      .ok [.alloc_msg cmd, .put_u32 .NET_MAT_IDENTIFIER_TYPE nl.NET_MAT_IDENTIFIER_IFINDEX,
           .put_u32 .NET_MAT_IDENTIFIER ifindex] := by
  simp [start_request, ha, hp]

theorem rule_request_ok (nl : netlink) (fuel : Nat) (cmd : NET_MAT_CMD) (ifindex : Nat)
    (rule : net_mat_rule) (ha : nl.match_nl_alloc_msg cmd = true)
    (hp : ∀ a v, nl.nla_put_u32 a v = 0) (he : nl.match_put_rule_error = 0)
    (hn : nl.nla_nest_start .NET_MAT_RULES = true) :
    rule_request nl fuel cmd ifindex rule =
      send_and_receive nl fuel
        [.alloc_msg cmd, .put_u32 .NET_MAT_IDENTIFIER_TYPE nl.NET_MAT_IDENTIFIER_IFINDEX,
         .put_u32 .NET_MAT_IDENTIFIER ifindex, .put_rule_error, .nest_start .NET_MAT_RULES,
         .put_rule rule, .nest_end .NET_MAT_RULES] := by
  simp [rule_request, start_request_ok nl cmd ifindex (-ENOMSG) ha hp, he, hn]

/-- C13 (amended): when the arguments of `del_rule` leave a non-zero table
id and a non-zero rule id, `rule_del_send` goes on to build a `DEL_RULES`
request; when the allocation, the identifier puts, the error-policy put
and the nest start succeed, the request carries the rule and
`nl_send_auto` is called. When the table id or the rule id is zero the
process exits with status -1 before anything is allocated. The reply, if
any, goes to `match_cmd_del_rules`. -/
theorem rule_del_send_builds (argv : List String) (rule : net_mat_rule)
    (hloop : rule_del_loop argv net_mat_rule.zero = .build rule) :
    (rule.table_id ≠ 0 → rule.uid ≠ 0 →
      rule_del_send argv = .build rule ∧
      ∀ (nl : netlink) (fuel ifindex : Nat),
        nl.match_nl_alloc_msg .DEL_RULES = true → (∀ a v, nl.nla_put_u32 a v = 0) →
        nl.match_put_rule_error = 0 → nl.nla_nest_start .NET_MAT_RULES = true →
        ∃ events,
          (rule_del_send_run nl fuel ifindex argv).events =
            [.alloc_msg .DEL_RULES,
             .put_u32 .NET_MAT_IDENTIFIER_TYPE nl.NET_MAT_IDENTIFIER_IFINDEX,
             .put_u32 .NET_MAT_IDENTIFIER ifindex, .put_rule_error,
             .nest_start .NET_MAT_RULES, .put_rule rule, .nest_end .NET_MAT_RULES] ++
              nl_event.send_auto :: events) ∧
    (rule.table_id = 0 ∨ rule.uid = 0 →
      ∀ (nl : netlink) (fuel ifindex : Nat),
        rule_del_send_run nl fuel ifindex argv = ⟨[], .exited (-1)⟩) ∧
    (NET_MAT_CMD.DEL_RULES, rx_handler.match_cmd_del_rules) ∈ type_cb_entries := by
  refine ⟨fun ht hu => ?_, fun hz nl fuel ifindex => ?_, by decide⟩
  · have hb : rule_del_send argv = .build rule := by
      simp [rule_del_send, hloop, ht, hu]
    refine ⟨hb, fun nl fuel ifindex ha hp he hn => ?_⟩
    simp only [rule_del_send_run, hb, send_result.then_request,
      rule_request_ok nl fuel .DEL_RULES ifindex rule ha hp he hn]
    exact send_and_receive_events nl fuel _
  · have hb : rule_del_send argv = .exited (-1) := by
      unfold rule_del_send
      rw [hloop]
      rcases hz with hz | hz
      · simp [hz]
      · by_cases ht : rule.table_id = 0 <;> simp [ht, hz]
    simp [rule_del_send_run, hb, send_result.then_request]

/-- Witness of C13: `handle 1 table 1` is built and sent on the demo netlink
side; `handle 1` alone exits. -/
theorem rule_del_send_builds_witness :
    (rule_del_send ["handle", "1", "table", "1"] =
        .build { table_id := 1, priority := 0, uid := 1, matches_ := [], actions := [] } ∧
      ∃ events,
        (rule_del_send_run demo_netlink 10 0 ["handle", "1", "table", "1"]).events =
          [.alloc_msg .DEL_RULES,
           .put_u32 .NET_MAT_IDENTIFIER_TYPE demo_netlink.NET_MAT_IDENTIFIER_IFINDEX,
           .put_u32 .NET_MAT_IDENTIFIER 0, .put_rule_error, .nest_start .NET_MAT_RULES,
           .put_rule { table_id := 1, priority := 0, uid := 1, matches_ := [], actions := [] },
           .nest_end .NET_MAT_RULES] ++ nl_event.send_auto :: events) ∧
    rule_del_send_run demo_netlink 10 0 ["handle", "1"] = ⟨[], .exited (-1)⟩ :=
  ⟨⟨((rule_del_send_builds ["handle", "1", "table", "1"]
        { table_id := 1, priority := 0, uid := 1, matches_ := [], actions := [] }
        (by decide)).1 (by decide) (by decide)).1,
    ((rule_del_send_builds ["handle", "1", "table", "1"]
        { table_id := 1, priority := 0, uid := 1, matches_ := [], actions := [] }
        (by decide)).1 (by decide) (by decide)).2 demo_netlink 10 0 rfl (fun _ _ => rfl)
        rfl rfl⟩,
   (rule_del_send_builds ["handle", "1"]
      { table_id := 0, priority := 0, uid := 1, matches_ := [], actions := [] }
      (by decide)).2.1 (Or.inl rfl) demo_netlink 10 0⟩

/-- C17 (amended): when a call of `match_nl_recv_msg` fails while
`process_rx_message` is receiving, the failure is the last thing received
and `process_rx_message` returns; `match_send_recv` and `rule_set_send`
then return the value of `nl_send_auto`, which is positive: no negative
code is returned to the caller. -/
theorem receive_failure_returns_send_value (nl : netlink)
    (hh : ∀ k msg, nl.match_nl_recv_msg k = .message msg → msg.nlmsg_type ≠ NLMSG_DONE →
      ∃ h, type_cb nl msg.cmd = .handler h)
    (n : Nat) (hreach : ∀ k, k < n → rx_stops (nl.match_nl_recv_msg k) = false)
    (hfail : nl.match_nl_recv_msg n = .failure) (fuel : Nat) (hf : n < fuel)
    (hsend : 0 < nl.nl_send_auto) :
    (nl_event.recv_msg .failure ∈ (process_rx_message nl fuel).1 ∧
      (process_rx_message nl fuel).2 = .finished) ∧
    (∀ (ifindex : Nat) (cmd : NET_MAT_CMD), nl.match_nl_alloc_msg cmd = true →
      (match_send_recv nl fuel ifindex cmd).ending = .returned nl.nl_send_auto) ∧
    (∀ (env : repository) (argv : List String) (ifindex : Nat) (rule : net_mat_rule),
      rule_set_send env argv = .build rule →
      nl.match_nl_alloc_msg .SET_RULES = true → (∀ a v, nl.nla_put_u32 a v = 0) →
      nl.match_put_rule_error = 0 → nl.nla_nest_start .NET_MAT_RULES = true →
      (rule_set_send_run env nl fuel ifindex argv).ending = .returned nl.nl_send_auto) ∧
    ¬ nl.nl_send_auto < 0 := by
  have hstop : rx_stops (nl.match_nl_recv_msg (0 + n)) = true := by
    rw [Nat.zero_add, hfail]; rfl
  have hfin : (process_rx_message nl fuel).2 = .finished :=
    (process_rx_loop_finished nl hh n 0 hstop fuel hf).2
  have hmem : nl_event.recv_msg .failure ∈ (process_rx_message nl fuel).1 := by
    have := process_rx_loop_reaches nl hh n 0 (by simpa using hreach) fuel hf
    rw [Nat.zero_add, hfail] at this
    exact this
  refine ⟨⟨hmem, hfin⟩, fun ifindex cmd ha => ?_, fun env argv ifindex rule hb ha hp he hn => ?_,
    by omega⟩
  · simp [match_send_recv, ha, send_and_receive_finished nl fuel _ hsend hfin]
  · simp [rule_set_send_run, hb, send_result.then_request,
      rule_request_ok nl fuel .SET_RULES ifindex rule ha hp he hn,
      send_and_receive_finished nl fuel _ hsend hfin]

theorem demo_rx_broken_handlers :
    ∀ k msg, ({ demo_netlink with match_nl_recv_msg := demo_rx_broken } : netlink).match_nl_recv_msg
        k = .message msg → msg.nlmsg_type ≠ NLMSG_DONE →
      ∃ h, type_cb { demo_netlink with match_nl_recv_msg := demo_rx_broken } msg.cmd =
        .handler h := by
  intro k msg h _
  simp only [demo_rx_broken] at h
  split_ifs at h
  cases h
  exact ⟨.match_cmd_get_tables, by decide⟩

/-- Witness of C17: the second receive of a `get_tables` exchange fails;
`match_send_recv` returns 20. -/
theorem receive_failure_returns_send_value_witness :
    (nl_event.recv_msg .failure ∈
        (process_rx_message { demo_netlink with match_nl_recv_msg := demo_rx_broken } 10).1 ∧
      (process_rx_message { demo_netlink with match_nl_recv_msg := demo_rx_broken } 10).2 =
        .finished) ∧
    (match_send_recv { demo_netlink with match_nl_recv_msg := demo_rx_broken } 10 0
        .GET_TABLES).ending = .returned 20 :=
  ⟨(receive_failure_returns_send_value
      { demo_netlink with match_nl_recv_msg := demo_rx_broken } demo_rx_broken_handlers 1
      (by decide) rfl 10 (by decide) (by decide)).1,
   (receive_failure_returns_send_value
      { demo_netlink with match_nl_recv_msg := demo_rx_broken } demo_rx_broken_handlers 1
      (by decide) rfl 10 (by decide) (by decide)).2.1 0 .GET_TABLES rfl⟩

theorem rule_get_request_checked (nl : netlink) (fuel ifindex tableid min max : Nat)
    (h : nl_event.send_auto ∈ (rule_get_request nl fuel ifindex tableid min max).events) :
    nl.match_nl_alloc_msg .GET_RULES = true ∧
    nl.nla_put_u32 .NET_MAT_IDENTIFIER_TYPE nl.NET_MAT_IDENTIFIER_IFINDEX = 0 ∧
    nl.nla_put_u32 .NET_MAT_IDENTIFIER ifindex = 0 ∧
    nl.nla_nest_start .NET_MAT_RULES = true ∧
    nl.nla_put_u32 .NET_MAT_TABLE_RULES_TABLE tableid = 0 ∧
    (min > 0 → nl.nla_put_u32 nl_attr.NET_MAT_TABLE_RULES_MINPRIO min = 0) ∧
    (max > 0 → nl.nla_put_u32 nl_attr.NET_MAT_TABLE_RULES_MAXPRIO max = 0) ∧
    nl.match_put_rule_error = 0 := by
  unfold rule_get_request start_request at h
  by_cases h1 : nl.match_nl_alloc_msg .GET_RULES = false
  · simp [h1] at h
  by_cases h2 : nl.nla_put_u32 .NET_MAT_IDENTIFIER_TYPE nl.NET_MAT_IDENTIFIER_IFINDEX ≠ 0
  · simp [h1, h2] at h
  by_cases h3 : nl.nla_put_u32 .NET_MAT_IDENTIFIER ifindex ≠ 0
  · simp [h1, h2, h3] at h
  by_cases h4 : nl.nla_nest_start .NET_MAT_RULES = false
  · simp [h1, h2, h3, h4] at h
  by_cases h5 : nl.nla_put_u32 .NET_MAT_TABLE_RULES_TABLE tableid ≠ 0
  · simp [h1, h2, h3, h4, h5] at h
  by_cases h6 : min > 0 ∧ nl.nla_put_u32 nl_attr.NET_MAT_TABLE_RULES_MINPRIO min ≠ 0
  · simp [h1, h2, h3, h4, h5, h6] at h
  by_cases h7 : max > 0 ∧ nl.nla_put_u32 nl_attr.NET_MAT_TABLE_RULES_MAXPRIO max ≠ 0
  · simp [h1, h2, h3, h4, h5, h6, h7] at h
  by_cases h8 : nl.match_put_rule_error ≠ 0
  · simp [h1, h2, h3, h4, h5, h6, h7, h8] at h
  simp only [Bool.not_eq_false, ne_eq, not_not, not_and] at h1 h2 h3 h4 h5 h6 h7 h8
  exact ⟨h1, h2, h3, h4, h5, h6, h7, h8⟩

theorem port_get_request_checked (nl : netlink) (fuel : Nat) (cmd : NET_MAT_CMD)
    (ifindex unspec : Nat) (port : net_mat_port) (min max : Nat) (have_query : Bool)
    (h : nl_event.send_auto ∈
      (port_get_request nl fuel cmd ifindex unspec port min max have_query).events) :
    nl.match_nl_alloc_msg cmd = true ∧
    nl.nla_put_u32 .NET_MAT_IDENTIFIER_TYPE nl.NET_MAT_IDENTIFIER_IFINDEX = 0 ∧
    nl.nla_put_u32 .NET_MAT_IDENTIFIER ifindex = 0 ∧
    nl.nla_nest_start .NET_MAT_PORTS = true ∧
    (max ≠ unspec → nl.nla_put_u32 .NET_MAT_PORT_MAX_INDEX max = 0) ∧
    (min ≠ unspec → nl.nla_put_u32 .NET_MAT_PORT_MIN_INDEX min = 0) ∧
    nl.nla_nest_start .NET_MAT_PORT = true ∧
    (have_query = true → nl.match_put_port port = 0) := by
  unfold port_get_request start_request at h
  by_cases h1 : nl.match_nl_alloc_msg cmd = false
  · simp [h1] at h
  by_cases h2 : nl.nla_put_u32 .NET_MAT_IDENTIFIER_TYPE nl.NET_MAT_IDENTIFIER_IFINDEX ≠ 0
  · simp [h1, h2] at h
  by_cases h3 : nl.nla_put_u32 .NET_MAT_IDENTIFIER ifindex ≠ 0
  · simp [h1, h2, h3] at h
  by_cases h4 : nl.nla_nest_start .NET_MAT_PORTS = false
  · simp [h1, h2, h3, h4] at h
  by_cases h5 : max ≠ unspec ∧ nl.nla_put_u32 .NET_MAT_PORT_MAX_INDEX max ≠ 0
  · simp [h1, h2, h3, h4, h5] at h
  by_cases h6 : min ≠ unspec ∧ nl.nla_put_u32 .NET_MAT_PORT_MIN_INDEX min ≠ 0
  · simp [h1, h2, h3, h4, h5, h6] at h
  by_cases h7 : nl.nla_nest_start .NET_MAT_PORT = false
  · simp [h1, h2, h3, h4, h5, h6, h7] at h
  by_cases h8 : have_query = true ∧ nl.match_put_port port ≠ 0
  · simp [h1, h2, h3, h4, h5, h6, h7, h8] at h
  simp only [Bool.not_eq_false, ne_eq, not_not, not_and] at h1 h2 h3 h4 h5 h6 h7 h8
  exact ⟨h1, h2, h3, h4, h5, h6, h7, h8⟩

/-! ## The mask type token and the headers of a node -/

/-- C21: in `get_match_arg` with `need_mask_type = true` on a resolved
`INSTANCE.FIELD`, a missing next token gives `-EINVAL`; a next token other
than `lpm`, `exact` and `mask` gives `-EINVAL` and leaves `mask_type` as
it was; `lpm`, `exact` and `mask` set `mask_type` to LPM, EXACT and MASK
and nothing else, and with `need_value = false` the return value is 2;
with `need_value = true` the token counts as consumed: the value step
starts at it with an advance of 2. -/
theorem get_match_arg_mask_type_token (env : repository) (kw strings : String)
    (m m3 : net_mat_field_ref) (field : net_mat_field) (kws : List String)
    (hres : get_match_arg_resolve env strings.data m = .ok (field, m3)) :
    (∀ need_value, get_match_arg env [kw, strings] need_value true m kws = (-EINVAL, m3)) ∧
    (∀ need_value tok rest, tok ≠ "lpm" → tok ≠ "exact" → tok ≠ "mask" →
      get_match_arg env (kw :: strings :: tok :: rest) need_value true m kws =
        (-EINVAL, m3)) ∧
    (∀ rest,
      get_match_arg env (kw :: strings :: "lpm" :: rest) false true m kws =
        (2, { m3 with mask_type := .LPM }) ∧
      get_match_arg env (kw :: strings :: "exact" :: rest) false true m kws =
        (2, { m3 with mask_type := .EXACT }) ∧
      get_match_arg env (kw :: strings :: "mask" :: rest) false true m kws =
        (2, { m3 with mask_type := .MASK })) ∧
    (∀ rest,
      get_match_arg env (kw :: strings :: "lpm" :: rest) true true m kws =
        get_match_arg_value env field ("lpm" :: rest) 2 true
          { m3 with mask_type := .LPM } kws ∧
      get_match_arg env (kw :: strings :: "exact" :: rest) true true m kws =
        get_match_arg_value env field ("exact" :: rest) 2 true
          { m3 with mask_type := .EXACT } kws ∧
      get_match_arg env (kw :: strings :: "mask" :: rest) true true m kws =
        get_match_arg_value env field ("mask" :: rest) 2 true
          { m3 with mask_type := .MASK } kws) := by
  refine ⟨fun nv => ?_, fun nv tok rest h1 h2 h3 => ?_, fun rest => ⟨?_, ?_, ?_⟩,
    fun rest => ⟨?_, ?_, ?_⟩⟩
  · simp [get_match_arg, hres, get_match_arg_mask_type]
  · simp [get_match_arg, hres, get_match_arg_mask_type, h1, h2, h3]
  · simp [get_match_arg, hres, get_match_arg_mask_type, get_match_arg_value]
  · simp [get_match_arg, hres, get_match_arg_mask_type, get_match_arg_value]
  · simp [get_match_arg, hres, get_match_arg_mask_type, get_match_arg_value]
  · simp [get_match_arg, hres, get_match_arg_mask_type]
  · simp [get_match_arg, hres, get_match_arg_mask_type]
  · simp [get_match_arg, hres, get_match_arg_mask_type]

/-- Witness of C21: `match ethernet.vlan_id lpm` gives 2 and mask type LPM,
`match ethernet.vlan_id` and `match ethernet.vlan_id prefix` give
`-EINVAL`. -/
theorem get_match_arg_mask_type_token_witness :
    get_match_arg demo_repository ["match", "ethernet.vlan_id"] false true
        net_mat_field_ref.zero [] =
      (-EINVAL, { net_mat_field_ref.zero with instance_id := 1, header := 1, field := 2 }) ∧
    get_match_arg demo_repository ["match", "ethernet.vlan_id", "range"] false true
        net_mat_field_ref.zero [] =
      (-EINVAL, { net_mat_field_ref.zero with instance_id := 1, header := 1, field := 2 }) ∧
    get_match_arg demo_repository ["match", "ethernet.vlan_id", "lpm"] false true
        net_mat_field_ref.zero [] =
      (2, { net_mat_field_ref.zero with
            instance_id := 1, header := 1, field := 2, mask_type := .LPM }) :=
  ⟨(get_match_arg_mask_type_token demo_repository "match" "ethernet.vlan_id"
      net_mat_field_ref.zero
      ({ net_mat_field_ref.zero with instance_id := 1, header := 1, field := 2 })
      ⟨"vlan_id", 2, 12⟩ [] (by decide)).1 false,
   (get_match_arg_mask_type_token demo_repository "match" "ethernet.vlan_id"
      net_mat_field_ref.zero
      ({ net_mat_field_ref.zero with instance_id := 1, header := 1, field := 2 })
      ⟨"vlan_id", 2, 12⟩ [] (by decide)).2.1 false "range" [] (by decide) (by decide)
      (by decide),
   ((get_match_arg_mask_type_token demo_repository "match" "ethernet.vlan_id"
      net_mat_field_ref.zero
      ({ net_mat_field_ref.zero with instance_id := 1, header := 1, field := 2 })
      ⟨"vlan_id", 2, 12⟩ [] (by decide)).2.2.1 []).1⟩

/-- C22 as stated fails: on a node that exposes two headers `get_match_arg`
does not return `-EINVAL`; it resolves the field in the first header and
returns 1. -/
theorem get_match_arg_two_headers :
    demo_two_header_repository.get_graph_node 1 = some ⟨"ethernet", 1, some [1, 2]⟩ ∧
    get_match_arg demo_two_header_repository ["match", "ethernet.vlan_id"] false false
        net_mat_field_ref.zero [] =
      (1, { net_mat_field_ref.zero with instance_id := 1, header := 1, field := 2 }) := by
  decide

/-- C22 (amended): when the node resolved from `INSTANCE` has no header
array (`hdrs` is `NULL`) `get_match_arg` returns `-EINVAL`; otherwise the
header of the match is the first entry of the array (0 when the array is
empty), whatever the number of entries, and `FIELD` is resolved within
that header: an unknown field and a failed `get_fields` give `-EINVAL`,
and a field that is found is the one the later steps work on. -/
theorem get_match_arg_first_header (env : repository) (kw strings : String)
    (rest : List String) (need_value need_mask_type : Bool) (m : net_mat_field_ref)
    (kws : List String) (inst saved s_fld saved1 : List Char) (node : net_mat_hdr_node)
    (hinst : strtok strings.data '.' = some (inst, saved))
    (hfld : strtok saved '.' = some (s_fld, saved1))
    (hnode : env.find_header_node inst ≠ 0)
    (hgraph : env.get_graph_node (env.find_header_node inst) = some node) :
    (node.hdrs = none →
      get_match_arg env (kw :: strings :: rest) need_value need_mask_type m kws =
        (-EINVAL, { m with instance_id := env.find_header_node inst })) ∧
    (∀ hdrs, node.hdrs = some hdrs →
      (env.find_field s_fld (hdrs.headD 0) = 0 →
        get_match_arg env (kw :: strings :: rest) need_value need_mask_type m kws =
          (-EINVAL, { m with instance_id := env.find_header_node inst,
                             header := hdrs.headD 0, field := 0 })) ∧
      (env.find_field s_fld (hdrs.headD 0) ≠ 0 →
        env.get_fields (hdrs.headD 0) (env.find_field s_fld (hdrs.headD 0)) = none →
        (get_match_arg env (kw :: strings :: rest) need_value need_mask_type m kws).1 =
          -EINVAL) ∧
      (∀ field, env.find_field s_fld (hdrs.headD 0) ≠ 0 →
        env.get_fields (hdrs.headD 0) (env.find_field s_fld (hdrs.headD 0)) = some field →
        get_match_arg_resolve env strings.data m =
          .ok (field, { m with instance_id := env.find_header_node inst,
                               header := hdrs.headD 0,
                               field := env.find_field s_fld (hdrs.headD 0) }) ∧
        get_match_arg env (kw :: strings :: rest) need_value need_mask_type m kws =
          get_match_arg_mask_type env field (strings :: rest) need_value need_mask_type
            { m with instance_id := env.find_header_node inst, header := hdrs.headD 0,
                     field := env.find_field s_fld (hdrs.headD 0) } kws)) := by
  refine ⟨fun hn => ?_, fun hdrs hh => ⟨fun hf => ?_, fun hf hg => ?_, fun field hf hg => ?_⟩⟩
  · simp [get_match_arg, get_match_arg_resolve, hinst, hfld, hnode, hgraph, hn]
  · rw [List.headD_eq_head?_getD] at hf
    simp [get_match_arg, get_match_arg_resolve, hinst, hfld, hnode, hgraph, hh, hf]
  · rw [List.headD_eq_head?_getD] at hf hg
    simp [get_match_arg, get_match_arg_resolve, hinst, hfld, hnode, hgraph, hh, hf, hg]
  · have hr : get_match_arg_resolve env strings.data m =
        .ok (field, { m with instance_id := env.find_header_node inst,
                             header := hdrs.headD 0,
                             field := env.find_field s_fld (hdrs.headD 0) }) := by
      rw [List.headD_eq_head?_getD] at hf hg
      simp [get_match_arg_resolve, hinst, hfld, hnode, hgraph, hh, hf, hg]
    exact ⟨hr, by simp [get_match_arg, hr]⟩

/-- Witness of C22: on the node with headers 1 and 2 the field `vlan_id` is
resolved in header 1. -/
theorem get_match_arg_first_header_witness :
    get_match_arg_resolve demo_two_header_repository "ethernet.vlan_id".data
        net_mat_field_ref.zero =
      .ok (⟨"vlan_id", 2, 12⟩,
        { net_mat_field_ref.zero with instance_id := 1, header := 1, field := 2 }) :=
  ((((get_match_arg_first_header demo_two_header_repository "match" "ethernet.vlan_id" []
      false false net_mat_field_ref.zero [] "ethernet".data "vlan_id".data "vlan_id".data []
      ⟨"ethernet", 1, some [1, 2]⟩ (by decide) (by decide) (by decide) (by decide)).2
      [1, 2] rfl).2.2 ⟨"vlan_id", 2, 12⟩ (by decide) (by decide)).1)

/-! ## `SIGINT` around the receive -/

theorem process_rx_loop_sigint (nl : netlink) :
    ∀ fuel i blocked, sigint_discipline blocked (process_rx_loop nl fuel i).1 = true := by
  intro fuel
  induction fuel with
  | zero => intro i blocked; simp [process_rx_loop, sigint_discipline]
  | succ fuel ih =>
    intro i blocked
    unfold process_rx_loop
    rcases hr : nl.match_nl_recv_msg i with _ | msg
    · simp [sigint_discipline]
    · by_cases hd : msg.nlmsg_type = NLMSG_DONE
      · simp [hd, sigint_discipline]
      · rcases hcb : type_cb nl msg.cmd with h | _ | _
        · by_cases hm : msg.nlmsg_flags &&& NLM_F_MULTI = 0
          · simp [hd, hm, hcb, sigint_discipline]
          · simp [hd, hm, hcb, sigint_discipline, ih (i + 1) true]
        · simp [hd, hcb, sigint_discipline]
        · simp [hd, hcb, sigint_discipline]

/-- C28: in every run of `process_rx_message`, whatever the messages and
whether or not `SIGINT` is blocked at the call, `SIGINT` is unblocked only
from the `sigprocmask(SIG_UNBLOCK)` before a `match_nl_recv_msg` to the
`sigprocmask(SIG_BLOCK)` right after it, and every handler call and every
`match_nl_free_msg` of a received message happens while it is blocked. -/
theorem process_rx_message_sigint (nl : netlink) (fuel : Nat) (blocked : Bool) :
    sigint_discipline blocked (process_rx_message nl fuel).1 = true :=
  process_rx_loop_sigint nl fuel 0 blocked

/-! ## Enumerated and ranged keywords of `set_port` -/

theorem set_port_loop_clause (env : repository) (pre : List String) (kw tok : String)
    (rest : List String) (st : set_port_state) (hpre : pre.length % 2 = 0)
    (hloop : set_port_loop env pre (set_port_init env) = .build st) :
    set_port_loop env (pre ++ kw :: tok :: rest) (set_port_init env) =
      (match set_port_clause env kw tok st with
       | .build st1 => set_port_loop env rest st1
       | r => r) := by
  rw [set_port_loop_append env (kw :: tok :: rest) pre.length pre (set_port_init env)
    (Nat.le_refl _) hpre, hloop]
  simp only [set_port_loop]

theorem set_port_loop_clause_build (env : repository) (pre : List String) (kw tok : String)
    (rest : List String) (st st1 : set_port_state) (hpre : pre.length % 2 = 0)
    (hloop : set_port_loop env pre (set_port_init env) = .build st)
    (hc : set_port_clause env kw tok st = .build st1) :
    set_port_loop env (pre ++ kw :: tok :: rest) (set_port_init env) =
      set_port_loop env rest st1 := by
  rw [set_port_loop_clause env pre kw tok rest st hpre hloop, hc]

theorem match_set_port_send_clause_rejected (env : repository) (pre : List String)
    (kw tok : String) (rest : List String) (st : set_port_state) (code : Int)
    (hpre : pre.length % 2 = 0)
    (hloop : set_port_loop env pre (set_port_init env) = .build st)
    (hc : set_port_clause env kw tok st = .returned code) :
    match_set_port_send env (pre ++ kw :: tok :: rest) = .returned code ∧
    ∀ (nl : netlink) (fuel ifindex : Nat),
      match_set_port_send_run env nl fuel ifindex (pre ++ kw :: tok :: rest) =
        ⟨[], .returned code⟩ := by
  have h : match_set_port_send env (pre ++ kw :: tok :: rest) = .returned code := by
    unfold match_set_port_send
    rw [set_port_loop_clause env pre kw tok rest st hpre hloop, hc]
  exact ⟨h, fun nl fuel ifindex => by
    simp [match_set_port_send_run, h, send_result.then_request]⟩

theorem set_port_clause_flag (env : repository) (kw tok : String) (st : set_port_state)
    (hkw : kw ∈ set_port_flag_keywords) :
    set_port_clause env kw tok st =
      (match parse_flag_state env tok with
       | some f => .build { st with port := set_port_flag kw f st.port }
       | none => .returned (-EINVAL)) := by
  simp only [set_port_flag_keywords, List.mem_cons, List.mem_singleton, List.not_mem_nil,
    or_false] at hkw
  rcases hkw with h | h | h | h | h | h | h | h | h | h <;> subst h <;>
    (unfold set_port_clause set_port_flag; simp)

/-- C25: after an even-length prefix of clauses that the loop accepted, the
`state` clause accepts `up` and `down` and sets only `port.state`; each
flag keyword accepts `flag_state_str(ENABLED)` and
`flag_state_str(DISABLED)` and sets only the member of its name: the loop
goes on with the rest of the tokens. Any other token makes
`match_set_port_send` return `-EINVAL`, and the run of the whole function
has no netlink event. -/
theorem match_set_port_send_enumerated (env : repository) (pre : List String)
    (st : set_port_state) (hpre : pre.length % 2 = 0)
    (hloop : set_port_loop env pre (set_port_init env) = .build st) :
    (∀ rest,
      set_port_loop env (pre ++ "state" :: "up" :: rest) (set_port_init env) =
        set_port_loop env rest
          { st with port := { st.port with state := env.NET_MAT_PORT_T_STATE_UP } } ∧
      set_port_loop env (pre ++ "state" :: "down" :: rest) (set_port_init env) =
        set_port_loop env rest
          { st with port := { st.port with state := env.NET_MAT_PORT_T_STATE_DOWN } }) ∧
    (∀ tok rest, tok ≠ "up" → tok ≠ "down" →
      match_set_port_send env (pre ++ "state" :: tok :: rest) = .returned (-EINVAL) ∧
      ∀ (nl : netlink) (fuel ifindex : Nat),
        match_set_port_send_run env nl fuel ifindex (pre ++ "state" :: tok :: rest) =
          ⟨[], .returned (-EINVAL)⟩) ∧
    (∀ kw ∈ set_port_flag_keywords, ∀ tok rest,
      (tok = env.flag_state_str env.NET_MAT_PORT_T_FLAG_ENABLED →
        set_port_loop env (pre ++ kw :: tok :: rest) (set_port_init env) =
          set_port_loop env rest
            { st with port := set_port_flag kw env.NET_MAT_PORT_T_FLAG_ENABLED st.port }) ∧
      (tok ≠ env.flag_state_str env.NET_MAT_PORT_T_FLAG_ENABLED →
        tok = env.flag_state_str env.NET_MAT_PORT_T_FLAG_DISABLED →
        set_port_loop env (pre ++ kw :: tok :: rest) (set_port_init env) =
          set_port_loop env rest
            { st with port := set_port_flag kw env.NET_MAT_PORT_T_FLAG_DISABLED st.port }) ∧
      (tok ≠ env.flag_state_str env.NET_MAT_PORT_T_FLAG_ENABLED →
        tok ≠ env.flag_state_str env.NET_MAT_PORT_T_FLAG_DISABLED →
        match_set_port_send env (pre ++ kw :: tok :: rest) = .returned (-EINVAL) ∧
        ∀ (nl : netlink) (fuel ifindex : Nat),
          match_set_port_send_run env nl fuel ifindex (pre ++ kw :: tok :: rest) =
            ⟨[], .returned (-EINVAL)⟩)) := by
  refine ⟨fun rest => ⟨?_, ?_⟩, fun tok rest h1 h2 => ?_, fun kw hkw tok rest => ⟨?_, ?_, ?_⟩⟩
  · exact set_port_loop_clause_build env pre "state" "up" rest st _ hpre hloop
      (by unfold set_port_clause; simp)
  · exact set_port_loop_clause_build env pre "state" "down" rest st _ hpre hloop
      (by unfold set_port_clause; simp)
  · exact match_set_port_send_clause_rejected env pre "state" tok rest st _ hpre hloop
      (by unfold set_port_clause; simp [h1, h2])
  · intro he
    exact set_port_loop_clause_build env pre kw tok rest st _ hpre hloop
      (by rw [set_port_clause_flag env kw tok st hkw]; simp [parse_flag_state, he])
  · intro he hd
    refine set_port_loop_clause_build env pre kw tok rest st _ hpre hloop ?_
    rw [set_port_clause_flag env kw tok st hkw]
    unfold parse_flag_state
    rw [if_neg he, if_pos hd]
  · intro he hd
    exact match_set_port_send_clause_rejected env pre kw tok rest st _ hpre hloop
      (by rw [set_port_clause_flag env kw tok st hkw]; simp [parse_flag_state, he, hd])

theorem parse_subject_digits (ds : List Char) (hne : ds ≠ [])
    (hdig : ∀ c ∈ ds, 48 ≤ c.toNat ∧ c.toNat ≤ 57) :
    skip_space ds = ds ∧
    parse_subject 10 ds =
      some ⟨false, ds.foldl (fun acc c => acc * 10 + (c.toNat - 48)) 0, []⟩ := by
  cases ds with
  | nil => exact absurd rfl hne
  | cons c cs =>
    have hc := hdig c (List.mem_cons_self _ _)
    have hsp : isspace c = false := by
      simp [isspace]; omega
    have hskip : skip_space (c :: cs) = c :: cs := by
      simp [skip_space, List.dropWhile, hsp]
    have hsign : take_sign (c :: cs) = (false, c :: cs) := by
      have h1 : ¬ c.toNat = 45 := by omega
      have h2 : ¬ c.toNat = 43 := by omega
      simp [take_sign, h1, h2]
    have hbase : select_base 10 (c :: cs) = (10, c :: cs) := by
      simp [select_base]
    have hscan := scan_digits_decimal (c :: cs) hdig 0 0
    refine ⟨hskip, ?_⟩
    simp only [parse_subject, hskip, hsign, hbase, hscan]
    simp

theorem sscanf_u_digits (bits : Nat) (ds : List Char) (hne : ds ≠ [])
    (hdig : ∀ c ∈ ds, 48 ≤ c.toNat ∧ c.toNat ≤ 57)
    (hv : ds.foldl (fun acc c => acc * 10 + (c.toNat - 48)) 0 < 2 ^ 64) :
    sscanf_u bits ds =
      (1, some (ds.foldl (fun acc c => acc * 10 + (c.toNat - 48)) 0 % 2 ^ bits)) := by
  obtain ⟨hskip, hps⟩ := parse_subject_digits ds hne hdig
  have h1 : ¬ ds.foldl (fun acc c => acc * 10 + (c.toNat - 48)) 0 > ULONG_MAX := by
    simp only [ULONG_MAX]; omega
  simp only [sscanf_u, scan_unsigned, hskip, hps, hne, if_false, h1]
  simp

theorem sscanf_u_decimal (ds : List Char) (v : Nat) (h : decimal_denotes ds v)
    (hv : v < 2 ^ 32) : sscanf_u 32 ds = (1, some v) := by
  rcases h with ⟨hne, hdig, _, hval⟩
  have h64 : ds.foldl (fun acc c => acc * 10 + (c.toNat - 48)) 0 < 2 ^ 64 := by
    rw [hval]; omega
  rw [sscanf_u_digits 32 ds hne hdig h64, hval, Nat.mod_eq_of_lt hv]

theorem set_port_clause_def_vlan (env : repository) (tok : String) (st : set_port_state) :
    set_port_clause env "def_vlan" tok st =
      (match sscanf_u 32 tok.data with
       | (1, some v) =>
         if v < 1 ∨ v > 4095 then .returned (-EINVAL)
         else
           .build { st with port := { st.port with vlan := { st.port.vlan with def_vlan := v } } }
       | _ => .returned (-EINVAL)) := by
  unfold set_port_clause
  simp

theorem set_port_clause_def_priority (env : repository) (tok : String)
    (st : set_port_state) :
    set_port_clause env "def_priority" tok st =
      (match sscanf_u 32 tok.data with
       | (1, some v) =>
         if v > 7 then .returned (-EINVAL)
         else
           .build
             { st with
               port := { st.port with vlan := { st.port.vlan with def_priority := v } } }
       | _ => .returned (-EINVAL)) := by
  unfold set_port_clause
  simp

theorem set_port_clause_max_frame_size (env : repository) (tok : String)
    (st : set_port_state) :
    set_port_clause env "max_frame_size" tok st =
      (match sscanf_u 32 tok.data with
       | (1, some v) =>
         if v = 0 then .returned (-EINVAL)
         else .build { st with port := { st.port with max_frame_size := v } }
       | _ => .returned (-EINVAL)) := by
  unfold set_port_clause
  simp

/-- C30: after an even-length prefix of clauses that the loop accepted, a
`def_vlan` token that `%u` converts to `v` is accepted (the loop goes on
with `def_vlan = v` and every other member as it was) when
`1 ≤ v ≤ 4095` and rejected otherwise; a `def_priority` token is accepted
when `v ≤ 7` and rejected otherwise; a `max_frame_size` token is accepted
when `v ≠ 0` and rejected when `v = 0`; a token that `%u` does not
convert is rejected. Rejected means that `match_set_port_send` returns
`-EINVAL` and the run of the whole function has no netlink event. A
decimal numeral below `2 ^ 32` is converted to the number it denotes. -/
theorem match_set_port_send_ranges (env : repository) (pre : List String)
    (st : set_port_state) (hpre : pre.length % 2 = 0)
    (hloop : set_port_loop env pre (set_port_init env) = .build st) :
    (∀ tok v rest, sscanf_u 32 tok.data = (1, some v) →
      (1 ≤ v ∧ v ≤ 4095 →
        set_port_loop env (pre ++ "def_vlan" :: tok :: rest) (set_port_init env) =
          set_port_loop env rest
            { st with port := { st.port with vlan := { st.port.vlan with def_vlan := v } } }) ∧
      (¬ (1 ≤ v ∧ v ≤ 4095) →
        match_set_port_send env (pre ++ "def_vlan" :: tok :: rest) = .returned (-EINVAL) ∧
        ∀ (nl : netlink) (fuel ifindex : Nat),
          match_set_port_send_run env nl fuel ifindex (pre ++ "def_vlan" :: tok :: rest) =
            ⟨[], .returned (-EINVAL)⟩)) ∧
    (∀ tok v rest, sscanf_u 32 tok.data = (1, some v) →
      (v ≤ 7 →
        set_port_loop env (pre ++ "def_priority" :: tok :: rest) (set_port_init env) =
          set_port_loop env rest
            { st with
              port := { st.port with vlan := { st.port.vlan with def_priority := v } } }) ∧
      (¬ v ≤ 7 →
        match_set_port_send env (pre ++ "def_priority" :: tok :: rest) =
          .returned (-EINVAL) ∧
        ∀ (nl : netlink) (fuel ifindex : Nat),
          match_set_port_send_run env nl fuel ifindex
            (pre ++ "def_priority" :: tok :: rest) = ⟨[], .returned (-EINVAL)⟩)) ∧
    (∀ tok v rest, sscanf_u 32 tok.data = (1, some v) →
      (v ≠ 0 →
        set_port_loop env (pre ++ "max_frame_size" :: tok :: rest) (set_port_init env) =
          set_port_loop env rest { st with port := { st.port with max_frame_size := v } }) ∧
      (v = 0 →
        match_set_port_send env (pre ++ "max_frame_size" :: tok :: rest) =
          .returned (-EINVAL) ∧
        ∀ (nl : netlink) (fuel ifindex : Nat),
          match_set_port_send_run env nl fuel ifindex
            (pre ++ "max_frame_size" :: tok :: rest) = ⟨[], .returned (-EINVAL)⟩)) ∧
    (∀ kw tok rest, kw = "def_vlan" ∨ kw = "def_priority" ∨ kw = "max_frame_size" →
      (∀ v, sscanf_u 32 tok.data ≠ (1, some v)) →
      match_set_port_send env (pre ++ kw :: tok :: rest) = .returned (-EINVAL) ∧
      ∀ (nl : netlink) (fuel ifindex : Nat),
        match_set_port_send_run env nl fuel ifindex (pre ++ kw :: tok :: rest) =
          ⟨[], .returned (-EINVAL)⟩) ∧
    (∀ ds v, decimal_denotes ds v → v < 2 ^ 32 → sscanf_u 32 ds = (1, some v)) := by
  refine ⟨fun tok v rest hs => ⟨fun hr => ?_, fun hr => ?_⟩,
    fun tok v rest hs => ⟨fun hr => ?_, fun hr => ?_⟩,
    fun tok v rest hs => ⟨fun hr => ?_, fun hr => ?_⟩,
    fun kw tok rest hkw hs => ?_, sscanf_u_decimal⟩
  · refine set_port_loop_clause_build env pre _ tok rest st _ hpre hloop ?_
    rw [set_port_clause_def_vlan, hs]
    have : ¬ (v < 1 ∨ v > 4095) := by omega
    simp only [this, if_false]
  · refine match_set_port_send_clause_rejected env pre _ tok rest st _ hpre hloop ?_
    rw [set_port_clause_def_vlan, hs]
    have : v < 1 ∨ v > 4095 := by omega
    simp only [this, if_true]
  · refine set_port_loop_clause_build env pre _ tok rest st _ hpre hloop ?_
    rw [set_port_clause_def_priority, hs]
    have : ¬ v > 7 := by omega
    simp only [this, if_false]
  · refine match_set_port_send_clause_rejected env pre _ tok rest st _ hpre hloop ?_
    rw [set_port_clause_def_priority, hs]
    have : v > 7 := by omega
    simp only [this, if_true]
  · refine set_port_loop_clause_build env pre _ tok rest st _ hpre hloop ?_
    rw [set_port_clause_max_frame_size, hs]
    simp only [hr, if_false]
  · refine match_set_port_send_clause_rejected env pre _ tok rest st _ hpre hloop ?_
    rw [set_port_clause_max_frame_size, hs]
    simp only [hr, if_true]
  · refine match_set_port_send_clause_rejected env pre _ tok rest st _ hpre hloop ?_
    rcases hkw with h | h | h <;> subst h
    · rw [set_port_clause_def_vlan]
      split
      · rename_i v hv; exact absurd hv (hs v)
      · rfl
    · rw [set_port_clause_def_priority]
      split
      · rename_i v hv; exact absurd hv (hs v)
      · rfl
    · rw [set_port_clause_max_frame_size]
      split
      · rename_i v hv; exact absurd hv (hs v)
      · rfl

set_option maxRecDepth 100000 in
theorem set_port_loop_port_1 :
    set_port_loop demo_repository ["port", "1"] (set_port_init demo_repository) =
      .build
        { set_port_init demo_repository with
          port := { (set_port_init demo_repository).port with port_id := 1 },
          port_be := some (demo_port 1) } := by
  decide

/-- Witness of C25: after `port 1`, `state sideways` and `loopback on` make
`match_set_port_send` return `-EINVAL` with no netlink event, and
`loopback enabled` goes on with only `loopback` set. -/
theorem match_set_port_send_enumerated_witness :
    (match_set_port_send demo_repository (["port", "1"] ++ "state" :: "sideways" :: []) =
        .returned (-EINVAL) ∧
      ∀ (nl : netlink) (fuel ifindex : Nat),
        match_set_port_send_run demo_repository nl fuel ifindex
          (["port", "1"] ++ "state" :: "sideways" :: []) = ⟨[], .returned (-EINVAL)⟩) ∧
    (match_set_port_send demo_repository (["port", "1"] ++ "loopback" :: "on" :: []) =
        .returned (-EINVAL) ∧
      ∀ (nl : netlink) (fuel ifindex : Nat),
        match_set_port_send_run demo_repository nl fuel ifindex
          (["port", "1"] ++ "loopback" :: "on" :: []) = ⟨[], .returned (-EINVAL)⟩) ∧
    set_port_loop demo_repository (["port", "1"] ++ "loopback" :: "enabled" :: [])
        (set_port_init demo_repository) =
      set_port_loop demo_repository []
        { port := set_port_flag "loopback" demo_repository.NET_MAT_PORT_T_FLAG_ENABLED
            { (set_port_init demo_repository).port with port_id := 1 },
          port_be := some (demo_port 1), have_vlans := false } :=
  ⟨(match_set_port_send_enumerated demo_repository ["port", "1"] _ (by decide)
      set_port_loop_port_1).2.1 "sideways" [] (by decide) (by decide),
   ((match_set_port_send_enumerated demo_repository ["port", "1"] _ (by decide)
      set_port_loop_port_1).2.2 "loopback" (by decide) "on" []).2.2 (by decide) (by decide),
   ((match_set_port_send_enumerated demo_repository ["port", "1"] _ (by decide)
      set_port_loop_port_1).2.2 "loopback" (by decide) "enabled" []).1 (by decide)⟩

/-- Witness of C30: after `port 1`, `def_vlan 4096`, `def_priority 8` and
`max_frame_size 0` make `match_set_port_send` return `-EINVAL`, and
`def_vlan 4095` goes on with `def_vlan = 4095`. -/
theorem match_set_port_send_ranges_witness :
    match_set_port_send demo_repository (["port", "1"] ++ "def_vlan" :: "4096" :: []) =
      .returned (-EINVAL) ∧
    match_set_port_send demo_repository (["port", "1"] ++ "def_priority" :: "8" :: []) =
      .returned (-EINVAL) ∧
    match_set_port_send demo_repository (["port", "1"] ++ "max_frame_size" :: "0" :: []) =
      .returned (-EINVAL) ∧
    set_port_loop demo_repository (["port", "1"] ++ "def_vlan" :: "4095" :: [])
        (set_port_init demo_repository) =
      set_port_loop demo_repository []
        { port :=
            { (set_port_init demo_repository).port with
              port_id := 1,
              vlan := { (set_port_init demo_repository).port.vlan with def_vlan := 4095 } },
          port_be := some (demo_port 1), have_vlans := false } :=
  ⟨(((match_set_port_send_ranges demo_repository ["port", "1"] _ (by decide)
      set_port_loop_port_1).1 "4096" 4096 [] (by decide)).2 (by decide)).1,
   (((match_set_port_send_ranges demo_repository ["port", "1"] _ (by decide)
      set_port_loop_port_1).2.1 "8" 8 [] (by decide)).2 (by decide)).1,
   (((match_set_port_send_ranges demo_repository ["port", "1"] _ (by decide)
      set_port_loop_port_1).2.2.1 "0" 0 [] (by decide)).2 rfl).1,
   ((match_set_port_send_ranges demo_repository ["port", "1"] _ (by decide)
      set_port_loop_port_1).1 "4095" 4095 [] (by decide)).1 (by decide)⟩

/-! ## The priority of a rule -/

theorem rule_set_clause_priority (env : repository) (kw : String) (rest argv1 : List String)
    (rule rule1 : net_mat_rule)
    (h : rule_set_clause env kw rest rule = .build (argv1, rule1)) :
    rule1.priority = prio_after rule.priority (kw, rest) ∧ ∀ x ∈ argv1, x ∈ rest := by
  unfold rule_set_clause at h
  unfold prio_after
  by_cases h1 : kw = "match"
  · rw [if_pos h1] at h
    subst h1
    split_ifs at h
    rcases hg : get_match_arg env ("match" :: rest) true false net_mat_field_ref.zero
      rule_set_send_keywords with ⟨advance, m⟩
    rw [hg] at h
    simp only at h
    split_ifs at h
    cases h
    exact ⟨by simp, fun x hx => List.mem_of_mem_drop hx⟩
  rw [if_neg h1] at h
  by_cases h2 : kw = "action"
  · rw [if_pos h2] at h
    subst h2
    split_ifs at h
    rcases hg : get_action_arg env ("action" :: rest) true ⟨0, none, none⟩ with ⟨adv, a, r⟩ | s
    · rw [hg] at h
      simp only at h
      split_ifs at h
      cases h
      exact ⟨by simp, fun x hx => List.mem_of_mem_drop hx⟩
    · rw [hg] at h
      cases h
  rw [if_neg h2] at h
  by_cases h3 : kw = "prio"
  · rw [if_pos h3] at h
    subst h3
    rcases rest with _ | ⟨tok, rest1⟩
    · cases h
    · simp only at h
      rcases hs : scan_u32_exit tok rule.priority with _ | v
      · rw [hs] at h; cases h
      · rw [hs] at h
        cases h
        exact ⟨by simp [hs], fun x hx => List.mem_cons_of_mem _ hx⟩
  rw [if_neg h3] at h
  by_cases h4 : kw = "handle"
  · rw [if_pos h4] at h
    rcases rest with _ | ⟨tok, rest1⟩
    · cases h
    · simp only at h
      rcases hs : scan_u32_exit tok rule.uid with _ | v
      · rw [hs] at h; cases h
      · rw [hs] at h
        cases h
        exact ⟨by simp [h3], fun x hx => List.mem_cons_of_mem _ hx⟩
  rw [if_neg h4] at h
  by_cases h5 : kw = "table"
  · rw [if_pos h5] at h
    rcases rest with _ | ⟨tok, rest1⟩
    · cases h
    · simp only at h
      rcases hs : scan_u32_exit tok rule.table_id with _ | v
      · rw [hs] at h; cases h
      · rw [hs] at h
        cases h
        exact ⟨by simp [h3], fun x hx => List.mem_cons_of_mem _ hx⟩
  rw [if_neg h5] at h
  cases h

theorem rule_set_loop_priority (env : repository) :
    ∀ fuel argv rule0 rule, rule_set_loop env fuel argv rule0 = .build rule →
      rule.priority = (rule_set_heads env fuel argv rule0).foldl prio_after rule0.priority ∧
      ∀ hd ∈ rule_set_heads env fuel argv rule0, hd.1 ∈ argv := by
  intro fuel
  induction fuel with
  | zero =>
    intro argv rule0 rule h
    cases argv with
    | nil =>
      simp only [rule_set_loop] at h
      cases h
      simp [rule_set_heads]
    | cons kw rest => simp [rule_set_loop] at h
  | succ fuel ih =>
    intro argv rule0 rule h
    cases argv with
    | nil =>
      simp only [rule_set_loop] at h
      cases h
      simp [rule_set_heads]
    | cons kw rest =>
      simp only [rule_set_loop] at h
      rcases hc : rule_set_clause env kw rest rule0 with c | s | _ | ⟨argv1, rule1⟩
      · rw [hc] at h; cases h
      · rw [hc] at h; cases h
      · rw [hc] at h; cases h
      · rw [hc] at h
        simp only at h
        obtain ⟨hp, hsub⟩ := rule_set_clause_priority env kw rest argv1 rule0 rule1 hc
        obtain ⟨h1, h2⟩ := ih argv1 rule1 rule h
        simp only [rule_set_heads, hc, List.foldl_cons]
        refine ⟨by rw [h1, hp], fun hd hhd => ?_⟩
        rcases List.mem_cons.1 hhd with e | e
        · subst e; exact List.mem_cons_self _ _
        · exact List.mem_cons_of_mem _ (hsub _ (h2 hd e))

theorem foldl_prio_after_no_prio (hs : List (String × List String)) (p : Nat)
    (h : ∀ hd ∈ hs, hd.1 ≠ "prio") : hs.foldl prio_after p = p := by
  induction hs generalizing p with
  | nil => rfl
  | cons x xs ih =>
    have hx : prio_after p x = p := by
      simp [prio_after, h x (List.mem_cons_self _ _)]
    rw [List.foldl_cons, hx]
    exact ih p (fun hd hhd => h hd (List.mem_cons_of_mem _ hhd))

/-- C26: when `rule_set_send` gets to build a rule, the priority of the rule
is 1 if the loop visited no `prio` clause (in particular if no token is
`prio`), and it is `p` if the last `prio` clause the loop visited has a
value token that `%u` converts to `p` and `p > 0`. -/
theorem rule_set_send_priority (env : repository) (argv : List String) (rule : net_mat_rule)
    (h : rule_set_send env argv = .build rule) :
    ((∀ hd ∈ rule_set_heads env argv.length argv net_mat_rule.zero, hd.1 ≠ "prio") →
      rule.priority = 1) ∧
    ("prio" ∉ argv → rule.priority = 1) ∧
    (∀ before after tok rest p,
      rule_set_heads env argv.length argv net_mat_rule.zero =
        before ++ ("prio", tok :: rest) :: after →
      (∀ hd ∈ after, hd.1 ≠ "prio") → sscanf_u 32 tok.data = (1, some p) → 0 < p →
      rule.priority = p) := by
  unfold rule_set_send at h
  rcases hl : rule_set_loop env argv.length argv net_mat_rule.zero with c | s | _ | r
  · rw [hl] at h; cases h
  · rw [hl] at h; cases h
  · rw [hl] at h; cases h
  rw [hl] at h
  simp only at h
  by_cases ht : r.table_id = 0
  · rw [if_pos ht] at h; cases h
  rw [if_neg ht] at h
  by_cases hu : r.uid = 0
  · rw [if_pos hu] at h; cases h
  rw [if_neg hu] at h
  cases h
  show ((∀ hd ∈ rule_set_heads env argv.length argv net_mat_rule.zero, hd.1 ≠ "prio") →
      (if r.priority = 0 then 1 else r.priority) = 1) ∧
    ("prio" ∉ argv → (if r.priority = 0 then 1 else r.priority) = 1) ∧
    (∀ before after tok rest p,
      rule_set_heads env argv.length argv net_mat_rule.zero =
        before ++ ("prio", tok :: rest) :: after →
      (∀ hd ∈ after, hd.1 ≠ "prio") → sscanf_u 32 tok.data = (1, some p) → 0 < p →
      (if r.priority = 0 then 1 else r.priority) = p)
  obtain ⟨hp, hmem⟩ := rule_set_loop_priority env argv.length argv net_mat_rule.zero r hl
  have hno : (∀ hd ∈ rule_set_heads env argv.length argv net_mat_rule.zero, hd.1 ≠ "prio") →
      (if r.priority = 0 then 1 else r.priority) = 1 := by
    intro hn
    rw [hp, foldl_prio_after_no_prio _ _ hn]
    simp [net_mat_rule.zero]
  refine ⟨hno, fun hn => hno (fun hd hhd e => hn (e ▸ hmem hd hhd)), ?_⟩
  intro before after tok rest p hh hafter hs hpos
  have hstep : ∀ q, prio_after q ("prio", tok :: rest) = p := by
    intro q
    simp [prio_after, scan_u32_exit, hs]
  have hr : r.priority = p := by
    rw [hp, hh, List.foldl_append, List.foldl_cons, hstep,
      foldl_prio_after_no_prio _ _ hafter]
  rw [hr]
  have : p ≠ 0 := by omega
  simp [this]

/-- Witness of C26: `handle 1 table 1` is built with priority 1 and
`prio 5 handle 1 table 1` with priority 5. -/
theorem rule_set_send_priority_witness :
    (rule_set_send demo_repository ["handle", "1", "table", "1"] =
        .build { table_id := 1, priority := 1, uid := 1, matches_ := [], actions := [] } ∧
      ({ table_id := 1, priority := 1, uid := 1, matches_ := [], actions := [] } :
        net_mat_rule).priority = 1) ∧
    (rule_set_send demo_repository ["prio", "5", "handle", "1", "table", "1"] =
        .build { table_id := 1, priority := 5, uid := 1, matches_ := [], actions := [] } ∧
      ({ table_id := 1, priority := 5, uid := 1, matches_ := [], actions := [] } :
        net_mat_rule).priority = 5) :=
  ⟨⟨by decide,
    (rule_set_send_priority demo_repository ["handle", "1", "table", "1"]
      { table_id := 1, priority := 1, uid := 1, matches_ := [], actions := [] }
      (by decide)).2.1 (by decide)⟩,
   ⟨by decide,
    (rule_set_send_priority demo_repository ["prio", "5", "handle", "1", "table", "1"]
      { table_id := 1, priority := 5, uid := 1, matches_ := [], actions := [] }
      (by decide)).2.2 [] [("handle", ["1", "table", "1"]), ("table", ["1"])] "5"
      ["handle", "1", "table", "1"] 5 (by decide) (by decide) (by decide) (by decide)⟩⟩

/-! ## The bound of 50 entries -/

theorem match_create_tbl_clause_bounds (env : repository) (kw : String)
    (rest argv1 : List String) (st st1 : create_tbl_state)
    (hb : st.matches_.length ≤ MAX_MATCHES ∧ st.acts.length ≤ MAX_ACTIONS ∧
      st.attribs.length ≤ MAX_ATTRIBS)
    (h : match_create_tbl_clause env kw rest st = .build (argv1, st1)) :
    st1.matches_.length ≤ MAX_MATCHES ∧ st1.acts.length ≤ MAX_ACTIONS ∧
      st1.attribs.length ≤ MAX_ATTRIBS := by
  unfold match_create_tbl_clause at h
  by_cases h1 : kw = "match"
  · rw [if_pos h1] at h
    by_cases hm : st.matches_.length ≥ MAX_MATCHES
    · rw [if_pos hm] at h; cases h
    rw [if_neg hm] at h
    split at h
    split_ifs at h
    cases h
    simp only [List.length_append, List.length_singleton]
    exact ⟨by omega, hb.2⟩
  rw [if_neg h1] at h
  by_cases h2 : kw = "action"
  · rw [if_pos h2] at h
    by_cases hm : st.acts.length ≥ MAX_ACTIONS
    · rw [if_pos hm] at h; cases h
    rw [if_neg hm] at h
    split at h
    · cases h
    · split_ifs at h
      cases h
      simp only [List.length_append, List.length_singleton]
      exact ⟨hb.1, by omega, hb.2.2⟩
  rw [if_neg h2] at h
  by_cases h3 : kw = "attrib"
  · rw [if_pos h3] at h
    by_cases hm : st.attribs.length ≥ MAX_ATTRIBS
    · rw [if_pos hm] at h; cases h
    rw [if_neg hm] at h
    split at h
    split_ifs at h
    cases h
    simp only [List.length_append, List.length_singleton]
    exact ⟨hb.1, hb.2.1, by omega⟩
  rw [if_neg h3] at h
  by_cases h4 : kw = "name"
  · rw [if_pos h4] at h
    split at h
    · cases h
    · cases h; exact hb
  rw [if_neg h4] at h
  by_cases h5 : kw = "source"
  · rw [if_pos h5] at h
    split at h
    · cases h
    · cases h; exact hb
  rw [if_neg h5] at h
  by_cases h6 : kw = "id"
  · rw [if_pos h6] at h
    split at h
    · cases h
    · cases h; exact hb
  rw [if_neg h6] at h
  by_cases h7 : kw = "size"
  · rw [if_pos h7] at h
    split at h
    · cases h
    · cases h; exact hb
  rw [if_neg h7] at h
  cases h

theorem match_create_tbl_loop_bounds (env : repository) :
    ∀ (fuel : Nat) (argv : List String) (st st1 : create_tbl_state),
      st.matches_.length ≤ MAX_MATCHES ∧ st.acts.length ≤ MAX_ACTIONS ∧
        st.attribs.length ≤ MAX_ATTRIBS →
      match_create_tbl_loop env fuel argv st = .build st1 →
      st1.matches_.length ≤ MAX_MATCHES ∧ st1.acts.length ≤ MAX_ACTIONS ∧
        st1.attribs.length ≤ MAX_ATTRIBS := by
  intro fuel
  induction fuel with
  | zero =>
    intro argv st st1 hb h
    cases argv with
    | nil => simp only [match_create_tbl_loop] at h; cases h; exact hb
    | cons kw rest => simp [match_create_tbl_loop] at h
  | succ fuel ih =>
    intro argv st st1 hb h
    cases argv with
    | nil => simp only [match_create_tbl_loop] at h; cases h; exact hb
    | cons kw rest =>
      simp only [match_create_tbl_loop] at h
      rcases hc : match_create_tbl_clause env kw rest st with c | s | _ | ⟨argv1, st2⟩
      · rw [hc] at h; cases h
      · rw [hc] at h; cases h
      · rw [hc] at h; cases h
      · rw [hc] at h
        exact ih argv1 st2 st1 (match_create_tbl_clause_bounds env kw rest argv1 st st2 hb hc) h

set_option maxRecDepth 1000000 in
/-- C27 (fails for `set_rule`): `rule_set_send` has no test of
`match_count` or `action_count`. With 51 clauses `match ethernet.vlan_id
5` the 51st call of `get_match_arg` is handed `&matches[50]`, one past the
50 entries of the array, and stores through it; with 51 clauses `action
set_egress_port 5` the same happens in `acts`. With 50 clauses the rule is
built. `match_create_tbl_send` does test the counts and returns `-EINVAL`
on the 51st clause. -/
theorem rule_set_send_no_bound :
    MAX_MATCHES = 50 ∧ MAX_ACTIONS = 50 ∧
    rule_set_send demo_repository
        (repeat_clause ["match", "ethernet.vlan_id", "5"] 51 ++
          ["handle", "1", "table", "1"]) = .undefined ∧
    rule_set_send demo_repository
        (repeat_clause ["action", "set_egress_port", "5"] 51 ++
          ["handle", "1", "table", "1"]) = .undefined ∧
    (∃ rule, rule_set_send demo_repository
        (repeat_clause ["match", "ethernet.vlan_id", "5"] 50 ++
          ["handle", "1", "table", "1"]) = .build rule ∧ rule.matches_.length = 50) ∧
    (match_create_tbl_send demo_repository
        (["source", "1", "name", "t", "size", "10"] ++
          repeat_clause ["match", "ethernet.vlan_id", "exact"] 51) .CREATE_TABLE).1 =
      .returned (-EINVAL) ∧
    (match_create_tbl_send demo_repository
        (["source", "1", "name", "t", "size", "10"] ++
          repeat_clause ["action", "set_egress_port"] 51) .CREATE_TABLE).1 =
      .returned (-EINVAL) := by
  refine ⟨rfl, rfl, by decide, by decide, ⟨_, rfl, by decide⟩, by decide, by decide⟩

/-! ## `lookup_lport`: exactly one of `pci` and `mac` -/

theorem get_port_clause_flags (kw tok : String) (st st1 : get_port_state)
    (h : get_port_clause kw tok st = .build st1) :
    st1.have_pci_query = (st.have_pci_query || decide (kw = "pci")) ∧
    st1.have_mac_query = (st.have_mac_query || decide (kw = "mac")) := by
  unfold get_port_clause at h
  by_cases h1 : kw = "pci"
  · rw [if_pos h1] at h
    subst h1
    split at h
    split_ifs at h
    cases h
    simp
  rw [if_neg h1] at h
  by_cases h2 : kw = "mac"
  · rw [if_pos h2] at h
    subst h2
    split at h
    split_ifs at h
    cases h
    simp
  rw [if_neg h2] at h
  by_cases h3 : kw = "lport"
  · rw [if_pos h3] at h
    split at h
    · cases h
    · cases h; simp [h1, h2]
  rw [if_neg h3] at h
  by_cases h4 : kw = "min"
  · rw [if_pos h4] at h
    split at h
    · cases h
    · cases h; simp [h1, h2]
  rw [if_neg h4] at h
  by_cases h5 : kw = "max"
  · rw [if_pos h5] at h
    split at h
    · cases h
    · cases h; simp [h1, h2]
  rw [if_neg h5] at h
  cases h

theorem get_port_loop_flags :
    ∀ (n : Nat) (argv : List String) (st st1 : get_port_state), argv.length ≤ n →
      get_port_loop argv st = .build st1 →
      st1.have_pci_query = (st.have_pci_query || has_clause "pci" argv) ∧
      st1.have_mac_query = (st.have_mac_query || has_clause "mac" argv) := by
  intro n
  induction n with
  | zero =>
    intro argv st st1 hlen h
    have : argv = [] := List.length_eq_zero.1 (Nat.le_zero.1 hlen)
    subst this
    simp only [get_port_loop] at h
    cases h
    simp [has_clause]
  | succ n ih =>
    intro argv st st1 hlen h
    match argv, hlen, h with
    | [], _, h =>
      simp only [get_port_loop] at h
      cases h
      simp [has_clause]
    | [kw], _, h =>
      simp only [get_port_loop] at h
      split_ifs at h
    | kw :: tok :: rest, hlen, h =>
      simp only [get_port_loop] at h
      have hl : rest.length ≤ n := by simp at hlen; omega
      rcases hc : get_port_clause kw tok st with c | s | _ | st2
      · rw [hc] at h; cases h
      · rw [hc] at h; cases h
      · rw [hc] at h; cases h
      · rw [hc] at h
        obtain ⟨h1, h2⟩ := get_port_clause_flags kw tok st st2 hc
        obtain ⟨h3, h4⟩ := ih rest st2 st1 hl h
        simp only [has_clause]
        rw [h3, h4, h1, h2]
        simp [Bool.or_assoc]

/-- C29: for `lookup_lport` (`GET_LPORT`) `match_get_port_send` gets to
build a request exactly when its argument loop accepts every clause and
exactly one of a `pci` clause and a `mac` clause is among them. When the
loop accepts every clause and neither or both are given, the function
returns `-EINVAL` and the run of the whole function has no netlink event;
when exactly one is given the run is the request built on the record the
loop left. -/
theorem match_get_port_send_lport (env : repository) (argv : List String) :
    ((∃ st, match_get_port_send env argv .GET_LPORT = .build st) ↔
      (∃ st, get_port_loop argv (get_port_init env) = .build st) ∧
        Bool.xor (has_clause "pci" argv) (has_clause "mac" argv) = true) ∧
    (∀ st, get_port_loop argv (get_port_init env) = .build st →
      Bool.xor (has_clause "pci" argv) (has_clause "mac" argv) = false →
      match_get_port_send env argv .GET_LPORT = .returned (-EINVAL) ∧
      ∀ (nl : netlink) (fuel ifindex : Nat),
        match_get_port_send_run env nl fuel ifindex argv .GET_LPORT =
          ⟨[], .returned (-EINVAL)⟩) ∧
    (∀ st, get_port_loop argv (get_port_init env) = .build st →
      Bool.xor (has_clause "pci" argv) (has_clause "mac" argv) = true →
      match_get_port_send env argv .GET_LPORT = .build st ∧
      ∀ (nl : netlink) (fuel ifindex : Nat),
        match_get_port_send_run env nl fuel ifindex argv .GET_LPORT =
          port_get_request nl fuel .GET_LPORT ifindex env.NET_MAT_PORT_ID_UNSPEC st.port
            st.min st.max
            (st.have_pci_query || st.have_mac_query || st.have_lport_query)) := by
  have key : ∀ st, get_port_loop argv (get_port_init env) = .build st →
      match_get_port_send env argv .GET_LPORT =
        if Bool.xor (has_clause "pci" argv) (has_clause "mac" argv) = false then
          .returned (-EINVAL)
        else .build st := by
    intro st hl
    obtain ⟨h1, h2⟩ := get_port_loop_flags argv.length argv _ st (Nat.le_refl _) hl
    simp only [get_port_init, Bool.false_or] at h1 h2
    simp only [match_get_port_send, hl, get_port_check, if_true, h1, h2]
  refine ⟨⟨fun ⟨st, hs⟩ => ?_, fun ⟨⟨st, hl⟩, hx⟩ => ?_⟩, fun st hl hx => ?_, fun st hl hx => ?_⟩
  · rcases hl : get_port_loop argv (get_port_init env) with c | s | _ | st0
    · simp [match_get_port_send, hl] at hs
    · simp [match_get_port_send, hl] at hs
    · simp [match_get_port_send, hl] at hs
    · refine ⟨⟨st0, rfl⟩, ?_⟩
      rw [key st0 hl] at hs
      by_cases hx : Bool.xor (has_clause "pci" argv) (has_clause "mac" argv) = false
      · rw [if_pos hx] at hs; cases hs
      · simpa using hx
  · refine ⟨st, ?_⟩
    rw [key st hl, if_neg (by simp [hx])]
  · have h : match_get_port_send env argv .GET_LPORT = .returned (-EINVAL) := by
      rw [key st hl, if_pos hx]
    exact ⟨h, fun nl fuel ifindex => by
      simp [match_get_port_send_run, h, send_result.then_request]⟩
  · have h : match_get_port_send env argv .GET_LPORT = .build st := by
      rw [key st hl, if_neg (by simp [hx])]
    exact ⟨h, fun nl fuel ifindex => by
      simp [match_get_port_send_run, h, send_result.then_request]⟩

set_option maxRecDepth 100000 in
/-- Witness of C29: `lookup_lport` with no clause and with both a `pci` and
a `mac` clause returns `-EINVAL`; with `pci 03:00.1` alone it gets to build
a request. -/
theorem match_get_port_send_lport_witness :
    match_get_port_send demo_repository [] .GET_LPORT = .returned (-EINVAL) ∧
    match_get_port_send demo_repository ["pci", "03:00.1", "mac", "00:01:02:03:04:05"]
        .GET_LPORT = .returned (-EINVAL) ∧
    (∃ st, match_get_port_send demo_repository ["pci", "03:00.1"] .GET_LPORT = .build st) :=
  ⟨((match_get_port_send_lport demo_repository []).2.1 _ rfl (by decide)).1,
   ((match_get_port_send_lport demo_repository
      ["pci", "03:00.1", "mac", "00:01:02:03:04:05"]).2.1
      { get_port_init demo_repository with
        port := { (get_port_init demo_repository).port with
                  pci := ⟨3, 0, 1⟩, mac_addr := 0x000102030405 },
        have_pci_query := true, have_mac_query := true } (by decide) (by decide)).1,
   (match_get_port_send_lport demo_repository ["pci", "03:00.1"]).1.2
     ⟨⟨{ get_port_init demo_repository with
         port := { (get_port_init demo_repository).port with pci := ⟨3, 0, 1⟩ },
         have_pci_query := true }, by decide⟩, by decide⟩⟩

/-! ## Raw numerals as MAC addresses -/

theorem sscanf_0x_digits (bits : Nat) (ds : List Char)
    (hdig : ∀ c ∈ ds, 48 ≤ c.toNat ∧ c.toNat ≤ 57) : (sscanf_0x bits ds).2 = none := by
  unfold sscanf_0x
  cases ds with
  | nil => rfl
  | cons c0 s1 =>
    simp only
    by_cases h0 : c0.toNat ≠ 48
    · rw [if_pos h0]
    · rw [if_neg h0]
      cases s1 with
      | nil => rfl
      | cons c1 s2 =>
        have h1 := hdig c1 (List.mem_cons_of_mem _ (List.mem_cons_self _ _))
        have : c1.toNat ≠ 120 := by omega
        simp only [this, ne_eq, not_false_eq_true, if_true]

theorem is_digit_in_16_facts (c : Char) (h : is_digit_in 16 c = true) :
    isspace c = false ∧ c.toNat ≠ 45 ∧ c.toNat ≠ 43 ∧ c.toNat ≠ 120 ∧ c.toNat ≠ 88 ∧
      c.toNat ≠ 58 := by
  unfold is_digit_in digit_value at h
  unfold isspace
  split_ifs at h with h1 h2 h3
  · simp; omega
  · simp at h; simp; omega
  · simp at h; simp; omega

theorem sscanf_0x_hex (ds : List Char) (hne : ds ≠ [])
    (hdig : ∀ c ∈ ds, is_digit_in 16 c = true) (hv : numeral_value 16 ds < 2 ^ 64) :
    sscanf_0x 64 ('0' :: 'x' :: ds) = (1, some (numeral_value 16 ds)) := by
  cases ds with
  | nil => exact absurd rfl hne
  | cons d ds1 =>
    obtain ⟨hsp, hm, hp, hx, hX, _⟩ := is_digit_in_16_facts d (hdig d (List.mem_cons_self _ _))
    have hskip : skip_space (d :: ds1) = d :: ds1 := by
      simp [skip_space, List.dropWhile, hsp]
    have hsign : take_sign (d :: ds1) = (false, d :: ds1) := by
      simp [take_sign, hm, hp]
    have hlead : hex_lead (d :: ds1) = none := by
      cases ds1 with
      | nil => rfl
      | cons x xs =>
        cases xs with
        | nil => rfl
        | cons y ys =>
          obtain ⟨_, _, _, hx1, hx2, _⟩ :=
            is_digit_in_16_facts x (hdig x (List.mem_cons_of_mem _ (List.mem_cons_self _ _)))
          simp [hex_lead, hx1, hx2]
    have hbase : select_base 16 (d :: ds1) = (16, d :: ds1) := by
      simp [select_base, hlead]
    have hscan := scan_digits_all 16 (d :: ds1) hdig 0 0
    have hps : parse_subject 16 (d :: ds1) =
        some ⟨false, numeral_value 16 (d :: ds1), []⟩ := by
      simp only [parse_subject, hskip, hsign, hbase, hscan]
      simp [numeral_value]
    have h1 : ¬ numeral_value 16 (d :: ds1) > ULONG_MAX := by
      simp only [ULONG_MAX]; omega
    have h0 : ('0' : Char).toNat = 48 := by decide
    have hxx : ('x' : Char).toNat = 120 := by decide
    simp only [sscanf_0x, h0, hxx, ne_eq, not_true_eq_false, if_false, scan_unsigned, hskip,
      hps, h1]
    have hv2 : numeral_value 16 (d :: ds1) % 18446744073709551616 =
        numeral_value 16 (d :: ds1) := Nat.mod_eq_of_lt (by omega)
    simp [hv2]

theorem raw_numeral_no_colon (tok : List Char) (v : Nat) (h : raw_numeral_denotes tok v) :
    tok.any (fun c => c.toNat = 58) = false := by
  cases h with
  | decimal ds hne hdig =>
    simp only [List.any_eq_false, decide_eq_true_eq]
    intro c hc
    have := hdig c hc
    omega
  | hex ds hne hdig =>
    simp only [List.any_eq_false, decide_eq_true_eq]
    intro c hc
    rcases List.mem_cons.1 hc with e | hc
    · subst e; decide
    rcases List.mem_cons.1 hc with e | hc
    · subst e; decide
    exact (is_digit_in_16_facts c (hdig c hc)).2.2.2.2.2

/-- C24: for a token that is a string of decimal digits or `0x` followed by
hexadecimal digits and that denotes `v < 2 ^ 64`, the token holds no `:`,
and `match_macaddr2u64` returns 0 with the destination equal to `v` when
`v ≤ 0xffffffffffff` and returns `-EINVAL` when `v > 0xffffffffffff`. -/
theorem match_macaddr2u64_raw (dst : Nat) (tok : List Char) (v : Nat)
    (h : raw_numeral_denotes tok v) (hv : v < 2 ^ 64) :
    tok.any (fun c => c.toNat = 58) = false ∧
    (v ≤ 0xffffffffffff → match_macaddr2u64 dst tok = (0, v)) ∧
    (0xffffffffffff < v → (match_macaddr2u64 dst tok).1 = -EINVAL) := by
  have hcolon := raw_numeral_no_colon tok v h
  have key : match_macaddr2u64 dst tok =
      if v > 0xffffffffffff then (-EINVAL, v) else (0, v) := by
    unfold match_macaddr2u64
    rw [hcolon]
    simp only [Bool.false_eq_true, if_false]
    cases h with
    | decimal _ hne hdig =>
      have h0 := sscanf_0x_digits 64 tok hdig
      have hu := sscanf_u_digits 64 tok hne hdig hv
      rw [Nat.mod_eq_of_lt hv] at hu
      rcases hz : sscanf_0x 64 tok with ⟨e, o⟩
      rw [hz] at h0
      simp only at h0
      subst h0
      simp only [hu]
    | hex ds hne hdig =>
      rw [sscanf_0x_hex ds hne hdig hv]
      rfl
  refine ⟨hcolon, fun hle => ?_, fun hgt => ?_⟩
  · rw [key, if_neg (by omega)]
  · rw [key, if_pos hgt]

/-- Witness of C24: `0x000102030405` and `281474976710655` are stored,
`281474976710656` is rejected. -/
theorem match_macaddr2u64_raw_witness :
    match_macaddr2u64 0 "0x000102030405".data = (0, 0x000102030405) ∧
    match_macaddr2u64 0 "281474976710655".data = (0, 0xffffffffffff) ∧
    (match_macaddr2u64 0 "281474976710656".data).1 = -EINVAL :=
  ⟨(match_macaddr2u64_raw 0 "0x000102030405".data 0x000102030405
      (raw_numeral_denotes.hex "000102030405".data (by decide) (by decide))
      (by decide)).2.1 (by decide),
   (match_macaddr2u64_raw 0 "281474976710655".data 0xffffffffffff
      (raw_numeral_denotes.decimal "281474976710655".data (by decide) (by decide))
      (by decide)).2.1 (by decide),
   (match_macaddr2u64_raw 0 "281474976710656".data 0x1000000000000
      (raw_numeral_denotes.decimal "281474976710656".data (by decide) (by decide))
      (by decide)).2.2 (by decide)⟩

/-! ## Actions with a fixed number of arguments -/

theorem parse_action_arg_ret_code (env : repository) (type : NET_MAT_ACTION_ARG_TYPE)
    (tok : List Char) (err : Int) (slot slot1 : net_mat_action_arg) (code : Int)
    (h : parse_action_arg env type tok err slot = .ret code slot1) : code = -EINVAL := by
  unfold parse_action_arg at h
  cases type <;> simp only at h
  all_goals (try (split at h))
  all_goals (try (split at h))
  all_goals (try (split at h))
  all_goals (try (split at h))
  all_goals (try (cases h))
  all_goals (try rfl)

theorem parse_action_arg_exit_type (env : repository) (type : NET_MAT_ACTION_ARG_TYPE)
    (tok : List Char) (err : Int) (slot : net_mat_action_arg) (status : Int)
    (h : parse_action_arg env type tok err slot = .exit status) :
    type = .UNSPEC ∨ type = .VAL_MAX := by
  unfold parse_action_arg at h
  cases type <;> simp only at h
  all_goals (try (split at h))
  all_goals (try (split at h))
  all_goals (try (split at h))
  all_goals (try (split at h))
  all_goals (try (cases h))
  all_goals (first | exact Or.inl rfl | exact Or.inr rfl)

theorem drop_eq_cons_getD {α : Type} (l : List α) (i : Nat) (d : α) (r : List α) (z : α)
    (h : l.drop i = d :: r) : l.getD i z = d ∧ l.drop (i + 1) = r := by
  induction l generalizing i with
  | nil => simp at h
  | cons x xs ih =>
    cases i with
    | zero =>
      simp only [List.drop_zero, List.cons.injEq] at h
      simp [h.1, h.2]
    | succ j =>
      simp only [List.drop_succ_cons] at h
      have := ih j h
      simpa using this

theorem get_action_arg_loop_short (env : repository) (a_args : List net_mat_action_arg)
    (reqs_args : Nat) :
    ∀ (ds : List net_mat_action_arg) (tail : List net_mat_action_arg) (toks : List String)
      (i : Nat) (st : action_arg_state),
      a_args.drop i = ds ++ tail → i + ds.length ≤ reqs_args →
      (∀ d ∈ ds, d.type ≠ .VARIADIC ∧ d.type ≠ .VAL_MAX ∧ d.type ≠ .UNSPEC) →
      toks.length < ds.length → st.argv = toks →
      ∃ st1, get_action_arg_loop env a_args reqs_args false ds.length i st =
        .returned (-EINVAL) st1 := by
  intro ds
  induction ds with
  | nil => intro tail toks i st _ _ _ hlen _; simp at hlen
  | cons d ds1 ih =>
    intro tail toks i st hdrop hreq hty hlen hargv
    obtain ⟨hget, hdrop1⟩ := drop_eq_cons_getD a_args i d (ds1 ++ tail)
      net_mat_action_arg.zero (by simpa using hdrop)
    obtain ⟨hv, hm, hu⟩ := hty d (List.mem_cons_self _ _)
    have hi : i < reqs_args := by simp at hreq; omega
    rw [List.length_cons, get_action_arg_loop]
    simp only [hget, hi, hv, decide_True, ne_eq, not_false_eq_true, Bool.and_self, if_true,
      hargv]
    cases toks with
    | nil => exact ⟨_, rfl⟩
    | cons t ts =>
      simp only
      rcases hp : parse_action_arg env d.type t.data st.err
        { net_mat_action_arg.zero with type := d.type, name := d.name } with
        ⟨code, slot1⟩ | status | ⟨err, slot1⟩
      · rw [parse_action_arg_ret_code _ _ _ _ _ _ _ hp]
        exact ⟨_, rfl⟩
      · rcases parse_action_arg_exit_type _ _ _ _ _ _ hp with e | e
        · exact absurd e hu
        · exact absurd e hm
      · simp only
        by_cases he : err = 1
        · rw [if_neg (not_not.mpr he)]
          exact ih tail ts (i + 1) _ hdrop1 (by simp at hreq ⊢; omega)
            (fun x hx => hty x (List.mem_cons_of_mem _ hx))
            (by simp at hlen ⊢; omega) rfl
        · rw [if_pos he]
          exact ⟨_, rfl⟩

theorem get_action_arg_loop_exact (env : repository) (a_args : List net_mat_action_arg)
    (reqs_args : Nat) (rest : List String) :
    ∀ (ds : List net_mat_action_arg) (tail : List net_mat_action_arg) (toks : List String)
      (i : Nat) (st : action_arg_state),
      a_args.drop i = ds ++ tail → i + ds.length ≤ reqs_args →
      (∀ d ∈ ds, d.type ≠ .VARIADIC) →
      tokens_parse env st.err ds toks = true → st.argv = toks ++ rest →
      ∃ st1, get_action_arg_loop env a_args reqs_args false ds.length i st =
          .returned (st.advance + ds.length) st1 ∧
        st1.argv = rest ∧ st1.args.length = st.args.length + ds.length := by
  intro ds
  induction ds with
  | nil =>
    intro tail toks i st _ _ _ hp hargv
    cases toks with
    | nil => exact ⟨st, by simp [get_action_arg_loop], by simpa using hargv, by simp⟩
    | cons t ts => simp [tokens_parse] at hp
  | cons d ds1 ih =>
    intro tail toks i st hdrop hreq hty hp hargv
    cases toks with
    | nil => simp [tokens_parse] at hp
    | cons t ts =>
      obtain ⟨hget, hdrop1⟩ := drop_eq_cons_getD a_args i d (ds1 ++ tail)
        net_mat_action_arg.zero (by simpa using hdrop)
      have hv := hty d (List.mem_cons_self _ _)
      have hi : i < reqs_args := by simp at hreq; omega
      simp only [tokens_parse, Bool.and_eq_true] at hp
      obtain ⟨hp1, hp2⟩ := hp
      rw [List.length_cons, get_action_arg_loop]
      simp only [hget, hi, hv, decide_True, ne_eq, not_false_eq_true, Bool.and_self, if_true,
        hargv, List.cons_append]
      rcases hq : parse_action_arg env d.type t.data st.err
        { net_mat_action_arg.zero with type := d.type, name := d.name } with
        ⟨code, slot1⟩ | status | ⟨err, slot1⟩
      · rw [hq] at hp1; simp at hp1
      · rw [hq] at hp1; simp at hp1
      · rw [hq] at hp1
        have he : err = 1 := by
          by_contra hne
          split at hp1
          · rename_i e s heq
            cases heq
            exact hne rfl
          · simp at hp1
        subst he
        simp only [ne_eq, not_true_eq_false, if_false]
        obtain ⟨st1, h1, h2, h3⟩ := ih tail ts (i + 1)
          { argv := ts ++ rest, type := d.type, name := d.name, err := 1,
            advance := st.advance + 1, args := st.args ++ [slot1] }
          hdrop1 (by simp at hreq ⊢; omega)
          (fun x hx => hty x (List.mem_cons_of_mem _ hx)) hp2 rfl
        refine ⟨st1, ?_, h2, ?_⟩
        · rw [h1]
          simp only [List.length_cons]
          push_cast
          ring_nf
        · rw [h3]
          simp only [List.length_append, List.length_singleton, List.length_cons,
            List.length_nil]
          omega

/-- C23: for an action whose declared arguments (the entries before the
terminating `UNSPEC` one) are `n ≥ 1` and none of them variadic,
`get_action_arg` with `need_args = true` returns `-EINVAL` when fewer than
`n` tokens follow the action name before the end of the input (no
declared type being the enumeration bound `VAL_MAX`, on which the switch
exits), and returns `1 + n`, with `n` argument slots filled and the cursor
after the `n` tokens, when the `n` tokens that follow are each converted
by the switch for the declared type at its position. -/
theorem get_action_arg_fixed (env : repository) (kw nm : String) (a action : net_mat_action)
    (decls : List net_mat_action_arg) (hfind : env.find_action nm ≠ 0)
    (hget : env.get_actions (env.find_action nm) = some a)
    (hdecls : (a.args.getD []).takeWhile (fun x => decide (x.type ≠ .UNSPEC)) = decls)
    (hn : decls ≠ []) (hnv : ∀ d ∈ decls, d.type ≠ .VARIADIC) :
    (∀ toks : List String, toks.length < decls.length → (∀ d ∈ decls, d.type ≠ .VAL_MAX) →
      ∃ out, get_action_arg env (kw :: nm :: toks) true action = .returned (-EINVAL) out) ∧
    (∀ toks rest : List String, tokens_parse env 0 decls toks = true →
      toks.length = decls.length ∧
      ∃ act, get_action_arg env (kw :: nm :: (toks ++ rest)) true action =
          .returned (1 + decls.length) (act, rest) ∧
        act.uid = a.uid ∧ (act.args.getD []).length = decls.length) := by
  have hsplit : (a.args.getD []).drop 0 =
      decls ++ (a.args.getD []).dropWhile (fun x => decide (x.type ≠ .UNSPEC)) := by
    rw [← hdecls, List.drop_zero, List.takeWhile_append_dropWhile]
  have hreq : decls.length ≠ 0 := by
    intro h0; exact hn (List.length_eq_zero.1 h0)
  have hvar : ¬ ((a.args.getD []).getD (decls.length - 1) net_mat_action_arg.zero).type =
      .VARIADIC := by
    have hlt : decls.length - 1 < decls.length := by omega
    have hg : (a.args.getD []).getD (decls.length - 1) net_mat_action_arg.zero =
        (decls ++ (a.args.getD []).dropWhile (fun x => decide (x.type ≠ .UNSPEC))).getD
          (decls.length - 1) net_mat_action_arg.zero := by
      rw [← hsplit, List.drop_zero]
    rw [hg, List.getD_append _ _ _ _ hlt, List.getD_eq_getElem _ _ hlt]
    exact hnv _ (List.getElem_mem _)
  have hunspec : ∀ d ∈ decls, d.type ≠ .UNSPEC := by
    intro d hd
    rw [← hdecls] at hd
    simpa using List.mem_takeWhile_imp hd
  refine ⟨fun toks hlen hmax => ?_, fun toks rest hp => ?_⟩
  · obtain ⟨st1, h1⟩ := get_action_arg_loop_short env (a.args.getD []) decls.length decls _
      toks 0
      { argv := toks, type := .UNSPEC, name := none, err := 0, advance := 1, args := [] }
      hsplit (by omega) (fun d hd => ⟨hnv d hd, hmax d hd, hunspec d hd⟩) hlen rfl
    simp only [get_action_arg, List.tail_cons, hfind, if_false, hget, hdecls, hreq, false_or,
      Bool.true_eq_false, hvar, decide_False, Bool.false_eq_true, h1]
    exact ⟨_, rfl⟩
  · obtain ⟨st1, h1, h2, h3⟩ := get_action_arg_loop_exact env (a.args.getD []) decls.length
      rest decls _ toks 0
      { argv := toks ++ rest, type := .UNSPEC, name := none, err := 0, advance := 1,
        args := [] }
      hsplit (by omega) hnv hp rfl
    have hlen : ∀ (e : Int) (ds : List net_mat_action_arg) (ts : List String),
        tokens_parse env e ds ts = true → ts.length = ds.length := by
      intro e ds
      induction ds generalizing e with
      | nil =>
        intro ts h
        cases ts with
        | nil => rfl
        | cons t ts => simp [tokens_parse] at h
      | cons d ds ih =>
        intro ts h
        cases ts with
        | nil => simp [tokens_parse] at h
        | cons t ts =>
          simp only [tokens_parse, Bool.and_eq_true] at h
          simp [ih 1 ts h.2]
    refine ⟨hlen _ _ _ hp, ?_⟩
    simp only [get_action_arg, List.tail_cons, hfind, if_false, hget, hdecls, hreq, false_or,
      Bool.true_eq_false, hvar, decide_False, Bool.false_eq_true, h1]
    refine ⟨{ uid := a.uid, name := if a.name.isSome then a.name else action.name,
              args := some st1.args }, ?_, rfl, ?_⟩
    · rw [h2]
    · simpa using h3

/-- Witness of C23: `set_vlan` declares two arguments; `action set_vlan 5`
returns `-EINVAL`, `action set_vlan 5 3` returns 3 and leaves the cursor at
the end. -/
theorem get_action_arg_fixed_witness :
    (∃ out, get_action_arg demo_action_repository ["action", "set_vlan", "5"] true
        ⟨0, none, none⟩ = .returned (-EINVAL) out) ∧
    (["5", "3"].length = [demo_arg "vid" .U16, demo_arg "pcp" .U8].length ∧
      ∃ act, get_action_arg demo_action_repository
          ("action" :: "set_vlan" :: (["5", "3"] ++ [])) true ⟨0, none, none⟩ =
          .returned (1 + [demo_arg "vid" .U16, demo_arg "pcp" .U8].length) (act, []) ∧
        act.uid = 3 ∧
        (act.args.getD []).length = [demo_arg "vid" .U16, demo_arg "pcp" .U8].length) :=
  ⟨(get_action_arg_fixed demo_action_repository "action" "set_vlan"
      ⟨3, some "set_vlan",
        some [demo_arg "vid" .U16, demo_arg "pcp" .U8, net_mat_action_arg.zero]⟩
      ⟨0, none, none⟩ [demo_arg "vid" .U16, demo_arg "pcp" .U8] (by decide) (by decide)
      (by decide) (by decide) (by decide)).1 ["5"] (by decide) (by decide),
   (get_action_arg_fixed demo_action_repository "action" "set_vlan"
      ⟨3, some "set_vlan",
        some [demo_arg "vid" .U16, demo_arg "pcp" .U8, net_mat_action_arg.zero]⟩
      ⟨0, none, none⟩ [demo_arg "vid" .U16, demo_arg "pcp" .U8] (by decide) (by decide)
      (by decide) (by decide) (by decide)).2 ["5", "3"] [] (by decide)⟩

/-! ### The `lport` clause of `phys_port_lookup` -/

set_option maxRecDepth 100000 in
/-- C32 (code bug): `phys_port_lookup` with no argument at all, hence with
no `lport` clause, is not rejected: after the message `lport is required`
the function `match_get_port_send` goes on, the request is built and sent
(`nl_send_auto` is among the events) and the run ends with the value of
`nl_send_auto`, `20` here, not with a negative code. The sibling
`lport_lookup` command without its clause does return `-EINVAL` and sends
nothing. -/
theorem match_get_port_send_phys_port_without_lport :
    match_get_port_send demo_repository [] .GET_PHYS_PORT =
      .build (get_port_init demo_repository) ∧
    (get_port_init demo_repository).have_lport_query = false ∧
    nl_event.send_auto ∈
      (match_get_port_send_run demo_repository demo_netlink 10 0 [] .GET_PHYS_PORT).events ∧
    (match_get_port_send_run demo_repository demo_netlink 10 0 [] .GET_PHYS_PORT).ending =
      .returned 20 ∧
    match_get_port_send_run demo_repository demo_netlink 10 0 [] .GET_LPORT =
      ⟨[], .returned (-EINVAL)⟩ := by
  decide

/-! ### The value-taking keywords of `set_rule` at the end of the line -/

set_option maxRecDepth 100000 in
/-- C39 (code bug): `set_rule handle 1 table` ends right after `table`; the
`table` clause makes no test for the missing token and hands the `NULL`
terminator to `sscanf` (undefined behaviour), while the `handle` and `prio`
clauses in the same loop return `-EINVAL`. -/
theorem rule_set_send_table_missing_value :
    rule_set_send demo_repository ["handle", "1", "table"] = .undefined ∧
    rule_set_send demo_repository ["table"] = .undefined ∧
    rule_set_send demo_repository ["table", "1", "handle"] = .returned (-EINVAL) ∧
    rule_set_send demo_repository ["table", "1", "prio"] = .returned (-EINVAL) := by
  decide

/-! ### The cached port state of `set_port` -/

theorem set_port_loop_port_clause (env : repository) :
    ∀ (n : Nat) (argv : List String) (st st1 : set_port_state), argv.length ≤ n →
      set_port_loop env argv st = .build st1 →
      (st1.port_be = st.port_be ∧ st1.port.port_id = st.port.port_id) ∨
        has_clause "port" argv = true := by
  intro n
  induction n with
  | zero =>
    intro argv st st1 hlen h
    have : argv = [] := List.length_eq_zero.1 (Nat.le_zero.1 hlen)
    subst this
    simp [set_port_loop] at h
    subst h
    exact Or.inl ⟨rfl, rfl⟩
  | succ n ih =>
    intro argv st st1 hlen h
    match argv, hlen, h with
    | [], _, h =>
      simp [set_port_loop] at h
      subst h
      exact Or.inl ⟨rfl, rfl⟩
    | [kw], _, h =>
      simp only [set_port_loop] at h
      split_ifs at h
    | kw :: tok :: rest, hlen, h =>
      simp only [set_port_loop] at h
      cases hc : set_port_clause env kw tok st with
      | build st2 =>
        rw [hc] at h
        simp only at h
        have hlen2 : rest.length ≤ n := by simp at hlen; omega
        rcases set_port_clause_build env kw tok st st2 hc with
          ⟨_, bm, _, hst⟩ | ⟨hk, _⟩ | h3
        · rcases ih rest st2 st1 hlen2 h with h1 | h1
          · left
            subst hst
            exact h1
          · right
            simp [has_clause, h1]
        · right
          simp [has_clause, hk]
        · rcases ih rest st2 st1 hlen2 h with h1 | h1
          · left
            exact ⟨h1.1.trans h3.2.1, h1.2.trans h3.2.2.1⟩
          · right
            simp [has_clause, h1]
      | returned c => rw [hc] at h; cases h
      | exited c => rw [hc] at h; cases h
      | undefined => rw [hc] at h; cases h

/-- C40: when the argument loop of `match_set_port_send` ends normally and
the port id passes the test against `NET_MAT_PORT_ID_UNSPEC`, the token
list has a `port` clause and `port_be` holds the port that
`match_nl_get_ports` returned for that id; so the copy of the cached VLAN
membership made when no `vlans` clause was given reads a non-null
`port_be`, and the function goes on with the fetched membership. -/
theorem match_set_port_send_port_be_non_null (env : repository) (argv : List String)
    (st : set_port_state)
    (hloop : set_port_loop env argv (set_port_init env) = .build st)
    (hid : st.port.port_id ≠ env.NET_MAT_PORT_ID_UNSPEC) :
    has_clause "port" argv = true ∧
    ∃ pb, st.port_be = some pb ∧ env.match_nl_get_ports st.port.port_id = some pb ∧
      match_set_port_send env argv ≠ .undefined ∧
      (st.have_vlans = false →
        match_set_port_send env argv =
          .build
            { st.port with
              vlan := { st.port.vlan with
                        vlan_membership_bitmask := pb.vlan.vlan_membership_bitmask } }) := by
  have hf : port_be_fetched env st :=
    set_port_loop_fetched env argv.length argv (set_port_init env) st (Nat.le_refl _)
      rfl hloop
  constructor
  · rcases set_port_loop_port_clause env argv.length argv (set_port_init env) st
      (Nat.le_refl _) hloop with h1 | h1
    · exact absurd (by rw [h1.2]; rfl) hid
    · exact h1
  · unfold port_be_fetched at hf
    rcases hpb : st.port_be with _ | pb
    · rw [hpb] at hf
      exact absurd hf hid
    · rw [hpb] at hf
      refine ⟨pb, rfl, hf, ?_, ?_⟩
      · unfold match_set_port_send
        rw [hloop]
        simp only [if_neg hid, hpb]
        split_ifs <;> simp
      · intro hv
        unfold match_set_port_send
        rw [hloop]
        simp [if_neg hid, hpb, hv]

set_option maxRecDepth 100000 in
/-- Witness of C40: `set_port port 1` on the demo device. -/
theorem match_set_port_send_port_be_non_null_witness :
    set_port_loop demo_repository ["port", "1"] (set_port_init demo_repository) =
      .build
        { set_port_init demo_repository with
          port := { (set_port_init demo_repository).port with port_id := 1 },
          port_be := some (demo_port 1) } ∧
    (1 : Nat) ≠ demo_repository.NET_MAT_PORT_ID_UNSPEC ∧
    has_clause "port" ["port", "1"] = true ∧
    ∃ pb, some (demo_port 1) = some pb ∧ demo_repository.match_nl_get_ports 1 = some pb ∧
      match_set_port_send demo_repository ["port", "1"] ≠ .undefined ∧
      (false = false →
        match_set_port_send demo_repository ["port", "1"] =
          .build
            { (set_port_init demo_repository).port with
              port_id := 1,
              vlan := { (set_port_init demo_repository).port.vlan with
                        vlan_membership_bitmask := pb.vlan.vlan_membership_bitmask } }) :=
  ⟨by decide, by decide,
   match_set_port_send_port_be_non_null demo_repository ["port", "1"]
     { set_port_init demo_repository with
       port := { (set_port_init demo_repository).port with port_id := 1 },
       port_be := some (demo_port 1) } (by decide) (by decide)⟩

/-! ### The width of the field and the type-specific value forms -/

set_option maxRecDepth 100000 in
/-- C35 (code bug): the type-specific value forms are stored with no test
against the width of the field. For the 40-bit field `ethernet.station`
the value step of `get_match_arg` accepts `ff:ff:ff:ff:ff:ff` and stores
`0xffffffffffff`, above `2^40 - 1`; for the 24-bit field `ethernet.subnet`
it accepts `10.0.0.1` and stores `0x0100000a`, above `2^24 - 1`. The same
magnitudes written as numbers are refused with `-ERANGE`. -/
theorem get_match_arg_specific_value_exceeds_width :
    (get_match_arg demo_address_repository ["match", "ethernet.station", "ff:ff:ff:ff:ff:ff"]
      true false net_mat_field_ref.zero rule_set_send_keywords).1 = 2 ∧
    (get_match_arg demo_address_repository ["match", "ethernet.station", "ff:ff:ff:ff:ff:ff"]
      true false net_mat_field_ref.zero rule_set_send_keywords).2.value_u64 = 0xffffffffffff ∧
    (get_match_arg_parse_value demo_address_repository ⟨"station", 1, 40⟩
      "ff:ff:ff:ff:ff:ff".data net_mat_field_ref.zero).1 = 0 ∧
    field_max_value (some ⟨"station", 1, 40⟩) = 2 ^ 40 - 1 ∧
    (get_match_arg demo_address_repository ["match", "ethernet.station", "0xffffffffffff"]
      true false net_mat_field_ref.zero rule_set_send_keywords).1 = -ERANGE ∧
    (get_match_arg demo_address_repository ["match", "ethernet.subnet", "10.0.0.1"]
      true false net_mat_field_ref.zero rule_set_send_keywords).1 = 2 ∧
    (get_match_arg demo_address_repository ["match", "ethernet.subnet", "10.0.0.1"]
      true false net_mat_field_ref.zero rule_set_send_keywords).2.value_u32 = 0x0100000a ∧
    field_max_value (some ⟨"subnet", 2, 24⟩) = 2 ^ 24 - 1 ∧
    (get_match_arg demo_address_repository ["match", "ethernet.subnet", "0x0100000a"]
      true false net_mat_field_ref.zero rule_set_send_keywords).1 = -ERANGE := by
  decide

/-! ### The bound on the table name -/

theorem first_bytes_eq (tok : String) :
    first_bytes tok = String.mk (tok.data.take NET_MAT_MAXNAME) := by
  unfold first_bytes
  congr 1
  by_cases h : tok.data.length ≤ NET_MAT_MAXNAME
  · rw [Nat.min_eq_left h, List.take_of_length_le h, List.take_of_length_le (Nat.le_refl _)]
  · rw [Nat.min_eq_right (by omega)]

theorem match_create_tbl_clause_name (env : repository) (kw : String)
    (rest argv1 : List String) (st st1 : create_tbl_state)
    (h : match_create_tbl_clause env kw rest st = .build (argv1, st1)) :
    (∃ k, argv1 = rest.drop k) ∧
    (st1.name = st.name ∨ ∃ tok ∈ rest, st1.name = some (first_bytes tok)) := by
  unfold match_create_tbl_clause at h
  by_cases h1 : kw = "match"
  · rw [if_pos h1] at h
    by_cases hm : st.matches_.length ≥ MAX_MATCHES
    · rw [if_pos hm] at h; cases h
    rw [if_neg hm] at h
    split at h
    split_ifs at h
    cases h
    exact ⟨⟨_, rfl⟩, Or.inl rfl⟩
  rw [if_neg h1] at h
  by_cases h2 : kw = "action"
  · rw [if_pos h2] at h
    by_cases hm : st.acts.length ≥ MAX_ACTIONS
    · rw [if_pos hm] at h; cases h
    rw [if_neg hm] at h
    split at h
    · cases h
    · split_ifs at h
      cases h
      exact ⟨⟨_, rfl⟩, Or.inl rfl⟩
  rw [if_neg h2] at h
  by_cases h3 : kw = "attrib"
  · rw [if_pos h3] at h
    by_cases hm : st.attribs.length ≥ MAX_ATTRIBS
    · rw [if_pos hm] at h; cases h
    rw [if_neg hm] at h
    split at h
    split_ifs at h
    cases h
    exact ⟨⟨_, rfl⟩, Or.inl rfl⟩
  rw [if_neg h3] at h
  by_cases h4 : kw = "name"
  · rw [if_pos h4] at h
    split at h
    · cases h
    · rename_i tok rest1
      cases h
      exact ⟨⟨1, rfl⟩, Or.inr ⟨tok, List.mem_cons_self _ _, by rw [first_bytes_eq]⟩⟩
  rw [if_neg h4] at h
  by_cases h5 : kw = "source"
  · rw [if_pos h5] at h
    split at h
    · cases h
    · cases h; exact ⟨⟨1, rfl⟩, Or.inl rfl⟩
  rw [if_neg h5] at h
  by_cases h6 : kw = "id"
  · rw [if_pos h6] at h
    split at h
    · cases h
    · cases h; exact ⟨⟨1, rfl⟩, Or.inl rfl⟩
  rw [if_neg h6] at h
  by_cases h7 : kw = "size"
  · rw [if_pos h7] at h
    split at h
    · cases h
    · cases h; exact ⟨⟨1, rfl⟩, Or.inl rfl⟩
  rw [if_neg h7] at h
  cases h

theorem match_create_tbl_loop_name (env : repository) :
    ∀ (fuel : Nat) (argv : List String) (st st1 : create_tbl_state),
      match_create_tbl_loop env fuel argv st = .build st1 →
      st1.name = st.name ∨ ∃ tok ∈ argv, st1.name = some (first_bytes tok) := by
  intro fuel
  induction fuel with
  | zero =>
    intro argv st st1 h
    cases argv with
    | nil => simp only [match_create_tbl_loop] at h; cases h; exact Or.inl rfl
    | cons kw rest => simp [match_create_tbl_loop] at h
  | succ fuel ih =>
    intro argv st st1 h
    cases argv with
    | nil => simp only [match_create_tbl_loop] at h; cases h; exact Or.inl rfl
    | cons kw rest =>
      simp only [match_create_tbl_loop] at h
      rcases hc : match_create_tbl_clause env kw rest st with c | s | _ | ⟨argv1, st2⟩
      · rw [hc] at h; cases h
      · rw [hc] at h; cases h
      · rw [hc] at h; cases h
      · rw [hc] at h
        obtain ⟨⟨k, hk⟩, hn⟩ := match_create_tbl_clause_name env kw rest argv1 st st2 hc
        rcases ih argv1 st2 st1 h with h1 | ⟨tok, htok, h1⟩
        · rcases hn with h2 | ⟨tok, htok, h2⟩
          · exact Or.inl (h1.trans h2)
          · exact Or.inr ⟨tok, List.mem_cons_of_mem _ htok, h1.trans h2⟩
        · subst hk
          exact Or.inr ⟨tok, List.mem_cons_of_mem _ (List.mem_of_mem_drop htok), h1⟩

theorem match_destroy_tbl_loop_name :
    ∀ (n : Nat) (argv : List String) (st st1 : destroy_tbl_state), argv.length ≤ n →
      match_destroy_tbl_loop argv st = .build st1 →
      st1.name = st.name ∨ ∃ tok ∈ argv, st1.name = some (first_bytes tok) := by
  intro n
  induction n with
  | zero =>
    intro argv st st1 hlen h
    have : argv = [] := List.length_eq_zero.1 (Nat.le_zero.1 hlen)
    subst this
    simp [match_destroy_tbl_loop] at h
    subst h
    exact Or.inl rfl
  | succ n ih =>
    intro argv st st1 hlen h
    match argv, hlen, h with
    | [], _, h =>
      simp [match_destroy_tbl_loop] at h
      subst h
      exact Or.inl rfl
    | [kw], _, h =>
      simp only [match_destroy_tbl_loop] at h
      split_ifs at h
    | kw :: tok :: rest, hlen, h =>
      simp only [match_destroy_tbl_loop] at h
      cases hc : match_destroy_tbl_clause kw tok st with
      | returned c => rw [hc] at h; cases h
      | exited c => rw [hc] at h; cases h
      | undefined => rw [hc] at h; cases h
      | build st2 =>
        rw [hc] at h
        simp only at h
        have hn : st2.name = st.name ∨ st2.name = some (first_bytes tok) := by
          unfold match_destroy_tbl_clause at hc
          split_ifs at hc
          · cases hc; right; rw [first_bytes_eq]
          · split at hc
            · cases hc
            · cases hc; left; rfl
          · split at hc
            · cases hc
            · cases hc; left; rfl
        rcases ih rest st2 st1 (by simp at hlen; omega) h with h1 | ⟨t, ht, h1⟩
        · rcases hn with h2 | h2
          · exact Or.inl (h1.trans h2)
          · exact Or.inr ⟨tok, by simp, h1.trans h2⟩
        · exact Or.inr ⟨t, by simp [ht], h1⟩

theorem match_create_tbl_check_name (env : repository) (st : create_tbl_state)
    (t : net_mat_tbl) (g : Nat)
    (h : match_create_tbl_check env .CREATE_TABLE st = (.build t, g)) :
    st.name ≠ none ∧ t.name = st.name := by
  unfold match_create_tbl_check at h
  have hcu : ¬ (NET_MAT_CMD.CREATE_TABLE = NET_MAT_CMD.UPDATE_TABLE) := by decide
  simp only [hcu, and_false, if_false, and_true, if_true] at h
  by_cases h1 : (if st.uid = 0 then env.gen_table_id else st.uid) = 0
  · rw [if_pos h1] at h; cases h
  rw [if_neg h1] at h
  by_cases h2 : st.source = 0
  · rw [if_pos h2] at h; cases h
  rw [if_neg h2] at h
  by_cases h3 : st.name = none
  · rw [if_pos h3] at h; cases h
  rw [if_neg h3] at h
  by_cases h4 : st.size = 0
  · rw [if_pos h4] at h; cases h
  rw [if_neg h4] at h
  by_cases h5 : True ∧ env.get_table_id st.name ≠ 0
  · rw [if_pos h5] at h; cases h
  rw [if_neg h5] at h
  simp only [Prod.mk.injEq, send_result.build.injEq] at h
  refine ⟨h3, ?_⟩
  rw [← h.1]

/-- C33: the `name` clause of `create`, `update` and `destroy` stores the
first `min(length, 120)` bytes of its token (one `Char` of a token stands
for one byte), a name of at most 120 bytes that is a prefix of the token;
after the argument loop the name of the table is unset or such a
truncation of a token of the line, and the table record a `create` goes on
with has such a name. -/
theorem table_name_bounded (env : repository) (argv : List String) :
    (∀ (tok : String) (rest : List String) (st : create_tbl_state),
      match_create_tbl_clause env "name" (tok :: rest) st =
        .build (rest, { st with name := some (first_bytes tok) })) ∧
    (∀ (tok : String) (st : destroy_tbl_state),
      match_destroy_tbl_clause "name" tok st =
        .build { st with name := some (first_bytes tok) }) ∧
    (∀ tok : String,
      (first_bytes tok).data.length = min tok.data.length 120 ∧
      (first_bytes tok).data.length ≤ 120 ∧
      (first_bytes tok).data = tok.data.take (min tok.data.length 120) ∧
      (first_bytes tok).data <+: tok.data) ∧
    (∀ (fuel : Nat) (st : create_tbl_state),
      match_create_tbl_loop env fuel argv create_tbl_init = .build st →
      st.name = none ∨ ∃ tok ∈ argv, st.name = some (first_bytes tok)) ∧
    (∀ st : destroy_tbl_state,
      match_destroy_tbl_loop argv { name := none, uid := 0, source := 0 } = .build st →
      st.name = none ∨ ∃ tok ∈ argv, st.name = some (first_bytes tok)) ∧
    (∀ (t : net_mat_tbl) (g : Nat),
      match_create_tbl_send env argv .CREATE_TABLE = (.build t, g) →
      ∃ tok ∈ argv, t.name = some (first_bytes tok)) := by
  refine ⟨?_, ?_, ?_, ?_, ?_, ?_⟩
  · intro tok rest st
    rw [first_bytes_eq]
    unfold match_create_tbl_clause
    simp
  · intro tok st
    rw [first_bytes_eq]
    unfold match_destroy_tbl_clause
    simp
  · intro tok
    have hd : (first_bytes tok).data = tok.data.take (min tok.data.length 120) := rfl
    rw [hd]
    refine ⟨?_, ?_, rfl, ⟨tok.data.drop (min tok.data.length 120), List.take_append_drop _ _⟩⟩
    · rw [List.length_take]; omega
    · rw [List.length_take]; omega
  · intro fuel st h
    exact match_create_tbl_loop_name env fuel argv create_tbl_init st h
  · intro st h
    exact match_destroy_tbl_loop_name argv.length argv _ st (Nat.le_refl _) h
  · intro t g h
    unfold match_create_tbl_send at h
    cases hl : match_create_tbl_loop env argv.length argv create_tbl_init with
    | returned c => rw [hl] at h; cases h
    | exited c => rw [hl] at h; cases h
    | undefined => rw [hl] at h; cases h
    | build st =>
      rw [hl] at h
      simp only at h
      have hname := match_create_tbl_loop_name env argv.length argv create_tbl_init st hl
      obtain ⟨hnn, ht⟩ := match_create_tbl_check_name env st t g h
      rw [ht]
      rcases hname with h1 | h1
      · exact absurd h1 hnn
      · exact h1

set_option maxRecDepth 100000 in
/-- Witness of C33: `create name acl` leaves the name `acl` after the loop. -/
theorem table_name_bounded_witness :
    (some "acl" : Option String) = none ∨
      ∃ tok ∈ ["name", "acl"], (some "acl" : Option String) = some (first_bytes tok) :=
  (table_name_bounded demo_repository ["name", "acl"]).2.2.2.1 2
    { create_tbl_init with name := some "acl" } (by decide)

/-! ### Where the digit scan stops -/

theorem scan_digits_split (base : Nat) :
    ∀ (s : List Char) (acc n : Nat), ∃ pre r, s = pre ++ r ∧
      scan_digits base s acc n =
        (pre.foldl (fun acc c => acc * base + (digit_value c).getD 0) acc, n + pre.length, r) ∧
      (∀ c ∈ pre, is_digit_in base c = true) ∧
      (∀ c r1, r = c :: r1 → is_digit_in base c = false) := by
  intro s
  induction s with
  | nil =>
    intro acc n
    exact ⟨[], [], rfl, by simp [scan_digits], by simp, by simp⟩
  | cons c cs ih =>
    intro acc n
    cases hd : digit_value c with
    | none =>
      refine ⟨[], c :: cs, rfl, by simp [scan_digits, hd], by simp, ?_⟩
      intro c1 r1 h
      cases h
      simp [is_digit_in, hd]
    | some d =>
      by_cases hlt : d < base
      · obtain ⟨pre, r, hs, hscan, hpre, hr⟩ := ih (acc * base + d) (n + 1)
        refine ⟨c :: pre, r, by rw [hs]; rfl, ?_, ?_, hr⟩
        · rw [scan_digits]
          simp only [hd, hlt, if_true, List.foldl_cons, List.length_cons, Option.getD_some]
          rw [hscan]
          simp; ring
        · intro x hx
          rcases List.mem_cons.1 hx with h1 | h1
          · subst h1; simp [is_digit_in, hd, hlt]
          · exact hpre x h1
      · refine ⟨[], c :: cs, rfl, by simp [scan_digits, hd, hlt], by simp, ?_⟩
        intro c1 r1 h
        cases h
        simp [is_digit_in, hd, hlt]

theorem scan_digits_stop (base : Nat) (ds : List Char) (c : Char) (rest : List Char)
    (h : ∀ d ∈ ds, is_digit_in base d = true) (hc : is_digit_in base c = false) :
    ∀ acc n, scan_digits base (ds ++ c :: rest) acc n =
      (ds.foldl (fun acc c => acc * base + (digit_value c).getD 0) acc, n + ds.length,
        c :: rest) := by
  induction ds with
  | nil =>
    intro acc n
    unfold is_digit_in at hc
    rw [List.nil_append, scan_digits]
    cases hd : digit_value c with
    | none => simp
    | some d =>
      rw [hd] at hc
      have hlt : ¬ d < base := by simpa using hc
      simp [hlt]
  | cons d ds ih =>
    intro acc n
    have hd1 := h d (List.mem_cons_self _ _)
    unfold is_digit_in at hd1
    rw [List.cons_append, scan_digits]
    cases hd : digit_value d with
    | none => rw [hd] at hd1; simp at hd1
    | some v =>
      rw [hd] at hd1
      have hlt : v < base := by simpa using hd1
      simp only [hlt, if_true, List.foldl_cons, List.length_cons, hd, Option.getD_some]
      rw [ih (fun x hx => h x (List.mem_cons_of_mem _ hx))]
      simp; ring

theorem foldl_digits_lt (base : Nat) (pre : List Char)
    (h : ∀ c ∈ pre, is_digit_in base c = true) :
    ∀ acc, pre.foldl (fun acc c => acc * base + (digit_value c).getD 0) acc <
      (acc + 1) * base ^ pre.length := by
  induction pre with
  | nil => intro acc; simp
  | cons c cs ih =>
    intro acc
    have hc := h c (List.mem_cons_self _ _)
    unfold is_digit_in at hc
    cases hd : digit_value c with
    | none => rw [hd] at hc; simp at hc
    | some d =>
      rw [hd] at hc
      have hlt : d < base := by simpa using hc
      simp only [List.foldl_cons, hd, Option.getD_some, List.length_cons]
      have h1 := ih (fun x hx => h x (List.mem_cons_of_mem _ hx)) (acc * base + d)
      have h2 : (acc * base + d + 1) * base ^ cs.length ≤
          (acc + 1) * base ^ (cs.length + 1) := by
        rw [pow_succ]
        have : acc * base + d + 1 ≤ (acc + 1) * base := by
          have : (acc + 1) * base = acc * base + base := by ring
          omega
        calc (acc * base + d + 1) * base ^ cs.length
            ≤ ((acc + 1) * base) * base ^ cs.length := Nat.mul_le_mul_right _ this
          _ = (acc + 1) * (base ^ cs.length * base) := by ring
      omega

theorem decimal_digit_facts (c : Char) (h : 48 ≤ c.toNat ∧ c.toNat ≤ 57) :
    is_digit_in 10 c = true ∧ (digit_value c).getD 0 = c.toNat - 48 ∧ isspace c = false ∧
      c.toNat ≠ 45 ∧ c.toNat ≠ 43 := by
  have hd : digit_value c = some (c.toNat - 48) := by simp [digit_value, h]
  refine ⟨?_, by rw [hd]; rfl, ?_, by omega, by omega⟩
  · unfold is_digit_in
    rw [hd]
    simp only [decide_eq_true_eq]
    omega
  · simp [isspace]; omega

theorem non_decimal_digit_facts (c : Char) (h : ¬ (48 ≤ c.toNat ∧ c.toNat ≤ 57)) :
    is_digit_in 10 c = false ∧ is_digit_in 8 c = false := by
  unfold is_digit_in digit_value
  rw [if_neg h]
  split_ifs with h1 h2
  · simp only [decide_eq_false_iff_not]; omega
  · simp only [decide_eq_false_iff_not]; omega
  · exact ⟨rfl, rfl⟩

theorem parse_subject_decimal_then (ds : List Char) (v : Nat) (c : Char) (rest : List Char)
    (hd : decimal_denotes ds v) (hc : ¬ (48 ≤ c.toNat ∧ c.toNat ≤ 57))
    (hx : v = 0 → c.toNat ≠ 120 ∧ c.toNat ≠ 88) :
    parse_subject 0 (ds ++ c :: rest) = some ⟨false, v, c :: rest⟩ := by
  rcases hd with ⟨hne, hdig, hzero, hval⟩
  obtain ⟨hc10, hc8⟩ := non_decimal_digit_facts c hc
  cases ds with
  | nil => exact absurd rfl hne
  | cons c0 cs =>
    obtain ⟨_, hv0, hsp, hm, hp⟩ := decimal_digit_facts c0 (hdig c0 (List.mem_cons_self _ _))
    have hskip : skip_space (c0 :: cs ++ c :: rest) = c0 :: cs ++ c :: rest := by
      simp [skip_space, List.dropWhile, hsp]
    have hsign : take_sign (c0 :: cs ++ c :: rest) = (false, c0 :: cs ++ c :: rest) := by
      simp [take_sign, hm, hp]
    have hfold : ∀ (l : List Char), (∀ d ∈ l, 48 ≤ d.toNat ∧ d.toNat ≤ 57) → ∀ acc,
        l.foldl (fun acc c => acc * 10 + (digit_value c).getD 0) acc =
          l.foldl (fun acc c => acc * 10 + (c.toNat - 48)) acc := by
      intro l
      induction l with
      | nil => intro _ acc; rfl
      | cons a l ih =>
        intro hl acc
        simp only [List.foldl_cons]
        rw [(decimal_digit_facts a (hl a (List.mem_cons_self _ _))).2.1]
        exact ih (fun x hx => hl x (List.mem_cons_of_mem _ hx)) _
    by_cases h0 : c0.toNat = 48
    · have hcs : cs = [] := hzero c0 cs rfl h0
      subst hcs
      have hv : v = 0 := by
        rw [← hval]
        simp [h0]
      obtain ⟨hx1, hx2⟩ := hx hv
      have hlead : hex_lead (c0 :: c :: rest) = none := by
        cases rest with
        | nil => rfl
        | cons y ys => simp [hex_lead, hx1, hx2]
      have hbase : select_base 0 (c0 :: c :: rest) = (8, c0 :: c :: rest) := by
        simp [select_base, hlead, h0]
      have hd0 : digit_value c0 = some 0 := by simp [digit_value, h0]
      have hall : ∀ d ∈ [c0], is_digit_in 8 d = true := by
        intro d hd1
        rw [List.mem_singleton.1 hd1]
        simp [is_digit_in, hd0]
      have hscan := scan_digits_stop 8 [c0] c rest hall hc8 0 0
      simp only [List.cons_append, List.nil_append] at hskip hsign hscan ⊢
      simp only [parse_subject, hskip, hsign, hbase, hscan]
      simp [hd0, hv]
    · have hlead : ∀ l, hex_lead (c0 :: l) = none := by
        intro l
        cases l with
        | nil => rfl
        | cons y ys =>
          cases ys with
          | nil => rfl
          | cons z zs => simp [hex_lead, h0]
      have hbase : select_base 0 (c0 :: cs ++ c :: rest) = (10, c0 :: cs ++ c :: rest) := by
        simp [select_base, hlead, h0]
      have hall : ∀ d ∈ c0 :: cs, is_digit_in 10 d = true :=
        fun d hd1 => (decimal_digit_facts d (hdig d hd1)).1
      have hscan := scan_digits_stop 10 (c0 :: cs) c rest hall hc10 0 0
      rw [hfold (c0 :: cs) hdig 0, hval] at hscan
      simp only [parse_subject, hskip, hsign, hbase, hscan]
      simp

/-! ### The codes of `parse_ull` -/

theorem parse_ull_zero_iff (str : List Char) :
    (parse_ull str).1 = 0 ↔
      str ≠ [] ∧ (strtoul str 0).end_p = [] ∧ (strtoul str 0).errno = 0 := by
  unfold parse_ull
  simp only []
  by_cases he : (strtoul str 0).errno ≠ 0
  · rw [if_pos he]
    constructor
    · intro h
      exact absurd (by simpa using h) he
    · intro h
      exact absurd h.2.2 he
  · rw [if_neg he]
    have he0 : (strtoul str 0).errno = 0 := by simpa using he
    by_cases hs : str ≠ [] ∧ (strtoul str 0).end_p = []
    · rw [if_pos hs]
      exact ⟨fun _ => ⟨hs.1, hs.2, he0⟩, fun _ => rfl⟩
    · rw [if_neg hs]
      constructor
      · intro h
        simp [EINVAL] at h
      · intro h
        exact absurd ⟨h.1, h.2.1⟩ hs

theorem parse_ull_then_text (ds : List Char) (v : Nat) (c : Char) (rest : List Char)
    (hd : decimal_denotes ds v) (hc : ¬ (48 ≤ c.toNat ∧ c.toNat ≤ 57))
    (hx : v = 0 → c.toNat ≠ 120 ∧ c.toNat ≠ 88) :
    parse_ull (ds ++ c :: rest) =
      if v ≤ ULONG_MAX then (-EINVAL, v) else (-ERANGE, ULONG_MAX) := by
  have hp := parse_subject_decimal_then ds v c rest hd hc hx
  unfold parse_ull strtoul
  rw [hp]
  by_cases hv : v ≤ ULONG_MAX
  · have : ¬ v > ULONG_MAX := by omega
    simp [hv, this]
  · have : v > ULONG_MAX := by omega
    simp [hv, this, ERANGE]

theorem get_match_arg_parse_value_not_number (env : repository) (field : net_mat_field)
    (str : List Char) (m : net_mat_field_ref) (h : (parse_ull str).1 = -EINVAL) :
    get_match_arg_parse_value env field str m =
      (match match_parse_value_specific env
          { m with type := field_get_attr_type (some field) } str with
       | (err2, m2) => if err2 ≠ 0 then (-EINVAL, m2) else (0, m2)) := by
  unfold get_match_arg_parse_value match_parse_value_as_number
  rw [field_parse_value_not_number field str h]
  simp [EINVAL, ERANGE]

theorem get_match_arg_parse_value_overflow (env : repository) (field : net_mat_field)
    (str : List Char) (m : net_mat_field_ref) (h : (parse_ull str).1 = -ERANGE) :
    get_match_arg_parse_value env field str m =
      (-ERANGE, { m with type := field_get_attr_type (some field) }) := by
  have hf : field_parse_value field str = .error (-ERANGE) := by
    unfold field_parse_value
    rcases hp : parse_ull str with ⟨err, value⟩
    rw [hp] at h
    simp only at h
    subst h
    simp
  unfold get_match_arg_parse_value match_parse_value_as_number
  rw [hf]
  simp

set_option maxRecDepth 100000 in
/-- Counterexample to C34: the numeral `99999999999999999999` is above
`ULONG_MAX`, and followed by `.0.0.1` the token yields `-ERANGE`, not
`-EINVAL`; the value step of `get_match_arg` then returns `-ERANGE` for a
32-bit field without trying the dotted form, even where `inet_aton` would
accept the token. -/
theorem parse_ull_overflow_then_text :
    parse_ull "99999999999999999999.0.0.1".data = (-ERANGE, ULONG_MAX) ∧
    (parse_ull "99999999999999999999.0.0.1".data).1 ≠ -EINVAL ∧
    (match_parse_value_specific { demo_repository with inet_aton := fun _ => some 1 }
      { net_mat_field_ref.zero with type := .U32 } "99999999999999999999.0.0.1".data).1 = 0 ∧
    (get_match_arg_parse_value { demo_repository with inet_aton := fun _ => some 1 }
      ⟨"dst_ip", 1, 32⟩ "99999999999999999999.0.0.1".data net_mat_field_ref.zero).1 = -ERANGE := by
  decide

set_option maxRecDepth 100000 in
/-- C34 (amended): `parse_ull` returns 0 exactly when the string is not
empty and `strtoul` with base 0 consumes all of it without a range error. A
decimal numeral of value `v` followed by a character that is no decimal
digit (and, after the numeral `0`, is not `x` or `X`) yields `-EINVAL` when
`v ≤ ULONG_MAX` and `-ERANGE` when `v` is above it; `12abc`, `10.0.0.1`
and `00:01:02:03:04:05` yield `-EINVAL`. A token with the code `-EINVAL`
always reaches the type-specific parser in the value step of
`get_match_arg`; a token with the code `-ERANGE` never does. The numeral
alone yields 0, or `-ERANGE` when it is above `ULONG_MAX`. -/
theorem parse_ull_codes (str ds : List Char) (v : Nat) (c : Char) (rest : List Char)
    (hd : decimal_denotes ds v) (hc : ¬ (48 ≤ c.toNat ∧ c.toNat ≤ 57))
    (hx : v = 0 → c.toNat ≠ 120 ∧ c.toNat ≠ 88) :
    ((parse_ull str).1 = 0 ↔
      str ≠ [] ∧ (strtoul str 0).end_p = [] ∧ (strtoul str 0).errno = 0) ∧
    parse_ull (ds ++ c :: rest) =
      (if v ≤ ULONG_MAX then (-EINVAL, v) else (-ERANGE, ULONG_MAX)) ∧
    parse_ull ds = (if v ≤ ULONG_MAX then (0, v) else (-ERANGE, ULONG_MAX)) ∧
    parse_ull "12abc".data = (-EINVAL, 12) ∧
    parse_ull "10.0.0.1".data = (-EINVAL, 10) ∧
    parse_ull "00:01:02:03:04:05".data = (-EINVAL, 0) ∧
    (∀ (env : repository) (field : net_mat_field) (m : net_mat_field_ref),
      (parse_ull str).1 = -EINVAL →
      get_match_arg_parse_value env field str m =
        (match match_parse_value_specific env
            { m with type := field_get_attr_type (some field) } str with
         | (err2, m2) => if err2 ≠ 0 then (-EINVAL, m2) else (0, m2))) ∧
    (∀ (env : repository) (field : net_mat_field) (m : net_mat_field_ref),
      (parse_ull str).1 = -ERANGE →
      get_match_arg_parse_value env field str m =
        (-ERANGE, { m with type := field_get_attr_type (some field) })) :=
  ⟨parse_ull_zero_iff str, parse_ull_then_text ds v c rest hd hc hx,
   parse_ull_numeral ds v (.decimal ds v hd), by decide, by decide, by decide,
   fun env field m h => get_match_arg_parse_value_not_number env field str m h,
   fun env field m h => get_match_arg_parse_value_overflow env field str m h⟩

set_option maxRecDepth 100000 in
/-- Witness of C34: the token `10.0.0.1`, the numeral `10` followed by a dot. -/
theorem parse_ull_codes_witness :
    decimal_denotes "10".data 10 ∧ ¬ (48 ≤ ('.' : Char).toNat ∧ ('.' : Char).toNat ≤ 57) ∧
    parse_ull ("10".data ++ '.' :: "0.0.1".data) =
      (if 10 ≤ ULONG_MAX then (-EINVAL, 10) else (-ERANGE, ULONG_MAX)) :=
  have hd : decimal_denotes "10".data 10 :=
    ⟨by decide, by decide, by intro c cs h h0; cases h; exact absurd h0 (by decide), by decide⟩
  ⟨hd, by decide,
   (parse_ull_codes "10.0.0.1".data "10".data 10 '.' "0.0.1".data hd (by decide)
      (by decide)).2.1⟩

/-! ### The value of a 128-bit field -/

theorem parse_ull_ipv6_lead (tok : List Char) (h : ipv6_lead tok) :
    (parse_ull tok).1 = -EINVAL := by
  obtain ⟨hs, rest, rfl, hlen, hhex⟩ := h
  have hcolon : ∀ b, is_digit_in b ':' = false := by
    intro b
    simp [is_digit_in, digit_value]
  -- the first character is a hexadecimal digit or the colon
  obtain ⟨c0, tl, hs0, hc0⟩ : ∃ c0 tl, hs ++ ':' :: rest = c0 :: tl ∧
      (is_digit_in 16 c0 = true ∨ c0 = ':') := by
    cases hs with
    | nil => exact ⟨':', rest, rfl, Or.inr rfl⟩
    | cons a as => exact ⟨a, as ++ ':' :: rest, rfl, Or.inl (hhex a (List.mem_cons_self _ _))⟩
  have hfacts : isspace c0 = false ∧ c0.toNat ≠ 45 ∧ c0.toNat ≠ 43 := by
    rcases hc0 with h1 | h1
    · obtain ⟨a, b, c, _⟩ := is_digit_in_16_facts c0 h1
      exact ⟨a, b, c⟩
    · subst h1; decide
  have hlead : hex_lead (hs ++ ':' :: rest) = none := by
    cases hs with
    | nil =>
      cases rest with
      | nil => rfl
      | cons y ys =>
        cases ys with
        | nil => rfl
        | cons z zs => simp [hex_lead]
    | cons a as =>
      cases as with
      | nil =>
        cases rest with
        | nil => rfl
        | cons y ys => simp [hex_lead]
      | cons b bs =>
        obtain ⟨_, _, _, hx, hX, _⟩ :=
          is_digit_in_16_facts b (hhex b (by simp))
        cases hbs : bs ++ ':' :: rest with
        | nil => simp at hbs
        | cons y ys =>
          simp only [List.cons_append, hbs]
          simp [hex_lead, hx, hX]
  obtain ⟨b, hb, hbase⟩ : ∃ b, (b = 8 ∨ b = 10) ∧
      select_base 0 (hs ++ ':' :: rest) = (b, hs ++ ':' :: rest) := by
    unfold select_base
    rw [hlead, hs0]
    by_cases h48 : c0.toNat = 48
    · exact ⟨8, Or.inl rfl, by simp [h48]⟩
    · exact ⟨10, Or.inr rfl, by simp [h48]⟩
  have hskip : skip_space (hs ++ ':' :: rest) = hs ++ ':' :: rest := by
    rw [hs0]
    simp [skip_space, List.dropWhile, hfacts.1]
  have hsign : take_sign (hs ++ ':' :: rest) = (false, hs ++ ':' :: rest) := by
    rw [hs0]
    simp [take_sign, hfacts.2.1, hfacts.2.2]
  obtain ⟨pre, r, hsplit, hscan, hpre, _⟩ := scan_digits_split b (hs ++ ':' :: rest) 0 0
  have hnot : ':' ∉ pre := by
    intro hmem
    have := hpre ':' hmem
    rw [hcolon b] at this
    cases this
  have hr : r ≠ [] := by
    intro hr0
    subst hr0
    rw [List.append_nil] at hsplit
    exact hnot (by rw [← hsplit]; simp)
  have hprelen : pre.length ≤ 4 := by
    rcases List.append_eq_append_iff.1 hsplit with ⟨c, h1, h2⟩ | ⟨a, h1, _⟩
    · cases c with
      | nil =>
        rw [List.append_nil] at h1
        rw [h1]; exact hlen
      | cons x xs =>
        simp only [List.cons_append, List.cons.injEq] at h2
        exact absurd (by rw [h1, ← h2.1]; simp) hnot
    · have : hs.length = (pre ++ a).length := by rw [h1]
      rw [List.length_append] at this
      omega
  have hmag : pre.foldl (fun acc c => acc * b + (digit_value c).getD 0) 0 ≤ ULONG_MAX := by
    have h1 := foldl_digits_lt b pre hpre 0
    have h2 : b ^ pre.length ≤ 10 ^ 4 := by
      calc b ^ pre.length ≤ 10 ^ pre.length := Nat.pow_le_pow_left (by omega) _
        _ ≤ 10 ^ 4 := Nat.pow_le_pow_right (by decide) hprelen
    have h3 : (10 : Nat) ^ 4 ≤ ULONG_MAX := by decide
    omega
  have hne : hs ++ ':' :: rest ≠ [] := by simp
  unfold parse_ull strtoul parse_subject
  simp only [hskip, hsign, hbase, hscan, Nat.zero_add]
  by_cases hp0 : pre.length = 0
  · simp [hp0, hne]
  · have : ¬ pre.foldl (fun acc c => acc * b + (digit_value c).getD 0) 0 > ULONG_MAX := by
      omega
    simp [hp0, this, hr]

theorem get_match_arg_parse_value_128 (env : repository) (field : net_mat_field)
    (tok : List Char) (m : net_mat_field_ref) (hw : field.bitwidth = 128) :
    get_match_arg_parse_value env field tok m =
      if (parse_ull tok).1 = -ERANGE ∨ ((parse_ull tok).1 = 0 ∧ (parse_ull tok).2 ≠ 0) then
        (-ERANGE, { m with type := .IN6 })
      else
        match env.inet_pton6 tok with
        | none => (-EINVAL, { m with type := .IN6 })
        | some a => (0, { m with type := .IN6, value_in6 := a }) := by
  have htype : field_get_attr_type (some field) = .IN6 := by
    simp [field_get_attr_type, hw]
  have hmax : field_max_value (some field) = 0 := by
    simp [field_max_value, hw]
  unfold get_match_arg_parse_value match_parse_value_as_number field_parse_value
  rw [htype, hmax]
  rcases hp : parse_ull tok with ⟨err, value⟩
  simp only [Nat.le_zero_eq]
  by_cases h1 : err = -ERANGE ∨ (err = 0 ∧ ¬ value = 0)
  · rw [if_pos h1, if_pos h1]
    simp
  · rw [if_neg h1, if_neg h1]
    by_cases h0 : err = 0
    · rw [if_pos h0]
      simp only [match_set_value_ll, match_parse_value_specific]
      cases env.inet_pton6 tok <;> simp [EINVAL, ERANGE]
    · rw [if_neg h0]
      have h2 : ¬ err = -ERANGE := fun h => h1 (Or.inl h)
      simp only [match_parse_value_specific, h2, h0, if_false, ne_eq, not_false_eq_true,
        if_true]
      cases env.inet_pton6 tok <;> simp [EINVAL]

/-- C37: for a 128-bit field, where `inet_pton` accepts only text that
starts as an IPv6 text form does (at most four hexadecimal digits, then a
colon), the value step of `get_match_arg` succeeds exactly when
`inet_pton(AF_INET6)` accepts the token, and the address is then stored;
a token that `parse_ull` accepts as a number is rejected, with `-ERANGE`
when the number is not zero and with `-EINVAL` when it is zero. -/
theorem get_match_arg_parse_value_in6 (env : repository) (field : net_mat_field)
    (tok : List Char) (m : net_mat_field_ref) (hw : field.bitwidth = 128)
    (hpton : ∀ t a, env.inet_pton6 t = some a → ipv6_lead t) :
    ((get_match_arg_parse_value env field tok m).1 = 0 ↔ (env.inet_pton6 tok).isSome = true) ∧
    (∀ a, env.inet_pton6 tok = some a →
      get_match_arg_parse_value env field tok m =
        (0, { m with type := .IN6, value_in6 := a })) ∧
    ((parse_ull tok).1 = 0 → (parse_ull tok).2 ≠ 0 →
      (get_match_arg_parse_value env field tok m).1 = -ERANGE) ∧
    ((parse_ull tok).1 = 0 → (parse_ull tok).2 = 0 →
      (get_match_arg_parse_value env field tok m).1 = -EINVAL) := by
  have hchar := get_match_arg_parse_value_128 env field tok m hw
  have hacc : ∀ a, env.inet_pton6 tok = some a →
      get_match_arg_parse_value env field tok m =
        (0, { m with type := .IN6, value_in6 := a }) := by
    intro a ha
    have hp := parse_ull_ipv6_lead tok (hpton tok a ha)
    rw [hchar, if_neg (by rw [hp]; simp [EINVAL, ERANGE]), ha]
  refine ⟨⟨?_, ?_⟩, hacc, ?_, ?_⟩
  · intro h
    rw [hchar] at h
    split_ifs at h
    · simp [ERANGE] at h
    · cases hp : env.inet_pton6 tok with
      | none => rw [hp] at h; simp [EINVAL] at h
      | some a => rfl
  · intro h
    cases hp : env.inet_pton6 tok with
    | none => rw [hp] at h; cases h
    | some a => rw [hacc a hp]
  · intro h0 hv
    rw [hchar, if_pos (Or.inr ⟨h0, hv⟩)]
  · intro h0 hv
    have hnone : env.inet_pton6 tok = none := by
      cases hp : env.inet_pton6 tok with
      | none => rfl
      | some a =>
        have := parse_ull_ipv6_lead tok (hpton tok a hp)
        rw [h0] at this
        simp [EINVAL] at this
    rw [hchar, if_neg (by rw [h0, hv]; simp [ERANGE]), hnone]

set_option maxRecDepth 100000 in
/-- Witness of C37: the field `ethernet.ip6` of the demo pipeline, whose
`inet_pton` accepts `::1` only; the token `::1` is stored. -/
theorem get_match_arg_parse_value_in6_witness :
    (⟨"ip6", 3, 128⟩ : net_mat_field).bitwidth = 128 ∧
    (∀ t a, demo_address_repository.inet_pton6 t = some a → ipv6_lead t) ∧
    get_match_arg_parse_value demo_address_repository ⟨"ip6", 3, 128⟩ "::1".data
        net_mat_field_ref.zero =
      (0, { net_mat_field_ref.zero with type := .IN6, value_in6 := ⟨0, 0, 0, 0x01000000⟩ }) :=
  have hpton : ∀ t a, demo_address_repository.inet_pton6 t = some a → ipv6_lead t := by
    intro t a h
    by_cases ht : t = "::1".data
    · subst ht
      exact ⟨[], ":1".data, rfl, by decide, by simp⟩
    · simp [demo_address_repository, ht] at h
  ⟨rfl, hpton,
   (get_match_arg_parse_value_in6 demo_address_repository ⟨"ip6", 3, 128⟩ "::1".data
      net_mat_field_ref.zero rfl hpton).2.1 ⟨0, 0, 0, 0x01000000⟩ (by decide)⟩

/-! ### The colon form of a MAC address -/

theorem octet_text_value (hs : List Char) (h : octet_text hs) : numeral_value 16 hs < 256 := by
  obtain ⟨_, hlen, hdig⟩ := h
  have h1 := foldl_digits_lt 16 hs hdig 0
  have h2 : 16 ^ hs.length ≤ 16 ^ 2 := Nat.pow_le_pow_right (by decide) hlen
  unfold numeral_value
  omega

theorem scan_unsigned_octet (hs : List Char) (t : List Char) (h : octet_text hs)
    (ht : t = [] ∨ ∃ r, t = ':' :: r) :
    scan_unsigned 16 8 (hs ++ t) = .converted (numeral_value 16 hs) t := by
  have hv := octet_text_value hs h
  obtain ⟨hne, hlen, hdig⟩ := h
  cases hs with
  | nil => exact absurd rfl hne
  | cons d ds =>
    obtain ⟨hsp, hm, hp, _, _, _⟩ := is_digit_in_16_facts d (hdig d (List.mem_cons_self _ _))
    have hskip : skip_space (d :: ds ++ t) = d :: ds ++ t := by
      simp [skip_space, List.dropWhile, hsp]
    have hsign : take_sign (d :: ds ++ t) = (false, d :: ds ++ t) := by
      simp [take_sign, hm, hp]
    have hlead : hex_lead (d :: ds ++ t) = none := by
      cases ds with
      | nil =>
        rcases ht with h1 | ⟨r, h1⟩
        · subst h1; rfl
        · subst h1
          cases r with
          | nil => rfl
          | cons y ys => simp [hex_lead]
      | cons x xs =>
        obtain ⟨_, _, _, hx, hX, _⟩ := is_digit_in_16_facts x (hdig x (by simp))
        cases hxs : xs ++ t with
        | nil =>
          simp only [List.cons_append, hxs]
          rfl
        | cons y ys =>
          simp only [List.cons_append, hxs]
          simp [hex_lead, hx, hX]
    have hbase : select_base 16 (d :: ds ++ t) = (16, d :: ds ++ t) := by
      unfold select_base
      rw [hlead]
      simp
    have hscan : scan_digits 16 (d :: ds ++ t) 0 0 =
        (numeral_value 16 (d :: ds), (d :: ds).length, t) := by
      rcases ht with h1 | ⟨r, h1⟩
      · subst h1
        rw [List.append_nil, scan_digits_all 16 (d :: ds) hdig 0 0, Nat.zero_add]
        rfl
      · subst h1
        rw [scan_digits_stop 16 (d :: ds) ':' r hdig (by decide) 0 0, Nat.zero_add]
        rfl
    have hmax : ¬ numeral_value 16 (d :: ds) > ULONG_MAX := by
      have : (256 : Nat) ≤ ULONG_MAX := by decide
      omega
    unfold scan_unsigned parse_subject
    rw [hskip]
    simp only [hsign, hbase, hscan]
    simp [hmax, Nat.mod_eq_of_lt hv]

theorem scan_hhx_colon_step (k : Nat) (hs r : List Char) (done : List Nat)
    (h : octet_text hs) :
    scan_hhx_colon (k + 1) (hs ++ ':' :: r) done =
      scan_hhx_colon k r (done ++ [numeral_value 16 hs]) := by
  rw [scan_hhx_colon, scan_unsigned_octet hs (':' :: r) h (Or.inr ⟨r, rfl⟩)]
  simp

theorem scan_hhx_colon_last (hs : List Char) (done : List Nat) (h : octet_text hs) :
    scan_hhx_colon 0 hs done = ((done.length : Int) + 1, done ++ [numeral_value 16 hs]) := by
  have h1 := scan_unsigned_octet hs [] h (Or.inl rfl)
  rw [List.append_nil] at h1
  rw [scan_hhx_colon, h1]

/-- C36: for six octets each written as one or two hexadecimal digits,
`match_macaddr2u64` on the token `o0:o1:o2:o3:o4:o5` returns 0 and leaves
the two high bytes of the destination as they were, the six low bytes
being `o0*2^40 + o1*2^32 + o2*2^24 + o3*2^16 + o4*2^8 + o5` (little-endian
host): the first printed octet is the most significant byte, and a
destination that was 0 holds exactly that number. -/
theorem match_macaddr2u64_octets (dst : Nat) (h0 h1 h2 h3 h4 h5 : List Char)
    (hh0 : octet_text h0) (hh1 : octet_text h1) (hh2 : octet_text h2)
    (hh3 : octet_text h3) (hh4 : octet_text h4) (hh5 : octet_text h5) :
    match_macaddr2u64 dst (mac_text h0 h1 h2 h3 h4 h5) =
      (0, dst / 2 ^ 48 * 2 ^ 48 +
        (numeral_value 16 h0 * 2 ^ 40 + numeral_value 16 h1 * 2 ^ 32 +
         numeral_value 16 h2 * 2 ^ 24 + numeral_value 16 h3 * 2 ^ 16 +
         numeral_value 16 h4 * 2 ^ 8 + numeral_value 16 h5)) ∧
    match_macaddr2u64 0 (mac_text h0 h1 h2 h3 h4 h5) =
      (0, numeral_value 16 h0 * 2 ^ 40 + numeral_value 16 h1 * 2 ^ 32 +
         numeral_value 16 h2 * 2 ^ 24 + numeral_value 16 h3 * 2 ^ 16 +
         numeral_value 16 h4 * 2 ^ 8 + numeral_value 16 h5) ∧
    (match_macaddr2u64 dst (mac_text h0 h1 h2 h3 h4 h5)).2 / 2 ^ 48 = dst / 2 ^ 48 ∧
    (match_macaddr2u64 dst (mac_text h0 h1 h2 h3 h4 h5)).2 % 2 ^ 48 =
      numeral_value 16 h0 * 2 ^ 40 + numeral_value 16 h1 * 2 ^ 32 +
         numeral_value 16 h2 * 2 ^ 24 + numeral_value 16 h3 * 2 ^ 16 +
         numeral_value 16 h4 * 2 ^ 8 + numeral_value 16 h5 := by
  have v0 := octet_text_value h0 hh0
  have v1 := octet_text_value h1 hh1
  have v2 := octet_text_value h2 hh2
  have v3 := octet_text_value h3 hh3
  have v4 := octet_text_value h4 hh4
  have v5 := octet_text_value h5 hh5
  have hany : (mac_text h0 h1 h2 h3 h4 h5).any (fun c => c.toNat = 58) = true := by
    simp [mac_text]
  have hscan : scan_hhx_colon 5 (mac_text h0 h1 h2 h3 h4 h5) [] =
      (6, [numeral_value 16 h0, numeral_value 16 h1, numeral_value 16 h2,
           numeral_value 16 h3, numeral_value 16 h4, numeral_value 16 h5]) := by
    unfold mac_text
    rw [scan_hhx_colon_step 4 h0 _ _ hh0, scan_hhx_colon_step 3 h1 _ _ hh1,
      scan_hhx_colon_step 2 h2 _ _ hh2, scan_hhx_colon_step 1 h3 _ _ hh3,
      scan_hhx_colon_step 0 h4 _ _ hh4, scan_hhx_colon_last h5 _ hh5]
    rfl
  have hgen : ∀ d, match_macaddr2u64 d (mac_text h0 h1 h2 h3 h4 h5) =
      (0, d / 2 ^ 48 * 2 ^ 48 +
        (numeral_value 16 h0 * 2 ^ 40 + numeral_value 16 h1 * 2 ^ 32 +
         numeral_value 16 h2 * 2 ^ 24 + numeral_value 16 h3 * 2 ^ 16 +
         numeral_value 16 h4 * 2 ^ 8 + numeral_value 16 h5)) := by
    intro d
    unfold match_macaddr2u64
    rw [if_pos hany, hscan]
    simp only [ne_eq, not_true_eq_false, if_false, memcpy_eth, List.reverse_cons,
      List.reverse_nil, List.nil_append, List.cons_append, List.getD_cons_zero,
      List.getD_cons_succ]
    congr 2
    ring
  have hlow : numeral_value 16 h0 * 2 ^ 40 + numeral_value 16 h1 * 2 ^ 32 +
         numeral_value 16 h2 * 2 ^ 24 + numeral_value 16 h3 * 2 ^ 16 +
         numeral_value 16 h4 * 2 ^ 8 + numeral_value 16 h5 < 2 ^ 48 := by
    omega
  refine ⟨hgen dst, ?_, ?_, ?_⟩
  · rw [hgen 0]
    simp
  · rw [hgen dst]
    simp only
    rw [Nat.add_comm, Nat.add_mul_div_right _ _ (by positivity), Nat.div_eq_of_lt hlow,
      Nat.zero_add]
  · rw [hgen dst]
    simp only
    rw [Nat.add_comm, Nat.add_mul_mod_self_right, Nat.mod_eq_of_lt hlow]

set_option maxRecDepth 100000 in
/-- Witness of C36: the token `00:1b:21:3c:9d:f8` and a destination whose
high bytes are `0xabcd`. -/
theorem match_macaddr2u64_octets_witness :
    octet_text "1b".data ∧
    match_macaddr2u64 0xabcd000000000000 "00:1b:21:3c:9d:f8".data =
      (0, 0xabcd000000000000 / 2 ^ 48 * 2 ^ 48 +
        (numeral_value 16 "00".data * 2 ^ 40 + numeral_value 16 "1b".data * 2 ^ 32 +
         numeral_value 16 "21".data * 2 ^ 24 + numeral_value 16 "3c".data * 2 ^ 16 +
         numeral_value 16 "9d".data * 2 ^ 8 + numeral_value 16 "f8".data)) ∧
    match_macaddr2u64 0xabcd000000000000 "00:1b:21:3c:9d:f8".data = (0, 0xabcd001b213c9df8) :=
  have ho : ∀ hs : List Char, hs ≠ [] → hs.length ≤ 2 →
      hs.all (fun c => is_digit_in 16 c) = true → octet_text hs :=
    fun hs h1 h2 h3 => ⟨h1, h2, fun c hc => List.all_eq_true.1 h3 c hc⟩
  ⟨ho _ (by decide) (by decide) (by decide),
   (match_macaddr2u64_octets 0xabcd000000000000 "00".data "1b".data "21".data "3c".data
      "9d".data "f8".data (ho _ (by decide) (by decide) (by decide))
      (ho _ (by decide) (by decide) (by decide)) (ho _ (by decide) (by decide) (by decide))
      (ho _ (by decide) (by decide) (by decide)) (ho _ (by decide) (by decide) (by decide))
      (ho _ (by decide) (by decide) (by decide))).1,
   by decide⟩

/-! ### The handlers and the receive loop -/

theorem rx_handler_run_warning (p : nlmsg → Int) (h : rx_handler) (msg : nlmsg)
    (hp : p msg < 0) : rx_handler.run p h msg = .warning := by
  cases h <;> simp [rx_handler.run, hp]

theorem process_rx_handled_loop (nl : netlink) (p : nlmsg → Int) :
    ∀ fuel i,
      (process_rx_handled nl p fuel i).2 = (process_rx_loop nl fuel i).2 ∧
      (process_rx_handled nl p fuel i).1.map Prod.fst =
        dispatched (process_rx_loop nl fuel i).1 := by
  intro fuel
  induction fuel with
  | zero => intro i; simp [process_rx_handled, process_rx_loop, dispatched]
  | succ fuel ih =>
    intro i
    unfold process_rx_handled process_rx_loop
    rcases hr : nl.match_nl_recv_msg i with _ | msg
    · simp [dispatched]
    · simp only
      by_cases hd : msg.nlmsg_type = NLMSG_DONE
      · simp [hd, dispatched]
      · simp only [hd, if_false]
        rcases hcb : type_cb nl msg.cmd with h | _ | _
        · simp only
          by_cases hm : msg.nlmsg_flags &&& NLM_F_MULTI = 0
          · simp [hm, dispatched]
          · simp only [hm, if_false]
            obtain ⟨h1, h2⟩ := ih (i + 1)
            simp [dispatched, h1, h2]
        · simp [dispatched]
        · simp [dispatched]

theorem process_rx_handled_step (nl : netlink) (p : nlmsg → Int) (fuel i : Nat) (msg : nlmsg)
    (h : rx_handler) (hr : nl.match_nl_recv_msg i = .message msg)
    (hd : msg.nlmsg_type ≠ NLMSG_DONE) (hcb : type_cb nl msg.cmd = .handler h) :
    process_rx_handled nl p (fuel + 1) i =
      if msg.nlmsg_flags &&& NLM_F_MULTI = 0 then
        ([(msg, rx_handler.run p h msg)], .finished)
      else
        ((msg, rx_handler.run p h msg) :: (process_rx_handled nl p fuel (i + 1)).1,
          (process_rx_handled nl p fuel (i + 1)).2) := by
  rw [process_rx_handled]
  simp only [hr, hd, if_false, hcb]

theorem process_rx_loop_next (nl : netlink) (fuel i : Nat) (msg : nlmsg)
    (h : rx_handler) (hr : nl.match_nl_recv_msg i = .message msg)
    (hd : msg.nlmsg_type ≠ NLMSG_DONE) (hcb : type_cb nl msg.cmd = .handler h)
    (hm : msg.nlmsg_flags &&& NLM_F_MULTI ≠ 0) :
    nl_event.recv_msg (nl.match_nl_recv_msg (i + 1)) ∈ (process_rx_loop nl (fuel + 2) i).1 := by
  rw [process_rx_loop]
  simp only [hr, hd, if_false, hcb, hm]
  rw [process_rx_loop]
  rcases hr1 : nl.match_nl_recv_msg (i + 1) with _ | msg1
  · simp
  · simp only
    split_ifs
    · simp
    · rcases type_cb nl msg1.cmd with h1 | _ | _ <;> simp
    · rcases type_cb nl msg1.cmd with h1 | _ | _ <;> simp

/-- C31: a handler whose `genlmsg_parse` fails prints its warning and
returns; how `process_rx_message` goes on does not depend on what
`genlmsg_parse` returns: with any two parse results the same messages are
handed to handlers and the loop ends the same way, as in the loop without
the handler bodies. After a message that is no completion marker and has a
handler, the loop stops when `NLM_F_MULTI` is clear and receives the next
message when it is set, whatever the handler did. -/
theorem process_rx_message_parse_independent (nl : netlink) (p q : nlmsg → Int)
    (fuel i : Nat) :
    (∀ (h : rx_handler) (msg : nlmsg), p msg < 0 → rx_handler.run p h msg = .warning) ∧
    (process_rx_handled nl p fuel i).2 = (process_rx_handled nl q fuel i).2 ∧
    (process_rx_handled nl p fuel i).1.map Prod.fst =
      (process_rx_handled nl q fuel i).1.map Prod.fst ∧
    (process_rx_handled nl p fuel i).2 = (process_rx_loop nl fuel i).2 ∧
    (process_rx_handled nl p fuel i).1.map Prod.fst =
      dispatched (process_rx_loop nl fuel i).1 ∧
    (∀ (msg : nlmsg) (h : rx_handler), nl.match_nl_recv_msg i = .message msg →
      msg.nlmsg_type ≠ NLMSG_DONE → type_cb nl msg.cmd = .handler h →
      process_rx_handled nl p (fuel + 1) i =
        (if msg.nlmsg_flags &&& NLM_F_MULTI = 0 then
          ([(msg, rx_handler.run p h msg)], .finished)
        else
          ((msg, rx_handler.run p h msg) :: (process_rx_handled nl p fuel (i + 1)).1,
            (process_rx_handled nl p fuel (i + 1)).2)) ∧
      (msg.nlmsg_flags &&& NLM_F_MULTI ≠ 0 →
        nl_event.recv_msg (nl.match_nl_recv_msg (i + 1)) ∈
          (process_rx_loop nl (fuel + 2) i).1)) := by
  obtain ⟨hp1, hp2⟩ := process_rx_handled_loop nl p fuel i
  obtain ⟨hq1, hq2⟩ := process_rx_handled_loop nl q fuel i
  exact ⟨fun h msg hp => rx_handler_run_warning p h msg hp, hp1.trans hq1.symm,
    hp2.trans hq2.symm, hp1, hp2,
    fun msg h hr hd hcb =>
      ⟨process_rx_handled_step nl p fuel i msg h hr hd hcb,
       fun hm => process_rx_loop_next nl fuel i msg h hr hd hcb hm⟩⟩

set_option maxRecDepth 100000 in
/-- Witness of C31: on the demo exchange with a `genlmsg_parse` that always
fails, the first part of the reply only draws a warning and the second
part is received. -/
theorem process_rx_message_parse_independent_witness :
    demo_netlink.match_nl_recv_msg 0 = .message ⟨16, 2, 0⟩ ∧
    (⟨16, 2, 0⟩ : nlmsg).nlmsg_type ≠ NLMSG_DONE ∧
    type_cb demo_netlink (⟨16, 2, 0⟩ : nlmsg).cmd = .handler .match_cmd_get_tables ∧
    (⟨16, 2, 0⟩ : nlmsg).nlmsg_flags &&& NLM_F_MULTI ≠ 0 ∧
    nl_event.recv_msg (demo_netlink.match_nl_recv_msg (0 + 1)) ∈
      (process_rx_loop demo_netlink (1 + 2) 0).1 ∧
    process_rx_handled demo_netlink (fun _ => -1) 3 0 =
      ([(⟨16, 2, 0⟩, .warning), (⟨16, 2, 0⟩, .warning)], .finished) :=
  ⟨by decide, by decide, by decide, by decide,
   ((process_rx_message_parse_independent demo_netlink (fun _ => -1) (fun _ => 0) 1 0).2.2.2.2.2
      ⟨16, 2, 0⟩ .match_cmd_get_tables (by decide) (by decide) (by decide)).2 (by decide),
   by decide⟩

/-! ### The slots of a variadic action -/

theorem parse_action_arg_keeps (env : repository) (type : NET_MAT_ACTION_ARG_TYPE)
    (tok : List Char) (err : Int) (slot slot1 : net_mat_action_arg)
    (h : (∃ code, parse_action_arg env type tok err slot = .ret code slot1) ∨
      (∃ e, parse_action_arg env type tok err slot = .next e slot1)) :
    slot1.type = slot.type ∧ slot1.name = slot.name := by
  unfold parse_action_arg at h
  rcases h with ⟨code, h⟩ | ⟨e, h⟩
  · cases type <;> simp only at h
    all_goals (try (split at h))
    all_goals (try (split at h))
    all_goals (try (split at h))
    all_goals (try (split at h))
    all_goals (try (cases h))
    all_goals (exact ⟨rfl, rfl⟩)
  · cases type <;> simp only at h
    all_goals (try (split at h))
    all_goals (try (split at h))
    all_goals (try (split at h))
    all_goals (try (split at h))
    all_goals (try (cases h))
    all_goals (exact ⟨rfl, rfl⟩)

theorem last_non_variadic_snoc (l : List net_mat_action_arg) (d : net_mat_action_arg) :
    last_non_variadic (l ++ [d]) =
      if d.type ≠ .VARIADIC then some d else last_non_variadic l := by
  unfold last_non_variadic
  rw [List.filter_append]
  by_cases hd : d.type ≠ .VARIADIC
  · rw [if_pos hd]
    have : List.filter (fun d => decide (d.type ≠ .VARIADIC)) [d] = [d] := by
      simp [List.filter, hd]
    rw [this, List.getLast?_append]
    simp
  · rw [if_neg hd]
    have : List.filter (fun d => decide (d.type ≠ .VARIADIC)) [d] = [] := by
      simp [List.filter, hd]
    rw [this, List.append_nil]

theorem bound_step (a_args : List net_mat_action_arg) (reqs_args i : Nat)
    (hreq : reqs_args ≤ a_args.length) :
    bound_type (a_args.take (min (i + 1) reqs_args)) =
      (if (decide (i < reqs_args) &&
          decide ((a_args.getD i net_mat_action_arg.zero).type ≠ .VARIADIC)) = true
       then (a_args.getD i net_mat_action_arg.zero).type
       else bound_type (a_args.take (min i reqs_args))) ∧
    bound_name (a_args.take (min (i + 1) reqs_args)) =
      (if (decide (i < reqs_args) &&
          decide ((a_args.getD i net_mat_action_arg.zero).type ≠ .VARIADIC)) = true
       then (a_args.getD i net_mat_action_arg.zero).name
       else bound_name (a_args.take (min i reqs_args))) := by
  by_cases hi : i < reqs_args
  · have hlt : i < a_args.length := by omega
    have h1 : min (i + 1) reqs_args = i + 1 := by omega
    have h2 : min i reqs_args = i := by omega
    have hg : a_args.getD i net_mat_action_arg.zero = a_args[i] :=
      List.getD_eq_getElem _ _ hlt
    have ht : a_args.take (i + 1) = a_args.take i ++ [a_args[i]] := by
      rw [List.take_succ, List.getElem?_eq_getElem hlt]
      rfl
    rw [h1, h2, hg, ht]
    unfold bound_type bound_name
    rw [last_non_variadic_snoc]
    by_cases hv : a_args[i].type ≠ .VARIADIC
    · simp [hi, hv]
    · simp [hi, hv]
  · have h1 : min (i + 1) reqs_args = reqs_args := by omega
    have h2 : min i reqs_args = reqs_args := by omega
    rw [h1, h2]
    simp [hi]

theorem slots_bound_snoc (a_args : List net_mat_action_arg) (reqs_args : Nat)
    (args : List net_mat_action_arg) (slot : net_mat_action_arg)
    (h : slots_bound a_args reqs_args args)
    (ht : slot.type = bound_type (a_args.take (min (args.length + 1) reqs_args)))
    (hn : slot.name = bound_name (a_args.take (min (args.length + 1) reqs_args))) :
    slots_bound a_args reqs_args (args ++ [slot]) := by
  intro j s hj
  by_cases hlt : j < args.length
  · rw [List.getElem?_append_left hlt] at hj
    exact h j s hj
  · by_cases heq : j = args.length
    · subst heq
      rw [List.getElem?_append_right (Nat.le_refl _)] at hj
      simp at hj
      subst hj
      exact ⟨ht, hn⟩
    · rw [List.getElem?_eq_none (by simp; omega)] at hj
      cases hj

theorem get_action_arg_loop_slots (env : repository) (a_args : List net_mat_action_arg)
    (reqs_args : Nat) (variadic : Bool) (hreq : reqs_args ≤ a_args.length) :
    ∀ (k i : Nat) (st st1 : action_arg_state) (r : Int),
      st.args.length = i →
      st.type = bound_type (a_args.take (min i reqs_args)) →
      st.name = bound_name (a_args.take (min i reqs_args)) →
      slots_bound a_args reqs_args st.args →
      get_action_arg_loop env a_args reqs_args variadic k i st = .returned r st1 →
      slots_bound a_args reqs_args st1.args := by
  intro k
  induction k with
  | zero =>
    intro i st st1 r _ _ _ hs h
    simp only [get_action_arg_loop, outcome.returned.injEq] at h
    rw [← h.2]
    exact hs
  | succ k ih =>
    intro i st st1 r hlen htype hname hs h
    obtain ⟨hbt, hbn⟩ := bound_step a_args reqs_args i hreq
    rw [← htype] at hbt
    rw [← hname] at hbn
    rw [get_action_arg_loop] at h
    simp only at h
    cases hargv : st.argv with
    | nil =>
      rw [hargv] at h
      simp only at h
      by_cases hv : variadic = true
      · rw [if_pos hv] at h
        simp only [outcome.returned.injEq] at h
        rw [← h.2]
        exact hs
      · rw [if_neg hv] at h
        simp only [outcome.returned.injEq] at h
        rw [← h.2]
        exact hs
    | cons tok rest =>
      rw [hargv] at h
      simp only at h
      split at h
      · rename_i code slot1 hp
        obtain ⟨k1, k2⟩ := parse_action_arg_keeps _ _ _ _ _ _ (Or.inl ⟨code, hp⟩)
        simp only [outcome.returned.injEq] at h
        rw [← h.2]
        refine slots_bound_snoc a_args reqs_args st.args slot1 hs ?_ ?_
        · rw [k1, hlen, hbt]
        · rw [k2, hlen, hbn]
      · cases h
      · rename_i err slot1 hp
        obtain ⟨k1, k2⟩ := parse_action_arg_keeps _ _ _ _ _ _ (Or.inr ⟨err, hp⟩)
        have hsn : slots_bound a_args reqs_args (st.args ++ [slot1]) := by
          refine slots_bound_snoc a_args reqs_args st.args slot1 hs ?_ ?_
          · rw [k1, hlen, hbt]
          · rw [k2, hlen, hbn]
        by_cases he : err ≠ 1
        · rw [if_pos he] at h
          simp only [outcome.returned.injEq] at h
          rw [← h.2]
          exact hsn
        · rw [if_neg he] at h
          exact ih (i + 1) _ st1 r (by simp [hlen]) (by rw [hbt]) (by rw [hbn]) hsn h
theorem bound_snoc_variadic (pre : List net_mat_action_arg) (v : net_mat_action_arg)
    (hv : v.type = .VARIADIC) :
    bound_type (pre ++ [v]) = bound_type pre ∧ bound_name (pre ++ [v]) = bound_name pre := by
  unfold bound_type bound_name
  rw [last_non_variadic_snoc, if_neg (by simp [hv])]
  exact ⟨rfl, rfl⟩

theorem last_non_variadic_none (pre : List net_mat_action_arg)
    (h : last_non_variadic pre = none) : ∀ d ∈ pre, d.type = .VARIADIC := by
  unfold last_non_variadic at h
  rw [List.getLast?_eq_none_iff] at h
  intro d hd
  by_contra hne
  have : d ∈ pre.filter (fun d => decide (d.type ≠ .VARIADIC)) := by
    simp [List.mem_filter, hd, hne]
  rw [h] at this
  cases this

/-- C38: for an action whose declared arguments (the entries before the
terminating `UNSPEC` one) are `pre` followed by a variadic one, every slot
that `get_action_arg` fills at or beyond the index of the variadic
declaration has the type and the name of the last non-variadic argument of
`pre` (the value is converted by the switch for that type), and a slot
before it has those of the last non-variadic declaration at or before its
own index. When `pre` has no non-variadic argument (the variadic argument
is declared alone) and a token other than `action` follows the action
name, the type is still unspecified at the switch and the process exits
with status -1. -/
theorem get_action_arg_variadic_slots (env : repository) (nm : String) (rest : List String)
    (a action : net_mat_action) (pre : List net_mat_action_arg) (v : net_mat_action_arg)
    (hfind : env.find_action nm ≠ 0)
    (hget : env.get_actions (env.find_action nm) = some a)
    (hdecls : (a.args.getD []).takeWhile (fun x => decide (x.type ≠ .UNSPEC)) = pre ++ [v])
    (hv : v.type = .VARIADIC) :
    (∀ (r : Int) (act : net_mat_action) (cur : List String) (j : Nat)
        (slot : net_mat_action_arg),
      get_action_arg env ("action" :: nm :: rest) true action = .returned r (act, cur) →
      (act.args.getD [])[j]? = some slot →
      (pre.length ≤ j → slot.type = bound_type pre ∧ slot.name = bound_name pre) ∧
      (j < pre.length →
        slot.type = bound_type (pre.take (j + 1)) ∧
        slot.name = bound_name (pre.take (j + 1)))) ∧
    (∀ (tok : String) (rest1 : List String), last_non_variadic pre = none →
      rest = tok :: rest1 → tok ≠ "action" →
      get_action_arg env ("action" :: nm :: rest) true action = .exited (-1)) := by
  have hsplit : a.args.getD [] =
      (pre ++ [v]) ++ (a.args.getD []).dropWhile (fun x => decide (x.type ≠ .UNSPEC)) := by
    rw [← hdecls, List.takeWhile_append_dropWhile]
  have hlen : (pre ++ [v]).length = pre.length + 1 := by simp
  have hreq : pre.length + 1 ≤ (a.args.getD []).length := by
    have h1 : (a.args.getD []).length =
        ((pre ++ [v]) ++
          (a.args.getD []).dropWhile (fun x => decide (x.type ≠ .UNSPEC))).length := by
      rw [← hsplit]
    rw [List.length_append, hlen] at h1
    omega
  have htake : (a.args.getD []).take (pre.length + 1) = pre ++ [v] := by
    have h1 : ((pre ++ [v]) ++
        (a.args.getD []).dropWhile (fun x => decide (x.type ≠ .UNSPEC))).take
          (pre.length + 1) = pre ++ [v] := by
      rw [← hlen, List.take_left]
    rw [← hsplit] at h1
    exact h1
  have hne : ¬ (pre.length + 1 = 0) := by omega
  refine ⟨?_, ?_⟩
  · intro r act cur j slot hrun hj
    simp only [get_action_arg, List.tail_cons, hfind, if_false, hget, hdecls, hlen, hne,
      false_or, Bool.true_eq_false] at hrun
    split at hrun
    · cases hrun
    · rename_i r1 st hloop
      simp only [outcome.returned.injEq, Prod.mk.injEq] at hrun
      have hslots := get_action_arg_loop_slots env (a.args.getD []) (pre.length + 1) _ hreq
        _ 0
        { argv := rest, type := .UNSPEC, name := none, err := 0, advance := 1, args := [] }
        st r1 rfl (by simp [bound_type, last_non_variadic])
        (by simp [bound_name, last_non_variadic]) (by intro j s hjs; simp at hjs) hloop
      have hact : act.args.getD [] = st.args := by
        rw [← hrun.2.1]
        rfl
      rw [hact] at hj
      obtain ⟨h1, h2⟩ := hslots j slot hj
      constructor
      · intro hle
        have hmin : min (j + 1) (pre.length + 1) = pre.length + 1 := by omega
        rw [hmin, htake] at h1 h2
        obtain ⟨b1, b2⟩ := bound_snoc_variadic pre v hv
        exact ⟨h1.trans b1, h2.trans b2⟩
      · intro hlt
        have hmin : min (j + 1) (pre.length + 1) = j + 1 := by omega
        have ht : (a.args.getD []).take (j + 1) = pre.take (j + 1) := by
          have h3 : ((a.args.getD []).take (pre.length + 1)).take (j + 1) =
              (a.args.getD []).take (j + 1) := by
            rw [List.take_take, hmin]
          rw [← h3, htake, List.take_append_of_le_length (by omega)]
        rw [hmin, ht] at h1 h2
        exact ⟨h1, h2⟩
  · intro tok rest1 hnone hrest htok
    subst hrest
    have hall := last_non_variadic_none pre hnone
    have hvar : ((a.args.getD []).getD (pre.length + 1 - 1) net_mat_action_arg.zero).type =
        .VARIADIC := by
      have hg : (a.args.getD []).getD (pre.length + 1 - 1) net_mat_action_arg.zero = v := by
        rw [hsplit, List.getD_append _ _ _ _ (by simp), List.getD_append_right _ _ _ _ (by simp)]
        simp
      rw [hg, hv]
    have h0 : ((a.args.getD []).getD 0 net_mat_action_arg.zero).type = .VARIADIC := by
      rw [hsplit, List.getD_append _ _ _ _ (by simp)]
      cases pre with
      | nil => simpa using hv
      | cons p ps => simpa using hall p (List.mem_cons_self _ _)
    obtain ⟨n, stop, hcount⟩ : ∃ n stop, count_variadic_args (tok :: rest1) = (n + 1, stop) := by
      rcases hc : count_variadic_args rest1 with ⟨n, stop⟩
      exact ⟨n, stop, by simp [count_variadic_args, htok, hc]⟩
    simp only [get_action_arg, List.tail_cons, hfind, if_false, hget, hdecls, hlen, hne,
      false_or, Bool.true_eq_false, hvar, decide_True, if_true, hcount]
    rw [get_action_arg_loop]
    simp only [h0, ne_eq, not_true_eq_false, decide_False, Bool.and_false, Bool.false_eq_true,
      if_false, parse_action_arg]

set_option maxRecDepth 100000 in
/-- Witness of C38: `forward_to` declares `port` (32 bits) and a variadic
argument; in `action forward_to 1 2 3` the slots 1 and 2 are parsed as
32-bit `port` arguments; `flood` declares a variadic argument alone, and
`action flood 1` exits. -/
theorem get_action_arg_variadic_slots_witness :
    get_action_arg demo_repository ["action", "forward_to", "1", "2", "3"] true
        ⟨0, none, none⟩ =
      .returned 4
        (⟨2, some "forward_to",
          some [{ demo_arg "port" .U32 with value_u32 := 1 },
                { demo_arg "port" .U32 with value_u32 := 2 },
                { demo_arg "port" .U32 with value_u32 := 3 }]⟩, []) ∧
    ((1 ≤ 2 →
      ({ demo_arg "port" .U32 with value_u32 := 3 } : net_mat_action_arg).type =
          bound_type [demo_arg "port" .U32] ∧
        ({ demo_arg "port" .U32 with value_u32 := 3 } : net_mat_action_arg).name =
          bound_name [demo_arg "port" .U32]) ∧
     (2 < 1 →
      ({ demo_arg "port" .U32 with value_u32 := 3 } : net_mat_action_arg).type =
          bound_type ([demo_arg "port" .U32].take (2 + 1)) ∧
        ({ demo_arg "port" .U32 with value_u32 := 3 } : net_mat_action_arg).name =
          bound_name ([demo_arg "port" .U32].take (2 + 1)))) ∧
    bound_type [demo_arg "port" .U32] = .U32 ∧
    bound_name [demo_arg "port" .U32] = some "port" ∧
    get_action_arg demo_flood_repository ("action" :: "flood" :: ["1"]) true ⟨0, none, none⟩ =
      .exited (-1) :=
  ⟨by decide,
   (get_action_arg_variadic_slots demo_repository "forward_to" ["1", "2", "3"]
      ⟨2, some "forward_to", some [demo_arg "port" .U32, demo_arg "ports" .VARIADIC]⟩
      ⟨0, none, none⟩ [demo_arg "port" .U32] (demo_arg "ports" .VARIADIC) (by decide)
      (by decide) (by decide) (by decide)).1 4
      ⟨2, some "forward_to",
          some [{ demo_arg "port" .U32 with value_u32 := 1 },
                { demo_arg "port" .U32 with value_u32 := 2 },
                { demo_arg "port" .U32 with value_u32 := 3 }]⟩ [] 2
      { demo_arg "port" .U32 with value_u32 := 3 } (by decide) (by decide),
   by decide, by decide,
   (get_action_arg_variadic_slots demo_flood_repository "flood" ["1"]
      ⟨4, some "flood", some [demo_arg "ports" .VARIADIC]⟩ ⟨0, none, none⟩ []
      (demo_arg "ports" .VARIADIC) (by decide) (by decide) (by decide) (by decide)).2
      "1" [] (by decide) rfl (by decide)⟩

end MatchCli
